import Mathlib

/-!
# GLIB (Energy Micro graphics library): a shallow embedding

The C sources `glib.c`, `glib_line.c`, `glib_rectangle.c`, `glib_circle.c`,
`glib_polygon.c`, `glib_string.c` and `glib_bitmap.c` are translated function
by function.  Conventions of the embedding:

* `uint16_t`, `uint32_t` values are natural numbers; every place where the C
  code converts an `int` result back to a fixed width applies `toU16`,
  `toU32` (unsigned) or `toI16`, `toI32` (two's complement) explicitly.
* A `GLIB_Context *` is a value of `GLIB_Context` (the `NULL` checks of the C
  code have no counterpart), and a function that draws takes the state of the
  display driver (`Surface`) and returns its status with the new state.
* The loops of `glib_line.c` and the `while` loop of `glib_circle.c` take a
  `fuel` argument; `none` means that the fuel ran out (or that the C code
  would divide by zero).
-/

namespace GLIB

/-! ## Status codes (`glib.h`) -/

/-- Status type `EMSTATUS` of `em_types.h`: an unsigned 32-bit code. -/
abbrev EMSTATUS := Nat

/-- Code `GLIB_OK` of `glib.h`. -/
abbrev GLIB_OK : EMSTATUS := 0
/-- Code `GLIB_DID_NOT_DRAW` of `glib.h`. -/
abbrev GLIB_DID_NOT_DRAW : EMSTATUS := 1
/-- Code `GLIB_INVALID_CHAR` of `glib.h`. -/
abbrev GLIB_INVALID_CHAR : EMSTATUS := 2
/-- Code `GLIB_OUT_OF_BOUNDS` of `glib.h`. -/
abbrev GLIB_OUT_OF_BOUNDS : EMSTATUS := 3
/-- Code `GLIB_INVALID_CLIPPINGREGION` of `glib.h`. -/
abbrev GLIB_INVALID_CLIPPINGREGION : EMSTATUS := 4
/-- Code `GLIB_INVALID_ARGUMENT` of `glib.h`. -/
abbrev GLIB_INVALID_ARGUMENT : EMSTATUS := 5

/-- Modelled from the spec: the success code of the display driver, whose
header `dmd_ssd2119.h` is not part of the sources; the C code compares driver
statuses with `DMD_OK` and with `0` interchangeably. -/
abbrev DMD_OK : EMSTATUS := 0

/-! ## Fixed-width integers -/

/-- Conversion of an `int` value to `uint16_t`. -/
def toU16 (v : Int) : Nat := (v % 65536).toNat

/-- Conversion of an `int` value to `uint32_t`. -/
def toU32 (v : Int) : Nat := (v % 4294967296).toNat

/-- Conversion of an `int` value to `int16_t` (two's complement). -/
def toI16 (v : Int) : Int := (v + 32768) % 65536 - 32768

/-- Result of a 32-bit `int` operation, wrapping in two's complement. -/
def toI32 (v : Int) : Int := (v + 2147483648) % 4294967296 - 2147483648

/-! ## Data model (`glib.h`) -/

/-- Modelled from the spec: the display geometry record of the driver header
`dmd_ssd2119.h` (absent), with the six fields the library reads. -/
structure DMD_DisplayGeometry where
  xSize : Nat
  ySize : Nat
  xClipStart : Nat
  yClipStart : Nat
  clipWidth : Nat
  clipHeight : Nat
  deriving DecidableEq, Repr

/-- Struct `GLIB_Rectangle`: four `uint16_t` bounds. -/
structure GLIB_Rectangle where
  xMin : Nat
  yMin : Nat
  xMax : Nat
  yMax : Nat
  deriving DecidableEq, Repr

/-- Struct `GLIB_Context`. -/
structure GLIB_Context where
  pDisplayGeometry : DMD_DisplayGeometry
  backgroundColor : Nat
  foregroundColor : Nat
  clippingRegion : GLIB_Rectangle
  deriving DecidableEq, Repr

/-! ## The display driver (Surface collaborator) -/

/-- One call of the display driver, as issued by the library. -/
inductive DMDCall where
  | setClippingArea (x y w h : Nat)
  | writeColor (x y red green blue n : Nat)
  | writeData (x y : Nat) (data : List Nat) (n : Nat)
  deriving DecidableEq, Repr

/-- One pixel write: display coordinates and colour channels. -/
structure Pixel where
  x : Nat
  y : Nat
  red : Nat
  green : Nat
  blue : Nat
  deriving DecidableEq, Repr

/-- Modelled from the spec: the state of the Surface collaborator (the display
driver `dmd_ssd2119`, absent from the sources).  `status n` is the status the
driver returns to the call number `n`; `clipX .. clipH` is the hardware clip
window; `calls` logs every call issued, oldest first; `pixels` lists the
pixel writes carried out, oldest first. -/
structure Surface where
  status : Nat → EMSTATUS
  clipX : Nat
  clipY : Nat
  clipW : Nat
  clipH : Nat
  calls : List DMDCall
  pixels : List Pixel

/-- Modelled from the spec: `setClipWindow(x,y,w,h) -> status` of the Surface
(`DMD_setClippingArea` of the absent driver).  The call is logged; when the
driver reports success the hardware clip window becomes `(x, y, w, h)`, and a
failed call changes nothing else. -/
def DMD_setClippingArea (x y w h : Nat) (s : Surface) : EMSTATUS × Surface :=
  if s.status s.calls.length = DMD_OK then
    (DMD_OK, { s with clipX := x, clipY := y, clipW := w, clipH := h,
                      calls := s.calls ++ [DMDCall.setClippingArea x y w h] })
  else
    (s.status s.calls.length,
      { s with calls := s.calls ++ [DMDCall.setClippingArea x y w h] })

/-- Modelled from the spec: the pixels of a run of `n` pixels that starts at
`(x, y)` relative to the origin of the hardware clip window and proceeds row
by row inside that window. -/
def runPixels (s : Surface) (x y red green blue n : Nat) : List Pixel :=
  (List.range n).map fun i =>
    { x := s.clipX + (x + i) % s.clipW, y := s.clipY + y + (x + i) / s.clipW,
      red := red, green := green, blue := blue }

/-- Modelled from the spec: `writeSolidRun(x,y,r,g,b,count) -> status` of the
Surface (`DMD_writeColor` of the absent driver).  The call is logged; when the
driver reports success the run's pixels are written, and a failed call writes
nothing. -/
def DMD_writeColor (x y red green blue n : Nat) (s : Surface) : EMSTATUS × Surface :=
  if s.status s.calls.length = DMD_OK then
    (DMD_OK, { s with calls := s.calls ++ [DMDCall.writeColor x y red green blue n],
                      pixels := s.pixels ++ runPixels s x y red green blue n })
  else
    (s.status s.calls.length,
      { s with calls := s.calls ++ [DMDCall.writeColor x y red green blue n] })

/-! ## General routines (`glib.c`) -/

/-- Function `GLIB_resetDisplayClippingArea`. -/
def GLIB_resetDisplayClippingArea (ctx : GLIB_Context) (s : Surface) : EMSTATUS × Surface :=
  let r := DMD_setClippingArea 0 0 ctx.pDisplayGeometry.xSize ctx.pDisplayGeometry.ySize s
  if r.1 ≠ DMD_OK then r else (GLIB_OK, r.2)

/-- Function `GLIB_colorTranslate24bpp`, with the masks and shifts of
`glib_color.h`; the result is `(red, green, blue)`, each an `uint8_t`. -/
def GLIB_colorTranslate24bpp (color : Nat) : Nat × Nat × Nat :=
  (((color &&& 0x00FF0000) >>> 16) % 256,
   ((color &&& 0x0000FF00) >>> 8) % 256,
   ((color &&& 0x000000FF) >>> 0) % 256)

/-- Function `GLIB_rectContainsPoint` (1 when the point is inside). -/
def GLIB_rectContainsPoint (r : GLIB_Rectangle) (x y : Nat) : Nat :=
  if x < r.xMin ∨ x > r.xMax then 0
  else if y < r.yMin ∨ y > r.yMax then 0
  else 1

/-- Function `GLIB_drawPixelRGB`. -/
def GLIB_drawPixelRGB (x y red green blue : Nat) (s : Surface) : EMSTATUS × Surface :=
  DMD_writeColor x y red green blue 1 s

/-- Function `GLIB_drawPixelColor`. -/
def GLIB_drawPixelColor (ctx : GLIB_Context) (x y color : Nat) (s : Surface) :
    EMSTATUS × Surface :=
  if GLIB_rectContainsPoint ctx.clippingRegion x y = 1 then
    let r := GLIB_resetDisplayClippingArea ctx s
    if r.1 ≠ GLIB_OK then r
    else
      let c := GLIB_colorTranslate24bpp color
      GLIB_drawPixelRGB x y c.1 c.2.1 c.2.2 r.2
  else (GLIB_DID_NOT_DRAW, s)

/-- Function `GLIB_drawPixel`. -/
def GLIB_drawPixel (ctx : GLIB_Context) (x y : Nat) (s : Surface) : EMSTATUS × Surface :=
  GLIB_drawPixelColor ctx x y ctx.foregroundColor s

/-! ## Line routines (`glib_line.c`) -/

/-- Function `GLIB_drawLineH`.  The swap goes through an `int16_t` temporary,
which gives back the same `uint16_t` value. -/
def GLIB_drawLineH (ctx : GLIB_Context) (x1 y1 x2 : Nat) (s : Surface) : EMSTATUS × Surface :=
  if y1 < ctx.clippingRegion.yMin ∨ y1 > ctx.clippingRegion.yMax then (GLIB_DID_NOT_DRAW, s)
  else
    let r := GLIB_resetDisplayClippingArea ctx s
    if r.1 ≠ 0 then r
    else
      let a := if x1 > x2 then x2 else x1
      let b := if x1 > x2 then x1 else x2
      if a > ctx.clippingRegion.xMax ∨ b < ctx.clippingRegion.xMin then (GLIB_DID_NOT_DRAW, r.2)
      else
        let a := if a < ctx.clippingRegion.xMin then ctx.clippingRegion.xMin else a
        let b := if b > ctx.clippingRegion.xMax then ctx.clippingRegion.xMax else b
        let length := toU32 ((b : Int) - (a : Int) + 1)
        let c := GLIB_colorTranslate24bpp ctx.foregroundColor
        DMD_writeColor a y1 c.1 c.2.1 c.2.2 length r.2

/-- Function `GLIB_drawLineV` (the branch compiled by `#else`). -/
def GLIB_drawLineV (ctx : GLIB_Context) (x1 y1 y2 : Nat) (s : Surface) : EMSTATUS × Surface :=
  if x1 < ctx.clippingRegion.xMin ∨ x1 > ctx.clippingRegion.xMax then (GLIB_DID_NOT_DRAW, s)
  else
    let a := if y1 > y2 then y2 else y1
    let b := if y1 > y2 then y1 else y2
    if a > ctx.clippingRegion.yMax ∨ b < ctx.clippingRegion.yMin then (GLIB_DID_NOT_DRAW, s)
    else
      let a := if a < ctx.clippingRegion.yMin then ctx.clippingRegion.yMin else a
      let b := if b > ctx.clippingRegion.yMax then ctx.clippingRegion.yMax else b
      let length := toU16 ((b : Int) - (a : Int) + 1)
      let r1 := DMD_setClippingArea x1 a 1 length s
      if r1.1 ≠ DMD_OK then r1
      else
        let c := GLIB_colorTranslate24bpp ctx.foregroundColor
        let r2 := DMD_writeColor 0 0 c.1 c.2.1 c.2.2 length r1.2
        if r2.1 ≠ DMD_OK then r2
        else
          let r3 := GLIB_resetDisplayClippingArea ctx r2.2
          if r3.1 ≠ GLIB_OK then r3 else (GLIB_OK, r3.2)

/-- Function `GLIB_getClipCode`: the 4-bit Cohen-Sutherland outcode. -/
def GLIB_getClipCode (ctx : GLIB_Context) (x y : Nat) : Nat :=
  let code := 0
  let code := if x < ctx.clippingRegion.xMin then code ||| 1 else code
  let code := if x > ctx.clippingRegion.xMax then code ||| 2 else code
  let code := if y > ctx.clippingRegion.yMax then code ||| 4 else code
  let code := if y < ctx.clippingRegion.yMin then code ||| 8 else code
  code

/-- The expression `p + ((q2 - q1) * (bound - p1)) / (p2 - p1)` of
`GLIB_clipLine`, computed in 32-bit `int` (the product wraps, the division
truncates towards zero) and stored in an `uint16_t`; `none` when the divisor
is zero. -/
def clipMove (p q1 q2 bound p1 p2 : Nat) : Option Nat :=
  if (p2 : Int) - (p1 : Int) = 0 then none
  else
    some (toU16 ((p : Int) +
      Int.tdiv (toI32 (((q2 : Int) - (q1 : Int)) * ((bound : Int) - (p1 : Int))))
        ((p2 : Int) - (p1 : Int))))

/-- The new position `(x, y)` computed by one iteration of the loop of
`GLIB_clipLine` for the outcode `currentCode`; the locals `x`, `y` keep their
value when no branch assigns them, and `none` stands for a division by zero. -/
def clipMoved (ctx : GLIB_Context) (currentCode x y x1 y1 x2 y2 : Nat) : Option (Nat × Nat) :=
  if currentCode &&& 1 ≠ 0 then
    (clipMove y1 y1 y2 ctx.clippingRegion.xMin x1 x2).map fun v => (ctx.clippingRegion.xMin, v)
  else if currentCode &&& 2 ≠ 0 then
    (clipMove y1 y1 y2 ctx.clippingRegion.xMax x1 x2).map fun v => (ctx.clippingRegion.xMax, v)
  else if currentCode &&& 4 ≠ 0 then
    (clipMove x1 x1 x2 ctx.clippingRegion.yMax y1 y2).map fun v => (v, ctx.clippingRegion.yMax)
  else if currentCode &&& 8 ≠ 0 then
    (clipMove x1 x1 x2 ctx.clippingRegion.yMin y1 y2).map fun v => (v, ctx.clippingRegion.yMin)
  else some (x, y)

/-- Function `GLIB_clipLine`: the result is `(accepted, x1, y1, x2, y2)`.
The locals `x`, `y` of the C function start at 0 and are passed from one
iteration of the `while (1)` loop to the next. -/
def GLIB_clipLine (ctx : GLIB_Context) :
    Nat → Nat → Nat → Nat → Nat → Nat → Nat → Option (Nat × Nat × Nat × Nat × Nat)
  | 0, _, _, _, _, _, _ => none
  | fuel + 1, x, y, x1, y1, x2, y2 =>
    let code1 := GLIB_getClipCode ctx x1 y1
    let code2 := GLIB_getClipCode ctx x2 y2
    if code1 ||| code2 = 0 then some (1, x1, y1, x2, y2)
    else if code1 &&& code2 ≠ 0 then some (0, x1, y1, x2, y2)
    else
      let currentCode := if code1 ≠ 0 then code1 else code2
      match clipMoved ctx currentCode x y x1 y1 x2 y2 with
      | none => none
      | some (nx, ny) =>
        if code1 ≠ 0 then GLIB_clipLine ctx fuel nx ny nx ny x2 y2
        else GLIB_clipLine ctx fuel nx ny x1 y1 nx ny

/-- The `for` loop of `GLIB_drawLine`: `x1` runs up to `x2`, one pixel is
drawn per iteration, and the first non-zero pixel status ends the loop. -/
def lineLoop (ctx : GLIB_Context) (steep : Bool) (deltaX deltaY yStep : Int) (x2 : Nat) :
    Nat → Nat → Nat → Int → Surface → Option (EMSTATUS × Surface)
  | 0, _, _, _, _ => none
  | fuel + 1, x1, y1, error, s =>
    if x1 ≤ x2 then
      let r := if steep then GLIB_drawPixel ctx y1 x1 s else GLIB_drawPixel ctx x1 y1 s
      if r.1 ≠ 0 then some r
      else
        let error := toI16 (error + deltaY)
        if error > 0 then
          lineLoop ctx steep deltaX deltaY yStep x2 fuel (toU16 ((x1 : Int) + 1))
            (toU16 ((y1 : Int) + yStep)) (toI16 (error - deltaX)) r.2
        else
          lineLoop ctx steep deltaX deltaY yStep x2 fuel (toU16 ((x1 : Int) + 1)) y1 error r.2
    else some (GLIB_OK, s)

/-- The part of `GLIB_drawLine` after clipping: Bresenham rasterisation of the
segment `(x1,y1)-(x2,y2)`.  The swaps go through the `int16_t` variable
`error`, which gives back the same `uint16_t` values. -/
def rasterLine (fuel : Nat) (ctx : GLIB_Context) (x1 y1 x2 y2 : Nat) (s : Surface) :
    Option (EMSTATUS × Surface) :=
  let yMotion := toU16 (if y2 > y1 then (y2 : Int) - y1 else (y1 : Int) - y2)
  let xMotion := toU16 (if x2 > x1 then (x2 : Int) - x1 else (x1 : Int) - x2)
  let steep := decide (yMotion > xMotion)
  let a1 := if steep then y1 else x1
  let b1 := if steep then x1 else y1
  let a2 := if steep then y2 else x2
  let b2 := if steep then x2 else y2
  let p1 := if a2 < a1 then a2 else a1
  let q1 := if a2 < a1 then b2 else b1
  let p2 := if a2 < a1 then a1 else a2
  let q2 := if a2 < a1 then b1 else b2
  let deltaX := toI16 ((p2 : Int) - p1)
  let deltaY := toI16 (if q2 > q1 then (q2 : Int) - q1 else (q1 : Int) - q2)
  let error := toI16 (Int.tdiv (-deltaX) 2)
  let yStep : Int := if q2 < q1 then -1 else 1
  lineLoop ctx steep deltaX deltaY yStep p2 fuel p1 q1 error s

/-- Function `GLIB_drawLine`. -/
def GLIB_drawLine (fuel : Nat) (ctx : GLIB_Context) (x1 y1 x2 y2 : Nat) (s : Surface) :
    Option (EMSTATUS × Surface) :=
  if x1 = x2 then some (GLIB_drawLineV ctx x1 y1 y2 s)
  else if y1 = y2 then some (GLIB_drawLineH ctx x1 y1 x2 s)
  else
    let r := GLIB_resetDisplayClippingArea ctx s
    if r.1 ≠ 0 then some r
    else
      match GLIB_clipLine ctx fuel 0 0 x1 y1 x2 y2 with
      | none => none
      | some c =>
        if c.1 = 0 then some (GLIB_DID_NOT_DRAW, r.2)
        else rasterLine fuel ctx c.2.1 c.2.2.1 c.2.2.2.1 c.2.2.2.2 r.2

/-! ## Rectangle routines (`glib_rectangle.c`) -/

/-- Function `GLIB_normalizeRect`; the result is the rectangle left in
`*pRect`. -/
def GLIB_normalizeRect (r : GLIB_Rectangle) : GLIB_Rectangle :=
  let r := if r.xMin > r.xMax then { r with xMin := r.xMax, xMax := r.xMin } else r
  if r.yMin > r.yMax then { r with yMin := r.yMax, yMax := r.yMin } else r

/-- The clamping of a rectangle against the clip region, as written out at
the head of `GLIB_drawRect` and of `GLIB_drawRectFilled`. -/
def clampRect (ctx : GLIB_Context) (t : GLIB_Rectangle) : GLIB_Rectangle :=
  let t := if t.xMin < ctx.clippingRegion.xMin then { t with xMin := ctx.clippingRegion.xMin } else t
  let t := if t.xMax > ctx.clippingRegion.xMax then { t with xMax := ctx.clippingRegion.xMax } else t
  let t := if t.yMin < ctx.clippingRegion.yMin then { t with yMin := ctx.clippingRegion.yMin } else t
  if t.yMax > ctx.clippingRegion.yMax then { t with yMax := ctx.clippingRegion.yMax } else t

/-- Function `GLIB_drawRect`.  The caller's rectangle is left normalised
(`GLIB_normalizeRect rect`); the drawing works on the clamped copy. -/
def GLIB_drawRect (ctx : GLIB_Context) (rect : GLIB_Rectangle) (s : Surface) :
    EMSTATUS × Surface :=
  let t := clampRect ctx (GLIB_normalizeRect rect)
  let r1 := GLIB_drawLineH ctx t.xMin t.yMin t.xMax s
  if r1.1 ≠ 0 then r1
  else if t.yMin = t.yMax then (GLIB_OK, r1.2)
  else
    let r2 := GLIB_drawLineV ctx t.xMax (toU16 ((t.yMin : Int) + 1)) t.yMax r1.2
    if r2.1 ≠ 0 then r2
    else if t.xMin = t.xMax then (GLIB_OK, r2.2)
    else
      let r3 := GLIB_drawLineH ctx t.xMin t.yMax (toU16 ((t.xMax : Int) - 1)) r2.2
      if r3.1 ≠ 0 then r3
      else if t.yMin + 1 = t.yMax then (GLIB_OK, r3.2)
      else
        let r4 := GLIB_drawLineV ctx t.xMin (toU16 ((t.yMin : Int) + 1))
          (toU16 ((t.yMax : Int) - 1)) r3.2
        if r4.1 ≠ 0 then r4 else (GLIB_OK, r4.2)

/-- Function `GLIB_drawRectFilled`.  `width` and `height` are `uint16_t`; the
product `width * height` is an `int` passed as the `uint32_t` pixel count. -/
def GLIB_drawRectFilled (ctx : GLIB_Context) (rect : GLIB_Rectangle) (s : Surface) :
    EMSTATUS × Surface :=
  let t := clampRect ctx (GLIB_normalizeRect rect)
  let c := GLIB_colorTranslate24bpp ctx.foregroundColor
  let width := toU16 ((t.xMax : Int) - (t.xMin : Int) + 1)
  let height := toU16 ((t.yMax : Int) - (t.yMin : Int) + 1)
  let r1 := DMD_setClippingArea t.xMin t.yMin width height s
  if r1.1 ≠ 0 then r1
  else
    let r2 := DMD_writeColor 0 0 c.1 c.2.1 c.2.2 (toU32 (toI32 ((width : Int) * (height : Int)))) r1.2
    if r2.1 ≠ 0 then r2
    else
      let r3 := GLIB_resetDisplayClippingArea ctx r2.2
      if r3.1 ≠ 0 then r3 else (GLIB_OK, r3.2)

/-! ## Vocabulary of the statements -/

/-- The clip region of the context is well-formed: ordered on both axes and
inside the display, whose sizes are `uint16_t` values. -/
def clipWellFormed (ctx : GLIB_Context) : Prop :=
  ctx.clippingRegion.xMin ≤ ctx.clippingRegion.xMax ∧
  ctx.clippingRegion.yMin ≤ ctx.clippingRegion.yMax ∧
  ctx.clippingRegion.xMax < ctx.pDisplayGeometry.xSize ∧
  ctx.clippingRegion.yMax < ctx.pDisplayGeometry.ySize ∧
  ctx.pDisplayGeometry.xSize < 65536 ∧
  ctx.pDisplayGeometry.ySize < 65536

instance (ctx : GLIB_Context) : Decidable (clipWellFormed ctx) := by
  unfold clipWellFormed; infer_instance

/-- The pixel lies inside the clip region of the context. -/
def inClip (ctx : GLIB_Context) (p : Pixel) : Prop :=
  ctx.clippingRegion.xMin ≤ p.x ∧ p.x ≤ ctx.clippingRegion.xMax ∧
  ctx.clippingRegion.yMin ≤ p.y ∧ p.y ≤ ctx.clippingRegion.yMax

instance (ctx : GLIB_Context) (p : Pixel) : Decidable (inClip ctx p) := by
  unfold inClip; infer_instance

/-- The pixel writes that lead from surface state `s` to `t` are exactly `l`. -/
def Writes (s t : Surface) (l : List Pixel) : Prop := t.pixels = s.pixels ++ l

/-- The driver calls that lead from surface state `s` to `t` are exactly `l`. -/
def Issues (s t : Surface) (l : List DMDCall) : Prop := t.calls = s.calls ++ l

/-- Relation between two surface states: the second extends the first by
pixel writes that all lie inside the clip region. -/
def ExtendsInClip (ctx : GLIB_Context) (s t : Surface) : Prop :=
  ∃ l, t.pixels = s.pixels ++ l ∧ ∀ p ∈ l, inClip ctx p

/-- Relation between two surface states: the second extends the first by
driver calls whose pixel runs all have a length between `lo` and `hi`. -/
def RunsWithin (lo hi : Nat) (s t : Surface) : Prop :=
  ∃ l, t.calls = s.calls ++ l ∧
    ∀ x y r g b n, DMDCall.writeColor x y r g b n ∈ l → lo ≤ n ∧ n ≤ hi

/-- No call of the driver fails. -/
def neverFails (s : Surface) : Prop := ∀ n, s.status n = DMD_OK

/-- The driver call that resets the hardware clip window to the full display. -/
def resetCall (ctx : GLIB_Context) : DMDCall :=
  DMDCall.setClippingArea 0 0 ctx.pDisplayGeometry.xSize ctx.pDisplayGeometry.ySize

/-- The driver call that writes a run of `n` pixels of the foreground colour. -/
def fgRun (ctx : GLIB_Context) (x y n : Nat) : DMDCall :=
  DMDCall.writeColor x y (GLIB_colorTranslate24bpp ctx.foregroundColor).1
    (GLIB_colorTranslate24bpp ctx.foregroundColor).2.1
    (GLIB_colorTranslate24bpp ctx.foregroundColor).2.2 n

/-- A surface whose driver never fails, with nothing drawn yet. -/
def freshSurface : Surface :=
  { status := fun _ => DMD_OK, clipX := 0, clipY := 0, clipW := 0, clipH := 0,
    calls := [], pixels := [] }

/-- A surface whose driver fails with status `e` at call number `k` and at no
other call, with nothing drawn yet. -/
def failingSurface (k : Nat) (e : EMSTATUS) : Surface :=
  { status := fun n => if n = k then e else DMD_OK, clipX := 0, clipY := 0, clipW := 0,
    clipH := 0, calls := [], pixels := [] }

/-- A context for a display of 320 x 240 pixels with clip region
`(10,10)-(200,100)` and a white foreground on black. -/
def demoContext : GLIB_Context :=
  { pDisplayGeometry := { xSize := 320, ySize := 240, xClipStart := 0, yClipStart := 0,
                          clipWidth := 320, clipHeight := 240 },
    backgroundColor := 0x000000, foregroundColor := 0xFFFFFF,
    clippingRegion := { xMin := 10, yMin := 10, xMax := 200, yMax := 100 } }

/-- A context for a display of 65535 x 2 pixels whose clip region is the whole
display, `(0,0)-(65534,1)`. -/
def bigContext : GLIB_Context :=
  { pDisplayGeometry := { xSize := 65535, ySize := 2, xClipStart := 0, yClipStart := 0,
                          clipWidth := 65535, clipHeight := 2 },
    backgroundColor := 0x000000, foregroundColor := 0xFFFFFF,
    clippingRegion := { xMin := 0, yMin := 0, xMax := 65534, yMax := 1 } }

/-- No point of the segment from `(x1, y1)` to `(x2, y2)` lies inside the clip
rectangle: the points of the segment are `(x1 + t (x2 - x1), y1 + t (y2 - y1))`
for the rational `t` between 0 and 1. -/
def segmentMissesClip (ctx : GLIB_Context) (x1 y1 x2 y2 : Nat) : Prop :=
  ∀ t : ℚ, 0 ≤ t → t ≤ 1 →
    ¬((ctx.clippingRegion.xMin : ℚ) ≤ x1 + t * ((x2 : ℚ) - x1) ∧
      (x1 : ℚ) + t * ((x2 : ℚ) - x1) ≤ ctx.clippingRegion.xMax ∧
      (ctx.clippingRegion.yMin : ℚ) ≤ y1 + t * ((y2 : ℚ) - y1) ∧
      (y1 : ℚ) + t * ((y2 : ℚ) - y1) ≤ ctx.clippingRegion.yMax)

/-- The two endpoints lie beyond the same edge of the clip rectangle. -/
def beyondSameEdge (ctx : GLIB_Context) (x1 y1 x2 y2 : Nat) : Prop :=
  (x1 < ctx.clippingRegion.xMin ∧ x2 < ctx.clippingRegion.xMin) ∨
  (x1 > ctx.clippingRegion.xMax ∧ x2 > ctx.clippingRegion.xMax) ∨
  (y1 > ctx.clippingRegion.yMax ∧ y2 > ctx.clippingRegion.yMax) ∨
  (y1 < ctx.clippingRegion.yMin ∧ y2 < ctx.clippingRegion.yMin)

instance (ctx : GLIB_Context) (x1 y1 x2 y2 : Nat) : Decidable (beyondSameEdge ctx x1 y1 x2 y2) := by
  unfold beyondSameEdge; infer_instance

/-- A pixel of the foreground colour of the context. -/
def fgPixel (ctx : GLIB_Context) (x y : Nat) : Pixel :=
  { x := x, y := y,
    red := (GLIB_colorTranslate24bpp ctx.foregroundColor).1,
    green := (GLIB_colorTranslate24bpp ctx.foregroundColor).2.1,
    blue := (GLIB_colorTranslate24bpp ctx.foregroundColor).2.2 }

/-- The pixels of a horizontal run of `n` foreground pixels from `(x, y)`. -/
def hPixels (ctx : GLIB_Context) (x y n : Nat) : List Pixel :=
  (List.range n).map fun i => fgPixel ctx (x + i) y

/-- The pixels of a vertical run of `n` foreground pixels from `(x, y)`. -/
def vPixels (ctx : GLIB_Context) (x y n : Nat) : List Pixel :=
  (List.range n).map fun i => fgPixel ctx x (y + i)

/-- The pixels of a run of `w * h` foreground pixels that fills, row by row,
the window of width `w` and height `h` whose top-left corner is `(x, y)`. -/
def rectPixels (ctx : GLIB_Context) (x y w h : Nat) : List Pixel :=
  (List.range (w * h)).map fun i => fgPixel ctx (x + i % w) (y + i / w)

/-- The rectangle has a pixel in common with the clip region. -/
def overlapsClip (ctx : GLIB_Context) (r : GLIB_Rectangle) : Prop :=
  r.xMin ≤ ctx.clippingRegion.xMax ∧ ctx.clippingRegion.xMin ≤ r.xMax ∧
  r.yMin ≤ ctx.clippingRegion.yMax ∧ ctx.clippingRegion.yMin ≤ r.yMax

instance (ctx : GLIB_Context) (r : GLIB_Rectangle) : Decidable (overlapsClip ctx r) := by
  unfold overlapsClip; infer_instance

/-- The rectangle lies inside the clip region. -/
def insideClip (ctx : GLIB_Context) (r : GLIB_Rectangle) : Prop :=
  ctx.clippingRegion.xMin ≤ r.xMin ∧ r.xMax ≤ ctx.clippingRegion.xMax ∧
  ctx.clippingRegion.yMin ≤ r.yMin ∧ r.yMax ≤ ctx.clippingRegion.yMax

instance (ctx : GLIB_Context) (r : GLIB_Rectangle) : Decidable (insideClip ctx r) := by
  unfold insideClip; infer_instance

/-- The point `(x, y)` lies on the boundary of the rectangle. -/
def onBoundary (r : GLIB_Rectangle) (x y : Nat) : Prop :=
  r.xMin ≤ x ∧ x ≤ r.xMax ∧ r.yMin ≤ y ∧ y ≤ r.yMax ∧
  (x = r.xMin ∨ x = r.xMax ∨ y = r.yMin ∨ y = r.yMax)

instance (r : GLIB_Rectangle) (x y : Nat) : Decidable (onBoundary r x y) := by
  unfold onBoundary; infer_instance

/-- The pixels of the outline of a rectangle, in the order in which
`GLIB_drawRect` writes them: top edge, right edge below the top corner, and,
for a rectangle at least two pixels wide and tall, bottom edge left of the
right corner and left edge between the corners. -/
def outlinePixels (ctx : GLIB_Context) (r : GLIB_Rectangle) : List Pixel :=
  hPixels ctx r.xMin r.yMin (r.xMax - r.xMin + 1) ++
  vPixels ctx r.xMax (r.yMin + 1) (r.yMax - r.yMin) ++
  (if r.xMin = r.xMax ∨ r.yMin = r.yMax then []
   else hPixels ctx r.xMin r.yMax (r.xMax - r.xMin) ++
        vPixels ctx r.xMin (r.yMin + 1) (r.yMax - r.yMin - 1))

/-! ## Reference line -/

/-- The minor-axis offset of the reference line at major-axis step `k`, for a
line of major extent `dX` and minor extent `dY`: the least `s` with
`k * dY - dX / 2 ≤ s * dX`. -/
def minorOffset (dX dY k : Nat) : Nat := (k * dY + (dX - 1 - dX / 2)) / dX

/-- The pixel of the reference line from `(x1, y1)` to `(x2, y2)` at
major-axis step `k`: the major axis is the axis of larger extent (x on a
tie), the steps start at the endpoint with the smaller major coordinate, and
the minor coordinate moves by `minorOffset` towards the other endpoint. -/
def linePixel (ctx : GLIB_Context) (x1 y1 x2 y2 k : Nat) : Pixel :=
  if max y1 y2 - min y1 y2 > max x1 x2 - min x1 x2 then
    if y1 ≤ y2 then
      fgPixel ctx (if x1 ≤ x2 then
          x1 + minorOffset (max y1 y2 - min y1 y2) (max x1 x2 - min x1 x2) k
        else x1 - minorOffset (max y1 y2 - min y1 y2) (max x1 x2 - min x1 x2) k) (y1 + k)
    else
      fgPixel ctx (if x2 ≤ x1 then
          x2 + minorOffset (max y1 y2 - min y1 y2) (max x1 x2 - min x1 x2) k
        else x2 - minorOffset (max y1 y2 - min y1 y2) (max x1 x2 - min x1 x2) k) (y2 + k)
  else
    if x1 ≤ x2 then
      fgPixel ctx (x1 + k) (if y1 ≤ y2 then
          y1 + minorOffset (max x1 x2 - min x1 x2) (max y1 y2 - min y1 y2) k
        else y1 - minorOffset (max x1 x2 - min x1 x2) (max y1 y2 - min y1 y2) k)
    else
      fgPixel ctx (x2 + k) (if y2 ≤ y1 then
          y2 + minorOffset (max x1 x2 - min x1 x2) (max y1 y2 - min y1 y2) k
        else y2 - minorOffset (max x1 x2 - min x1 x2) (max y1 y2 - min y1 y2) k)

/-- The pixels of the reference line from `(x1, y1)` to `(x2, y2)`, one for
each major-axis step. -/
def linePixels (ctx : GLIB_Context) (x1 y1 x2 y2 : Nat) : List Pixel :=
  (List.range (max (max x1 x2 - min x1 x2) (max y1 y2 - min y1 y2) + 1)).map
    (linePixel ctx x1 y1 x2 y2)

/-- The pixels of one run of the rasterisation loop in its own coordinates:
major coordinate `p1 + k`, minor coordinate `q1` plus or minus the offset,
transposed back when `steep`. -/
def loopPixel (ctx : GLIB_Context) (steep up : Bool) (dX dY p1 q1 k : Nat) : Pixel :=
  if steep then
    fgPixel ctx (if up then q1 + minorOffset dX dY k else q1 - minorOffset dX dY k) (p1 + k)
  else
    fgPixel ctx (p1 + k) (if up then q1 + minorOffset dX dY k else q1 - minorOffset dX dY k)
/-! ## Circle routines (`glib_circle.c`) -/

/-- The tables `xOffsets`, `yOffsets` of `GLIB_drawCirclePoints` and of
`GLIB_drawPartialCirclePoints`, entry by entry: the offset of the point of
octant 1, 2, .., 8 for the step `(x, y)`. -/
def octantOffsets (x y : Nat) : List (Int × Int) :=
  [((y : Int), -(x : Int)), ((x : Int), -(y : Int)), (-(x : Int), -(y : Int)),
   (-(y : Int), -(x : Int)), (-(y : Int), (x : Int)), (-(x : Int), (y : Int)),
   ((x : Int), (y : Int)), ((y : Int), (x : Int))]

/-- The `for` loop of `GLIB_drawCirclePoints` over the remaining octants. -/
def circlePointsLoop (ctx : GLIB_Context) (xCenter yCenter : Nat) :
    List (Int × Int) → Nat → Surface → EMSTATUS × Surface
  | [], didDraw, s => (if didDraw = 0 then GLIB_DID_NOT_DRAW else GLIB_OK, s)
  | o :: rest, didDraw, s =>
    let r := GLIB_drawPixel ctx (toU16 ((xCenter : Int) + o.1)) (toU16 ((yCenter : Int) + o.2)) s
    if r.1 ≠ 0 ∧ r.1 ≠ GLIB_DID_NOT_DRAW then r
    else
      circlePointsLoop ctx xCenter yCenter rest
        (if didDraw = 0 ∧ r.1 = 0 then 1 else didDraw) r.2

/-- Function `GLIB_drawCirclePoints`. -/
def GLIB_drawCirclePoints (ctx : GLIB_Context) (xCenter yCenter x y : Nat) (s : Surface) :
    EMSTATUS × Surface :=
  circlePointsLoop ctx xCenter yCenter (octantOffsets x y) 0 s

/-- The `for` loop of `GLIB_drawPartialCirclePoints` over the remaining
octants; `bitMask` is shifted right once per octant. -/
def partialCirclePointsLoop (ctx : GLIB_Context) (xCenter yCenter : Nat) :
    List (Int × Int) → Nat → Nat → Surface → EMSTATUS × Surface
  | [], _, didDraw, s => (if didDraw = 0 then GLIB_DID_NOT_DRAW else GLIB_OK, s)
  | o :: rest, bitMask, didDraw, s =>
    if bitMask &&& 1 ≠ 0 then
      let r := GLIB_drawPixel ctx (toU16 ((xCenter : Int) + o.1))
        (toU16 ((yCenter : Int) + o.2)) s
      if r.1 ≠ 0 ∧ r.1 ≠ GLIB_DID_NOT_DRAW then r
      else
        partialCirclePointsLoop ctx xCenter yCenter rest (bitMask >>> 1)
          (if didDraw = 0 ∧ r.1 = 0 then 1 else didDraw) r.2
    else
      partialCirclePointsLoop ctx xCenter yCenter rest (bitMask >>> 1) didDraw s

/-- Function `GLIB_drawPartialCirclePoints`. -/
def GLIB_drawPartialCirclePoints (ctx : GLIB_Context) (xCenter yCenter x y bitMask : Nat)
    (s : Surface) : EMSTATUS × Surface :=
  partialCirclePointsLoop ctx xCenter yCenter (octantOffsets x y) bitMask 0 s

/-- The three circle functions run the same `while (x < y)` loop around
different drawing steps.  A step takes `x`, `y`, `didDraw` and the surface
and returns the status with which the function returns at once, if any, the
new `didDraw` and the new surface. -/
abbrev CircleStep := Nat → Nat → Nat → Surface → Option EMSTATUS × Nat × Surface

/-- The statements of the body of the `while (x < y)` loop of the circle
functions that come before the drawing: `x++`, then `d += 2 * x + 1` when
`d < 0` and `y--; d += 2 * (x - y) + 1` otherwise; `x`, `y` are `uint16_t` and
`d` is `int16_t`.  The result is the new `(x, y, d)`. -/
def midpointNext (x y : Nat) (d : Int) : Nat × Nat × Int :=
  let x1 := toU16 ((x : Int) + 1)
  if d < 0 then (x1, y, toI16 (d + (2 * (x1 : Int) + 1)))
  else
    let y1 := toU16 ((y : Int) - 1)
    (x1, y1, toI16 (d + (2 * ((x1 : Int) - (y1 : Int)) + 1)))

/-- The `while (x < y)` loop of the circle functions (midpoint circle
algorithm) and the two `return` statements after it. -/
def midpointLoop (step : CircleStep) :
    Nat → Nat → Nat → Int → Nat → Surface → Option (EMSTATUS × Surface)
  | 0, _, _, _, _, _ => none
  | fuel + 1, x, y, d, didDraw, s =>
    if x < y then
      match (step (midpointNext x y d).1 (midpointNext x y d).2.1 didDraw s).1 with
      | some e =>
        some (e, (step (midpointNext x y d).1 (midpointNext x y d).2.1 didDraw s).2.2)
      | none =>
        midpointLoop step fuel (midpointNext x y d).1 (midpointNext x y d).2.1
          (midpointNext x y d).2.2
          (step (midpointNext x y d).1 (midpointNext x y d).2.1 didDraw s).2.1
          (step (midpointNext x y d).1 (midpointNext x y d).2.1 didDraw s).2.2
    else some (if didDraw = 0 then GLIB_DID_NOT_DRAW else GLIB_OK, s)

/-- The step of `GLIB_drawCircle`: the eight points, the `return` on a status
other than 0 and `GLIB_DID_NOT_DRAW`, and the update of `didDraw`. -/
def circleStep (ctx : GLIB_Context) (xCenter yCenter : Nat) : CircleStep :=
  fun x y didDraw s =>
    let r := GLIB_drawCirclePoints ctx xCenter yCenter x y s
    if r.1 ≠ 0 ∧ r.1 ≠ GLIB_DID_NOT_DRAW then (some r.1, didDraw, r.2)
    else (none, if r.1 = 0 then 1 else didDraw, r.2)

/-- The step of `GLIB_drawPartialCircle`. -/
def partialCircleStep (ctx : GLIB_Context) (xCenter yCenter bitMask : Nat) : CircleStep :=
  fun x y didDraw s =>
    let r := GLIB_drawPartialCirclePoints ctx xCenter yCenter x y bitMask s
    if r.1 ≠ 0 ∧ r.1 ≠ GLIB_DID_NOT_DRAW then (some r.1, didDraw, r.2)
    else (none, if r.1 = 0 then 1 else didDraw, r.2)

/-- One `GLIB_drawLineH` call of `GLIB_drawCircleFilled` with the two
statements that follow it, skipped when an earlier call of the same step has
already made the function return. -/
def filledLine (ctx : GLIB_Context) (x1 y x2 : Int) (acc : Option EMSTATUS × Nat × Surface) :
    Option EMSTATUS × Nat × Surface :=
  match acc.1 with
  | some _ => acc
  | none =>
    let r := GLIB_drawLineH ctx (toU16 x1) (toU16 y) (toU16 x2) acc.2.2
    if r.1 ≠ 0 ∧ r.1 ≠ GLIB_DID_NOT_DRAW then (some r.1, acc.2.1, r.2)
    else (none, if acc.2.1 = 0 ∧ r.1 = 0 then 1 else acc.2.1, r.2)

/-- The step of `GLIB_drawCircleFilled`: four horizontal lines. -/
def filledCircleStep (ctx : GLIB_Context) (xCenter yCenter : Nat) : CircleStep :=
  fun x y didDraw s =>
    filledLine ctx ((xCenter : Int) - y) ((yCenter : Int) - x) ((xCenter : Int) + y)
      (filledLine ctx ((xCenter : Int) - x) ((yCenter : Int) - y) ((xCenter : Int) + x)
        (filledLine ctx ((xCenter : Int) - y) ((yCenter : Int) + x) ((xCenter : Int) + y)
          (filledLine ctx ((xCenter : Int) - x) ((yCenter : Int) + y) ((xCenter : Int) + x)
            (none, didDraw, s))))

/-- Function `GLIB_drawCircle`. -/
def GLIB_drawCircle (fuel : Nat) (ctx : GLIB_Context) (xCenter yCenter radius : Nat)
    (s : Surface) : Option (EMSTATUS × Surface) :=
  if GLIB_rectContainsPoint ctx.clippingRegion xCenter yCenter = 0 then
    some (GLIB_OUT_OF_BOUNDS, s)
  else
    let r := GLIB_resetDisplayClippingArea ctx s
    if r.1 ≠ 0 then some r
    else
      let st := circleStep ctx xCenter yCenter 0 radius 0 r.2
      match st.1 with
      | some e => some (e, st.2.2)
      | none =>
        midpointLoop (circleStep ctx xCenter yCenter) fuel 0 radius
          (toI16 (1 - (radius : Int))) st.2.1 st.2.2

/-- Function `GLIB_drawPartialCircle`. -/
def GLIB_drawPartialCircle (fuel : Nat) (ctx : GLIB_Context)
    (xCenter yCenter radius bitMask : Nat) (s : Surface) : Option (EMSTATUS × Surface) :=
  if GLIB_rectContainsPoint ctx.clippingRegion xCenter yCenter = 0 then
    some (GLIB_OUT_OF_BOUNDS, s)
  else
    let st := partialCircleStep ctx xCenter yCenter bitMask 0 radius 0 s
    match st.1 with
    | some e => some (e, st.2.2)
    | none =>
      midpointLoop (partialCircleStep ctx xCenter yCenter bitMask) fuel 0 radius
        (toI16 (1 - (radius : Int))) st.2.1 st.2.2

/-- Function `GLIB_drawCircleFilled`. -/
def GLIB_drawCircleFilled (fuel : Nat) (ctx : GLIB_Context) (xCenter yCenter radius : Nat)
    (s : Surface) : Option (EMSTATUS × Surface) :=
  if GLIB_rectContainsPoint ctx.clippingRegion xCenter yCenter = 0 then
    some (GLIB_OUT_OF_BOUNDS, s)
  else
    let st := filledLine ctx ((xCenter : Int) - radius) (yCenter : Int)
      ((xCenter : Int) + radius) (none, 0, s)
    match st.1 with
    | some e => some (e, st.2.2)
    | none =>
      midpointLoop (filledCircleStep ctx xCenter yCenter) fuel 0 radius
        (toI16 (1 - (radius : Int))) st.2.1 st.2.2

/-! ## Polygon routine (`glib_polygon.c`) -/

/-- The `for` loop of `GLIB_drawPolygon`: `n` iterations are left, `counter`
is the index of the next point of the array `polyPoints = {x1,y1,x2,y2,...}`.
The result is the status of an early `return`, if any, with the values of
`endX`, `endY`, `didDraw` and the surface. -/
def polygonLoop (fuel : Nat) (ctx : GLIB_Context) (polyPoints : Nat → Nat) :
    Nat → Nat → Nat → Nat → Nat → Nat → Nat → Surface →
      Option (Option EMSTATUS × Nat × Nat × Nat × Surface)
  | 0, _, _, _, endX, endY, didDraw, s => some (none, endX, endY, didDraw, s)
  | n + 1, counter, startX, startY, _, _, didDraw, s =>
    let endX := polyPoints (2 * counter)
    let endY := polyPoints (2 * counter + 1)
    match GLIB_drawLine fuel ctx startX startY endX endY s with
    | none => none
    | some r =>
      if r.1 ≠ 0 ∧ r.1 ≠ GLIB_DID_NOT_DRAW then some (some r.1, endX, endY, didDraw, r.2)
      else
        polygonLoop fuel ctx polyPoints n (counter + 1) endX endY endX endY
          (if r.1 = 0 then 1 else didDraw) r.2

/-- Function `GLIB_drawPolygon`; `polyPoints i` is the entry `i` of the array
of coordinates. -/
def GLIB_drawPolygon (fuel : Nat) (ctx : GLIB_Context) (numPoints : Nat)
    (polyPoints : Nat → Nat) (s : Surface) : Option (EMSTATUS × Surface) :=
  if numPoints < 2 then some (GLIB_INVALID_ARGUMENT, s)
  else
    let firstX := polyPoints 0
    let firstY := polyPoints 1
    match polygonLoop fuel ctx polyPoints (numPoints - 1) 1 firstX firstY 0 0 0 s with
    | none => none
    | some l =>
      match l.1 with
      | some e => some (e, l.2.2.2.2)
      | none =>
        if l.2.1 ≠ firstX ∨ l.2.2.1 ≠ firstY then
          match GLIB_drawLine fuel ctx firstX firstY l.2.1 l.2.2.1 l.2.2.2.2 with
          | none => none
          | some r =>
            if r.1 ≠ 0 ∧ r.1 ≠ GLIB_DID_NOT_DRAW then some r
            else
              some (if (if r.1 = 0 then 1 else l.2.2.2.1) = 0 then GLIB_DID_NOT_DRAW
                else GLIB_OK, r.2)
        else some (if l.2.2.2.1 = 0 then GLIB_DID_NOT_DRAW else GLIB_OK, l.2.2.2.2)

/-! ## Text routines (`glib_string.c`) -/

/-- Modelled from the spec: the font table of `glib_font.h`, which is not part
of the sources: fixed glyph width and height, and the row bytes `fontBits`. -/
structure GLIB_Font where
  font_width : Nat
  font_height : Nat
  fontBits : Nat → Nat

/-- Constant `SPACE_BETWEEN_LINES` of `glib_string.c`. -/
abbrev SPACE_BETWEEN_LINES : Nat := 2

/-- Constant `FONT_ROW_OFFSET` of `glib_string.c`. -/
abbrev FONT_ROW_OFFSET : Nat := 100

/-- The inner `for` loop of `GLIB_drawChar` over the columns of one row: `n`
columns are left; the statuses of the pixel draws are not looked at. -/
def charRowLoop (ctx : GLIB_Context) (x y row opq : Nat) :
    Nat → Nat → Nat → Surface → Surface
  | 0, _, _, s => s
  | n + 1, xOffset, currentRow, s =>
    let s1 :=
      if currentRow &&& 1 = 1 then
        (GLIB_drawPixel ctx (toU16 ((x : Int) + xOffset)) (toU16 ((y : Int) + row)) s).2
      else if opq = 1 then
        (GLIB_drawPixelColor ctx (toU16 ((x : Int) + xOffset)) (toU16 ((y : Int) + row))
          ctx.backgroundColor s).2
      else s
    charRowLoop ctx x y row opq n (xOffset + 1) (currentRow >>> 1) s1

/-- The outer `for` loop of `GLIB_drawChar` over the rows: `n` rows are left. -/
def charLoop (font : GLIB_Font) (ctx : GLIB_Context) (x y opq : Nat) :
    Nat → Nat → Nat → Surface → Surface
  | 0, _, _, s => s
  | n + 1, row, fontIdx, s =>
    charLoop font ctx x y opq n (row + 1) (toU16 ((fontIdx : Int) + FONT_ROW_OFFSET))
      (charRowLoop ctx x y row opq font.font_width 0 (font.fontBits fontIdx % 256) s)

/-- Function `GLIB_drawChar`; `myChar` is the code of the character. -/
def GLIB_drawChar (font : GLIB_Font) (ctx : GLIB_Context) (myChar x y opq : Nat)
    (s : Surface) : EMSTATUS × Surface :=
  if myChar < 32 ∨ myChar > 126 then (GLIB_INVALID_CHAR, s)
  else if GLIB_rectContainsPoint ctx.clippingRegion x y = 0 then (GLIB_DID_NOT_DRAW, s)
  else
    (GLIB_OK, charLoop font ctx x y opq font.font_height 0 (toU16 ((myChar : Int) - 32)) s)

/-- The `for` loop of `GLIB_drawString` over the remaining characters, and the
two `return` statements after it. -/
def stringLoop (font : GLIB_Font) (ctx : GLIB_Context) (x0 opq : Nat) :
    List Nat → Nat → Nat → Nat → Surface → EMSTATUS × Surface
  | [], _, _, didDraw, s => (if didDraw = 0 then GLIB_DID_NOT_DRAW else GLIB_OK, s)
  | ch :: rest, x, y, didDraw, s =>
    if ch = 10 then
      stringLoop font ctx x0 opq rest x0
        (toU16 ((y : Int) + font.font_height + SPACE_BETWEEN_LINES)) didDraw s
    else
      let r := GLIB_drawChar font ctx ch x y opq s
      if r.1 ≠ 0 ∧ r.1 ≠ GLIB_DID_NOT_DRAW then r
      else
        stringLoop font ctx x0 opq rest (toU16 ((x : Int) + font.font_width)) y
          (if didDraw = 0 ∧ r.1 = 0 then 1 else didDraw) r.2

/-- Function `GLIB_drawString`; `pString` lists the codes of the `sLength`
characters of the string. -/
def GLIB_drawString (font : GLIB_Font) (ctx : GLIB_Context) (pString : List Nat)
    (x0 y0 opq : Nat) (s : Surface) : EMSTATUS × Surface :=
  stringLoop font ctx x0 opq pString x0 y0 0 s

/-! ## Vocabulary of the statements on circles, polygons and text -/

/-- A context for a display of 32 x 32 pixels with clip region `(0,0)-(20,20)`
and a white foreground on black. -/
def smallContext : GLIB_Context :=
  { pDisplayGeometry := ⟨32, 32, 0, 0, 32, 32⟩, backgroundColor := 0,
    foregroundColor := 0xFFFFFF, clippingRegion := ⟨0, 0, 20, 20⟩ }

/-- A surface whose driver fails with status `e` at every call, with nothing
drawn yet. -/
def deadSurface (e : EMSTATUS) : Surface :=
  { status := fun _ => e, clipX := 0, clipY := 0, clipW := 0, clipH := 0,
    calls := [], pixels := [] }

/-- A font of glyphs 3 pixels wide and 2 pixels tall in which the glyph of
`'A'` has the rows `101` and `010` (bit 0 is the leftmost pixel) and every
other glyph is blank. -/
def demoFont : GLIB_Font :=
  { font_width := 3, font_height := 2,
    fontBits := fun i => if i = 33 then 5 else if i = 133 then 2 else 0 }

/-- The point number `i` (from 0) of the array `{x1,y1,x2,y2,...}`. -/
def polyPoint (polyPoints : Nat → Nat) (i : Nat) : Nat × Nat :=
  (polyPoints (2 * i), polyPoints (2 * i + 1))

/-- The segments of the polygon of the first `numPoints` points, each with its
two end points in the order in which they are handed to `GLIB_drawLine`: the
`numPoints - 1` segments between consecutive points and then, when the last
point differs from the first, the closing segment. -/
def polygonSegments (numPoints : Nat) (polyPoints : Nat → Nat) :
    List ((Nat × Nat) × (Nat × Nat)) :=
  ((List.range (numPoints - 1)).map fun i =>
      (polyPoint polyPoints i, polyPoint polyPoints (i + 1))) ++
    (if polyPoint polyPoints (numPoints - 1) ≠ polyPoint polyPoints 0 then
      [(polyPoint polyPoints 0, polyPoint polyPoints (numPoints - 1))]
    else [])

/-- Drawing a list of segments in order, whatever the statuses: the surface
after `GLIB_drawLine` has been called for each of them. -/
def drawAllSegments (fuel : Nat) (ctx : GLIB_Context) :
    List ((Nat × Nat) × (Nat × Nat)) → Surface → Option Surface
  | [], s => some s
  | g :: rest, s =>
    match GLIB_drawLine fuel ctx g.1.1 g.1.2 g.2.1 g.2.2 s with
    | none => none
    | some r => drawAllSegments fuel ctx rest r.2

/-- The status rule of the polygon in the words of the specification: the
segments are drawn in order; a status other than `GLIB_OK` and
`GLIB_DID_NOT_DRAW` is returned at once and no later segment is drawn;
otherwise the result is `GLIB_OK` if at least one segment returned `GLIB_OK`
(`drew`) and `GLIB_DID_NOT_DRAW` if none did. -/
def drawSegments (fuel : Nat) (ctx : GLIB_Context) :
    List ((Nat × Nat) × (Nat × Nat)) → Bool → Surface → Option (EMSTATUS × Surface)
  | [], drew, s => some (if drew then GLIB_OK else GLIB_DID_NOT_DRAW, s)
  | g :: rest, drew, s =>
    match GLIB_drawLine fuel ctx g.1.1 g.1.2 g.2.1 g.2.2 s with
    | none => none
    | some r =>
      if r.1 ≠ GLIB_OK ∧ r.1 ≠ GLIB_DID_NOT_DRAW then some r
      else drawSegments fuel ctx rest (drew || decide (r.1 = GLIB_OK)) r.2

/-- The array of the corners `(20,20)`, `(30,20)`, `(30,30)` of a triangle. -/
def trianglePoints : Nat → Nat := fun i => [20, 20, 30, 20, 30, 30].getD i 0

/-- The pixel that the driver writes for a run of one pixel in the colour
`color` at `(x, y)` of the window of the full display; it is the pixel
`(x, y)` when `x` is less than the width of the display. -/
def drawnPixel (ctx : GLIB_Context) (color x y : Nat) : Pixel :=
  { x := 0 + (x + 0) % ctx.pDisplayGeometry.xSize,
    y := 0 + y + (x + 0) / ctx.pDisplayGeometry.xSize,
    red := (GLIB_colorTranslate24bpp color).1,
    green := (GLIB_colorTranslate24bpp color).2.1,
    blue := (GLIB_colorTranslate24bpp color).2.2 }

/-- The pixel at `(x, y)` in the colour `color`. -/
def colorPixel (color x y : Nat) : Pixel :=
  { x := x, y := y,
    red := (GLIB_colorTranslate24bpp color).1,
    green := (GLIB_colorTranslate24bpp color).2.1,
    blue := (GLIB_colorTranslate24bpp color).2.2 }

/-- The cells `(r, c)` of a glyph, row by row and from left to right in each
row, which is the order in which `GLIB_drawChar` visits them. -/
def glyphCells (font : GLIB_Font) : List (Nat × Nat) :=
  (List.range font.font_height).flatMap fun r =>
    (List.range font.font_width).map fun c => (r, c)

/-- The font bit of the cell `(r, c)` of the glyph of `ch`: bit `c`, least
significant bit first, of the row byte `fontBits[(ch - ' ') + 100 * r]` (the
index is an `uint16_t`). -/
def glyphBit (font : GLIB_Font) (ch : Nat) (cell : Nat × Nat) : Bool :=
  (font.fontBits (((ch - 32) + FONT_ROW_OFFSET * cell.1) % 65536) % 256).testBit cell.2

/-- The pixel coordinates `(x + c, y + r)` of the cell `(r, c)` of a glyph
drawn at `(x, y)`, as `uint16_t` values. -/
def cellPoint (x y : Nat) (cell : Nat × Nat) : Nat × Nat :=
  (toU16 ((x : Int) + cell.2), toU16 ((y : Int) + cell.1))

/-- The pixel of the cell lies inside the clip region. -/
def cellInClip (ctx : GLIB_Context) (x y : Nat) (cell : Nat × Nat) : Bool :=
  decide (GLIB_rectContainsPoint ctx.clippingRegion (cellPoint x y cell).1
    (cellPoint x y cell).2 = 1)

/-- The pixel that an opaque glyph puts in a cell: foreground when the font
bit is set, background otherwise. -/
def glyphPixel (font : GLIB_Font) (ctx : GLIB_Context) (ch x y : Nat) (cell : Nat × Nat) :
    Pixel :=
  if glyphBit font ch cell then
    colorPixel ctx.foregroundColor (cellPoint x y cell).1 (cellPoint x y cell).2
  else colorPixel ctx.backgroundColor (cellPoint x y cell).1 (cellPoint x y cell).2

/-- The pixel that the driver writes for the draw of a cell of an opaque
glyph: a run of one pixel at the point of the cell, in the foreground colour
when the font bit is set and in the background colour otherwise. -/
def glyphWrite (font : GLIB_Font) (ctx : GLIB_Context) (ch x y : Nat) (cell : Nat × Nat) :
    Pixel :=
  drawnPixel ctx (if glyphBit font ch cell then ctx.foregroundColor else ctx.backgroundColor)
    (cellPoint x y cell).1 (cellPoint x y cell).2

/-- The pixel draws of a glyph in order: the point and whether the draw is in
the foreground colour (`GLIB_drawPixel`) or in the background colour
(`GLIB_drawPixelColor`, only when `opq = 1`). -/
def glyphDraws (font : GLIB_Font) (ch x y opq : Nat) : List ((Nat × Nat) × Bool) :=
  (glyphCells font).filterMap fun cell =>
    if glyphBit font ch cell then some (cellPoint x y cell, true)
    else if opq = 1 then some (cellPoint x y cell, false)
    else none

/-- Issuing a list of pixel draws in order, whatever their statuses. -/
def issueDraws (ctx : GLIB_Context) (l : List ((Nat × Nat) × Bool)) (s : Surface) : Surface :=
  l.foldl (fun t d =>
    if d.2 then (GLIB_drawPixel ctx d.1.1 d.1.2 t).2
    else (GLIB_drawPixelColor ctx d.1.1 d.1.2 ctx.backgroundColor t).2) s

/-- Issuing a list of foreground pixel draws (`GLIB_drawPixel`) in order,
whatever their statuses. -/
def issuePixels (ctx : GLIB_Context) (l : List (Nat × Nat)) (s : Surface) : Surface :=
  l.foldl (fun t p => (GLIB_drawPixel ctx p.1 p.2 t).2) s

/-- The character is `'\n'` or lies in `[' ', '~']`. -/
def drawableChar (ch : Nat) : Prop := ch = 10 ∨ (32 ≤ ch ∧ ch ≤ 126)

instance (ch : Nat) : Decidable (drawableChar ch) := by
  unfold drawableChar; infer_instance

/-- The number of characters of `pre` after its last `'\n'`. -/
def stringColumn (pre : List Nat) : Nat :=
  (pre.reverse.takeWhile fun ch => decide (ch ≠ 10)).length

/-- The number of `'\n'` in `pre`. -/
def stringLine (pre : List Nat) : Nat := pre.count 10

/-- The origin of the character that follows the characters `pre` in a string
drawn at `(x0, y0)`: `(x0 + W * c, y0 + (H + 2) * n)` modulo `2^16`, with `c`
the number of characters since the last `'\n'` and `n` the number of `'\n'`. -/
def stringOrigin (font : GLIB_Font) (x0 y0 : Nat) (pre : List Nat) : Nat × Nat :=
  ((x0 + font.font_width * stringColumn pre) % 65536,
   (y0 + (font.font_height + SPACE_BETWEEN_LINES) * stringLine pre) % 65536)

/-- The drawing of a string in the words of the specification: each character
`ch` of `rest`, which comes after the characters `pre` in the string, is drawn
by `GLIB_drawChar` at `stringOrigin font x0 y0 pre` when it is not `'\n'`, and
a `'\n'` draws nothing. -/
def drawCharsAt (font : GLIB_Font) (ctx : GLIB_Context) (x0 y0 opq : Nat) :
    List Nat → List Nat → Surface → Surface
  | _, [], s => s
  | pre, ch :: rest, s =>
    drawCharsAt font ctx x0 y0 opq (pre ++ [ch]) rest
      (if ch = 10 then s
       else (GLIB_drawChar font ctx ch (stringOrigin font x0 y0 pre).1
          (stringOrigin font x0 y0 pre).2 opq s).2)

/-- The steps `(x, y)` of the midpoint recurrence after the step at which the
`while (x < y)` loop of the circle functions is entered with `x`, `y`, `d`. -/
def midpointStates : Nat → Nat → Nat → Int → List (Nat × Nat)
  | 0, _, _, _ => []
  | fuel + 1, x, y, d =>
    if x < y then
      ((midpointNext x y d).1, (midpointNext x y d).2.1) ::
        midpointStates fuel (midpointNext x y d).1 (midpointNext x y d).2.1
          (midpointNext x y d).2.2
    else []

/-- The steps `(x, y)` of the midpoint recurrence for the radius, from
`(0, radius)` on. -/
def circleSteps (fuel radius : Nat) : List (Nat × Nat) :=
  (0, radius) :: midpointStates fuel 0 radius (toI16 (1 - (radius : Int)))

/-- The eight points of the step `(x, y)` with the number, from 1 to 8, of
their octant, in the order of the tables `xOffsets`, `yOffsets`; the
coordinates are `uint16_t` values. -/
def octantPoints (xCenter yCenter x y : Nat) : List (Nat × (Nat × Nat)) :=
  (octantOffsets x y).enum.map fun e =>
    (e.1 + 1, (toU16 ((xCenter : Int) + e.2.1), toU16 ((yCenter : Int) + e.2.2)))

/-- The pixel draws of the full circle in order, each with the number of its
octant. -/
def circleDraws (fuel xCenter yCenter radius : Nat) : List (Nat × (Nat × Nat)) :=
  (circleSteps fuel radius).flatMap fun p => octantPoints xCenter yCenter p.1 p.2

/-- The draws of the octants `i` whose bit `i - 1` of the mask is set. -/
def maskedDraws (bitMask : Nat) (l : List (Nat × (Nat × Nat))) : List (Nat × (Nat × Nat)) :=
  l.filter fun e => bitMask.testBit (e.1 - 1)

/-- Some point of the list lies inside the clip region. -/
def anyInClip (ctx : GLIB_Context) (l : List (Nat × Nat)) : Prop :=
  ∃ p ∈ l, GLIB_rectContainsPoint ctx.clippingRegion p.1 p.2 = 1

instance (ctx : GLIB_Context) (l : List (Nat × Nat)) : Decidable (anyInClip ctx l) := by
  unfold anyInClip; infer_instance

/-- The pixels written by the foreground pixel draws at the points of the
list that lie inside the clip region, in order. -/
def drawnPixels (ctx : GLIB_Context) (l : List (Nat × Nat)) : List Pixel :=
  (l.filter fun p => decide (GLIB_rectContainsPoint ctx.clippingRegion p.1 p.2 = 1)).map
    fun p => drawnPixel ctx ctx.foregroundColor p.1 p.2

/-! ## Clip region and colour routines (`glib.c`) -/

/-- Colour `Black` of `glib_color.h`. -/
abbrev Black : Nat := 0x00000000

/-- Colour `White` of `glib_color.h`. -/
abbrev White : Nat := 0x00FFFFFF

/-- Function `GLIB_setClippingRegion`; the result is the status and the
context left behind in `*pContext`. -/
def GLIB_setClippingRegion (ctx : GLIB_Context) (rect : GLIB_Rectangle) :
    EMSTATUS × GLIB_Context :=
  if rect.xMin ≥ rect.xMax ∨ rect.yMin ≥ rect.yMax then (GLIB_INVALID_CLIPPINGREGION, ctx)
  else if rect.xMax > ctx.pDisplayGeometry.clipWidth then (GLIB_OUT_OF_BOUNDS, ctx)
  else if rect.yMax > ctx.pDisplayGeometry.clipHeight then (GLIB_OUT_OF_BOUNDS, ctx)
  else
    (GLIB_OK,
      { ctx with clippingRegion := ⟨rect.xMin, rect.yMin, rect.xMax, rect.yMax⟩ })

/-- Function `GLIB_resetClippingRegion`; the two maxima are computed in `int`
and stored in the `uint16_t` fields of `tmpRect`. -/
def GLIB_resetClippingRegion (ctx : GLIB_Context) : EMSTATUS × GLIB_Context :=
  let xMin := ctx.pDisplayGeometry.xClipStart
  let yMin := ctx.pDisplayGeometry.yClipStart
  let xMax := toU16 ((xMin : Int) + ctx.pDisplayGeometry.clipWidth - 1)
  let yMax := toU16 ((yMin : Int) + ctx.pDisplayGeometry.clipHeight - 1)
  (GLIB_OK, { ctx with clippingRegion := ⟨xMin, yMin, xMax, yMax⟩ })

/-- Function `GLIB_contextInit`.  Modelled from the spec: `driver` is the
answer of `queryGeometry` of the Surface (`DMD_getDisplayGeometry` of the
absent driver): its status and the geometry record.  The result is the status
and the context left behind in `*pContext`. -/
def GLIB_contextInit (driver : EMSTATUS × DMD_DisplayGeometry) (ctx : GLIB_Context) :
    EMSTATUS × GLIB_Context :=
  let ctx := { ctx with backgroundColor := Black, foregroundColor := White }
  if driver.1 ≠ 0 then (driver.1, ctx)
  else
    let ctx := { ctx with pDisplayGeometry := driver.2 }
    let r := GLIB_setClippingRegion ctx
      ⟨0, 0, toU16 ((driver.2.xSize : Int) - 1), toU16 ((driver.2.ySize : Int) - 1)⟩
    if r.1 ≠ 0 then r else (GLIB_OK, r.2)

/-- Function `GLIB_rgbColor`, with the shifts of `glib_color.h`; the three
arguments are `uint8_t` values and the result is an `uint32_t`. -/
def GLIB_rgbColor (red green blue : Nat) : Nat :=
  ((red <<< 16) ||| (green <<< 8) ||| (blue <<< 0)) % 4294967296

/-! ## Bitmap routine (`glib_bitmap.c`) -/

/-- Modelled from the spec: `writeRaw(x,y,bytes,count) -> status` of the
Surface (`DMD_writeData` of the absent driver).  The call is logged; when the
driver reports success, `n` pixels are written row by row inside the hardware
clip window from `(x, y)` relative to its origin, pixel `i` with the channels
`data[3i]`, `data[3i+1]`, `data[3i+2]`; a failed call writes nothing. -/
def DMD_writeData (x y : Nat) (data : List Nat) (n : Nat) (s : Surface) : EMSTATUS × Surface :=
  if s.status s.calls.length = DMD_OK then
    (DMD_OK, { s with calls := s.calls ++ [DMDCall.writeData x y data n],
                      pixels := s.pixels ++ (List.range n).map fun i =>
                        { x := s.clipX + (x + i) % s.clipW,
                          y := s.clipY + y + (x + i) / s.clipW,
                          red := data.getD (3 * i) 0, green := data.getD (3 * i + 1) 0,
                          blue := data.getD (3 * i + 2) 0 } })
  else
    (s.status s.calls.length,
      { s with calls := s.calls ++ [DMDCall.writeData x y data n] })

/-- Function `GLIB_drawBitmap`.  The product `width * height` is computed in
`int` and handed to the `uint32_t` parameter of `DMD_writeData`.  The result
of `GLIB_resetDisplayClippingArea` is not assigned to `status`, so the test
that follows it looks at the status of `DMD_writeData`. -/
def GLIB_drawBitmap (ctx : GLIB_Context) (x y width height : Nat) (picData : List Nat)
    (s : Surface) : EMSTATUS × Surface :=
  let r1 := DMD_setClippingArea x y width height s
  if r1.1 ≠ DMD_OK then r1
  else
    let r2 := DMD_writeData 0 0 picData (toU32 (toI32 ((width : Int) * (height : Int)))) r1.2
    if r2.1 ≠ DMD_OK then r2
    else
      let r3 := GLIB_resetDisplayClippingArea ctx r2.2
      if r2.1 ≠ GLIB_OK then (r2.1, r3.2) else (GLIB_OK, r3.2)

/-! ## Vocabulary of the statements on contexts, colours and bitmaps -/

/-- The rectangle lies within the addressable clip area of the display:
columns `xClipStart .. xClipStart + clipWidth - 1` and rows
`yClipStart .. yClipStart + clipHeight - 1`. -/
def withinClipArea (g : DMD_DisplayGeometry) (r : GLIB_Rectangle) : Prop :=
  g.xClipStart ≤ r.xMin ∧ r.xMax < g.xClipStart + g.clipWidth ∧
  g.yClipStart ≤ r.yMin ∧ r.yMax < g.yClipStart + g.clipHeight

instance (g : DMD_DisplayGeometry) (r : GLIB_Rectangle) : Decidable (withinClipArea g r) := by
  unfold withinClipArea; infer_instance

/-- The invariant of the context in the specification: the clip region has
`min < max` on both axes and lies within the addressable clip area. -/
def clipInvariant (ctx : GLIB_Context) : Prop :=
  ctx.clippingRegion.xMin < ctx.clippingRegion.xMax ∧
  ctx.clippingRegion.yMin < ctx.clippingRegion.yMax ∧
  withinClipArea ctx.pDisplayGeometry ctx.clippingRegion

instance (ctx : GLIB_Context) : Decidable (clipInvariant ctx) := by
  unfold clipInvariant; infer_instance

/-- A call that acts on a context: the two calls that set the clip region, and
any draw call, which takes the context as `const GLIB_Context *`. -/
inductive ContextOp where
  | setClippingRegion (rect : GLIB_Rectangle)
  | resetClippingRegion
  | draw
  deriving DecidableEq, Repr

/-- The context after one call. -/
def applyOp (ctx : GLIB_Context) : ContextOp → GLIB_Context
  | ContextOp.setClippingRegion rect => (GLIB_setClippingRegion ctx rect).2
  | ContextOp.resetClippingRegion => (GLIB_resetClippingRegion ctx).2
  | ContextOp.draw => ctx

/-- The context after a sequence of calls. -/
def applyOps (ctx : GLIB_Context) (ops : List ContextOp) : GLIB_Context :=
  ops.foldl applyOp ctx

/-- The geometry of a display of 320 x 240 pixels whose addressable clip area
is the whole display. -/
def stdGeometry : DMD_DisplayGeometry := ⟨320, 240, 0, 0, 320, 240⟩

/-- A context before its initialisation. -/
def blankContext : GLIB_Context :=
  { pDisplayGeometry := ⟨0, 0, 0, 0, 0, 0⟩, backgroundColor := 0, foregroundColor := 0,
    clippingRegion := ⟨0, 0, 0, 0⟩ }


/-! ## Vocabulary of the statements on clipping, octants and the clip window -/

/-- The array of the corners `(8,20)`, `(8,22)`, `(14,22)` of a triangle whose
first corner lies left of the clip region of `demoContext`. -/
def wedgePoints : Nat → Nat := fun i => [8, 20, 8, 22, 14, 22].getD i 0

/-- The offsets `(dx, dy)` from the centre of the points that the full circle
emits over all steps of the midpoint recurrence, before the conversion of the
coordinates to `uint16_t` and before clipping: for each step the eight
entries of the tables `xOffsets`, `yOffsets`. -/
def circleOffsets (fuel radius : Nat) : List (Int × Int) :=
  (circleSteps fuel radius).flatMap fun p => octantOffsets p.1 p.2

/-- The eight directions of the compass around the centre, 45 degrees apart,
from straight right (`j = 0`) counter-clockwise as seen on the display, where
y grows downwards: right, up-right, up, up-left, left, down-left, down,
down-right, and right again for `j = 8`. -/
def compassDirection (j : Nat) : Int × Int :=
  [((1 : Int), (0 : Int)), (1, -1), (0, -1), (-1, -1), (-1, 0), (-1, 1), (0, 1), (1, 1)].getD
    (j % 8) (0, 0)

/-- The offset `o` lies in the closed wedge of 45 degrees that reaches from
the compass direction `j` counter-clockwise to the direction `j + 1`: on the
display, where y grows downwards, a turn from `u` to `v` is counter-clockwise
when `u.1 * v.2 - u.2 * v.1 ≤ 0`. -/
def inWedge (j : Nat) (o : Int × Int) : Prop :=
  (compassDirection j).1 * o.2 - (compassDirection j).2 * o.1 ≤ 0 ∧
  o.1 * (compassDirection (j + 1)).2 - o.2 * (compassDirection (j + 1)).1 ≤ 0

instance (j : Nat) (o : Int × Int) : Decidable (inWedge j o) := by
  unfold inWedge; infer_instance

/-- The states `(x, y, d)` of the midpoint recurrence after the state at which
the `while (x < y)` loop of the circle functions is entered with `x`, `y`,
`d`: the steps of `midpointStates` together with the decision variable. -/
def midpointTrace : Nat → Nat → Nat → Int → List (Nat × Nat × Int)
  | 0, _, _, _ => []
  | fuel + 1, x, y, d =>
    if x < y then
      midpointNext x y d ::
        midpointTrace fuel (midpointNext x y d).1 (midpointNext x y d).2.1
          (midpointNext x y d).2.2
    else []

/-- One step of the midpoint recurrence over the integers, without any
conversion to a fixed width: `x + 1`, then `d + 2 x + 1` for `d < 0` and
`y - 1`, `d + 2 (x - y) + 1` otherwise, with the new `x` and `y`. -/
def midpointNextExact (x y d : Int) : Int × Int × Int :=
  if d < 0 then (x + 1, y, d + (2 * (x + 1) + 1))
  else (x + 1, y - 1, d + (2 * ((x + 1) - (y - 1)) + 1))

/-- One endpoint move of the loop of `GLIB_clipLine`: the two endpoints before
the move, the outcode `code` of the endpoint that is moved, and its new
position `(x, y)`. -/
structure ClipMove where
  x1 : Nat
  y1 : Nat
  x2 : Nat
  y2 : Nat
  code : Nat
  x : Nat
  y : Nat
  deriving DecidableEq, Repr

/-- The loop of `GLIB_clipLine` with a record of its endpoint moves: the same
tests and the same moves as `GLIB_clipLine`, the result being the list of the
moves in order together with the result of `GLIB_clipLine`. -/
def clipLineTrace (ctx : GLIB_Context) :
    Nat → Nat → Nat → Nat → Nat → Nat → Nat →
      Option (List ClipMove × (Nat × Nat × Nat × Nat × Nat))
  | 0, _, _, _, _, _, _ => none
  | fuel + 1, x, y, x1, y1, x2, y2 =>
    let code1 := GLIB_getClipCode ctx x1 y1
    let code2 := GLIB_getClipCode ctx x2 y2
    if code1 ||| code2 = 0 then some ([], (1, x1, y1, x2, y2))
    else if code1 &&& code2 ≠ 0 then some ([], (0, x1, y1, x2, y2))
    else
      let currentCode := if code1 ≠ 0 then code1 else code2
      match clipMoved ctx currentCode x y x1 y1 x2 y2 with
      | none => none
      | some (nx, ny) =>
        (if code1 ≠ 0 then clipLineTrace ctx fuel nx ny nx ny x2 y2
          else clipLineTrace ctx fuel nx ny x1 y1 nx ny).map fun t =>
            (⟨x1, y1, x2, y2, currentCode, nx, ny⟩ :: t.1, t.2)

/-- The move divides by a non-zero difference (the difference of the x
coordinates of the endpoints when the endpoint is moved to the left or right
boundary, outcode bits 1 and 2, and of their y coordinates otherwise), and
each coordinate of the new position lies between the same coordinates of the
two endpoints. -/
def ClipMove.sound (m : ClipMove) : Prop :=
  (if m.code &&& 3 ≠ 0 then m.x1 ≠ m.x2 else m.y1 ≠ m.y2) ∧
  min m.x1 m.x2 ≤ m.x ∧ m.x ≤ max m.x1 m.x2 ∧
  min m.y1 m.y2 ≤ m.y ∧ m.y ≤ max m.y1 m.y2

instance (m : ClipMove) : Decidable m.sound := by
  unfold ClipMove.sound; infer_instance

/-- The number of boundaries of the clip region (left, right, bottom, top)
beyond which at least one of the two endpoints lies. -/
def clipViolations (ctx : GLIB_Context) (x1 y1 x2 y2 : Nat) : Nat :=
  (if x1 < ctx.clippingRegion.xMin ∨ x2 < ctx.clippingRegion.xMin then 1 else 0) +
  (if x1 > ctx.clippingRegion.xMax ∨ x2 > ctx.clippingRegion.xMax then 1 else 0) +
  (if y1 > ctx.clippingRegion.yMax ∨ y2 > ctx.clippingRegion.yMax then 1 else 0) +
  (if y1 < ctx.clippingRegion.yMin ∨ y2 < ctx.clippingRegion.yMin then 1 else 0)

/-- A context for a display of 65535 x 65535 pixels with the clip region
`(60000,0)-(65534,65534)`. -/
def wideContext : GLIB_Context :=
  { pDisplayGeometry := ⟨65535, 65535, 0, 0, 65535, 65535⟩, backgroundColor := 0,
    foregroundColor := 0xFFFFFF, clippingRegion := ⟨60000, 0, 65534, 65534⟩ }

/-- The hardware clip window of the full display, `(0, 0, xSize, ySize)`. -/
def fullDisplay (ctx : GLIB_Context) : Nat × Nat × Nat × Nat :=
  (0, 0, ctx.pDisplayGeometry.xSize, ctx.pDisplayGeometry.ySize)

/-- The hardware clip window of the surface is the full display. -/
def fullWindow (ctx : GLIB_Context) (s : Surface) : Prop :=
  (s.clipX, s.clipY, s.clipW, s.clipH) = fullDisplay ctx

instance (ctx : GLIB_Context) (s : Surface) : Decidable (fullWindow ctx s) := by
  unfold fullWindow; infer_instance

/-- The hardware clip window after a sequence of driver calls that all
succeed, starting from the window `win`, provided every write is in order;
`none` when some write is out of order.  A write is in order when it is
issued while the window is the full display (a write in absolute
coordinates), or, if writes relative to a window are admitted (`rel`), when
it is a write at the origin `(0, 0)` of a window that the call just before it
has programmed (`fresh`). -/
def windowRun (ctx : GLIB_Context) (rel : Bool) :
    Nat × Nat × Nat × Nat → Bool → List DMDCall → Option (Nat × Nat × Nat × Nat)
  | win, _, [] => some win
  | _, _, DMDCall.setClippingArea x y w h :: rest => windowRun ctx rel (x, y, w, h) true rest
  | win, fresh, DMDCall.writeColor x y _ _ _ _ :: rest =>
    if win = fullDisplay ctx ∨ (rel = true ∧ fresh = true ∧ x = 0 ∧ y = 0) then
      windowRun ctx rel win false rest
    else none
  | win, fresh, DMDCall.writeData x y _ _ :: rest =>
    if win = fullDisplay ctx ∨ (rel = true ∧ fresh = true ∧ x = 0 ∧ y = 0) then
      windowRun ctx rel win false rest
    else none

/-- From the surface state `s` to the state `t` the hardware clip window has
been restored: it is the full display in `t`, and the driver calls issued in
between, replayed from the window of the full display, have all their writes
in order and end with the window of the full display.  With `rel = false`
every write is issued while the window is the full display; with `rel = true`
a write may also be the write at the origin of a window programmed by the
call just before it. -/
def windowRestored (ctx : GLIB_Context) (rel : Bool) (s t : Surface) : Prop :=
  fullWindow ctx t ∧
  ∃ l, Issues s t l ∧ windowRun ctx rel (fullDisplay ctx) false l = some (fullDisplay ctx)

/-- The relation `windowRestored` for a step from `s` to `t` that starts with
the window of the full display on a surface that never fails; the surface
`t` never fails either. -/
def WindowKept (ctx : GLIB_Context) (rel : Bool) (s t : Surface) : Prop :=
  neverFails s → fullWindow ctx s → neverFails t ∧ windowRestored ctx rel s t

/-- The relation `windowRestored` for the result of a function that takes
fuel, when it returns. -/
def windowRestoredOnReturn (ctx : GLIB_Context) (rel : Bool) (s : Surface)
    (o : Option (EMSTATUS × Surface)) : Prop :=
  ∀ r, o = some r → windowRestored ctx rel s r.2

/-- A surface whose driver never fails, with nothing drawn yet and with the
hardware clip window of the full display of `demoContext`. -/
def readySurface : Surface :=
  { status := fun _ => DMD_OK, clipX := 0, clipY := 0, clipW := 320, clipH := 240,
    calls := [], pixels := [] }

/-! ## Vocabulary of the statement on segments clear of the clip region -/

/-- No point of the segment from `(x1, y1)` to `(x2, y2)` comes closer than
one pixel to the clip rectangle: no point
`(x1 + t (x2 - x1), y1 + t (y2 - y1))`, for the rational `t` between 0 and
1, lies strictly between the columns `xMin - 1` and `xMax + 1` and strictly
between the rows `yMin - 1` and `yMax + 1`. -/
def segmentClearOfClip (ctx : GLIB_Context) (x1 y1 x2 y2 : Nat) : Prop :=
  ∀ t : ℚ, 0 ≤ t → t ≤ 1 →
    ¬((ctx.clippingRegion.xMin : ℚ) - 1 < x1 + t * ((x2 : ℚ) - x1) ∧
      (x1 : ℚ) + t * ((x2 : ℚ) - x1) < ctx.clippingRegion.xMax + 1 ∧
      (ctx.clippingRegion.yMin : ℚ) - 1 < y1 + t * ((y2 : ℚ) - y1) ∧
      (y1 : ℚ) + t * ((y2 : ℚ) - y1) < ctx.clippingRegion.yMax + 1)

/-- A context for a display of 65535 x 65535 pixels with the clip region
`(10000,10000)-(10002,10002)`. -/
def farContext : GLIB_Context :=
  { pDisplayGeometry := ⟨65535, 65535, 0, 0, 65535, 65535⟩, backgroundColor := 0,
    foregroundColor := 0xFFFFFF, clippingRegion := ⟨10000, 10000, 10002, 10002⟩ }

/-! ## Fixed-width conversions inside their range -/

theorem toU16_of_lt {v : Int} (h0 : 0 ≤ v) (h1 : v < 65536) : toU16 v = v.toNat := by
  unfold toU16; omega

theorem toU16_natCast {n : Nat} (h : n < 65536) : toU16 (n : Int) = n := by
  unfold toU16; omega

theorem toU32_of_lt {v : Int} (h0 : 0 ≤ v) (h1 : v < 4294967296) : toU32 v = v.toNat := by
  unfold toU32; omega

theorem toI16_of_lt {v : Int} (h0 : -32768 ≤ v) (h1 : v < 32768) : toI16 v = v := by
  unfold toI16; omega

theorem toI32_of_lt {v : Int} (h0 : -2147483648 ≤ v) (h1 : v < 2147483648) : toI32 v = v := by
  unfold toI32; omega

/-! ## The driver calls, field by field -/

@[simp] theorem DMD_setClippingArea_fst (x y w h : Nat) (s : Surface) :
    (DMD_setClippingArea x y w h s).1 = s.status s.calls.length := by
  unfold DMD_setClippingArea; split_ifs with hs <;> simp [hs]

@[simp] theorem DMD_setClippingArea_status (x y w h : Nat) (s : Surface) :
    (DMD_setClippingArea x y w h s).2.status = s.status := by
  unfold DMD_setClippingArea; split_ifs <;> rfl

@[simp] theorem DMD_setClippingArea_calls (x y w h : Nat) (s : Surface) :
    (DMD_setClippingArea x y w h s).2.calls = s.calls ++ [DMDCall.setClippingArea x y w h] := by
  unfold DMD_setClippingArea; split_ifs <;> rfl

@[simp] theorem DMD_setClippingArea_pixels (x y w h : Nat) (s : Surface) :
    (DMD_setClippingArea x y w h s).2.pixels = s.pixels := by
  unfold DMD_setClippingArea; split_ifs <;> rfl

theorem DMD_setClippingArea_window (x y w h : Nat) (s : Surface)
    (hs : s.status s.calls.length = 0) :
    (DMD_setClippingArea x y w h s).2.clipX = x ∧ (DMD_setClippingArea x y w h s).2.clipY = y ∧
    (DMD_setClippingArea x y w h s).2.clipW = w ∧ (DMD_setClippingArea x y w h s).2.clipH = h := by
  unfold DMD_setClippingArea; simp [hs]

@[simp] theorem DMD_writeColor_fst (x y r g b n : Nat) (s : Surface) :
    (DMD_writeColor x y r g b n s).1 = s.status s.calls.length := by
  unfold DMD_writeColor; split_ifs with hs <;> simp [hs]

@[simp] theorem DMD_writeColor_status (x y r g b n : Nat) (s : Surface) :
    (DMD_writeColor x y r g b n s).2.status = s.status := by
  unfold DMD_writeColor; split_ifs <;> rfl

@[simp] theorem DMD_writeColor_calls (x y r g b n : Nat) (s : Surface) :
    (DMD_writeColor x y r g b n s).2.calls = s.calls ++ [DMDCall.writeColor x y r g b n] := by
  unfold DMD_writeColor; split_ifs <;> rfl

@[simp] theorem DMD_writeColor_window (x y r g b n : Nat) (s : Surface) :
    (DMD_writeColor x y r g b n s).2.clipX = s.clipX ∧
    (DMD_writeColor x y r g b n s).2.clipY = s.clipY ∧
    (DMD_writeColor x y r g b n s).2.clipW = s.clipW ∧
    (DMD_writeColor x y r g b n s).2.clipH = s.clipH := by
  unfold DMD_writeColor; split_ifs <;> simp

theorem DMD_writeColor_pixels (x y r g b n : Nat) (s : Surface) :
    (DMD_writeColor x y r g b n s).2.pixels =
      if s.status s.calls.length = 0 then s.pixels ++ runPixels s x y r g b n else s.pixels := by
  unfold DMD_writeColor; split_ifs <;> rfl

/-- Returning `r` when its status is not zero and `(0, r.2)` otherwise is
returning `r`. -/
theorem status_ite_eq (r : EMSTATUS × Surface) : (if r.1 ≠ 0 then r else (0, r.2)) = r := by
  split_ifs with h
  · rfl
  · exact Prod.ext (by simpa using h : r.1 = 0).symm rfl

/-- The reset of the hardware clip window is the driver call itself: its two
branches return the same pair. -/
theorem GLIB_resetDisplayClippingArea_eq (ctx : GLIB_Context) (s : Surface) :
    GLIB_resetDisplayClippingArea ctx s =
      DMD_setClippingArea 0 0 ctx.pDisplayGeometry.xSize ctx.pDisplayGeometry.ySize s := by
  unfold GLIB_resetDisplayClippingArea
  exact status_ite_eq _

/-! ## Normal forms of the two fast paths -/

theorem swap_lo (a b : Nat) : (if a > b then b else a) = min a b := by
  rw [Nat.min_def]; split_ifs <;> omega

theorem swap_hi (a b : Nat) : (if a > b then a else b) = max a b := by
  rw [Nat.max_def]; split_ifs <;> omega


theorem GLIB_drawLineH_eq (ctx : GLIB_Context) (x1 y1 x2 : Nat) (s : Surface) :
    GLIB_drawLineH ctx x1 y1 x2 s =
      if y1 < ctx.clippingRegion.yMin ∨ y1 > ctx.clippingRegion.yMax then (GLIB_DID_NOT_DRAW, s)
      else if s.status s.calls.length ≠ 0 then GLIB_resetDisplayClippingArea ctx s
      else if min x1 x2 > ctx.clippingRegion.xMax ∨ max x1 x2 < ctx.clippingRegion.xMin then
        (GLIB_DID_NOT_DRAW, (GLIB_resetDisplayClippingArea ctx s).2)
      else
        DMD_writeColor (max ctx.clippingRegion.xMin (min x1 x2)) y1
          (GLIB_colorTranslate24bpp ctx.foregroundColor).1
          (GLIB_colorTranslate24bpp ctx.foregroundColor).2.1
          (GLIB_colorTranslate24bpp ctx.foregroundColor).2.2
          (toU32 ((min (max x1 x2) ctx.clippingRegion.xMax : Nat) -
            (max ctx.clippingRegion.xMin (min x1 x2) : Nat) + 1))
          (GLIB_resetDisplayClippingArea ctx s).2 := by
  unfold GLIB_drawLineH
  simp only [swap_lo, swap_hi, GLIB_resetDisplayClippingArea_eq,
    DMD_setClippingArea_fst]

theorem GLIB_drawLineV_eq (ctx : GLIB_Context) (x1 y1 y2 : Nat) (s : Surface) :
    GLIB_drawLineV ctx x1 y1 y2 s =
      if x1 < ctx.clippingRegion.xMin ∨ x1 > ctx.clippingRegion.xMax then (GLIB_DID_NOT_DRAW, s)
      else if min y1 y2 > ctx.clippingRegion.yMax ∨ max y1 y2 < ctx.clippingRegion.yMin then
        (GLIB_DID_NOT_DRAW, s)
      else if s.status s.calls.length ≠ 0 then
        DMD_setClippingArea x1 (max ctx.clippingRegion.yMin (min y1 y2)) 1
          (toU16 ((min (max y1 y2) ctx.clippingRegion.yMax : Nat) -
            (max ctx.clippingRegion.yMin (min y1 y2) : Nat) + 1)) s
      else if s.status (s.calls.length + 1) ≠ 0 then
        DMD_writeColor 0 0
          (GLIB_colorTranslate24bpp ctx.foregroundColor).1
          (GLIB_colorTranslate24bpp ctx.foregroundColor).2.1
          (GLIB_colorTranslate24bpp ctx.foregroundColor).2.2
          (toU16 ((min (max y1 y2) ctx.clippingRegion.yMax : Nat) -
            (max ctx.clippingRegion.yMin (min y1 y2) : Nat) + 1))
          (DMD_setClippingArea x1 (max ctx.clippingRegion.yMin (min y1 y2)) 1
            (toU16 ((min (max y1 y2) ctx.clippingRegion.yMax : Nat) -
              (max ctx.clippingRegion.yMin (min y1 y2) : Nat) + 1)) s).2
      else
        GLIB_resetDisplayClippingArea ctx (DMD_writeColor 0 0
          (GLIB_colorTranslate24bpp ctx.foregroundColor).1
          (GLIB_colorTranslate24bpp ctx.foregroundColor).2.1
          (GLIB_colorTranslate24bpp ctx.foregroundColor).2.2
          (toU16 ((min (max y1 y2) ctx.clippingRegion.yMax : Nat) -
            (max ctx.clippingRegion.yMin (min y1 y2) : Nat) + 1))
          (DMD_setClippingArea x1 (max ctx.clippingRegion.yMin (min y1 y2)) 1
            (toU16 ((min (max y1 y2) ctx.clippingRegion.yMax : Nat) -
              (max ctx.clippingRegion.yMin (min y1 y2) : Nat) + 1)) s).2).2 := by
  unfold GLIB_drawLineV
  simp only [swap_lo, swap_hi, status_ite_eq,
    GLIB_resetDisplayClippingArea_eq, DMD_setClippingArea_fst, DMD_writeColor_fst,
    DMD_setClippingArea_calls, DMD_setClippingArea_status, DMD_writeColor_calls,
    DMD_writeColor_status, List.length_append, List.length_singleton]
  split_ifs with h1 h2 h3 h4 h5 <;> first | rfl | skip
  refine Prod.ext ?_ rfl
  have h5' : s.status (s.calls.length + 1 + 1) = 0 := by simpa using h5
  simp [h5']

/-! ## Runs of pixels -/

/-- A run that stays on one row of a window placed at the origin. -/
theorem runPixels_row (s : Surface) (x y r g b n : Nat) (hx : s.clipX = 0) (hy : s.clipY = 0)
    (hfit : x + n ≤ s.clipW) :
    runPixels s x y r g b n =
      (List.range n).map fun i => { x := x + i, y := y, red := r, green := g, blue := b } := by
  unfold runPixels
  apply List.map_congr_left
  intro i hi
  have hi' : i < n := List.mem_range.mp hi
  have h1 : (x + i) % s.clipW = x + i := Nat.mod_eq_of_lt (by omega)
  have h2 : (x + i) / s.clipW = 0 := Nat.div_eq_of_lt (by omega)
  simp [hx, hy, h1, h2]

/-- A run from the origin of a window that is one pixel wide. -/
theorem runPixels_column (s : Surface) (r g b n : Nat) (hw : s.clipW = 1) :
    runPixels s 0 0 r g b n =
      (List.range n).map fun i =>
        { x := s.clipX, y := s.clipY + i, red := r, green := g, blue := b } := by
  unfold runPixels
  apply List.map_congr_left
  intro i _
  simp [hw, Nat.mod_one]


/-! ## Pixel writes stay inside the clip region -/

theorem ExtendsInClip.refl (ctx : GLIB_Context) (s : Surface) : ExtendsInClip ctx s s :=
  ⟨[], by simp, by simp⟩

theorem ExtendsInClip.of_pixels_eq {ctx : GLIB_Context} {s t : Surface}
    (h : t.pixels = s.pixels) : ExtendsInClip ctx s t :=
  ⟨[], by simp [h], by simp⟩

theorem ExtendsInClip.trans {ctx : GLIB_Context} {s t u : Surface}
    (h1 : ExtendsInClip ctx s t) (h2 : ExtendsInClip ctx t u) : ExtendsInClip ctx s u := by
  obtain ⟨l1, e1, p1⟩ := h1
  obtain ⟨l2, e2, p2⟩ := h2
  refine ⟨l1 ++ l2, by rw [e2, e1, List.append_assoc], ?_⟩
  intro p hp
  rcases List.mem_append.mp hp with h | h
  · exact p1 p h
  · exact p2 p h

theorem GLIB_rectContainsPoint_eq_one {r : GLIB_Rectangle} {x y : Nat} :
    GLIB_rectContainsPoint r x y = 1 ↔ r.xMin ≤ x ∧ x ≤ r.xMax ∧ r.yMin ≤ y ∧ y ≤ r.yMax := by
  unfold GLIB_rectContainsPoint
  split_ifs <;> simp <;> omega

/-- After a successful reset the hardware clip window is the full display, so
a run that fits on its row writes consecutive pixels of that row. -/
theorem runPixels_after_reset (ctx : GLIB_Context) (s : Surface)
    (hs : s.status s.calls.length = 0) (x y r g b n : Nat)
    (hfit : x + n ≤ ctx.pDisplayGeometry.xSize) :
    runPixels (DMD_setClippingArea 0 0 ctx.pDisplayGeometry.xSize
        ctx.pDisplayGeometry.ySize s).2 x y r g b n =
      (List.range n).map fun i => { x := x + i, y := y, red := r, green := g, blue := b } := by
  obtain ⟨hx, hy, hw, _⟩ := DMD_setClippingArea_window 0 0 ctx.pDisplayGeometry.xSize
    ctx.pDisplayGeometry.ySize s hs
  exact runPixels_row _ _ _ _ _ _ _ hx hy (by rw [hw]; exact hfit)

theorem GLIB_drawPixelColor_eq (ctx : GLIB_Context) (x y color : Nat) (s : Surface) :
    GLIB_drawPixelColor ctx x y color s =
      if GLIB_rectContainsPoint ctx.clippingRegion x y = 1 then
        if s.status s.calls.length ≠ 0 then GLIB_resetDisplayClippingArea ctx s
        else DMD_writeColor x y (GLIB_colorTranslate24bpp color).1
          (GLIB_colorTranslate24bpp color).2.1 (GLIB_colorTranslate24bpp color).2.2 1
          (GLIB_resetDisplayClippingArea ctx s).2
      else (GLIB_DID_NOT_DRAW, s) := by
  unfold GLIB_drawPixelColor GLIB_drawPixelRGB
  simp only [GLIB_resetDisplayClippingArea_eq, DMD_setClippingArea_fst]

theorem GLIB_drawPixelColor_inClip (ctx : GLIB_Context) (hwf : clipWellFormed ctx)
    (x y color : Nat) (s : Surface) :
    ExtendsInClip ctx s (GLIB_drawPixelColor ctx x y color s).2 := by
  obtain ⟨_, _, hX, _, _, _⟩ := hwf
  rw [GLIB_drawPixelColor_eq]
  split_ifs with hc h1
  · exact ExtendsInClip.of_pixels_eq (by simp [GLIB_resetDisplayClippingArea_eq])
  · have hin := GLIB_rectContainsPoint_eq_one.mp hc
    have h1' : s.status s.calls.length = 0 := by simpa using h1
    unfold ExtendsInClip
    simp only [GLIB_resetDisplayClippingArea_eq, DMD_writeColor_pixels]
    split_ifs
    · refine ⟨_, by rw [DMD_setClippingArea_pixels], ?_⟩
      intro p hp
      rw [runPixels_after_reset ctx s h1' _ _ _ _ _ _ (by omega)] at hp
      simp at hp
      subst hp
      simp [inClip]; omega
    · exact ExtendsInClip.of_pixels_eq (by simp [GLIB_resetDisplayClippingArea_eq])
  · exact ExtendsInClip.refl ctx _

theorem GLIB_drawLineH_inClip (ctx : GLIB_Context) (hwf : clipWellFormed ctx)
    (x1 y1 x2 : Nat) (s : Surface) :
    ExtendsInClip ctx s (GLIB_drawLineH ctx x1 y1 x2 s).2 ∧
    RunsWithin 1 (ctx.clippingRegion.xMax - ctx.clippingRegion.xMin + 1) s
      (GLIB_drawLineH ctx x1 y1 x2 s).2 := by
  obtain ⟨hxo, _, hX, _, hXs, _⟩ := hwf
  rw [GLIB_drawLineH_eq]
  split_ifs with hy h1 hx
  · exact ⟨ExtendsInClip.refl ctx _, [], by simp, by simp⟩
  · exact ⟨ExtendsInClip.of_pixels_eq (by simp [GLIB_resetDisplayClippingArea_eq]),
      [resetCall ctx], by simp [GLIB_resetDisplayClippingArea_eq, resetCall],
      by simp [resetCall]⟩
  · exact ⟨ExtendsInClip.of_pixels_eq (by simp [GLIB_resetDisplayClippingArea_eq]),
      [resetCall ctx], by simp [GLIB_resetDisplayClippingArea_eq, resetCall],
      by simp [resetCall]⟩
  · have h1' : s.status s.calls.length = 0 := by simpa using h1
    constructor
    · unfold ExtendsInClip
      simp only [GLIB_resetDisplayClippingArea_eq, DMD_writeColor_pixels]
      split_ifs
      · refine ⟨_, by rw [DMD_setClippingArea_pixels], ?_⟩
        intro p hp
        rw [runPixels_after_reset ctx s h1' _ _ _ _ _ _ (by unfold toU32; omega)] at hp
        simp only [List.mem_map, List.mem_range] at hp
        obtain ⟨i, hi, rfl⟩ := hp
        unfold toU32 at hi
        simp only [inClip]
        omega
      · exact ExtendsInClip.of_pixels_eq (by simp [GLIB_resetDisplayClippingArea_eq])
    · refine ⟨[resetCall ctx, fgRun ctx (max ctx.clippingRegion.xMin (min x1 x2)) y1
          (toU32 ((min (max x1 x2) ctx.clippingRegion.xMax : Nat) -
            (max ctx.clippingRegion.xMin (min x1 x2) : Nat) + 1))],
        by simp [GLIB_resetDisplayClippingArea_eq, resetCall, fgRun], ?_⟩
      intro x y r g b n hmem
      simp only [resetCall, fgRun, List.mem_cons, List.mem_singleton, DMDCall.writeColor.injEq,
        List.not_mem_nil, or_false, false_or, reduceCtorEq] at hmem
      obtain ⟨_, _, _, _, _, rfl⟩ := hmem
      unfold toU32
      omega

theorem GLIB_drawLineV_inClip (ctx : GLIB_Context) (hwf : clipWellFormed ctx)
    (x1 y1 y2 : Nat) (s : Surface) :
    ExtendsInClip ctx s (GLIB_drawLineV ctx x1 y1 y2 s).2 ∧
    RunsWithin 1 (ctx.clippingRegion.yMax - ctx.clippingRegion.yMin + 1) s
      (GLIB_drawLineV ctx x1 y1 y2 s).2 := by
  obtain ⟨_, hyo, _, hY, _, hYs⟩ := hwf
  have hlen : ∀ _ : ¬(min y1 y2 > ctx.clippingRegion.yMax ∨ max y1 y2 < ctx.clippingRegion.yMin),
      toU16 ((min (max y1 y2) ctx.clippingRegion.yMax : Nat) -
        (max ctx.clippingRegion.yMin (min y1 y2) : Nat) + 1) =
      min (max y1 y2) ctx.clippingRegion.yMax - max ctx.clippingRegion.yMin (min y1 y2) + 1 := by
    intro h; unfold toU16; omega
  rw [GLIB_drawLineV_eq]
  split_ifs with hx hy h1 h2
  · exact ⟨ExtendsInClip.refl ctx _, [], by simp, by simp⟩
  · exact ⟨ExtendsInClip.refl ctx _, [], by simp, by simp⟩
  · rw [hlen hy]
    exact ⟨ExtendsInClip.of_pixels_eq (by simp),
      [DMDCall.setClippingArea x1 (max ctx.clippingRegion.yMin (min y1 y2)) 1
        (min (max y1 y2) ctx.clippingRegion.yMax - max ctx.clippingRegion.yMin (min y1 y2) + 1)],
      DMD_setClippingArea_calls _ _ _ _ _, by simp⟩
  · have h1' : s.status s.calls.length = 0 := by simpa using h1
    rw [hlen hy]
    refine ⟨ExtendsInClip.of_pixels_eq ?_,
      [DMDCall.setClippingArea x1 (max ctx.clippingRegion.yMin (min y1 y2)) 1
        (min (max y1 y2) ctx.clippingRegion.yMax - max ctx.clippingRegion.yMin (min y1 y2) + 1),
       fgRun ctx 0 0
        (min (max y1 y2) ctx.clippingRegion.yMax - max ctx.clippingRegion.yMin (min y1 y2) + 1)],
      ?_, ?_⟩
    · simp [DMD_writeColor_pixels, h2]
    · simp [fgRun]
    · intro x y r g b n hmem
      simp only [fgRun, List.mem_cons, List.mem_singleton, DMDCall.writeColor.injEq,
        List.not_mem_nil, or_false, false_or, reduceCtorEq] at hmem
      obtain ⟨_, _, _, _, _, rfl⟩ := hmem
      omega
  · have h1' : s.status s.calls.length = 0 := by simpa using h1
    have h2' : s.status (s.calls.length + 1) = 0 := by simpa using h2
    rw [hlen hy, GLIB_resetDisplayClippingArea_eq]
    refine ⟨⟨runPixels (DMD_setClippingArea x1 (max ctx.clippingRegion.yMin (min y1 y2)) 1
        (min (max y1 y2) ctx.clippingRegion.yMax - max ctx.clippingRegion.yMin (min y1 y2) + 1)
        s).2 0 0 (GLIB_colorTranslate24bpp ctx.foregroundColor).1
        (GLIB_colorTranslate24bpp ctx.foregroundColor).2.1
        (GLIB_colorTranslate24bpp ctx.foregroundColor).2.2
        (min (max y1 y2) ctx.clippingRegion.yMax - max ctx.clippingRegion.yMin (min y1 y2) + 1),
        ?e, ?m⟩,
      [DMDCall.setClippingArea x1 (max ctx.clippingRegion.yMin (min y1 y2)) 1
        (min (max y1 y2) ctx.clippingRegion.yMax - max ctx.clippingRegion.yMin (min y1 y2) + 1),
       fgRun ctx 0 0
        (min (max y1 y2) ctx.clippingRegion.yMax - max ctx.clippingRegion.yMin (min y1 y2) + 1),
       resetCall ctx],
      ?_, ?_⟩
    case e =>
      rw [DMD_setClippingArea_pixels, DMD_writeColor_pixels, DMD_setClippingArea_pixels,
        DMD_setClippingArea_calls, DMD_setClippingArea_status, List.length_append,
        List.length_singleton, if_pos h2']
    case m =>
      intro p hp
      obtain ⟨hcx, hcy, hcw, _⟩ := DMD_setClippingArea_window x1
        (max ctx.clippingRegion.yMin (min y1 y2)) 1
        (min (max y1 y2) ctx.clippingRegion.yMax - max ctx.clippingRegion.yMin (min y1 y2) + 1)
        s h1'
      rw [runPixels_column _ _ _ _ _ hcw, hcx, hcy] at hp
      simp only [List.mem_map, List.mem_range] at hp
      obtain ⟨i, hi, rfl⟩ := hp
      simp only [inClip]
      omega
    · simp [fgRun, resetCall]
    · intro x y r g b n hmem
      simp only [fgRun, resetCall, List.mem_cons, List.mem_singleton, DMDCall.writeColor.injEq,
        List.not_mem_nil, or_false, false_or, reduceCtorEq] at hmem
      obtain ⟨_, _, _, _, _, rfl⟩ := hmem
      omega

/-- One iteration of the rasterisation loop. -/
theorem lineLoop_succ (ctx : GLIB_Context) (steep : Bool) (deltaX deltaY yStep : Int)
    (x2 fuel x1 y1 : Nat) (error : Int) (s : Surface) :
    lineLoop ctx steep deltaX deltaY yStep x2 (fuel + 1) x1 y1 error s =
      if x1 ≤ x2 then
        if (if steep then GLIB_drawPixel ctx y1 x1 s else GLIB_drawPixel ctx x1 y1 s).1 ≠ 0 then
          some (if steep then GLIB_drawPixel ctx y1 x1 s else GLIB_drawPixel ctx x1 y1 s)
        else if toI16 (error + deltaY) > 0 then
          lineLoop ctx steep deltaX deltaY yStep x2 fuel (toU16 ((x1 : Int) + 1))
            (toU16 ((y1 : Int) + yStep)) (toI16 (toI16 (error + deltaY) - deltaX))
            (if steep then GLIB_drawPixel ctx y1 x1 s else GLIB_drawPixel ctx x1 y1 s).2
        else
          lineLoop ctx steep deltaX deltaY yStep x2 fuel (toU16 ((x1 : Int) + 1)) y1
            (toI16 (error + deltaY))
            (if steep then GLIB_drawPixel ctx y1 x1 s else GLIB_drawPixel ctx x1 y1 s).2
      else some (GLIB_OK, s) := rfl

theorem lineLoop_inClip (ctx : GLIB_Context) (hwf : clipWellFormed ctx) (steep : Bool)
    (deltaX deltaY yStep : Int) (x2 : Nat) :
    ∀ (fuel x1 y1 : Nat) (error : Int) (s : Surface) (r : EMSTATUS × Surface),
      lineLoop ctx steep deltaX deltaY yStep x2 fuel x1 y1 error s = some r →
      ExtendsInClip ctx s r.2 := by
  intro fuel
  induction fuel with
  | zero => intro x1 y1 error s r h; simp [lineLoop] at h
  | succ n ih =>
    intro x1 y1 error s r h
    rw [lineLoop_succ] at h
    have hpix : ExtendsInClip ctx s
        (if steep then GLIB_drawPixel ctx y1 x1 s else GLIB_drawPixel ctx x1 y1 s).2 := by
      split_ifs
      · exact GLIB_drawPixelColor_inClip ctx hwf _ _ _ s
      · exact GLIB_drawPixelColor_inClip ctx hwf _ _ _ s
    by_cases hle : x1 ≤ x2
    · rw [if_pos hle] at h
      by_cases hst : (if steep then GLIB_drawPixel ctx y1 x1 s
          else GLIB_drawPixel ctx x1 y1 s).1 ≠ 0
      · rw [if_pos hst] at h
        cases h; exact hpix
      · rw [if_neg hst] at h
        by_cases herr : toI16 (error + deltaY) > 0
        · rw [if_pos herr] at h
          exact hpix.trans (ih _ _ _ _ _ h)
        · rw [if_neg herr] at h
          exact hpix.trans (ih _ _ _ _ _ h)
    · rw [if_neg hle] at h
      cases h; exact ExtendsInClip.refl ctx s

/-- The general path of `GLIB_drawLine`, for a segment that is not
axis-aligned. -/
theorem GLIB_drawLine_general (fuel : Nat) (ctx : GLIB_Context) (x1 y1 x2 y2 : Nat) (s : Surface)
    (hx : x1 ≠ x2) (hy : y1 ≠ y2) :
    GLIB_drawLine fuel ctx x1 y1 x2 y2 s =
      if s.status s.calls.length ≠ 0 then some (GLIB_resetDisplayClippingArea ctx s)
      else
        match GLIB_clipLine ctx fuel 0 0 x1 y1 x2 y2 with
        | none => none
        | some c =>
          if c.1 = 0 then some (GLIB_DID_NOT_DRAW, (GLIB_resetDisplayClippingArea ctx s).2)
          else rasterLine fuel ctx c.2.1 c.2.2.1 c.2.2.2.1 c.2.2.2.2
            (GLIB_resetDisplayClippingArea ctx s).2 := by
  unfold GLIB_drawLine
  rw [if_neg hx, if_neg hy]
  simp only [GLIB_resetDisplayClippingArea_eq, DMD_setClippingArea_fst]

theorem GLIB_drawLine_inClip (ctx : GLIB_Context) (hwf : clipWellFormed ctx)
    (fuel x1 y1 x2 y2 : Nat) (s : Surface) (r : EMSTATUS × Surface)
    (h : GLIB_drawLine fuel ctx x1 y1 x2 y2 s = some r) : ExtendsInClip ctx s r.2 := by
  have hreset : ExtendsInClip ctx s (GLIB_resetDisplayClippingArea ctx s).2 :=
    ExtendsInClip.of_pixels_eq (by simp [GLIB_resetDisplayClippingArea_eq])
  by_cases hx : x1 = x2
  · rw [GLIB_drawLine, if_pos hx] at h
    cases h; exact (GLIB_drawLineV_inClip ctx hwf _ _ _ s).1
  by_cases hy : y1 = y2
  · rw [GLIB_drawLine, if_neg hx, if_pos hy] at h
    cases h; exact (GLIB_drawLineH_inClip ctx hwf _ _ _ s).1
  rw [GLIB_drawLine_general fuel ctx x1 y1 x2 y2 s hx hy] at h
  by_cases hr : s.status s.calls.length ≠ 0
  · rw [if_pos hr] at h
    cases h; exact hreset
  · rw [if_neg hr] at h
    cases hc : GLIB_clipLine ctx fuel 0 0 x1 y1 x2 y2 with
    | none => simp [hc] at h
    | some c =>
      simp only [hc] at h
      by_cases h0 : c.1 = 0
      · rw [if_pos h0] at h
        cases h; exact hreset
      · rw [if_neg h0] at h
        exact hreset.trans (lineLoop_inClip ctx hwf _ _ _ _ _ _ _ _ _ _ _ h)

/-- **C1** (clip safety).  For every context whose clip region is well-formed
and for all coordinates, the pixels written by `GLIB_drawPixelColor`,
`GLIB_drawLineH`, `GLIB_drawLineV` and `GLIB_drawLine` all lie inside the clip
region, and every pixel run issued by `GLIB_drawLineH` (`GLIB_drawLineV`) has
a length of at least 1 and at most the width (height) of the clip region. -/
theorem C1_writes_inside_clip (ctx : GLIB_Context) (hwf : clipWellFormed ctx) (s : Surface) :
    (∀ x y color, ExtendsInClip ctx s (GLIB_drawPixelColor ctx x y color s).2) ∧
    (∀ x1 y x2, ExtendsInClip ctx s (GLIB_drawLineH ctx x1 y x2 s).2 ∧
      RunsWithin 1 (ctx.clippingRegion.xMax - ctx.clippingRegion.xMin + 1) s
        (GLIB_drawLineH ctx x1 y x2 s).2) ∧
    (∀ x y1 y2, ExtendsInClip ctx s (GLIB_drawLineV ctx x y1 y2 s).2 ∧
      RunsWithin 1 (ctx.clippingRegion.yMax - ctx.clippingRegion.yMin + 1) s
        (GLIB_drawLineV ctx x y1 y2 s).2) ∧
    (∀ fuel x1 y1 x2 y2 r, GLIB_drawLine fuel ctx x1 y1 x2 y2 s = some r →
      ExtendsInClip ctx s r.2) :=
  ⟨fun x y color => GLIB_drawPixelColor_inClip ctx hwf x y color s,
   fun x1 y x2 => GLIB_drawLineH_inClip ctx hwf x1 y x2 s,
   fun x y1 y2 => GLIB_drawLineV_inClip ctx hwf x y1 y2 s,
   fun fuel x1 y1 x2 y2 r h => GLIB_drawLine_inClip ctx hwf fuel x1 y1 x2 y2 s r h⟩

/-- Witness of **C1**: the demonstration context is well-formed, and the line
from (0,0) to (30,20), which enters its clip region, writes inside the clip
region only. -/
theorem C1_writes_inside_clip_witness :
    clipWellFormed demoContext ∧
    ∃ r, GLIB_drawLine 100 demoContext 0 0 30 20 freshSurface = some r ∧
      ExtendsInClip demoContext freshSurface r.2 := by
  have hsome : (GLIB_drawLine 100 demoContext 0 0 30 20 freshSurface).isSome = true := by
    decide
  obtain ⟨r, hr⟩ := Option.isSome_iff_exists.mp hsome
  exact ⟨by decide, r, hr,
    (C1_writes_inside_clip demoContext (by decide) freshSurface).2.2.2 100 0 0 30 20 r hr⟩

/-! ## The fast paths, call by call -/

/-- `GLIB_drawLineH` when the row is inside the clip region and the reset of
the hardware clip window succeeds: a span that misses the clip region gives
`GLIB_DID_NOT_DRAW`, any other span gives one run of foreground pixels. -/
theorem GLIB_drawLineH_spec (ctx : GLIB_Context) (hwf : clipWellFormed ctx)
    (x1 y x2 : Nat) (s : Surface)
    (hy : ¬(y < ctx.clippingRegion.yMin ∨ y > ctx.clippingRegion.yMax))
    (h0 : s.status s.calls.length = 0) :
    (GLIB_drawLineH ctx x1 y x2 s).2.status = s.status ∧
    if min x1 x2 > ctx.clippingRegion.xMax ∨ max x1 x2 < ctx.clippingRegion.xMin then
      (GLIB_drawLineH ctx x1 y x2 s).1 = GLIB_DID_NOT_DRAW ∧
      Issues s (GLIB_drawLineH ctx x1 y x2 s).2 [resetCall ctx] ∧
      Writes s (GLIB_drawLineH ctx x1 y x2 s).2 []
    else
      (GLIB_drawLineH ctx x1 y x2 s).1 = s.status (s.calls.length + 1) ∧
      Issues s (GLIB_drawLineH ctx x1 y x2 s).2
        [resetCall ctx, fgRun ctx (max (min x1 x2) ctx.clippingRegion.xMin) y
          (min (max x1 x2) ctx.clippingRegion.xMax -
            max (min x1 x2) ctx.clippingRegion.xMin + 1)] ∧
      Writes s (GLIB_drawLineH ctx x1 y x2 s).2
        (if s.status (s.calls.length + 1) = 0 then
          hPixels ctx (max (min x1 x2) ctx.clippingRegion.xMin) y
            (min (max x1 x2) ctx.clippingRegion.xMax -
              max (min x1 x2) ctx.clippingRegion.xMin + 1)
         else []) := by
  obtain ⟨hxo, _, hX, _, hXs, _⟩ := hwf
  rw [GLIB_drawLineH_eq, if_neg hy, if_neg (by simpa using h0)]
  simp only [GLIB_resetDisplayClippingArea_eq]
  by_cases hx : min x1 x2 > ctx.clippingRegion.xMax ∨ max x1 x2 < ctx.clippingRegion.xMin
  · rw [if_pos hx, if_pos hx]
    exact ⟨by simp, rfl, by simp [Issues, resetCall], by simp [Writes]⟩
  · rw [if_neg hx, if_neg hx]
    have hlen : toU32 ((min (max x1 x2) ctx.clippingRegion.xMax : Nat) -
        (max ctx.clippingRegion.xMin (min x1 x2) : Nat) + 1) =
        min (max x1 x2) ctx.clippingRegion.xMax - max (min x1 x2) ctx.clippingRegion.xMin + 1 := by
      unfold toU32; omega
    have hlo : max ctx.clippingRegion.xMin (min x1 x2) = max (min x1 x2) ctx.clippingRegion.xMin :=
      Nat.max_comm _ _
    rw [hlen, hlo]
    refine ⟨by simp, by simp, by simp [Issues, resetCall, fgRun], ?_⟩
    unfold Writes
    rw [DMD_writeColor_pixels, DMD_setClippingArea_pixels, DMD_setClippingArea_calls,
      DMD_setClippingArea_status, List.length_append, List.length_singleton]
    by_cases hw : s.status (s.calls.length + 1) = 0
    · rw [if_pos hw, if_pos hw, runPixels_after_reset ctx s h0 _ _ _ _ _ _ (by omega)]
      rfl
    · rw [if_neg hw, if_neg hw, List.append_nil]

/-- `GLIB_drawLineV` when the column is inside the clip region, the span meets
the clip region and no driver call fails: one clip-windowed run. -/
theorem GLIB_drawLineV_spec (ctx : GLIB_Context) (hwf : clipWellFormed ctx)
    (x y1 y2 : Nat) (s : Surface)
    (hx : ¬(x < ctx.clippingRegion.xMin ∨ x > ctx.clippingRegion.xMax))
    (hy : ¬(min y1 y2 > ctx.clippingRegion.yMax ∨ max y1 y2 < ctx.clippingRegion.yMin))
    (h0 : s.status s.calls.length = 0) (h1 : s.status (s.calls.length + 1) = 0)
    (h2 : s.status (s.calls.length + 2) = 0) :
    (GLIB_drawLineV ctx x y1 y2 s).1 = GLIB_OK ∧
    (GLIB_drawLineV ctx x y1 y2 s).2.status = s.status ∧
    Issues s (GLIB_drawLineV ctx x y1 y2 s).2
      [DMDCall.setClippingArea x (max (min y1 y2) ctx.clippingRegion.yMin) 1
        (min (max y1 y2) ctx.clippingRegion.yMax - max (min y1 y2) ctx.clippingRegion.yMin + 1),
       fgRun ctx 0 0
        (min (max y1 y2) ctx.clippingRegion.yMax - max (min y1 y2) ctx.clippingRegion.yMin + 1),
       resetCall ctx] ∧
    Writes s (GLIB_drawLineV ctx x y1 y2 s).2
      (vPixels ctx x (max (min y1 y2) ctx.clippingRegion.yMin)
        (min (max y1 y2) ctx.clippingRegion.yMax -
          max (min y1 y2) ctx.clippingRegion.yMin + 1)) := by
  obtain ⟨_, hyo, _, hY, _, hYs⟩ := hwf
  have hlen : toU16 ((min (max y1 y2) ctx.clippingRegion.yMax : Nat) -
      (max ctx.clippingRegion.yMin (min y1 y2) : Nat) + 1) =
      min (max y1 y2) ctx.clippingRegion.yMax - max (min y1 y2) ctx.clippingRegion.yMin + 1 := by
    unfold toU16; omega
  have hlo : max ctx.clippingRegion.yMin (min y1 y2) = max (min y1 y2) ctx.clippingRegion.yMin :=
    Nat.max_comm _ _
  rw [GLIB_drawLineV_eq, if_neg hx, if_neg hy, if_neg (by simpa using h0),
    if_neg (by simpa using h1), hlen, hlo, GLIB_resetDisplayClippingArea_eq]
  refine ⟨by simpa using h2, by simp, by simp [Issues, resetCall, fgRun], ?_⟩
  unfold Writes
  rw [DMD_setClippingArea_pixels, DMD_writeColor_pixels, DMD_setClippingArea_pixels,
    DMD_setClippingArea_calls, DMD_setClippingArea_status, List.length_append,
    List.length_singleton, if_pos h1]
  obtain ⟨hcx, hcy, hcw, _⟩ := DMD_setClippingArea_window x
    (max (min y1 y2) ctx.clippingRegion.yMin) 1
    (min (max y1 y2) ctx.clippingRegion.yMax - max (min y1 y2) ctx.clippingRegion.yMin + 1)
    s h0
  rw [runPixels_column _ _ _ _ _ hcw, hcx, hcy]
  rfl

/-! ## C8: axis-aligned segments take the fast paths -/

/-- **C8** (axis-aligned dispatch).  For every context, surface state and all
coordinates, `GLIB_drawLine` on a vertical segment is `GLIB_drawLineV` (same
status, same surface calls), on a horizontal segment that is not a single
point it is `GLIB_drawLineH`, and `drawLine(0,0,10,0)` is `drawLineH(0,0,10)`. -/
theorem C8_drawLine_axis_aligned (fuel : Nat) (ctx : GLIB_Context) (s : Surface) :
    (∀ x y1 y2, GLIB_drawLine fuel ctx x y1 x y2 s = some (GLIB_drawLineV ctx x y1 y2 s)) ∧
    (∀ x1 x2 y, GLIB_drawLine fuel ctx x1 y x2 y s =
      if x1 = x2 then some (GLIB_drawLineV ctx x1 y y s)
      else some (GLIB_drawLineH ctx x1 y x2 s)) ∧
    GLIB_drawLine fuel ctx 0 0 10 0 s = some (GLIB_drawLineH ctx 0 0 10 s) := by
  refine ⟨?_, ?_, ?_⟩
  · intro x y1 y2
    rw [GLIB_drawLine, if_pos rfl]
  · intro x1 x2 y
    by_cases h : x1 = x2
    · subst h
      rw [GLIB_drawLine, if_pos rfl, if_pos rfl]
    · rw [GLIB_drawLine, if_neg h, if_pos rfl, if_neg h]
  · rw [GLIB_drawLine, if_neg (by decide), if_pos rfl]

/-! ## C6: the horizontal fast path -/

/-- Counterexample to **C6** as stated.  In the demonstration context (clip
columns 10..200, rows 10..100) with a driver whose first call fails with
status 9: the span 0..5 of row 50 misses the clip region, yet the result is
not `GLIB_DID_NOT_DRAW`; and the span 20..30 of row 50 meets the clip region,
yet the only driver call issued is the failed reset, not a pixel run. -/
theorem C6_drawLineH_counterexample :
    clipWellFormed demoContext ∧
    (max 0 5 < demoContext.clippingRegion.xMin ∧
      (GLIB_drawLineH demoContext 0 50 5 (failingSurface 0 9)).1 ≠ GLIB_DID_NOT_DRAW) ∧
    (GLIB_drawLineH demoContext 20 50 30 (failingSurface 0 9)).1 = 9 ∧
    (GLIB_drawLineH demoContext 20 50 30 (failingSurface 0 9)).2.calls =
      [resetCall demoContext] := by
  decide

/-- **C6**, amended.  For every context with a well-formed clip region:
`GLIB_drawLineH` returns `GLIB_DID_NOT_DRAW` without any driver call when the
row is outside the clip rows; otherwise it resets the hardware clip window,
and when that call fails it returns the failure and writes nothing; otherwise
it returns `GLIB_DID_NOT_DRAW` without writing when the span misses the clip
columns; otherwise it issues exactly one run of foreground pixels, starting at
`(max (min x1 x2) xMin, y)` and of length
`min (max x1 x2) xMax - max (min x1 x2) xMin + 1`, and returns the status of
that write (the pixels of the run are written when the status is 0). -/
theorem C6_drawLineH_amended (ctx : GLIB_Context) (hwf : clipWellFormed ctx)
    (x1 y x2 : Nat) (s : Surface) :
    ((y < ctx.clippingRegion.yMin ∨ y > ctx.clippingRegion.yMax) →
      GLIB_drawLineH ctx x1 y x2 s = (GLIB_DID_NOT_DRAW, s)) ∧
    (¬(y < ctx.clippingRegion.yMin ∨ y > ctx.clippingRegion.yMax) →
      s.status s.calls.length ≠ 0 →
      (GLIB_drawLineH ctx x1 y x2 s).1 = s.status s.calls.length ∧
      Issues s (GLIB_drawLineH ctx x1 y x2 s).2 [resetCall ctx] ∧
      Writes s (GLIB_drawLineH ctx x1 y x2 s).2 []) ∧
    (¬(y < ctx.clippingRegion.yMin ∨ y > ctx.clippingRegion.yMax) →
      s.status s.calls.length = 0 →
      (min x1 x2 > ctx.clippingRegion.xMax ∨ max x1 x2 < ctx.clippingRegion.xMin) →
      (GLIB_drawLineH ctx x1 y x2 s).1 = GLIB_DID_NOT_DRAW ∧
      Issues s (GLIB_drawLineH ctx x1 y x2 s).2 [resetCall ctx] ∧
      Writes s (GLIB_drawLineH ctx x1 y x2 s).2 []) ∧
    (¬(y < ctx.clippingRegion.yMin ∨ y > ctx.clippingRegion.yMax) →
      s.status s.calls.length = 0 →
      ¬(min x1 x2 > ctx.clippingRegion.xMax ∨ max x1 x2 < ctx.clippingRegion.xMin) →
      (GLIB_drawLineH ctx x1 y x2 s).1 = s.status (s.calls.length + 1) ∧
      Issues s (GLIB_drawLineH ctx x1 y x2 s).2
        [resetCall ctx, fgRun ctx (max (min x1 x2) ctx.clippingRegion.xMin) y
          (min (max x1 x2) ctx.clippingRegion.xMax -
            max (min x1 x2) ctx.clippingRegion.xMin + 1)] ∧
      Writes s (GLIB_drawLineH ctx x1 y x2 s).2
        (if s.status (s.calls.length + 1) = 0 then
          hPixels ctx (max (min x1 x2) ctx.clippingRegion.xMin) y
            (min (max x1 x2) ctx.clippingRegion.xMax -
              max (min x1 x2) ctx.clippingRegion.xMin + 1)
         else [])) := by
  refine ⟨?_, ?_, ?_, ?_⟩
  · intro hy
    rw [GLIB_drawLineH_eq, if_pos hy]
  · intro hy h0
    rw [GLIB_drawLineH_eq, if_neg hy, if_pos h0, GLIB_resetDisplayClippingArea_eq]
    exact ⟨by simp, by simp [Issues, resetCall], by simp [Writes]⟩
  · intro hy h0 hx
    have h := (GLIB_drawLineH_spec ctx hwf x1 y x2 s hy h0).2
    rw [if_pos hx] at h
    exact h
  · intro hy h0 hx
    have h := (GLIB_drawLineH_spec ctx hwf x1 y x2 s hy h0).2
    rw [if_neg hx] at h
    exact h

/-- Witness of **C6**, amended: in the demonstration context the line
`drawLineH(0, 50, 300)` is one run of 191 pixels from column 10. -/
theorem C6_drawLineH_amended_witness :
    clipWellFormed demoContext ∧
    (GLIB_drawLineH demoContext 0 50 300 freshSurface).1 = GLIB_OK ∧
    Issues freshSurface (GLIB_drawLineH demoContext 0 50 300 freshSurface).2
      [resetCall demoContext, fgRun demoContext 10 50 191] ∧
    Writes freshSurface (GLIB_drawLineH demoContext 0 50 300 freshSurface).2
      (hPixels demoContext 10 50 191) :=
  ⟨by decide,
   (C6_drawLineH_amended demoContext (by decide) 0 50 300 freshSurface).2.2.2
     (by decide) (by decide) (by decide)⟩

/-! ## C7: the vertical fast path -/

/-- Counterexample to **C7** as stated.  In the demonstration context with a
driver whose first call fails with status 9, `drawLineV(50, 20, 30)` lies
inside the clip region, yet it writes no pixel and its only driver call is the
failed clip-window call. -/
theorem C7_drawLineV_counterexample :
    clipWellFormed demoContext ∧
    ¬(50 < demoContext.clippingRegion.xMin ∨ 50 > demoContext.clippingRegion.xMax) ∧
    ¬(min 20 30 > demoContext.clippingRegion.yMax ∨ max 20 30 < demoContext.clippingRegion.yMin) ∧
    (GLIB_drawLineV demoContext 50 20 30 (failingSurface 0 9)).1 = 9 ∧
    (GLIB_drawLineV demoContext 50 20 30 (failingSurface 0 9)).2.pixels = [] ∧
    (GLIB_drawLineV demoContext 50 20 30 (failingSurface 0 9)).2.calls =
      [DMDCall.setClippingArea 50 20 1 11] := by
  decide

/-- **C7**, amended.  For every context with a well-formed clip region:
`GLIB_drawLineV` returns `GLIB_DID_NOT_DRAW` without any driver call when the
column is outside the clip columns or the span misses the clip rows;
otherwise, provided none of its three driver calls fails, it returns
`GLIB_OK`, issues exactly the clip window `(x, lo, 1, hi-lo+1)`, one run of
`hi-lo+1` foreground pixels and the reset to the full display, and writes
exactly the pixels `(x, lo) .. (x, hi)`, with `lo = max (min y1 y2) yMin` and
`hi = min (max y1 y2) yMax`. -/
theorem C7_drawLineV_amended (ctx : GLIB_Context) (hwf : clipWellFormed ctx)
    (x y1 y2 : Nat) (s : Surface) :
    ((x < ctx.clippingRegion.xMin ∨ x > ctx.clippingRegion.xMax) ∨
      (min y1 y2 > ctx.clippingRegion.yMax ∨ max y1 y2 < ctx.clippingRegion.yMin) →
      GLIB_drawLineV ctx x y1 y2 s = (GLIB_DID_NOT_DRAW, s)) ∧
    (¬(x < ctx.clippingRegion.xMin ∨ x > ctx.clippingRegion.xMax) →
      ¬(min y1 y2 > ctx.clippingRegion.yMax ∨ max y1 y2 < ctx.clippingRegion.yMin) →
      s.status s.calls.length = 0 → s.status (s.calls.length + 1) = 0 →
      s.status (s.calls.length + 2) = 0 →
      (GLIB_drawLineV ctx x y1 y2 s).1 = GLIB_OK ∧
      Issues s (GLIB_drawLineV ctx x y1 y2 s).2
        [DMDCall.setClippingArea x (max (min y1 y2) ctx.clippingRegion.yMin) 1
          (min (max y1 y2) ctx.clippingRegion.yMax -
            max (min y1 y2) ctx.clippingRegion.yMin + 1),
         fgRun ctx 0 0
          (min (max y1 y2) ctx.clippingRegion.yMax -
            max (min y1 y2) ctx.clippingRegion.yMin + 1),
         resetCall ctx] ∧
      Writes s (GLIB_drawLineV ctx x y1 y2 s).2
        (vPixels ctx x (max (min y1 y2) ctx.clippingRegion.yMin)
          (min (max y1 y2) ctx.clippingRegion.yMax -
            max (min y1 y2) ctx.clippingRegion.yMin + 1))) := by
  refine ⟨?_, ?_⟩
  · intro h
    rw [GLIB_drawLineV_eq]
    by_cases hx : x < ctx.clippingRegion.xMin ∨ x > ctx.clippingRegion.xMax
    · rw [if_pos hx]
    · rw [if_neg hx, if_pos (h.resolve_left hx)]
  · intro hx hy h0 h1 h2
    obtain ⟨e1, _, e3, e4⟩ := GLIB_drawLineV_spec ctx hwf x y1 y2 s hx hy h0 h1 h2
    exact ⟨e1, e3, e4⟩

/-- Witness of **C7**, amended: in the demonstration context the line
`drawLineV(50, 0, 30)` is the run of the 21 pixels (50,10) .. (50,30). -/
theorem C7_drawLineV_amended_witness :
    clipWellFormed demoContext ∧
    (GLIB_drawLineV demoContext 50 0 30 freshSurface).1 = GLIB_OK ∧
    Issues freshSurface (GLIB_drawLineV demoContext 50 0 30 freshSurface).2
      [DMDCall.setClippingArea 50 10 1 21, fgRun demoContext 0 0 21, resetCall demoContext] ∧
    Writes freshSurface (GLIB_drawLineV demoContext 50 0 30 freshSurface).2
      (vPixels demoContext 50 10 21) :=
  ⟨by decide,
   (C7_drawLineV_amended demoContext (by decide) 50 0 30 freshSurface).2
     (by decide) (by decide) rfl rfl rfl⟩

/-! ## Rectangles -/

theorem GLIB_normalizeRect_fields (r : GLIB_Rectangle) :
    (GLIB_normalizeRect r).xMin = min r.xMin r.xMax ∧
    (GLIB_normalizeRect r).xMax = max r.xMin r.xMax ∧
    (GLIB_normalizeRect r).yMin = min r.yMin r.yMax ∧
    (GLIB_normalizeRect r).yMax = max r.yMin r.yMax := by
  unfold GLIB_normalizeRect
  simp only []
  split_ifs <;> (simp at *) <;> omega

theorem clampRect_fields (ctx : GLIB_Context) (t : GLIB_Rectangle) :
    (clampRect ctx t).xMin = max t.xMin ctx.clippingRegion.xMin ∧
    (clampRect ctx t).xMax = min t.xMax ctx.clippingRegion.xMax ∧
    (clampRect ctx t).yMin = max t.yMin ctx.clippingRegion.yMin ∧
    (clampRect ctx t).yMax = min t.yMax ctx.clippingRegion.yMax := by
  unfold clampRect
  simp only []
  split_ifs <;> (simp at *) <;> omega

/-- The pixels of a filled window are the pixels of the rectangle it covers. -/
theorem mem_rectPixels (ctx : GLIB_Context) (x0 y0 w h : Nat) (p : Pixel) :
    p ∈ rectPixels ctx x0 y0 w h ↔
      ∃ x y, p = fgPixel ctx x y ∧ x0 ≤ x ∧ x < x0 + w ∧ y0 ≤ y ∧ y < y0 + h := by
  unfold rectPixels
  simp only [List.mem_map, List.mem_range]
  constructor
  · rintro ⟨i, hi, rfl⟩
    have hw : 0 < w := by
      rcases Nat.eq_zero_or_pos w with h0 | h0
      · subst h0; simp at hi
      · exact h0
    refine ⟨x0 + i % w, y0 + i / w, rfl, Nat.le_add_right _ _, ?_, Nat.le_add_right _ _, ?_⟩
    · have := Nat.mod_lt i hw; omega
    · have : i / w < h := Nat.div_lt_of_lt_mul hi
      omega
  · rintro ⟨x, y, rfl, hx0, hx1, hy0, hy1⟩
    have hw : 0 < w := by omega
    refine ⟨(y - y0) * w + (x - x0), ?_, ?_⟩
    · calc (y - y0) * w + (x - x0) < (y - y0) * w + w := by omega
        _ = (y - y0 + 1) * w := by ring
        _ ≤ h * w := Nat.mul_le_mul_right w (by omega)
        _ = w * h := Nat.mul_comm _ _
    · have h1 : ((y - y0) * w + (x - x0)) % w = x - x0 := by
        rw [Nat.add_comm, Nat.add_mul_mod_self_right]
        exact Nat.mod_eq_of_lt (by omega)
      have h2 : ((y - y0) * w + (x - x0)) / w = y - y0 := by
        rw [Nat.add_comm, Nat.add_mul_div_right _ _ hw, Nat.div_eq_of_lt (by omega)]
        omega
      rw [h1, h2]
      congr 1 <;> omega

theorem toU32_toI32 {v : Int} (h0 : 0 ≤ v) (h1 : v < 4294967296) :
    toU32 (toI32 v) = v.toNat := by
  unfold toU32 toI32; omega

/-- Clamping the interval `[a, b]` to the interval `[lo, hi]` that it overlaps. -/
theorem clamp_interval (a b lo hi : Nat) (o1 : a ≤ hi) (o2 : lo ≤ b) (hab : a ≤ b)
    (hl : lo ≤ hi) :
    max a lo ≤ min b hi ∧ lo ≤ max a lo ∧ min b hi ≤ hi := by
  omega

theorem clamp_interval_mem (a b lo hi x : Nat) (o1 : a ≤ hi) (o2 : lo ≤ b) (hab : a ≤ b)
    (hl : lo ≤ hi) :
    (max a lo ≤ x ∧ x < max a lo + (min b hi - max a lo + 1)) ↔
      (a ≤ x ∧ x ≤ b) ∧ (lo ≤ x ∧ x ≤ hi) := by
  omega

theorem GLIB_normalizeRect_ordered (r : GLIB_Rectangle) :
    (GLIB_normalizeRect r).xMin ≤ (GLIB_normalizeRect r).xMax ∧
    (GLIB_normalizeRect r).yMin ≤ (GLIB_normalizeRect r).yMax := by
  obtain ⟨n1, n2, n3, n4⟩ := GLIB_normalizeRect_fields r
  rw [n1, n2, n3, n4]
  exact ⟨by omega, by omega⟩

/-- The clamped rectangle of a normalised rectangle that overlaps a well-formed
clip region is ordered and lies inside the clip region. -/
theorem clampRect_ordered (ctx : GLIB_Context) (hwf : clipWellFormed ctx)
    (rect : GLIB_Rectangle) (hov : overlapsClip ctx (GLIB_normalizeRect rect)) :
    ((clampRect ctx (GLIB_normalizeRect rect)).xMin ≤
        (clampRect ctx (GLIB_normalizeRect rect)).xMax ∧
      ctx.clippingRegion.xMin ≤ (clampRect ctx (GLIB_normalizeRect rect)).xMin ∧
      (clampRect ctx (GLIB_normalizeRect rect)).xMax ≤ ctx.clippingRegion.xMax) ∧
    ((clampRect ctx (GLIB_normalizeRect rect)).yMin ≤
        (clampRect ctx (GLIB_normalizeRect rect)).yMax ∧
      ctx.clippingRegion.yMin ≤ (clampRect ctx (GLIB_normalizeRect rect)).yMin ∧
      (clampRect ctx (GLIB_normalizeRect rect)).yMax ≤ ctx.clippingRegion.yMax) := by
  obtain ⟨hxo, hyo, _, _, _, _⟩ := hwf
  obtain ⟨o1, o2, o3, o4⟩ := hov
  obtain ⟨c1, c2, c3, c4⟩ := clampRect_fields ctx (GLIB_normalizeRect rect)
  obtain ⟨hnx, hny⟩ := GLIB_normalizeRect_ordered rect
  rw [c1, c2, c3, c4]
  exact ⟨clamp_interval _ _ _ _ o1 o2 hnx hxo, clamp_interval _ _ _ _ o3 o4 hny hyo⟩

/-- `GLIB_drawRectFilled` when the normalised rectangle overlaps the clip
region and no driver call fails. -/
theorem GLIB_drawRectFilled_spec (ctx : GLIB_Context) (hwf : clipWellFormed ctx)
    (rect : GLIB_Rectangle) (s : Surface)
    (hov : overlapsClip ctx (GLIB_normalizeRect rect))
    (h0 : s.status s.calls.length = 0) (h1 : s.status (s.calls.length + 1) = 0)
    (h2 : s.status (s.calls.length + 2) = 0) :
    (GLIB_drawRectFilled ctx rect s).1 = GLIB_OK ∧
    Issues s (GLIB_drawRectFilled ctx rect s).2
      [DMDCall.setClippingArea (clampRect ctx (GLIB_normalizeRect rect)).xMin
        (clampRect ctx (GLIB_normalizeRect rect)).yMin
        ((clampRect ctx (GLIB_normalizeRect rect)).xMax -
          (clampRect ctx (GLIB_normalizeRect rect)).xMin + 1)
        ((clampRect ctx (GLIB_normalizeRect rect)).yMax -
          (clampRect ctx (GLIB_normalizeRect rect)).yMin + 1),
       fgRun ctx 0 0
        (((clampRect ctx (GLIB_normalizeRect rect)).xMax -
          (clampRect ctx (GLIB_normalizeRect rect)).xMin + 1) *
         ((clampRect ctx (GLIB_normalizeRect rect)).yMax -
          (clampRect ctx (GLIB_normalizeRect rect)).yMin + 1)),
       resetCall ctx] ∧
    Writes s (GLIB_drawRectFilled ctx rect s).2
      (rectPixels ctx (clampRect ctx (GLIB_normalizeRect rect)).xMin
        (clampRect ctx (GLIB_normalizeRect rect)).yMin
        ((clampRect ctx (GLIB_normalizeRect rect)).xMax -
          (clampRect ctx (GLIB_normalizeRect rect)).xMin + 1)
        ((clampRect ctx (GLIB_normalizeRect rect)).yMax -
          (clampRect ctx (GLIB_normalizeRect rect)).yMin + 1)) := by
  obtain ⟨⟨x1, x2, x3⟩, ⟨y1, y2, y3⟩⟩ := clampRect_ordered ctx hwf rect hov
  obtain ⟨_, _, hX, hY, hXs, hYs⟩ := hwf
  clear hov
  set t := clampRect ctx (GLIB_normalizeRect rect) with ht
  have hw : toU16 ((t.xMax : Int) - (t.xMin : Int) + 1) = t.xMax - t.xMin + 1 := by
    unfold toU16; omega
  have hh : toU16 ((t.yMax : Int) - (t.yMin : Int) + 1) = t.yMax - t.yMin + 1 := by
    unfold toU16; omega
  have hprod : (t.xMax - t.xMin + 1) * (t.yMax - t.yMin + 1) < 4294967296 := by
    calc (t.xMax - t.xMin + 1) * (t.yMax - t.yMin + 1)
        ≤ 65535 * 65535 := Nat.mul_le_mul (by omega) (by omega)
      _ < 4294967296 := by norm_num
  have hn : toU32 (toI32 (((t.xMax - t.xMin + 1 : Nat) : Int) * ((t.yMax - t.yMin + 1 : Nat) : Int)))
      = (t.xMax - t.xMin + 1) * (t.yMax - t.yMin + 1) := by
    rw [← Int.natCast_mul, toU32_toI32 (Int.natCast_nonneg _) (by exact_mod_cast hprod)]
    exact Int.toNat_natCast _
  have h2' : s.status (s.calls.length + 1 + 1) = 0 := h2
  unfold GLIB_drawRectFilled
  simp only [← ht, hw, hh, hn, DMD_setClippingArea_fst, DMD_writeColor_fst,
    DMD_setClippingArea_calls, DMD_setClippingArea_status, DMD_writeColor_calls,
    DMD_writeColor_status, List.length_append, List.length_singleton, h0, h1, h2', ne_eq,
    not_true_eq_false, if_false, GLIB_resetDisplayClippingArea_eq]
  refine ⟨trivial, by simp [Issues, resetCall, fgRun], ?_⟩
  unfold Writes
  rw [DMD_setClippingArea_pixels, DMD_writeColor_pixels, DMD_setClippingArea_pixels,
    DMD_setClippingArea_calls, DMD_setClippingArea_status, List.length_append,
    List.length_singleton, if_pos h1]
  obtain ⟨hcx, hcy, hcw, _⟩ := DMD_setClippingArea_window t.xMin t.yMin
    (t.xMax - t.xMin + 1) (t.yMax - t.yMin + 1) s h0
  unfold runPixels rectPixels
  rw [hcx, hcy, hcw]
  simp [fgPixel]

theorem fgPixel_inj {ctx : GLIB_Context} {x y x' y' : Nat}
    (h : fgPixel ctx x y = fgPixel ctx x' y') : x = x' ∧ y = y' := by
  unfold fgPixel at h
  simp only [Pixel.mk.injEq] at h
  exact ⟨h.1, h.2.1⟩

theorem rectPixels_nodup (ctx : GLIB_Context) (x0 y0 w h : Nat) :
    (rectPixels ctx x0 y0 w h).Nodup := by
  unfold rectPixels
  refine List.Nodup.map_on ?_ (List.nodup_range _)
  intro i _ j _ hij
  obtain ⟨hx, hy⟩ := fgPixel_inj hij
  have hm : i % w = j % w := by omega
  have hd : i / w = j / w := by omega
  rw [← Nat.div_add_mod i w, ← Nat.div_add_mod j w, hm, hd]

theorem rectPixels_length (ctx : GLIB_Context) (x0 y0 w h : Nat) :
    (rectPixels ctx x0 y0 w h).length = w * h := by
  simp [rectPixels]

/-! ## C10: filled rectangles -/

/-- Counterexample to **C10** as stated.  In the demonstration context with a
driver whose first call fails with status 9, the rectangle (10,10,20,20) lies
inside the clip region, yet `GLIB_drawRectFilled` writes no pixel and issues
the failed clip-window call only. -/
theorem C10_drawRectFilled_counterexample :
    clipWellFormed demoContext ∧
    overlapsClip demoContext (GLIB_normalizeRect ⟨10, 10, 20, 20⟩) ∧
    (GLIB_drawRectFilled demoContext ⟨10, 10, 20, 20⟩ (failingSurface 0 9)).1 = 9 ∧
    (GLIB_drawRectFilled demoContext ⟨10, 10, 20, 20⟩ (failingSurface 0 9)).2.pixels = [] ∧
    (GLIB_drawRectFilled demoContext ⟨10, 10, 20, 20⟩ (failingSurface 0 9)).2.calls =
      [DMDCall.setClippingArea 10 10 11 11] := by
  decide

/-- **C10**, amended.  For every context with a well-formed clip region and
every rectangle whose normalised form overlaps the clip region, provided none
of its three driver calls fails, `GLIB_drawRectFilled` returns `GLIB_OK` and
issues exactly: the clip window `(xMin', yMin', width, height)` of the clamped
rectangle, one run of `width * height` foreground pixels, and the reset to the
full display.  The pixels written are pairwise distinct, there are
`width * height` of them, and they are exactly the foreground pixels of the
intersection of the normalised rectangle with the clip region. -/
theorem C10_drawRectFilled_amended (ctx : GLIB_Context) (hwf : clipWellFormed ctx)
    (rect : GLIB_Rectangle) (s : Surface)
    (hov : overlapsClip ctx (GLIB_normalizeRect rect))
    (h0 : s.status s.calls.length = 0) (h1 : s.status (s.calls.length + 1) = 0)
    (h2 : s.status (s.calls.length + 2) = 0) :
    (GLIB_drawRectFilled ctx rect s).1 = GLIB_OK ∧
    Issues s (GLIB_drawRectFilled ctx rect s).2
      [DMDCall.setClippingArea (clampRect ctx (GLIB_normalizeRect rect)).xMin
        (clampRect ctx (GLIB_normalizeRect rect)).yMin
        ((clampRect ctx (GLIB_normalizeRect rect)).xMax -
          (clampRect ctx (GLIB_normalizeRect rect)).xMin + 1)
        ((clampRect ctx (GLIB_normalizeRect rect)).yMax -
          (clampRect ctx (GLIB_normalizeRect rect)).yMin + 1),
       fgRun ctx 0 0
        (((clampRect ctx (GLIB_normalizeRect rect)).xMax -
          (clampRect ctx (GLIB_normalizeRect rect)).xMin + 1) *
         ((clampRect ctx (GLIB_normalizeRect rect)).yMax -
          (clampRect ctx (GLIB_normalizeRect rect)).yMin + 1)),
       resetCall ctx] ∧
    ∃ l, Writes s (GLIB_drawRectFilled ctx rect s).2 l ∧ l.Nodup ∧
      l.length = ((clampRect ctx (GLIB_normalizeRect rect)).xMax -
          (clampRect ctx (GLIB_normalizeRect rect)).xMin + 1) *
         ((clampRect ctx (GLIB_normalizeRect rect)).yMax -
          (clampRect ctx (GLIB_normalizeRect rect)).yMin + 1) ∧
      ∀ p, p ∈ l ↔ ∃ x y, p = fgPixel ctx x y ∧
        (GLIB_normalizeRect rect).xMin ≤ x ∧ x ≤ (GLIB_normalizeRect rect).xMax ∧
        (GLIB_normalizeRect rect).yMin ≤ y ∧ y ≤ (GLIB_normalizeRect rect).yMax ∧
        inClip ctx (fgPixel ctx x y) := by
  obtain ⟨e1, e2, e3⟩ := GLIB_drawRectFilled_spec ctx hwf rect s hov h0 h1 h2
  refine ⟨e1, e2, _, e3, rectPixels_nodup _ _ _ _ _, rectPixels_length _ _ _ _ _, ?_⟩
  intro p
  rw [mem_rectPixels]
  obtain ⟨c1, c2, c3, c4⟩ := clampRect_fields ctx (GLIB_normalizeRect rect)
  obtain ⟨hnx, hny⟩ := GLIB_normalizeRect_ordered rect
  obtain ⟨o1, o2, o3, o4⟩ := hov
  obtain ⟨hxo, hyo, _, _, _, _⟩ := hwf
  rw [c1, c2, c3, c4]
  constructor
  · rintro ⟨x, y, rfl, hx0, hx1, hy0, hy1⟩
    obtain ⟨⟨a1, a2⟩, a3, a4⟩ := (clamp_interval_mem _ _ _ _ x o1 o2 hnx hxo).mp ⟨hx0, hx1⟩
    obtain ⟨⟨b1, b2⟩, b3, b4⟩ := (clamp_interval_mem _ _ _ _ y o3 o4 hny hyo).mp ⟨hy0, hy1⟩
    exact ⟨x, y, rfl, a1, a2, b1, b2, a3, a4, b3, b4⟩
  · rintro ⟨x, y, rfl, hx0, hx1, hy0, hy1, a3, a4, b3, b4⟩
    obtain ⟨a1, a2⟩ := (clamp_interval_mem _ _ _ _ x o1 o2 hnx hxo).mpr ⟨⟨hx0, hx1⟩, a3, a4⟩
    obtain ⟨b1, b2⟩ := (clamp_interval_mem _ _ _ _ y o3 o4 hny hyo).mpr ⟨⟨hy0, hy1⟩, b3, b4⟩
    exact ⟨x, y, rfl, a1, a2, b1, b2⟩

/-- Witness of **C10**, amended: in the demonstration context the rectangle
(10,10,20,20), given with swapped corners, is filled by 121 pixel writes. -/
theorem C10_drawRectFilled_amended_witness :
    clipWellFormed demoContext ∧
    overlapsClip demoContext (GLIB_normalizeRect ⟨20, 20, 10, 10⟩) ∧
    (GLIB_drawRectFilled demoContext ⟨20, 20, 10, 10⟩ freshSurface).1 = GLIB_OK ∧
    Issues freshSurface (GLIB_drawRectFilled demoContext ⟨20, 20, 10, 10⟩ freshSurface).2
      [DMDCall.setClippingArea 10 10 11 11, fgRun demoContext 0 0 121, resetCall demoContext] ∧
    ∃ l, Writes freshSurface (GLIB_drawRectFilled demoContext ⟨20, 20, 10, 10⟩ freshSurface).2 l ∧
      l.Nodup ∧ l.length = 121 ∧
      ∀ p, p ∈ l ↔ ∃ x y, p = fgPixel demoContext x y ∧ 10 ≤ x ∧ x ≤ 20 ∧ 10 ≤ y ∧ y ≤ 20 ∧
        inClip demoContext (fgPixel demoContext x y) :=
  ⟨by decide, by decide,
   C10_drawRectFilled_amended demoContext (by decide) ⟨20, 20, 10, 10⟩ freshSurface
     (by decide) rfl rfl rfl⟩

/-! ## Rectangle outlines -/

theorem neverFails_of_status_eq {s t : Surface} (h : t.status = s.status)
    (hs : neverFails s) : neverFails t := by
  intro n; rw [h]; exact hs n

/-- `GLIB_drawLineH` for a span inside the clip region on a surface that never
fails. -/
theorem GLIB_drawLineH_ok (ctx : GLIB_Context) (hwf : clipWellFormed ctx) (a y b : Nat)
    (s : Surface) (hs : neverFails s)
    (ha : ctx.clippingRegion.xMin ≤ a) (hab : a ≤ b) (hb : b ≤ ctx.clippingRegion.xMax)
    (hy0 : ctx.clippingRegion.yMin ≤ y) (hy1 : y ≤ ctx.clippingRegion.yMax) :
    (GLIB_drawLineH ctx a y b s).1 = GLIB_OK ∧ neverFails (GLIB_drawLineH ctx a y b s).2 ∧
    (GLIB_drawLineH ctx a y b s).2.pixels = s.pixels ++ hPixels ctx a y (b - a + 1) := by
  have hy : ¬(y < ctx.clippingRegion.yMin ∨ y > ctx.clippingRegion.yMax) := by omega
  have hx : ¬(min a b > ctx.clippingRegion.xMax ∨ max a b < ctx.clippingRegion.xMin) := by omega
  obtain ⟨e1, e2⟩ := GLIB_drawLineH_spec ctx hwf a y b s hy (hs _)
  rw [if_neg hx] at e2
  obtain ⟨e2, _, e4⟩ := e2
  have hlo : max (min a b) ctx.clippingRegion.xMin = a := by omega
  have hhi : min (max a b) ctx.clippingRegion.xMax = b := by omega
  rw [hlo, hhi, if_pos (hs _)] at e4
  exact ⟨by rw [e2]; exact hs _, neverFails_of_status_eq e1 hs, e4⟩

/-- `GLIB_drawLineV` for a span inside the clip region on a surface that never
fails. -/
theorem GLIB_drawLineV_ok (ctx : GLIB_Context) (hwf : clipWellFormed ctx) (x a b : Nat)
    (s : Surface) (hs : neverFails s)
    (hx0 : ctx.clippingRegion.xMin ≤ x) (hx1 : x ≤ ctx.clippingRegion.xMax)
    (ha : ctx.clippingRegion.yMin ≤ a) (hab : a ≤ b) (hb : b ≤ ctx.clippingRegion.yMax) :
    (GLIB_drawLineV ctx x a b s).1 = GLIB_OK ∧ neverFails (GLIB_drawLineV ctx x a b s).2 ∧
    (GLIB_drawLineV ctx x a b s).2.pixels = s.pixels ++ vPixels ctx x a (b - a + 1) := by
  have hx : ¬(x < ctx.clippingRegion.xMin ∨ x > ctx.clippingRegion.xMax) := by omega
  have hy : ¬(min a b > ctx.clippingRegion.yMax ∨ max a b < ctx.clippingRegion.yMin) := by omega
  obtain ⟨e1, e2, _, e4⟩ := GLIB_drawLineV_spec ctx hwf x a b s hx hy (hs _) (hs _) (hs _)
  have hlo : max (min a b) ctx.clippingRegion.yMin = a := by omega
  have hhi : min (max a b) ctx.clippingRegion.yMax = b := by omega
  rw [hlo, hhi] at e4
  exact ⟨e1, neverFails_of_status_eq e2 hs, e4⟩

/-- `GLIB_drawRect` for a rectangle whose normalised form lies inside the clip
region, on a surface that never fails: the outline is written edge by edge. -/
theorem GLIB_drawRect_spec (ctx : GLIB_Context) (hwf : clipWellFormed ctx)
    (rect : GLIB_Rectangle) (s : Surface) (hs : neverFails s)
    (hin : insideClip ctx (GLIB_normalizeRect rect)) :
    (GLIB_drawRect ctx rect s).1 = GLIB_OK ∧
    (GLIB_drawRect ctx rect s).2.pixels =
      s.pixels ++ outlinePixels ctx (GLIB_normalizeRect rect) := by
  obtain ⟨i1, i2, i3, i4⟩ := hin
  obtain ⟨hxn, hyn⟩ := GLIB_normalizeRect_ordered rect
  obtain ⟨c1, c2, c3, c4⟩ := clampRect_fields ctx (GLIB_normalizeRect rect)
  have hwf' := hwf
  obtain ⟨hxo, hyo, hX, hY, hXs, hYs⟩ := hwf'
  set n := GLIB_normalizeRect rect with hn
  have t1 : (clampRect ctx n).xMin = n.xMin := by rw [c1]; exact Nat.max_eq_left i1
  have t2 : (clampRect ctx n).xMax = n.xMax := by rw [c2]; exact Nat.min_eq_left i2
  have t3 : (clampRect ctx n).yMin = n.yMin := by rw [c3]; exact Nat.max_eq_left i3
  have t4 : (clampRect ctx n).yMax = n.yMax := by rw [c4]; exact Nat.min_eq_left i4
  clear c1 c2 c3 c4
  unfold GLIB_drawRect outlinePixels
  simp only [← hn, t1, t2, t3, t4]
  obtain ⟨a1, a2, a3⟩ := GLIB_drawLineH_ok ctx hwf n.xMin n.yMin n.xMax s hs i1 hxn i2 i3
    (by omega)
  rw [if_neg (by rw [a1]; decide)]
  by_cases hh : n.yMin = n.yMax
  · rw [if_pos hh, if_pos (Or.inr hh)]
    refine ⟨rfl, ?_⟩
    rw [a3, hh, Nat.sub_self]
    simp [vPixels]
  rw [if_neg hh]
  have e1 : toU16 ((n.yMin : Int) + 1) = n.yMin + 1 := by unfold toU16; omega
  rw [e1]
  obtain ⟨b1, b2, b3⟩ := GLIB_drawLineV_ok ctx hwf n.xMax (n.yMin + 1) n.yMax _ a2
    (by omega) i2 (by omega) (by omega) i4
  rw [if_neg (by rw [b1]; decide)]
  have hv : n.yMax - (n.yMin + 1) + 1 = n.yMax - n.yMin := by omega
  rw [hv] at b3
  by_cases hw : n.xMin = n.xMax
  · rw [if_pos hw, if_pos (Or.inl hw)]
    refine ⟨rfl, ?_⟩
    rw [b3, a3, List.append_nil, List.append_assoc]
  rw [if_neg hw, if_neg (show ¬(n.xMin = n.xMax ∨ n.yMin = n.yMax) by omega)]
  have e2 : toU16 ((n.xMax : Int) - 1) = n.xMax - 1 := by unfold toU16; omega
  rw [e2]
  obtain ⟨d1, d2, d3⟩ := GLIB_drawLineH_ok ctx hwf n.xMin n.yMax (n.xMax - 1) _ b2
    i1 (by omega) (by omega) (by omega) i4
  rw [if_neg (by rw [d1]; decide)]
  have hb : n.xMax - 1 - n.xMin + 1 = n.xMax - n.xMin := by omega
  rw [hb] at d3
  by_cases h2 : n.yMin + 1 = n.yMax
  · rw [if_pos h2]
    refine ⟨rfl, ?_⟩
    have : n.yMax - n.yMin - 1 = 0 := by omega
    rw [d3, b3, a3, this]
    simp [vPixels]
  rw [if_neg h2]
  have e3 : toU16 ((n.yMax : Int) - 1) = n.yMax - 1 := by unfold toU16; omega
  rw [e3]
  obtain ⟨f1, f2, f3⟩ := GLIB_drawLineV_ok ctx hwf n.xMin (n.yMin + 1) (n.yMax - 1) _ d2
    i1 (by omega) (by omega) (by omega) (by omega)
  have hl : n.yMax - 1 - (n.yMin + 1) + 1 = n.yMax - n.yMin - 1 := by omega
  rw [hl] at f3
  rw [status_ite_eq]
  refine ⟨f1, ?_⟩
  rw [f3, d3, b3, a3]
  simp

theorem mem_hPixels (ctx : GLIB_Context) (x y n : Nat) (p : Pixel) :
    p ∈ hPixels ctx x y n ↔ ∃ i, i < n ∧ p = fgPixel ctx (x + i) y := by
  unfold hPixels
  simp only [List.mem_map, List.mem_range]
  constructor
  · rintro ⟨i, hi, rfl⟩; exact ⟨i, hi, rfl⟩
  · rintro ⟨i, hi, rfl⟩; exact ⟨i, hi, rfl⟩

theorem mem_vPixels (ctx : GLIB_Context) (x y n : Nat) (p : Pixel) :
    p ∈ vPixels ctx x y n ↔ ∃ i, i < n ∧ p = fgPixel ctx x (y + i) := by
  unfold vPixels
  simp only [List.mem_map, List.mem_range]
  constructor
  · rintro ⟨i, hi, rfl⟩; exact ⟨i, hi, rfl⟩
  · rintro ⟨i, hi, rfl⟩; exact ⟨i, hi, rfl⟩

theorem hPixels_nodup (ctx : GLIB_Context) (x y n : Nat) : (hPixels ctx x y n).Nodup := by
  unfold hPixels
  refine List.Nodup.map_on ?_ (List.nodup_range _)
  intro i _ j _ hij
  have := (fgPixel_inj hij).1
  omega

theorem vPixels_nodup (ctx : GLIB_Context) (x y n : Nat) : (vPixels ctx x y n).Nodup := by
  unfold vPixels
  refine List.Nodup.map_on ?_ (List.nodup_range _)
  intro i _ j _ hij
  have := (fgPixel_inj hij).2
  omega

theorem hPixels_length (ctx : GLIB_Context) (x y n : Nat) : (hPixels ctx x y n).length = n := by
  simp [hPixels]

theorem vPixels_length (ctx : GLIB_Context) (x y n : Nat) : (vPixels ctx x y n).length = n := by
  simp [vPixels]

/-- The outline list holds exactly the boundary pixels of the rectangle. -/
theorem mem_outlinePixels (ctx : GLIB_Context) (r : GLIB_Rectangle)
    (hx : r.xMin ≤ r.xMax) (hy : r.yMin ≤ r.yMax) (p : Pixel) :
    p ∈ outlinePixels ctx r ↔ ∃ x y, p = fgPixel ctx x y ∧ onBoundary r x y := by
  unfold outlinePixels onBoundary
  constructor
  · intro hp
    rcases List.mem_append.mp hp with hp | hp
    · rcases List.mem_append.mp hp with hp | hp
      · obtain ⟨i, hi, rfl⟩ := (mem_hPixels _ _ _ _ _).mp hp
        exact ⟨_, _, rfl, by omega⟩
      · obtain ⟨i, hi, rfl⟩ := (mem_vPixels _ _ _ _ _).mp hp
        exact ⟨_, _, rfl, by omega⟩
    · split_ifs at hp with hc
      · simp at hp
      · rcases List.mem_append.mp hp with hp | hp
        · obtain ⟨i, hi, rfl⟩ := (mem_hPixels _ _ _ _ _).mp hp
          exact ⟨_, _, rfl, by omega⟩
        · obtain ⟨i, hi, rfl⟩ := (mem_vPixels _ _ _ _ _).mp hp
          exact ⟨_, _, rfl, by omega⟩
  · rintro ⟨x, y, rfl, hx0, hx1, hy0, hy1, hb⟩
    by_cases h1 : y = r.yMin
    · refine List.mem_append_left _ (List.mem_append_left _ ?_)
      exact (mem_hPixels _ _ _ _ _).mpr ⟨x - r.xMin, by omega, by congr 1 <;> omega⟩
    by_cases h2 : x = r.xMax
    · refine List.mem_append_left _ (List.mem_append_right _ ?_)
      exact (mem_vPixels _ _ _ _ _).mpr ⟨y - (r.yMin + 1), by omega, by congr 1 <;> omega⟩
    refine List.mem_append_right _ ?_
    rw [if_neg (by omega)]
    by_cases h3 : y = r.yMax
    · refine List.mem_append_left _ ?_
      exact (mem_hPixels _ _ _ _ _).mpr ⟨x - r.xMin, by omega, by congr 1 <;> omega⟩
    · refine List.mem_append_right _ ?_
      exact (mem_vPixels _ _ _ _ _).mpr ⟨y - (r.yMin + 1), by omega, by congr 1 <;> omega⟩

/-- No pixel occurs twice in the outline list. -/
theorem outlinePixels_nodup (ctx : GLIB_Context) (r : GLIB_Rectangle)
    (hx : r.xMin ≤ r.xMax) (hy : r.yMin ≤ r.yMax) : (outlinePixels ctx r).Nodup := by
  unfold outlinePixels
  rw [List.nodup_append]
  refine ⟨?_, ?_, ?_⟩
  · rw [List.nodup_append]
    refine ⟨hPixels_nodup _ _ _ _, vPixels_nodup _ _ _ _, ?_⟩
    rw [List.disjoint_left]
    intro p h1 h2
    obtain ⟨i, hi, rfl⟩ := (mem_hPixels _ _ _ _ _).mp h1
    obtain ⟨j, hj, e⟩ := (mem_vPixels _ _ _ _ _).mp h2
    have := fgPixel_inj e
    omega
  · split_ifs
    · exact List.nodup_nil
    · rw [List.nodup_append]
      refine ⟨hPixels_nodup _ _ _ _, vPixels_nodup _ _ _ _, ?_⟩
      rw [List.disjoint_left]
      intro p h1 h2
      obtain ⟨i, hi, rfl⟩ := (mem_hPixels _ _ _ _ _).mp h1
      obtain ⟨j, hj, e⟩ := (mem_vPixels _ _ _ _ _).mp h2
      have := fgPixel_inj e
      omega
  · rw [List.disjoint_left]
    intro p h1 h2
    split_ifs at h2 with hc
    · simp at h2
    · rcases List.mem_append.mp h1 with h1 | h1
      · obtain ⟨i, hi, rfl⟩ := (mem_hPixels _ _ _ _ _).mp h1
        rcases List.mem_append.mp h2 with h2 | h2
        · obtain ⟨j, hj, e⟩ := (mem_hPixels _ _ _ _ _).mp h2
          have := fgPixel_inj e
          omega
        · obtain ⟨j, hj, e⟩ := (mem_vPixels _ _ _ _ _).mp h2
          have := fgPixel_inj e
          omega
      · obtain ⟨i, hi, rfl⟩ := (mem_vPixels _ _ _ _ _).mp h1
        rcases List.mem_append.mp h2 with h2 | h2
        · obtain ⟨j, hj, e⟩ := (mem_hPixels _ _ _ _ _).mp h2
          have := fgPixel_inj e
          omega
        · obtain ⟨j, hj, e⟩ := (mem_vPixels _ _ _ _ _).mp h2
          have := fgPixel_inj e
          omega

/-- The number of pixels of the outline list. -/
theorem outlinePixels_length (ctx : GLIB_Context) (r : GLIB_Rectangle)
    (hx : r.xMin ≤ r.xMax) (hy : r.yMin ≤ r.yMax) :
    (outlinePixels ctx r).length =
      if 2 ≤ r.xMax - r.xMin + 1 ∧ 2 ≤ r.yMax - r.yMin + 1 then
        2 * ((r.xMax - r.xMin + 1) + (r.yMax - r.yMin + 1)) - 4
      else (r.xMax - r.xMin + 1) * (r.yMax - r.yMin + 1) := by
  unfold outlinePixels
  by_cases hw : r.xMin = r.xMax
  · rw [if_pos (Or.inl hw), if_neg (by omega)]
    simp only [List.length_append, hPixels_length, vPixels_length, List.length_nil, hw,
      Nat.sub_self]
    omega
  by_cases hh : r.yMin = r.yMax
  · rw [if_pos (Or.inr hh), if_neg (by omega)]
    simp only [List.length_append, hPixels_length, vPixels_length, List.length_nil, hh,
      Nat.sub_self]
    omega
  rw [if_neg (by omega), if_pos (by omega)]
  simp only [List.length_append, hPixels_length, vPixels_length]
  omega

/-! ## C9: rectangle outlines -/

/-- Counterexample to **C9** as stated.  In the demonstration context with a
driver whose first call fails with status 9, the rectangle (10,10,20,20) lies
inside the clip region, yet `GLIB_drawRect` writes no pixel at all. -/
theorem C9_drawRect_counterexample :
    clipWellFormed demoContext ∧
    insideClip demoContext (GLIB_normalizeRect ⟨10, 10, 20, 20⟩) ∧
    (GLIB_drawRect demoContext ⟨10, 10, 20, 20⟩ (failingSurface 0 9)).1 = 9 ∧
    (GLIB_drawRect demoContext ⟨10, 10, 20, 20⟩ (failingSurface 0 9)).2.pixels = [] := by
  decide

/-- **C9**, amended.  For every context with a well-formed clip region, every
rectangle (corners in any order) whose normalised form lies inside the clip
region and every surface whose driver never fails, `GLIB_drawRect` returns
`GLIB_OK` and its pixel writes are pairwise distinct and are exactly the
foreground pixels on the boundary of the normalised rectangle: `2*(w+h)-4`
writes for width `w >= 2` and height `h >= 2`, and `w*h` writes otherwise. -/
theorem C9_drawRect_amended (ctx : GLIB_Context) (hwf : clipWellFormed ctx)
    (rect : GLIB_Rectangle) (s : Surface) (hs : neverFails s)
    (hin : insideClip ctx (GLIB_normalizeRect rect)) :
    (GLIB_drawRect ctx rect s).1 = GLIB_OK ∧
    ∃ l, Writes s (GLIB_drawRect ctx rect s).2 l ∧ l.Nodup ∧
      (∀ p, p ∈ l ↔ ∃ x y, p = fgPixel ctx x y ∧ onBoundary (GLIB_normalizeRect rect) x y) ∧
      l.length =
        if 2 ≤ (GLIB_normalizeRect rect).xMax - (GLIB_normalizeRect rect).xMin + 1 ∧
           2 ≤ (GLIB_normalizeRect rect).yMax - (GLIB_normalizeRect rect).yMin + 1 then
          2 * (((GLIB_normalizeRect rect).xMax - (GLIB_normalizeRect rect).xMin + 1) +
            ((GLIB_normalizeRect rect).yMax - (GLIB_normalizeRect rect).yMin + 1)) - 4
        else ((GLIB_normalizeRect rect).xMax - (GLIB_normalizeRect rect).xMin + 1) *
          ((GLIB_normalizeRect rect).yMax - (GLIB_normalizeRect rect).yMin + 1) := by
  obtain ⟨e1, e2⟩ := GLIB_drawRect_spec ctx hwf rect s hs hin
  obtain ⟨hx, hy⟩ := GLIB_normalizeRect_ordered rect
  exact ⟨e1, _, e2, outlinePixels_nodup ctx _ hx hy, mem_outlinePixels ctx _ hx hy,
    outlinePixels_length ctx _ hx hy⟩

/-- Witness of **C9**, amended: in the demonstration context the outline of
the rectangle (10,10,20,20), given with swapped corners, takes 40 pixel
writes. -/
theorem C9_drawRect_amended_witness :
    clipWellFormed demoContext ∧ neverFails freshSurface ∧
    insideClip demoContext (GLIB_normalizeRect ⟨20, 20, 10, 10⟩) ∧
    (GLIB_drawRect demoContext ⟨20, 20, 10, 10⟩ freshSurface).1 = GLIB_OK ∧
    ∃ l, Writes freshSurface (GLIB_drawRect demoContext ⟨20, 20, 10, 10⟩ freshSurface).2 l ∧
      l.Nodup ∧
      (∀ p, p ∈ l ↔ ∃ x y, p = fgPixel demoContext x y ∧ onBoundary ⟨10, 10, 20, 20⟩ x y) ∧
      l.length = 40 :=
  ⟨by decide, fun _ => rfl, by decide,
   C9_drawRect_amended demoContext (by decide) ⟨20, 20, 10, 10⟩ freshSurface (fun _ => rfl)
     (by decide)⟩

/-! ## Arithmetic of the reference line -/

/-- The offset at step `k` is the quotient of `k * dY + (dX - 1 - dX / 2)`
by `dX`: the error term of the line stays in `(-dX, 0]`. -/
theorem minorOffset_bounds (dX dY k : Nat) (hdX : 1 ≤ dX) :
    minorOffset dX dY k * dX ≤ k * dY + (dX - 1 - dX / 2) ∧
    k * dY + (dX - 1 - dX / 2) < minorOffset dX dY k * dX + dX := by
  unfold minorOffset
  exact ⟨Nat.div_mul_le_self _ _, Nat.lt_div_mul_add hdX⟩

/-- An offset is determined by the two bounds of `minorOffset_bounds`. -/
theorem minorOffset_eq (dX dY k s : Nat)
    (h1 : s * dX ≤ k * dY + (dX - 1 - dX / 2))
    (h2 : k * dY + (dX - 1 - dX / 2) < s * dX + dX) :
    minorOffset dX dY k = s := by
  unfold minorOffset
  apply Nat.div_eq_of_lt_le h1
  rw [Nat.add_mul, Nat.one_mul]
  exact h2

theorem minorOffset_zero (dX dY : Nat) (hdX : 1 ≤ dX) : minorOffset dX dY 0 = 0 := by
  apply minorOffset_eq <;> omega

/-- One step of the line: the offset grows by one exactly when the error
term, increased by `dY`, becomes positive. -/
theorem minorOffset_succ (dX dY k : Nat) (hdX : 1 ≤ dX) (hdY : dY ≤ dX) :
    minorOffset dX dY (k + 1) =
      if ((k * dY : Nat) : Int) - ((dX / 2 : Nat) : Int) - ((minorOffset dX dY k * dX : Nat) : Int)
          + (dY : Int) > 0
      then minorOffset dX dY k + 1 else minorOffset dX dY k := by
  obtain ⟨h1, h2⟩ := minorOffset_bounds dX dY k hdX
  have hk : (k + 1) * dY = k * dY + dY := by rw [Nat.add_mul, Nat.one_mul]
  split_ifs with h
  · apply minorOffset_eq
    · rw [hk, Nat.add_mul, Nat.one_mul]; omega
    · rw [hk, Nat.add_mul, Nat.one_mul]; omega
  · apply minorOffset_eq
    · rw [hk]; omega
    · rw [hk]; omega

/-- The offset never exceeds the minor extent of the line. -/
theorem minorOffset_le (dX dY k : Nat) (hdX : 1 ≤ dX) (hk : k ≤ dX) :
    minorOffset dX dY k ≤ dY := by
  obtain ⟨h1, _⟩ := minorOffset_bounds dX dY k hdX
  have h3 : k * dY ≤ dX * dY := Nat.mul_le_mul_right dY hk
  by_contra hc
  have h4 : (dY + 1) * dX ≤ minorOffset dX dY k * dX := Nat.mul_le_mul_right dX (by omega)
  rw [Nat.add_mul, Nat.one_mul, Nat.mul_comm dY dX] at h4
  omega

/-- At the last step the offset is the minor extent of the line. -/
theorem minorOffset_last (dX dY : Nat) (hdX : 1 ≤ dX) : minorOffset dX dY dX = dY := by
  apply minorOffset_eq
  · rw [Nat.mul_comm]; omega
  · rw [Nat.mul_comm]; omega

/-- On a diagonal the offset is the step. -/
theorem minorOffset_diagonal (dX k : Nat) (hdX : 1 ≤ dX) : minorOffset dX dX k = k := by
  apply minorOffset_eq <;> omega

/-- Every point of the reference line is within half a pixel of the ideal
line: `|2 * (k * dY - s * dX)| ≤ dX`. -/
theorem minorOffset_half_pixel (dX dY k : Nat) (hdX : 1 ≤ dX) :
    |2 * (((k * dY : Nat) : Int) - ((minorOffset dX dY k * dX : Nat) : Int))| ≤ (dX : Int) := by
  obtain ⟨h1, h2⟩ := minorOffset_bounds dX dY k hdX
  rw [abs_le]
  constructor <;> omega

/-! ## The rasterisation loop on a surface that never fails -/

/-- `GLIB_drawPixel` at a point inside the clip region, on a surface that
never fails, writes that one pixel. -/
theorem GLIB_drawPixel_ok (ctx : GLIB_Context) (hwf : clipWellFormed ctx) (x y : Nat)
    (s : Surface) (hs : neverFails s) (hin : inClip ctx (fgPixel ctx x y)) :
    (GLIB_drawPixel ctx x y s).1 = GLIB_OK ∧ neverFails (GLIB_drawPixel ctx x y s).2 ∧
    (GLIB_drawPixel ctx x y s).2.pixels = s.pixels ++ [fgPixel ctx x y] := by
  obtain ⟨_, _, hX, _, _, _⟩ := hwf
  have hin' : ctx.clippingRegion.xMin ≤ x ∧ x ≤ ctx.clippingRegion.xMax ∧
      ctx.clippingRegion.yMin ≤ y ∧ y ≤ ctx.clippingRegion.yMax := hin
  have hc : GLIB_rectContainsPoint ctx.clippingRegion x y = 1 :=
    GLIB_rectContainsPoint_eq_one.mpr hin'
  have h0 : s.status s.calls.length = 0 := hs _
  have h1 : s.status (s.calls.length + 1) = 0 := hs _
  unfold GLIB_drawPixel
  rw [GLIB_drawPixelColor_eq, if_pos hc, if_neg (by simpa using h0),
    GLIB_resetDisplayClippingArea_eq]
  refine ⟨by simpa using h1, neverFails_of_status_eq (by simp) hs, ?_⟩
  rw [DMD_writeColor_pixels, DMD_setClippingArea_pixels, DMD_setClippingArea_calls,
    DMD_setClippingArea_status, List.length_append, List.length_singleton, if_pos h1,
    runPixels_after_reset ctx s h0 _ _ _ _ _ _ (by omega)]
  rfl

/-- The pixel drawn by one iteration of the loop. -/
theorem loopDraw_ok (ctx : GLIB_Context) (hwf : clipWellFormed ctx) (steep up : Bool)
    (dX dY p1 q1 k : Nat) (s : Surface) (hs : neverFails s)
    (hin : inClip ctx (loopPixel ctx steep up dX dY p1 q1 k)) :
    (if steep then
        GLIB_drawPixel ctx (if up then q1 + minorOffset dX dY k else q1 - minorOffset dX dY k)
          (p1 + k) s
      else
        GLIB_drawPixel ctx (p1 + k)
          (if up then q1 + minorOffset dX dY k else q1 - minorOffset dX dY k) s).1 = GLIB_OK ∧
    neverFails (if steep then
        GLIB_drawPixel ctx (if up then q1 + minorOffset dX dY k else q1 - minorOffset dX dY k)
          (p1 + k) s
      else
        GLIB_drawPixel ctx (p1 + k)
          (if up then q1 + minorOffset dX dY k else q1 - minorOffset dX dY k) s).2 ∧
    (if steep then
        GLIB_drawPixel ctx (if up then q1 + minorOffset dX dY k else q1 - minorOffset dX dY k)
          (p1 + k) s
      else
        GLIB_drawPixel ctx (p1 + k)
          (if up then q1 + minorOffset dX dY k else q1 - minorOffset dX dY k) s).2.pixels =
      s.pixels ++ [loopPixel ctx steep up dX dY p1 q1 k] := by
  unfold loopPixel at hin ⊢
  cases steep
  · simp only [Bool.false_eq_true, if_false] at hin ⊢
    exact GLIB_drawPixel_ok ctx hwf _ _ s hs hin
  · simp only [if_true] at hin ⊢
    exact GLIB_drawPixel_ok ctx hwf _ _ s hs hin

/-- The rasterisation loop from step `k` on: when every pixel of the line is
inside the clip region and the surface never fails, the loop writes the
pixels of the steps `k .. dX` and returns `GLIB_OK`. -/
theorem lineLoop_spec (ctx : GLIB_Context) (hwf : clipWellFormed ctx) (steep up : Bool)
    (dX dY p1 q1 : Nat) (hdX : 1 ≤ dX) (hdY : dY ≤ dX)
    (hp : p1 + dX < 32768) (hq : q1 < 32768) (hdown : up = false → dY ≤ q1)
    (hclip : ∀ k, k ≤ dX → inClip ctx (loopPixel ctx steep up dX dY p1 q1 k)) :
    ∀ (m k fuel : Nat) (y : Nat) (e : Int) (s : Surface), k + m = dX + 1 → m < fuel →
      neverFails s →
      (m ≠ 0 → y = (if up then q1 + minorOffset dX dY k else q1 - minorOffset dX dY k) ∧
        e = ((k * dY : Nat) : Int) - ((dX / 2 : Nat) : Int)
          - ((minorOffset dX dY k * dX : Nat) : Int)) →
      ∃ t, lineLoop ctx steep (dX : Int) (dY : Int) (if up then 1 else -1) (p1 + dX) fuel
          (p1 + k) y e s = some (GLIB_OK, t) ∧ neverFails t ∧
        t.pixels = s.pixels ++ (List.range' k m).map (loopPixel ctx steep up dX dY p1 q1) := by
  intro m
  induction m with
  | zero =>
    intro k fuel y e s hk hf hs _
    obtain ⟨f, rfl⟩ : ∃ f, fuel = f + 1 := ⟨fuel - 1, by omega⟩
    rw [lineLoop_succ, if_neg (by omega)]
    exact ⟨s, rfl, hs, by simp⟩
  | succ m ih =>
    intro k fuel y e s hk hf hs hye
    obtain ⟨f, rfl⟩ : ∃ f, fuel = f + 1 := ⟨fuel - 1, by omega⟩
    obtain ⟨rfl, rfl⟩ := hye (by omega)
    have hkd : k ≤ dX := by omega
    obtain ⟨d1, d2, d3⟩ := loopDraw_ok ctx hwf steep up dX dY p1 q1 k s hs (hclip k hkd)
    obtain ⟨b1, b2⟩ := minorOffset_bounds dX dY k hdX
    have hsucc := minorOffset_succ dX dY k hdX hdY
    have hle := minorOffset_le dX dY k hdX hkd
    rw [lineLoop_succ, if_pos (by omega), if_neg (by rw [d1]; decide)]
    have he : toI16 (((k * dY : Nat) : Int) - ((dX / 2 : Nat) : Int)
        - ((minorOffset dX dY k * dX : Nat) : Int) + (dY : Int)) =
        ((k * dY : Nat) : Int) - ((dX / 2 : Nat) : Int)
        - ((minorOffset dX dY k * dX : Nat) : Int) + (dY : Int) := by
      apply toI16_of_lt <;> omega
    have hx : toU16 (((p1 + k : Nat) : Int) + 1) = p1 + (k + 1) := by unfold toU16; omega
    have hk1 : (k + 1) * dY = k * dY + dY := by rw [Nat.add_mul, Nat.one_mul]
    rw [he, hx]
    by_cases hpos : ((k * dY : Nat) : Int) - ((dX / 2 : Nat) : Int)
        - ((minorOffset dX dY k * dX : Nat) : Int) + (dY : Int) > 0
    · rw [if_pos hpos]
      rw [if_pos hpos] at hsucc
      have hnext : m ≠ 0 →
          toU16 (((if up then q1 + minorOffset dX dY k else q1 - minorOffset dX dY k : Nat) : Int)
            + (if up then 1 else -1)) =
            (if up then q1 + minorOffset dX dY (k + 1) else q1 - minorOffset dX dY (k + 1)) ∧
          toI16 (((k * dY : Nat) : Int) - ((dX / 2 : Nat) : Int)
            - ((minorOffset dX dY k * dX : Nat) : Int) + (dY : Int) - (dX : Int)) =
            (((k + 1) * dY : Nat) : Int) - ((dX / 2 : Nat) : Int)
            - ((minorOffset dX dY (k + 1) * dX : Nat) : Int) := by
        intro hm
        have hk' : k + 1 ≤ dX := by omega
        have hle' := minorOffset_le dX dY (k + 1) hdX hk'
        have hs1 : (minorOffset dX dY k + 1) * dX = minorOffset dX dY k * dX + dX := by
          rw [Nat.add_mul, Nat.one_mul]
        refine ⟨?_, ?_⟩
        · rw [hsucc]
          cases up
          · have := hdown rfl
            simp only [Bool.false_eq_true, if_false]
            unfold toU16; omega
          · simp only [if_true]
            unfold toU16; omega
        · rw [hsucc, hk1, hs1, toI16_of_lt (by omega) (by omega)]
          omega
      obtain ⟨t, h1, h2, h3⟩ := ih (k + 1) f _ _ _ (by omega) (by omega) d2 hnext
      refine ⟨t, h1, h2, ?_⟩
      rw [h3, d3, List.range'_succ, List.map_cons, List.append_assoc]
      rfl
    · rw [if_neg hpos]
      rw [if_neg hpos] at hsucc
      have hnext : m ≠ 0 →
          (if up then q1 + minorOffset dX dY k else q1 - minorOffset dX dY k) =
            (if up then q1 + minorOffset dX dY (k + 1) else q1 - minorOffset dX dY (k + 1)) ∧
          ((k * dY : Nat) : Int) - ((dX / 2 : Nat) : Int)
            - ((minorOffset dX dY k * dX : Nat) : Int) + (dY : Int) =
            (((k + 1) * dY : Nat) : Int) - ((dX / 2 : Nat) : Int)
            - ((minorOffset dX dY (k + 1) * dX : Nat) : Int) := by
        intro _
        refine ⟨by rw [hsucc], ?_⟩
        rw [hsucc, hk1]
        omega
      obtain ⟨t, h1, h2, h3⟩ := ih (k + 1) f _ _ _ (by omega) (by omega) d2 hnext
      refine ⟨t, h1, h2, ?_⟩
      rw [h3, d3, List.range'_succ, List.map_cons, List.append_assoc]
      rfl

/-! ## The rasterisation loop on an arbitrary surface -/

/-- The status of `GLIB_drawPixel` at a point inside the clip region is a
status of the driver, and the driver's behaviour is unchanged. -/
theorem GLIB_drawPixel_status (ctx : GLIB_Context) (x y : Nat) (s : Surface)
    (hin : inClip ctx (fgPixel ctx x y)) :
    (∃ n, (GLIB_drawPixel ctx x y s).1 = s.status n) ∧
    (GLIB_drawPixel ctx x y s).2.status = s.status := by
  have hin' : ctx.clippingRegion.xMin ≤ x ∧ x ≤ ctx.clippingRegion.xMax ∧
      ctx.clippingRegion.yMin ≤ y ∧ y ≤ ctx.clippingRegion.yMax := hin
  have hc : GLIB_rectContainsPoint ctx.clippingRegion x y = 1 :=
    GLIB_rectContainsPoint_eq_one.mpr hin'
  unfold GLIB_drawPixel
  rw [GLIB_drawPixelColor_eq, if_pos hc, GLIB_resetDisplayClippingArea_eq]
  by_cases h0 : s.status s.calls.length ≠ 0
  · rw [if_pos h0]
    exact ⟨⟨_, DMD_setClippingArea_fst _ _ _ _ _⟩, DMD_setClippingArea_status _ _ _ _ _⟩
  · rw [if_neg h0]
    refine ⟨⟨s.calls.length + 1, by simp⟩, by simp⟩

/-- The status of the pixel drawn by one iteration of the loop. -/
theorem loopDraw_status (ctx : GLIB_Context) (steep up : Bool)
    (dX dY p1 q1 k : Nat) (s : Surface)
    (hin : inClip ctx (loopPixel ctx steep up dX dY p1 q1 k)) :
    (∃ n, (if steep then
        GLIB_drawPixel ctx (if up then q1 + minorOffset dX dY k else q1 - minorOffset dX dY k)
          (p1 + k) s
      else
        GLIB_drawPixel ctx (p1 + k)
          (if up then q1 + minorOffset dX dY k else q1 - minorOffset dX dY k) s).1 =
        s.status n) ∧
    (if steep then
        GLIB_drawPixel ctx (if up then q1 + minorOffset dX dY k else q1 - minorOffset dX dY k)
          (p1 + k) s
      else
        GLIB_drawPixel ctx (p1 + k)
          (if up then q1 + minorOffset dX dY k else q1 - minorOffset dX dY k) s).2.status =
      s.status := by
  unfold loopPixel at hin
  cases steep
  · simp only [Bool.false_eq_true, if_false] at hin ⊢
    exact GLIB_drawPixel_status ctx _ _ s hin
  · simp only [if_true] at hin ⊢
    exact GLIB_drawPixel_status ctx _ _ s hin

/-- The update of the minor coordinate and of the error term by one iteration
of the loop follows the reference line. -/
theorem loop_step (up : Bool) (dX dY q1 k : Nat) (hdX : 1 ≤ dX) (hdX' : dX < 32768)
    (hdY : dY ≤ dX) (hq : q1 < 32768) (hdown : up = false → dY ≤ q1) (hk : k + 1 ≤ dX) :
    toI16 (((k * dY : Nat) : Int) - ((dX / 2 : Nat) : Int)
        - ((minorOffset dX dY k * dX : Nat) : Int) + (dY : Int)) =
      ((k * dY : Nat) : Int) - ((dX / 2 : Nat) : Int)
        - ((minorOffset dX dY k * dX : Nat) : Int) + (dY : Int) ∧
    (((k * dY : Nat) : Int) - ((dX / 2 : Nat) : Int)
        - ((minorOffset dX dY k * dX : Nat) : Int) + (dY : Int) > 0 →
      toU16 (((if up then q1 + minorOffset dX dY k else q1 - minorOffset dX dY k : Nat) : Int)
          + (if up then 1 else -1)) =
        (if up then q1 + minorOffset dX dY (k + 1) else q1 - minorOffset dX dY (k + 1)) ∧
      toI16 (((k * dY : Nat) : Int) - ((dX / 2 : Nat) : Int)
          - ((minorOffset dX dY k * dX : Nat) : Int) + (dY : Int) - (dX : Int)) =
        (((k + 1) * dY : Nat) : Int) - ((dX / 2 : Nat) : Int)
          - ((minorOffset dX dY (k + 1) * dX : Nat) : Int)) ∧
    (¬ (((k * dY : Nat) : Int) - ((dX / 2 : Nat) : Int)
        - ((minorOffset dX dY k * dX : Nat) : Int) + (dY : Int) > 0) →
      (if up then q1 + minorOffset dX dY k else q1 - minorOffset dX dY k) =
        (if up then q1 + minorOffset dX dY (k + 1) else q1 - minorOffset dX dY (k + 1)) ∧
      ((k * dY : Nat) : Int) - ((dX / 2 : Nat) : Int)
          - ((minorOffset dX dY k * dX : Nat) : Int) + (dY : Int) =
        (((k + 1) * dY : Nat) : Int) - ((dX / 2 : Nat) : Int)
          - ((minorOffset dX dY (k + 1) * dX : Nat) : Int)) := by
  obtain ⟨b1, b2⟩ := minorOffset_bounds dX dY k hdX
  have hsucc := minorOffset_succ dX dY k hdX hdY
  have hle' := minorOffset_le dX dY (k + 1) hdX hk
  have hk1 : (k + 1) * dY = k * dY + dY := by rw [Nat.add_mul, Nat.one_mul]
  have hs1 : (minorOffset dX dY k + 1) * dX = minorOffset dX dY k * dX + dX := by
    rw [Nat.add_mul, Nat.one_mul]
  refine ⟨by apply toI16_of_lt <;> omega, ?_, ?_⟩
  · intro hpos
    rw [if_pos hpos] at hsucc
    refine ⟨?_, ?_⟩
    · rw [hsucc]
      cases up
      · have := hdown rfl
        simp only [Bool.false_eq_true, if_false]
        unfold toU16; omega
      · simp only [if_true]
        unfold toU16; omega
    · rw [hsucc, hk1, hs1, toI16_of_lt (by omega) (by omega)]
      omega
  · intro hpos
    rw [if_neg hpos] at hsucc
    refine ⟨by rw [hsucc], ?_⟩
    rw [hsucc, hk1]
    omega

/-- Whatever the driver does, the loop on a line that stays inside the clip
region ends with status 0 or with a status of the driver: no pixel of the
line is rejected by the clip test. -/
theorem lineLoop_status (ctx : GLIB_Context) (steep up : Bool)
    (dX dY p1 q1 : Nat) (hdX : 1 ≤ dX) (hdY : dY ≤ dX)
    (hp : p1 + dX < 32768) (hq : q1 < 32768) (hdown : up = false → dY ≤ q1)
    (hclip : ∀ k, k ≤ dX → inClip ctx (loopPixel ctx steep up dX dY p1 q1 k)) :
    ∀ (fuel k : Nat) (y : Nat) (e : Int) (s : Surface) (r : EMSTATUS × Surface),
      k ≤ dX + 1 →
      (k ≤ dX → y = (if up then q1 + minorOffset dX dY k else q1 - minorOffset dX dY k) ∧
        e = ((k * dY : Nat) : Int) - ((dX / 2 : Nat) : Int)
          - ((minorOffset dX dY k * dX : Nat) : Int)) →
      lineLoop ctx steep (dX : Int) (dY : Int) (if up then 1 else -1) (p1 + dX) fuel
          (p1 + k) y e s = some r →
      r.1 = 0 ∨ ∃ n, r.1 = s.status n := by
  intro fuel
  induction fuel with
  | zero => intro k y e s r _ _ h; simp [lineLoop] at h
  | succ f ih =>
    intro k y e s r hk hye h
    rw [lineLoop_succ] at h
    by_cases hkd : k ≤ dX
    · obtain ⟨rfl, rfl⟩ := hye hkd
      obtain ⟨⟨n, d1⟩, d2⟩ := loopDraw_status ctx steep up dX dY p1 q1 k s (hclip k hkd)
      rw [if_pos (by omega)] at h
      by_cases hst : (if steep then
          GLIB_drawPixel ctx (if up then q1 + minorOffset dX dY k else q1 - minorOffset dX dY k)
            (p1 + k) s
        else
          GLIB_drawPixel ctx (p1 + k)
            (if up then q1 + minorOffset dX dY k else q1 - minorOffset dX dY k) s).1 ≠ 0
      · rw [if_pos hst] at h
        cases h
        exact Or.inr ⟨n, d1⟩
      · rw [if_neg hst] at h
        have hx : toU16 (((p1 + k : Nat) : Int) + 1) = p1 + (k + 1) := by unfold toU16; omega
        rw [hx] at h
        by_cases hlast : k + 1 ≤ dX
        · obtain ⟨s1, s2, s3⟩ := loop_step up dX dY q1 k hdX (by omega) hdY hq hdown hlast
          rw [s1] at h
          by_cases hpos : ((k * dY : Nat) : Int) - ((dX / 2 : Nat) : Int)
              - ((minorOffset dX dY k * dX : Nat) : Int) + (dY : Int) > 0
          · rw [if_pos hpos] at h
            rcases ih (k + 1) _ _ _ r (by omega) (fun _ => s2 hpos) h with h' | ⟨n', h'⟩
            · exact Or.inl h'
            · exact Or.inr ⟨n', by rw [h', d2]⟩
          · rw [if_neg hpos] at h
            rcases ih (k + 1) _ _ _ r (by omega) (fun _ => s3 hpos) h with h' | ⟨n', h'⟩
            · exact Or.inl h'
            · exact Or.inr ⟨n', by rw [h', d2]⟩
        · have hnext : ∀ y' e', lineLoop ctx steep (dX : Int) (dY : Int) (if up then 1 else -1)
              (p1 + dX) f (p1 + (k + 1)) y' e' (if steep then
                GLIB_drawPixel ctx
                  (if up then q1 + minorOffset dX dY k else q1 - minorOffset dX dY k) (p1 + k) s
              else
                GLIB_drawPixel ctx (p1 + k)
                  (if up then q1 + minorOffset dX dY k else q1 - minorOffset dX dY k) s).2
              = some r → r.1 = 0 ∨ ∃ n, r.1 = s.status n := by
            intro y' e' h'
            rcases ih (k + 1) y' e' _ r (by omega) (fun hc => absurd hc hlast) h' with h'' | ⟨n', h''⟩
            · exact Or.inl h''
            · exact Or.inr ⟨n', by rw [h'', d2]⟩
          by_cases hpos : toI16 (((k * dY : Nat) : Int) - ((dX / 2 : Nat) : Int)
              - ((minorOffset dX dY k * dX : Nat) : Int) + (dY : Int)) > 0
          · rw [if_pos hpos] at h
            exact hnext _ _ h
          · rw [if_neg hpos] at h
            exact hnext _ _ h
    · rw [if_neg (by omega)] at h
      cases h
      exact Or.inl rfl

/-! ## The rasterisation of an accepted segment -/

theorem absDiff_toU16 (a b : Nat) (ha : a < 65536) (hb : b < 65536) :
    toU16 (if b > a then (b : Int) - a else (a : Int) - b) = max a b - min a b := by
  unfold toU16; split_ifs <;> omega

/-- The whole rasterisation loop, started as `GLIB_drawLine` starts it: its
status is 0 or a status of the driver, and on a surface that never fails it
writes the pixels of all the steps. -/
theorem lineLoop_full (ctx : GLIB_Context) (hwf : clipWellFormed ctx) (steep up : Bool)
    (dX dY p1 q1 : Nat) (hdX : 1 ≤ dX) (hdY : dY ≤ dX)
    (hp : p1 + dX < 32768) (hq : q1 < 32768) (hdown : up = false → dY ≤ q1)
    (hclip : ∀ k, k ≤ dX → inClip ctx (loopPixel ctx steep up dX dY p1 q1 k))
    (fuel : Nat) (s : Surface)
    (dXi dYi yStep e0 : Int) (p2 : Nat) (h1 : dXi = dX) (h2 : dYi = dY)
    (h3 : yStep = if up then 1 else -1) (h4 : p2 = p1 + dX)
    (h5 : e0 = -((dX / 2 : Nat) : Int)) :
    (∀ r, lineLoop ctx steep dXi dYi yStep p2 fuel p1 q1 e0 s = some r →
      r.1 = 0 ∨ ∃ n, r.1 = s.status n) ∧
    (dX + 1 < fuel → neverFails s →
      ∃ t, lineLoop ctx steep dXi dYi yStep p2 fuel p1 q1 e0 s = some (GLIB_OK, t) ∧
        neverFails t ∧
        t.pixels = s.pixels ++
          (List.range (dX + 1)).map (loopPixel ctx steep up dX dY p1 q1)) := by
  subst h1 h2 h3 h4 h5
  have h0 := minorOffset_zero dX dY hdX
  have hstart : q1 = (if up then q1 + minorOffset dX dY 0 else q1 - minorOffset dX dY 0) ∧
      -((dX / 2 : Nat) : Int) = ((0 * dY : Nat) : Int) - ((dX / 2 : Nat) : Int)
        - ((minorOffset dX dY 0 * dX : Nat) : Int) := by
    rw [h0]
    refine ⟨by split_ifs <;> omega, ?_⟩
    simp
  constructor
  · intro r hr
    have := lineLoop_status ctx steep up dX dY p1 q1 hdX hdY hp hq hdown hclip fuel 0 q1
      (-((dX / 2 : Nat) : Int)) s r (by omega) (fun _ => hstart)
    rw [Nat.add_zero] at this
    exact this hr
  · intro hf hs
    obtain ⟨t, e1, e2, e3⟩ := lineLoop_spec ctx hwf steep up dX dY p1 q1 hdX hdY hp hq hdown
      hclip (dX + 1) 0 fuel q1 (-((dX / 2 : Nat) : Int)) s (by omega) hf hs (fun _ => hstart)
    rw [Nat.add_zero] at e1
    refine ⟨t, e1, e2, ?_⟩
    rw [e3, List.range_eq_range']

theorem tdiv_neg_two (n : Nat) : Int.tdiv (-(n : Int)) 2 = -((n / 2 : Nat) : Int) := by
  rw [Int.neg_tdiv, Int.ofNat_tdiv]
  rfl

/-- The loop as `GLIB_drawLine` starts it on the sorted, possibly transposed
endpoints `(p1, q1)`, `(p2, q2)` with `p1 < p2`, when the whole bounding box of
the segment is inside the clip region. -/
theorem rasterCase (ctx : GLIB_Context) (hwf : clipWellFormed ctx) (steep : Bool)
    (p1 q1 p2 q2 : Nat) (hp : p1 < p2) (hext : max q1 q2 - min q1 q2 ≤ p2 - p1)
    (hp2 : p2 < 32768) (hq1 : q1 < 32768) (hq2 : q2 < 32768)
    (hbox : ∀ j i, p1 ≤ j → j ≤ p2 → min q1 q2 ≤ i → i ≤ max q1 q2 →
      inClip ctx (if steep then fgPixel ctx i j else fgPixel ctx j i))
    (fuel : Nat) (s : Surface) :
    (∀ r, lineLoop ctx steep (toI16 ((p2 : Int) - p1))
        (toI16 (if q2 > q1 then (q2 : Int) - q1 else (q1 : Int) - q2))
        (if q2 < q1 then -1 else 1) p2 fuel p1 q1
        (toI16 (Int.tdiv (-toI16 ((p2 : Int) - p1)) 2)) s = some r →
      r.1 = 0 ∨ ∃ n, r.1 = s.status n) ∧
    (p2 - p1 + 1 < fuel → neverFails s →
      ∃ t, lineLoop ctx steep (toI16 ((p2 : Int) - p1))
          (toI16 (if q2 > q1 then (q2 : Int) - q1 else (q1 : Int) - q2))
          (if q2 < q1 then -1 else 1) p2 fuel p1 q1
          (toI16 (Int.tdiv (-toI16 ((p2 : Int) - p1)) 2)) s = some (GLIB_OK, t) ∧
        neverFails t ∧
        t.pixels = s.pixels ++ (List.range (p2 - p1 + 1)).map
          (loopPixel ctx steep (decide (q1 ≤ q2)) (p2 - p1) (max q1 q2 - min q1 q2) p1 q1)) := by
  have hdx : toI16 ((p2 : Int) - p1) = ((p2 - p1 : Nat) : Int) := by
    rw [toI16_of_lt (by omega) (by omega)]; omega
  have hdy : toI16 (if q2 > q1 then (q2 : Int) - q1 else (q1 : Int) - q2) =
      ((max q1 q2 - min q1 q2 : Nat) : Int) := by
    split_ifs <;> rw [toI16_of_lt (by omega) (by omega)] <;> omega
  have he : toI16 (Int.tdiv (-toI16 ((p2 : Int) - p1)) 2) = -(((p2 - p1) / 2 : Nat) : Int) := by
    rw [hdx, tdiv_neg_two, toI16_of_lt (by omega) (by omega)]
  apply lineLoop_full ctx hwf steep (decide (q1 ≤ q2)) (p2 - p1) (max q1 q2 - min q1 q2) p1 q1
    (by omega) hext (by omega) (by omega)
  · intro hup
    have : ¬ q1 ≤ q2 := by simpa using hup
    omega
  · intro k hk
    have hle := minorOffset_le (p2 - p1) (max q1 q2 - min q1 q2) k (by omega) hk
    unfold loopPixel
    by_cases hq : q1 ≤ q2
    · simp only [hq, decide_True, if_true]
      exact hbox _ _ (by omega) (by omega) (by omega) (by omega)
    · simp only [hq, decide_False, Bool.false_eq_true, if_false]
      exact hbox _ _ (by omega) (by omega) (by omega) (by omega)
  · exact hdx
  · exact hdy
  · by_cases hq : q1 ≤ q2
    · rw [if_neg (by omega)]; simp [hq]
    · rw [if_pos (by omega)]; simp [hq]
  · omega
  · exact he

/-- The loop on a single point: one pixel. -/
theorem rasterPoint (ctx : GLIB_Context) (hwf : clipWellFormed ctx) (x y : Nat)
    (hx : x < 32768) (hin : inClip ctx (fgPixel ctx x y)) (fuel : Nat) (s : Surface) :
    (∀ r, lineLoop ctx false 0 0 1 x fuel x y 0 s = some r →
      r.1 = 0 ∨ ∃ n, r.1 = s.status n) ∧
    (1 < fuel → neverFails s →
      ∃ t, lineLoop ctx false 0 0 1 x fuel x y 0 s = some (GLIB_OK, t) ∧ neverFails t ∧
        t.pixels = s.pixels ++ [fgPixel ctx x y]) := by
  have hx1 : toU16 ((x : Int) + 1) = x + 1 := by unfold toU16; omega
  have he : toI16 (0 + 0) = 0 := by unfold toI16; omega
  constructor
  · intro r hr
    obtain ⟨⟨n, d1⟩, _⟩ := GLIB_drawPixel_status ctx x y s hin
    rcases fuel with _ | f
    · simp [lineLoop] at hr
    · rw [lineLoop_succ, if_pos (Nat.le_refl x)] at hr
      simp only [Bool.false_eq_true, if_false] at hr
      by_cases hst : (GLIB_drawPixel ctx x y s).1 ≠ 0
      · rw [if_pos hst] at hr
        cases hr
        exact Or.inr ⟨n, d1⟩
      · rw [if_neg hst, he, if_neg (by decide), hx1] at hr
        rcases f with _ | f
        · simp [lineLoop] at hr
        · rw [lineLoop_succ, if_neg (by omega)] at hr
          cases hr
          exact Or.inl rfl
  · intro hf hs
    obtain ⟨f, rfl⟩ : ∃ f, fuel = f + 1 + 1 := ⟨fuel - 2, by omega⟩
    obtain ⟨d1, d2, d3⟩ := GLIB_drawPixel_ok ctx hwf x y s hs hin
    rw [lineLoop_succ, if_pos (Nat.le_refl x)]
    simp only [Bool.false_eq_true, if_false]
    rw [if_neg (by rw [d1]; decide), he, if_neg (by decide), hx1, lineLoop_succ,
      if_neg (by omega)]
    exact ⟨_, rfl, d2, d3⟩

/-- The rasterisation of a segment whose endpoints are inside the clip region,
for coordinates below 2^15: its status is 0 or a status of the driver (no
pixel is rejected by the clip test), and on a surface that never fails it
writes the pixels of the reference line and returns `GLIB_OK`. -/
theorem rasterLine_spec (ctx : GLIB_Context) (hwf : clipWellFormed ctx)
    (x1 y1 x2 y2 : Nat) (hx1 : x1 < 32768) (hy1 : y1 < 32768) (hx2 : x2 < 32768)
    (hy2 : y2 < 32768)
    (hin1 : inClip ctx (fgPixel ctx x1 y1)) (hin2 : inClip ctx (fgPixel ctx x2 y2))
    (fuel : Nat) (s : Surface) :
    (∀ r, rasterLine fuel ctx x1 y1 x2 y2 s = some r → r.1 = 0 ∨ ∃ n, r.1 = s.status n) ∧
    (max (max x1 x2 - min x1 x2) (max y1 y2 - min y1 y2) + 1 < fuel → neverFails s →
      ∃ t, rasterLine fuel ctx x1 y1 x2 y2 s = some (GLIB_OK, t) ∧ neverFails t ∧
        t.pixels = s.pixels ++ linePixels ctx x1 y1 x2 y2) := by
  have hi1 : ctx.clippingRegion.xMin ≤ x1 ∧ x1 ≤ ctx.clippingRegion.xMax ∧
      ctx.clippingRegion.yMin ≤ y1 ∧ y1 ≤ ctx.clippingRegion.yMax := hin1
  have hi2 : ctx.clippingRegion.xMin ≤ x2 ∧ x2 ≤ ctx.clippingRegion.xMax ∧
      ctx.clippingRegion.yMin ≤ y2 ∧ y2 ≤ ctx.clippingRegion.yMax := hin2
  unfold rasterLine
  simp only [absDiff_toU16 y1 y2 (by omega) (by omega), absDiff_toU16 x1 x2 (by omega) (by omega)]
  by_cases hst : max y1 y2 - min y1 y2 > max x1 x2 - min x1 x2
  · simp only [hst, decide_True, if_true]
    by_cases hsw : y2 < y1
    · simp only [hsw, if_true]
      obtain ⟨c1, c2⟩ := rasterCase ctx hwf true y2 x2 y1 x1 hsw (by omega) (by omega)
        (by omega) (by omega)
        (by intro j i h1 h2 h3 h4; simp only [if_true, inClip, fgPixel]; omega) fuel s
      refine ⟨c1, fun hf hs => ?_⟩
      obtain ⟨t, e1, e2, e3⟩ := c2 (by omega) hs
      refine ⟨t, e1, e2, ?_⟩
      rw [e3]
      congr 1
      unfold linePixels
      rw [show max (max x1 x2 - min x1 x2) (max y1 y2 - min y1 y2) = y1 - y2 by omega]
      apply List.map_congr_left
      intro k _
      unfold loopPixel linePixel
      rw [show max x2 x1 - min x2 x1 = max x1 x2 - min x1 x2 by omega,
        show y1 - y2 = max y1 y2 - min y1 y2 by omega]
      simp only [hst, if_true, if_neg (show ¬ y1 ≤ y2 by omega), decide_eq_true_eq]
    · simp only [hsw, if_false]
      obtain ⟨c1, c2⟩ := rasterCase ctx hwf true y1 x1 y2 x2 (by omega) (by omega)
        (by omega) (by omega) (by omega)
        (by intro j i h1 h2 h3 h4; simp only [if_true, inClip, fgPixel]; omega) fuel s
      refine ⟨c1, fun hf hs => ?_⟩
      obtain ⟨t, e1, e2, e3⟩ := c2 (by omega) hs
      refine ⟨t, e1, e2, ?_⟩
      rw [e3]
      congr 1
      unfold linePixels
      rw [show max (max x1 x2 - min x1 x2) (max y1 y2 - min y1 y2) = y2 - y1 by omega]
      apply List.map_congr_left
      intro k _
      unfold loopPixel linePixel
      rw [show y2 - y1 = max y1 y2 - min y1 y2 by omega]
      simp only [hst, if_true, if_pos (show y1 ≤ y2 by omega), decide_eq_true_eq]
  · simp only [hst, decide_False, Bool.false_eq_true, if_false]
    by_cases hsw : x2 < x1
    · simp only [hsw, if_true]
      obtain ⟨c1, c2⟩ := rasterCase ctx hwf false x2 y2 x1 y1 hsw (by omega) (by omega)
        (by omega) (by omega)
        (by intro j i h1 h2 h3 h4
            simp only [Bool.false_eq_true, if_false, inClip, fgPixel]; omega) fuel s
      refine ⟨c1, fun hf hs => ?_⟩
      obtain ⟨t, e1, e2, e3⟩ := c2 (by omega) hs
      refine ⟨t, e1, e2, ?_⟩
      rw [e3]
      congr 1
      unfold linePixels
      rw [show max (max x1 x2 - min x1 x2) (max y1 y2 - min y1 y2) = x1 - x2 by omega]
      apply List.map_congr_left
      intro k _
      unfold loopPixel linePixel
      rw [show max y2 y1 - min y2 y1 = max y1 y2 - min y1 y2 by omega,
        show x1 - x2 = max x1 x2 - min x1 x2 by omega]
      simp only [hst, if_false, Bool.false_eq_true, if_neg (show ¬ x1 ≤ x2 by omega),
        decide_eq_true_eq]
    · simp only [hsw, if_false]
      by_cases hdeg : x1 = x2
      · subst hdeg
        have hy : y1 = y2 := by omega
        subst hy
        have z1 : toI16 ((x1 : Int) - (x1 : Int)) = 0 := by unfold toI16; omega
        have z2 : toI16 (if y1 > y1 then (y1 : Int) - y1 else (y1 : Int) - y1) = 0 := by
          unfold toI16; split_ifs <;> omega
        have z3 : toI16 (Int.tdiv (-0) 2) = 0 := by decide
        rw [z1, z2, z3, if_neg (Nat.lt_irrefl y1)]
        obtain ⟨c1, c2⟩ := rasterPoint ctx hwf x1 y1 (by omega) hin1 fuel s
        refine ⟨c1, fun hf hs => ?_⟩
        obtain ⟨t, e1, e2, e3⟩ := c2 (by omega) hs
        refine ⟨t, e1, e2, ?_⟩
        rw [e3]
        congr 1
        unfold linePixels linePixel
        simp [minorOffset, List.range_succ]
      · obtain ⟨c1, c2⟩ := rasterCase ctx hwf false x1 y1 x2 y2 (by omega) (by omega)
          (by omega) (by omega) (by omega)
          (by intro j i h1 h2 h3 h4
              simp only [Bool.false_eq_true, if_false, inClip, fgPixel]; omega) fuel s
        refine ⟨c1, fun hf hs => ?_⟩
        obtain ⟨t, e1, e2, e3⟩ := c2 (by omega) hs
        refine ⟨t, e1, e2, ?_⟩
        rw [e3]
        congr 1
        unfold linePixels
        rw [show max (max x1 x2 - min x1 x2) (max y1 y2 - min y1 y2) = x2 - x1 by omega]
        apply List.map_congr_left
        intro k _
        unfold loopPixel linePixel
        rw [show x2 - x1 = max x1 x2 - min x1 x2 by omega]
        simp only [hst, if_false, Bool.false_eq_true, if_pos (show x1 ≤ x2 by omega),
          decide_eq_true_eq]

/-! ## Cohen-Sutherland clipping -/

/-- One iteration of the loop of `GLIB_clipLine`. -/
theorem GLIB_clipLine_succ (ctx : GLIB_Context) (fuel x y x1 y1 x2 y2 : Nat) :
    GLIB_clipLine ctx (fuel + 1) x y x1 y1 x2 y2 =
      if GLIB_getClipCode ctx x1 y1 ||| GLIB_getClipCode ctx x2 y2 = 0 then
        some (1, x1, y1, x2, y2)
      else if GLIB_getClipCode ctx x1 y1 &&& GLIB_getClipCode ctx x2 y2 ≠ 0 then
        some (0, x1, y1, x2, y2)
      else
        match clipMoved ctx
          (if GLIB_getClipCode ctx x1 y1 ≠ 0 then GLIB_getClipCode ctx x1 y1
            else GLIB_getClipCode ctx x2 y2) x y x1 y1 x2 y2 with
        | none => none
        | some (nx, ny) =>
          if GLIB_getClipCode ctx x1 y1 ≠ 0 then GLIB_clipLine ctx fuel nx ny nx ny x2 y2
          else GLIB_clipLine ctx fuel nx ny x1 y1 nx ny := rfl

/-- The outcode as a sum of its four bits. -/
theorem GLIB_getClipCode_eq (ctx : GLIB_Context) (x y : Nat) :
    GLIB_getClipCode ctx x y =
      (if x < ctx.clippingRegion.xMin then 1 else 0) +
      (if x > ctx.clippingRegion.xMax then 2 else 0) +
      (if y > ctx.clippingRegion.yMax then 4 else 0) +
      (if y < ctx.clippingRegion.yMin then 8 else 0) := by
  unfold GLIB_getClipCode
  simp only []
  split_ifs <;> rfl

theorem GLIB_getClipCode_lt (ctx : GLIB_Context) (x y : Nat) : GLIB_getClipCode ctx x y < 16 := by
  rw [GLIB_getClipCode_eq]
  split_ifs <;> omega

theorem GLIB_getClipCode_eq_zero (ctx : GLIB_Context) (x y : Nat) :
    GLIB_getClipCode ctx x y = 0 ↔
      ctx.clippingRegion.xMin ≤ x ∧ x ≤ ctx.clippingRegion.xMax ∧
      ctx.clippingRegion.yMin ≤ y ∧ y ≤ ctx.clippingRegion.yMax := by
  rw [GLIB_getClipCode_eq]
  split_ifs <;> constructor <;> intro h <;> first | omega | exact h.elim

theorem lor_eq_zero_of_lt : ∀ a, a < 16 → ∀ b, b < 16 → a ||| b = 0 → a = 0 ∧ b = 0 := by
  decide

/-- A segment with both endpoints inside the clip region is accepted
unchanged by the first iteration. -/
theorem GLIB_clipLine_inside (ctx : GLIB_Context) (fuel x y x1 y1 x2 y2 : Nat) (hf : 0 < fuel)
    (h1 : GLIB_getClipCode ctx x1 y1 = 0) (h2 : GLIB_getClipCode ctx x2 y2 = 0) :
    GLIB_clipLine ctx fuel x y x1 y1 x2 y2 = some (1, x1, y1, x2, y2) := by
  obtain ⟨f, rfl⟩ : ∃ f, fuel = f + 1 := ⟨fuel - 1, by omega⟩
  rw [GLIB_clipLine_succ, h1, h2]
  rfl

/-- Whatever `GLIB_clipLine` returns is a rejection (0) or an acceptance (1)
of a segment whose two endpoints are inside the clip region. -/
theorem GLIB_clipLine_result (ctx : GLIB_Context) :
    ∀ (fuel x y x1 y1 x2 y2 : Nat) (c : Nat × Nat × Nat × Nat × Nat),
      GLIB_clipLine ctx fuel x y x1 y1 x2 y2 = some c →
      c.1 = 0 ∨ (c.1 = 1 ∧ GLIB_getClipCode ctx c.2.1 c.2.2.1 = 0 ∧
        GLIB_getClipCode ctx c.2.2.2.1 c.2.2.2.2 = 0) := by
  intro fuel
  induction fuel with
  | zero => intro x y x1 y1 x2 y2 c h; simp [GLIB_clipLine] at h
  | succ n ih =>
    intro x y x1 y1 x2 y2 c h
    rw [GLIB_clipLine_succ] at h
    by_cases hacc : GLIB_getClipCode ctx x1 y1 ||| GLIB_getClipCode ctx x2 y2 = 0
    · rw [if_pos hacc] at h
      cases h
      obtain ⟨z1, z2⟩ := lor_eq_zero_of_lt _ (GLIB_getClipCode_lt ctx x1 y1) _
        (GLIB_getClipCode_lt ctx x2 y2) hacc
      exact Or.inr ⟨rfl, z1, z2⟩
    · rw [if_neg hacc] at h
      by_cases hrej : GLIB_getClipCode ctx x1 y1 &&& GLIB_getClipCode ctx x2 y2 ≠ 0
      · rw [if_pos hrej] at h
        cases h
        exact Or.inl rfl
      · rw [if_neg hrej] at h
        cases hm : clipMoved ctx
          (if GLIB_getClipCode ctx x1 y1 ≠ 0 then GLIB_getClipCode ctx x1 y1
            else GLIB_getClipCode ctx x2 y2) x y x1 y1 x2 y2 with
        | none => rw [hm] at h; simp at h
        | some p =>
          obtain ⟨nx, ny⟩ := p
          rw [hm] at h
          simp only [] at h
          by_cases hc1 : GLIB_getClipCode ctx x1 y1 ≠ 0
          · rw [if_pos hc1] at h
            exact ih _ _ _ _ _ _ c h
          · rw [if_neg hc1] at h
            exact ih _ _ _ _ _ _ c h

/-! ## C2: segments outside the clip region -/

/-- Two endpoints beyond the same edge share an outcode bit. -/
theorem clipCode_shared (ctx : GLIB_Context) (x1 y1 x2 y2 : Nat)
    (h : beyondSameEdge ctx x1 y1 x2 y2) :
    GLIB_getClipCode ctx x1 y1 ||| GLIB_getClipCode ctx x2 y2 ≠ 0 ∧
    GLIB_getClipCode ctx x1 y1 &&& GLIB_getClipCode ctx x2 y2 ≠ 0 := by
  unfold beyondSameEdge at h
  rw [GLIB_getClipCode_eq, GLIB_getClipCode_eq]
  split_ifs <;> first | (exfalso; omega) | decide

/-- For every context and every segment whose two endpoints
lie beyond the same edge of the clip rectangle (both left, both right, both
below or both above it), `GLIB_drawLine` returns, writes no pixel, and its
status is `GLIB_DID_NOT_DRAW` whenever the next driver call (the reset of the
hardware clip window, which the horizontal and the general path issue before
they test the segment) does not fail. -/
theorem GLIB_drawLine_sameEdge (ctx : GLIB_Context) (x1 y1 x2 y2 : Nat)
    (hout : beyondSameEdge ctx x1 y1 x2 y2) (fuel : Nat) (hf : 0 < fuel) (s : Surface) :
    ∃ r, GLIB_drawLine fuel ctx x1 y1 x2 y2 s = some r ∧ Writes s r.2 [] ∧
      (s.status s.calls.length = 0 → r.1 = GLIB_DID_NOT_DRAW) := by
  have hout' := hout
  unfold beyondSameEdge at hout'
  by_cases hx : x1 = x2
  · refine ⟨GLIB_drawLineV ctx x1 y1 y2 s, by rw [GLIB_drawLine, if_pos hx], ?_⟩
    rw [GLIB_drawLineV_eq]
    by_cases hxo : x1 < ctx.clippingRegion.xMin ∨ x1 > ctx.clippingRegion.xMax
    · rw [if_pos hxo]; exact ⟨by simp [Writes], fun _ => rfl⟩
    · rw [if_neg hxo, if_pos (by omega)]; exact ⟨by simp [Writes], fun _ => rfl⟩
  by_cases hy : y1 = y2
  · refine ⟨GLIB_drawLineH ctx x1 y1 x2 s, by rw [GLIB_drawLine, if_neg hx, if_pos hy], ?_⟩
    rw [GLIB_drawLineH_eq]
    by_cases hyo : y1 < ctx.clippingRegion.yMin ∨ y1 > ctx.clippingRegion.yMax
    · rw [if_pos hyo]; exact ⟨by simp [Writes], fun _ => rfl⟩
    · rw [if_neg hyo]
      by_cases h0 : s.status s.calls.length ≠ 0
      · rw [if_pos h0]
        exact ⟨by simp [Writes, GLIB_resetDisplayClippingArea_eq], fun h => absurd h h0⟩
      · rw [if_neg h0, if_pos (by omega)]
        exact ⟨by simp [Writes, GLIB_resetDisplayClippingArea_eq], fun _ => rfl⟩
  rw [GLIB_drawLine_general fuel ctx x1 y1 x2 y2 s hx hy]
  by_cases h0 : s.status s.calls.length ≠ 0
  · rw [if_pos h0]
    exact ⟨_, rfl, by simp [Writes, GLIB_resetDisplayClippingArea_eq], fun h => absurd h h0⟩
  · rw [if_neg h0]
    obtain ⟨f, rfl⟩ : ∃ f, fuel = f + 1 := ⟨fuel - 1, by omega⟩
    obtain ⟨c1, c2⟩ := clipCode_shared ctx x1 y1 x2 y2 hout
    rw [GLIB_clipLine_succ, if_neg c1, if_pos c2]
    exact ⟨_, rfl, by simp [Writes, GLIB_resetDisplayClippingArea_eq], fun _ => rfl⟩


/-! ## C5, C4, C3: the general path of `GLIB_drawLine` -/

/-- The general path on a segment whose endpoints are inside the clip region
and have coordinates below 2^15: clipping accepts the segment unchanged, the
status is 0 or a status of the driver, and on a surface that never fails the
pixels of the reference line are written. -/
theorem GLIB_drawLine_inside (ctx : GLIB_Context) (hwf : clipWellFormed ctx)
    (x1 y1 x2 y2 : Nat) (hx1 : x1 < 32768) (hy1 : y1 < 32768) (hx2 : x2 < 32768)
    (hy2 : y2 < 32768)
    (hin1 : inClip ctx (fgPixel ctx x1 y1)) (hin2 : inClip ctx (fgPixel ctx x2 y2))
    (hx : x1 ≠ x2) (hy : y1 ≠ y2) (fuel : Nat)
    (hf : max (max x1 x2 - min x1 x2) (max y1 y2 - min y1 y2) + 1 < fuel)
    (s : Surface) (hs : neverFails s) :
    GLIB_clipLine ctx fuel 0 0 x1 y1 x2 y2 = some (1, x1, y1, x2, y2) ∧
    ∃ t, GLIB_drawLine fuel ctx x1 y1 x2 y2 s = some (GLIB_OK, t) ∧
      Writes s t (linePixels ctx x1 y1 x2 y2) := by
  have hc1 : GLIB_getClipCode ctx x1 y1 = 0 := (GLIB_getClipCode_eq_zero ctx x1 y1).mpr hin1
  have hc2 : GLIB_getClipCode ctx x2 y2 = 0 := (GLIB_getClipCode_eq_zero ctx x2 y2).mpr hin2
  have hclip := GLIB_clipLine_inside ctx fuel 0 0 x1 y1 x2 y2 (by omega) hc1 hc2
  refine ⟨hclip, ?_⟩
  rw [GLIB_drawLine_general fuel ctx x1 y1 x2 y2 s hx hy, if_neg (by simpa using hs _), hclip]
  simp only [one_ne_zero, if_false]
  have hs' : neverFails (GLIB_resetDisplayClippingArea ctx s).2 :=
    neverFails_of_status_eq (by simp [GLIB_resetDisplayClippingArea_eq]) hs
  obtain ⟨t, e1, _, e3⟩ := (rasterLine_spec ctx hwf x1 y1 x2 y2 hx1 hy1 hx2 hy2 hin1 hin2 fuel
    (GLIB_resetDisplayClippingArea ctx s).2).2 hf hs'
  refine ⟨t, e1, ?_⟩
  unfold Writes
  rw [e3, GLIB_resetDisplayClippingArea_eq, DMD_setClippingArea_pixels]

/-- Counterexample to **C5** as stated.  On a display 65535 pixels wide whose
clip region is the whole display, the segment (0,0)-(65534,1) has both
endpoints inside the clip region and the driver never fails, yet
`GLIB_drawLine` writes the two pixels (0,0), (1,1) only and returns
`GLIB_DID_NOT_DRAW`: the `int16_t` difference `deltaX` wraps to -2.  And in the
demonstration context, with a driver whose first call fails with status 9, the
segment (20,20)-(30,25) inside the clip region is not drawn at all. -/
theorem C5_drawLine_inside_counterexample :
    clipWellFormed bigContext ∧
    inClip bigContext (fgPixel bigContext 0 0) ∧ inClip bigContext (fgPixel bigContext 65534 1) ∧
    (GLIB_drawLine 70000 bigContext 0 0 65534 1 freshSurface).map (fun r => (r.1, r.2.pixels)) =
      some (GLIB_DID_NOT_DRAW, [fgPixel bigContext 0 0, fgPixel bigContext 1 1]) ∧
    clipWellFormed demoContext ∧
    inClip demoContext (fgPixel demoContext 20 20) ∧
    inClip demoContext (fgPixel demoContext 30 25) ∧
    (GLIB_drawLine 100 demoContext 20 20 30 25 (failingSurface 0 9)).map
      (fun r => (r.1, r.2.pixels)) = some (9, []) := by
  decide

/-- **C5**, amended.  For every context with a well-formed clip region and
every non-axis-aligned segment with coordinates below 2^15 whose two endpoints
lie inside the clip region: clipping leaves both endpoints unchanged, and on a
surface whose driver never fails `GLIB_drawLine` returns `GLIB_OK` and writes
exactly `max(|x2-x1|, |y2-y1|) + 1` pixels, the pixels `linePixel .. k` for
`k = 0 .. max(|x2-x1|, |y2-y1|)`, whose major-axis coordinate is the smaller
major coordinate of the endpoints plus `k`, and the first and last of which
are the two given endpoints. -/
theorem C5_drawLine_inside_amended (ctx : GLIB_Context) (hwf : clipWellFormed ctx)
    (x1 y1 x2 y2 : Nat) (hx1 : x1 < 32768) (hy1 : y1 < 32768) (hx2 : x2 < 32768)
    (hy2 : y2 < 32768)
    (hin1 : inClip ctx (fgPixel ctx x1 y1)) (hin2 : inClip ctx (fgPixel ctx x2 y2))
    (hx : x1 ≠ x2) (hy : y1 ≠ y2) (fuel : Nat)
    (hf : max (max x1 x2 - min x1 x2) (max y1 y2 - min y1 y2) + 1 < fuel)
    (s : Surface) (hs : neverFails s) :
    GLIB_clipLine ctx fuel 0 0 x1 y1 x2 y2 = some (1, x1, y1, x2, y2) ∧
    (∃ t, GLIB_drawLine fuel ctx x1 y1 x2 y2 s = some (GLIB_OK, t) ∧
      Writes s t ((List.range (max (max x1 x2 - min x1 x2) (max y1 y2 - min y1 y2) + 1)).map
        (linePixel ctx x1 y1 x2 y2))) ∧
    ((List.range (max (max x1 x2 - min x1 x2) (max y1 y2 - min y1 y2) + 1)).map
        (linePixel ctx x1 y1 x2 y2)).length =
      max (max x1 x2 - min x1 x2) (max y1 y2 - min y1 y2) + 1 ∧
    (∀ k, k ≤ max (max x1 x2 - min x1 x2) (max y1 y2 - min y1 y2) →
      if max y1 y2 - min y1 y2 > max x1 x2 - min x1 x2 then
        (linePixel ctx x1 y1 x2 y2 k).y = min y1 y2 + k
      else (linePixel ctx x1 y1 x2 y2 k).x = min x1 x2 + k) ∧
    ((linePixel ctx x1 y1 x2 y2 0 = fgPixel ctx x1 y1 ∧
        linePixel ctx x1 y1 x2 y2 (max (max x1 x2 - min x1 x2) (max y1 y2 - min y1 y2)) =
          fgPixel ctx x2 y2) ∨
     (linePixel ctx x1 y1 x2 y2 0 = fgPixel ctx x2 y2 ∧
        linePixel ctx x1 y1 x2 y2 (max (max x1 x2 - min x1 x2) (max y1 y2 - min y1 y2)) =
          fgPixel ctx x1 y1)) := by
  obtain ⟨e1, e2⟩ := GLIB_drawLine_inside ctx hwf x1 y1 x2 y2 hx1 hy1 hx2 hy2 hin1 hin2 hx hy
    fuel hf s hs
  refine ⟨e1, e2, by simp, ?_, ?_⟩
  · intro k _
    unfold linePixel
    split_ifs <;> simp only [fgPixel] <;> omega
  · unfold linePixel
    by_cases hst : max y1 y2 - min y1 y2 > max x1 x2 - min x1 x2
    · have hm : max (max x1 x2 - min x1 x2) (max y1 y2 - min y1 y2) = max y1 y2 - min y1 y2 := by
        omega
      have z := minorOffset_zero (max y1 y2 - min y1 y2) (max x1 x2 - min x1 x2) (by omega)
      have l := minorOffset_last (max y1 y2 - min y1 y2) (max x1 x2 - min x1 x2) (by omega)
      rw [hm]
      simp only [hst, if_true, z, l]
      by_cases h12 : y1 ≤ y2
      · left
        simp only [h12, if_true]
        constructor
        · congr 1; split_ifs <;> omega
        · congr 1
          · split_ifs <;> omega
          · omega
      · right
        simp only [h12, if_false]
        constructor
        · congr 1; split_ifs <;> omega
        · congr 1
          · split_ifs <;> omega
          · omega
    · have hm : max (max x1 x2 - min x1 x2) (max y1 y2 - min y1 y2) = max x1 x2 - min x1 x2 := by
        omega
      have z := minorOffset_zero (max x1 x2 - min x1 x2) (max y1 y2 - min y1 y2) (by omega)
      have l := minorOffset_last (max x1 x2 - min x1 x2) (max y1 y2 - min y1 y2) (by omega)
      rw [hm]
      simp only [hst, if_false, z, l]
      by_cases h12 : x1 ≤ x2
      · left
        simp only [h12, if_true]
        constructor
        · congr 1; split_ifs <;> omega
        · congr 1
          · omega
          · split_ifs <;> omega
      · right
        simp only [h12, if_false]
        constructor
        · congr 1; split_ifs <;> omega
        · congr 1
          · omega
          · split_ifs <;> omega

/-- Witness of **C5**, amended: the segment (20,20)-(30,25) in the
demonstration context. -/
theorem C5_drawLine_inside_amended_witness :
    clipWellFormed demoContext ∧ neverFails freshSurface ∧
    GLIB_clipLine demoContext 100 0 0 20 20 30 25 = some (1, 20, 20, 30, 25) ∧
    ∃ t, GLIB_drawLine 100 demoContext 20 20 30 25 freshSurface = some (GLIB_OK, t) ∧
      Writes freshSurface t ((List.range 11).map (linePixel demoContext 20 20 30 25)) :=
  ⟨by decide, fun _ => rfl,
   (C5_drawLine_inside_amended demoContext (by decide) 20 20 30 25 (by decide) (by decide)
     (by decide) (by decide) (by decide) (by decide) (by decide) (by decide) 100 (by decide)
     freshSurface (fun _ => rfl)).1,
   (C5_drawLine_inside_amended demoContext (by decide) 20 20 30 25 (by decide) (by decide)
     (by decide) (by decide) (by decide) (by decide) (by decide) (by decide) 100 (by decide)
     freshSurface (fun _ => rfl)).2.1⟩

/-- Counterexample to **C4** as stated.  In the demonstration context the
diagonal segment (20,20)-(30,30) lies inside the clip region, with
coordinates below 2^15; with a driver whose call number 3 fails with status 9
only the pixel (20,20) is written, not the 11 points of the diagonal. -/
theorem C4_drawLine_reference_counterexample :
    clipWellFormed demoContext ∧
    inClip demoContext (fgPixel demoContext 20 20) ∧
    inClip demoContext (fgPixel demoContext 30 30) ∧
    (GLIB_drawLine 100 demoContext 20 20 30 30 (failingSurface 3 9)).map
      (fun r => (r.1, r.2.pixels)) = some (9, [fgPixel demoContext 20 20]) := by
  decide

/-- On a diagonal the reference line is the set of the diagonal points
between the two endpoints. -/
theorem mem_linePixels_diagonal (ctx : GLIB_Context) (x1 y1 x2 y2 : Nat) (hx : x1 ≠ x2)
    (hd : max x1 x2 - min x1 x2 = max y1 y2 - min y1 y2) (p : Pixel) :
    p ∈ linePixels ctx x1 y1 x2 y2 ↔
      ∃ k, k ≤ max x1 x2 - min x1 x2 ∧
        p = fgPixel ctx (if x1 ≤ x2 then x1 + k else x1 - k)
          (if y1 ≤ y2 then y1 + k else y1 - k) := by
  have hm : max (max x1 x2 - min x1 x2) (max y1 y2 - min y1 y2) = max x1 x2 - min x1 x2 := by
    omega
  have hdiag : ∀ k, minorOffset (max x1 x2 - min x1 x2) (max y1 y2 - min y1 y2) k = k := by
    intro k
    rw [← hd]
    exact minorOffset_diagonal _ k (by omega)
  unfold linePixels
  rw [hm]
  simp only [List.mem_map, List.mem_range]
  have hpix : ∀ k, linePixel ctx x1 y1 x2 y2 k =
      if x1 ≤ x2 then fgPixel ctx (x1 + k) (if y1 ≤ y2 then y1 + k else y1 - k)
      else fgPixel ctx (x2 + k) (if y2 ≤ y1 then y2 + k else y2 - k) := by
    intro k
    unfold linePixel
    rw [if_neg (by omega), hdiag]
  constructor
  · rintro ⟨k, hk, rfl⟩
    rw [hpix]
    by_cases h12 : x1 ≤ x2
    · refine ⟨k, by omega, ?_⟩
      simp only [h12, if_true]
    · refine ⟨max x1 x2 - min x1 x2 - k, by omega, ?_⟩
      simp only [h12, if_false]
      congr 1
      · omega
      · split_ifs <;> omega
  · rintro ⟨k, hk, rfl⟩
    by_cases h12 : x1 ≤ x2
    · refine ⟨k, by omega, ?_⟩
      rw [hpix]
      simp only [h12, if_true]
    · refine ⟨max x1 x2 - min x1 x2 - k, by omega, ?_⟩
      rw [hpix]
      simp only [h12, if_false]
      congr 1
      · omega
      · split_ifs <;> omega

/-- **C4**, amended.  With no clipping active (both endpoints inside the clip
region, coordinates below 2^15) and a surface whose driver never fails, the
general path of `GLIB_drawLine` returns `GLIB_OK` and writes the pixels of the
reference line: at major-axis step `k` (`k = 0 .. Dmajor`) the written pixel
`linePixel .. k` has the minor-axis offset `s = minorOffset Dmajor Dminor k`,
which satisfies `|2 * (k * Dminor - s * Dmajor)| ≤ Dmajor`; and for a
45-degree line (`|x2 - x1| = |y2 - y1| = n`) the pixels written are exactly
the `n + 1` diagonal points between the two endpoints. -/
theorem C4_drawLine_reference_amended (ctx : GLIB_Context) (hwf : clipWellFormed ctx)
    (x1 y1 x2 y2 : Nat) (hx1 : x1 < 32768) (hy1 : y1 < 32768) (hx2 : x2 < 32768)
    (hy2 : y2 < 32768)
    (hin1 : inClip ctx (fgPixel ctx x1 y1)) (hin2 : inClip ctx (fgPixel ctx x2 y2))
    (hx : x1 ≠ x2) (hy : y1 ≠ y2) (fuel : Nat)
    (hf : max (max x1 x2 - min x1 x2) (max y1 y2 - min y1 y2) + 1 < fuel)
    (s : Surface) (hs : neverFails s) :
    (∃ t, GLIB_drawLine fuel ctx x1 y1 x2 y2 s = some (GLIB_OK, t) ∧
      Writes s t ((List.range (max (max x1 x2 - min x1 x2) (max y1 y2 - min y1 y2) + 1)).map
        (linePixel ctx x1 y1 x2 y2))) ∧
    (∀ k, k ≤ max (max x1 x2 - min x1 x2) (max y1 y2 - min y1 y2) →
      |2 * (((k * min (max x1 x2 - min x1 x2) (max y1 y2 - min y1 y2) : Nat) : Int) -
        ((minorOffset (max (max x1 x2 - min x1 x2) (max y1 y2 - min y1 y2))
            (min (max x1 x2 - min x1 x2) (max y1 y2 - min y1 y2)) k *
          max (max x1 x2 - min x1 x2) (max y1 y2 - min y1 y2) : Nat) : Int))| ≤
        ((max (max x1 x2 - min x1 x2) (max y1 y2 - min y1 y2) : Nat) : Int)) ∧
    (max x1 x2 - min x1 x2 = max y1 y2 - min y1 y2 →
      ((List.range (max (max x1 x2 - min x1 x2) (max y1 y2 - min y1 y2) + 1)).map
        (linePixel ctx x1 y1 x2 y2)).length = max x1 x2 - min x1 x2 + 1 ∧
      ∀ p, p ∈ (List.range (max (max x1 x2 - min x1 x2) (max y1 y2 - min y1 y2) + 1)).map
          (linePixel ctx x1 y1 x2 y2) ↔
        ∃ k, k ≤ max x1 x2 - min x1 x2 ∧
          p = fgPixel ctx (if x1 ≤ x2 then x1 + k else x1 - k)
            (if y1 ≤ y2 then y1 + k else y1 - k)) := by
  obtain ⟨_, e2⟩ := GLIB_drawLine_inside ctx hwf x1 y1 x2 y2 hx1 hy1 hx2 hy2 hin1 hin2 hx hy
    fuel hf s hs
  refine ⟨e2, ?_, ?_⟩
  · intro k _
    exact minorOffset_half_pixel _ _ k (by omega)
  · intro hd
    refine ⟨by simp; omega, ?_⟩
    intro p
    exact mem_linePixels_diagonal ctx x1 y1 x2 y2 hx hd p

/-- Witness of **C4**, amended: the diagonal (20,20)-(30,30) in the
demonstration context. -/
theorem C4_drawLine_reference_amended_witness :
    clipWellFormed demoContext ∧ neverFails freshSurface ∧
    ∃ t, GLIB_drawLine 100 demoContext 20 20 30 30 freshSurface = some (GLIB_OK, t) ∧
      Writes freshSurface t ((List.range 11).map (linePixel demoContext 20 20 30 30)) :=
  ⟨by decide, fun _ => rfl,
   (C4_drawLine_reference_amended demoContext (by decide) 20 20 30 30 (by decide) (by decide)
     (by decide) (by decide) (by decide) (by decide) (by decide) (by decide) 100 (by decide)
     freshSurface (fun _ => rfl)).1⟩

/-- Counterexample to **C3** as stated.  On a display 65535 pixels wide whose
clip region is the whole display, with a driver that never fails, the
non-axis-aligned segment (0,0)-(65534,1) is accepted by the clipping, two
pixels are written, and then the pixel (2,2) is rejected inside the loop:
`GLIB_drawLine` returns `GLIB_DID_NOT_DRAW` although pixels were written.  And
in the demonstration context, with a driver whose call number 3 fails with
the status 1, the segment (20,20)-(30,25) gives `GLIB_DID_NOT_DRAW` after the
pixel (20,20) was written. -/
theorem C3_drawLine_status_counterexample :
    clipWellFormed bigContext ∧
    (GLIB_drawLine 70000 bigContext 0 0 65534 1 freshSurface).map (fun r => (r.1, r.2.pixels)) =
      some (GLIB_DID_NOT_DRAW, [fgPixel bigContext 0 0, fgPixel bigContext 1 1]) ∧
    clipWellFormed demoContext ∧
    (GLIB_drawLine 100 demoContext 20 20 30 25 (failingSurface 3 1)).map
      (fun r => (r.1, r.2.pixels)) = some (GLIB_DID_NOT_DRAW, [fgPixel demoContext 20 20]) := by
  decide

/-- **C3**, amended.  For every context with a well-formed clip region whose
bounds are below 2^15 and every non-axis-aligned segment, whatever
`GLIB_drawLine` returns: if no driver status equals `GLIB_DID_NOT_DRAW` and the
result is `GLIB_DID_NOT_DRAW`, then no pixel has been written; and if the
driver never fails and a pixel was written, the result is `GLIB_OK`. -/
theorem C3_drawLine_status_amended (ctx : GLIB_Context) (hwf : clipWellFormed ctx)
    (hX : ctx.clippingRegion.xMax < 32768) (hY : ctx.clippingRegion.yMax < 32768)
    (x1 y1 x2 y2 : Nat) (hx : x1 ≠ x2) (hy : y1 ≠ y2) (fuel : Nat) (s : Surface)
    (r : EMSTATUS × Surface) (h : GLIB_drawLine fuel ctx x1 y1 x2 y2 s = some r) :
    ((∀ n, s.status n ≠ GLIB_DID_NOT_DRAW) → r.1 = GLIB_DID_NOT_DRAW →
      r.2.pixels = s.pixels) ∧
    (neverFails s → r.2.pixels ≠ s.pixels → r.1 = GLIB_OK) := by
  rw [GLIB_drawLine_general fuel ctx x1 y1 x2 y2 s hx hy] at h
  have hpix : (GLIB_resetDisplayClippingArea ctx s).2.pixels = s.pixels := by
    simp [GLIB_resetDisplayClippingArea_eq]
  have hstat : (GLIB_resetDisplayClippingArea ctx s).2.status = s.status := by
    simp [GLIB_resetDisplayClippingArea_eq]
  by_cases h0 : s.status s.calls.length ≠ 0
  · rw [if_pos h0] at h
    cases h
    refine ⟨fun hne h1 => ?_, fun hs _ => absurd (hs _) h0⟩
    exact hpix
  · rw [if_neg h0] at h
    cases hc : GLIB_clipLine ctx fuel 0 0 x1 y1 x2 y2 with
    | none => rw [hc] at h; simp at h
    | some c =>
      rw [hc] at h
      simp only [] at h
      rcases GLIB_clipLine_result ctx fuel 0 0 x1 y1 x2 y2 c hc with hrej | ⟨hacc, hc1, hc2⟩
      · rw [if_pos hrej] at h
        cases h
        exact ⟨fun _ _ => hpix, fun _ hne => absurd hpix hne⟩
      · rw [if_neg (by omega)] at h
        have hin1 := (GLIB_getClipCode_eq_zero ctx _ _).mp hc1
        have hin2 := (GLIB_getClipCode_eq_zero ctx _ _).mp hc2
        have hstatus := (rasterLine_spec ctx hwf c.2.1 c.2.2.1 c.2.2.2.1 c.2.2.2.2
          (by omega) (by omega) (by omega) (by omega) hin1 hin2 fuel
          (GLIB_resetDisplayClippingArea ctx s).2).1 r h
        rw [hstat] at hstatus
        constructor
        · intro hne h1
          rcases hstatus with h' | ⟨n, h'⟩
          · rw [h'] at h1; exact absurd h1 (by decide)
          · rw [h'] at h1; exact absurd h1 (hne n)
        · intro hs _
          rcases hstatus with h' | ⟨n, h'⟩
          · exact h'
          · rw [h']; exact hs n

/-- Witness of **C3**, amended: the segment (0,0)-(30,20) into the
demonstration context is clipped and drawn with status `GLIB_OK`. -/
theorem C3_drawLine_status_amended_witness :
    clipWellFormed demoContext ∧
    ∃ r, GLIB_drawLine 100 demoContext 0 0 30 20 freshSurface = some r ∧
      (r.1 = GLIB_DID_NOT_DRAW → r.2.pixels = freshSurface.pixels) ∧
      (r.2.pixels ≠ freshSurface.pixels → r.1 = GLIB_OK) := by
  have hsome : (GLIB_drawLine 100 demoContext 0 0 30 20 freshSurface).isSome = true := by
    decide
  obtain ⟨r, hr⟩ := Option.isSome_iff_exists.mp hsome
  have h := C3_drawLine_status_amended demoContext (by decide) (by decide) (by decide)
    0 0 30 20 (by decide) (by decide) 100 freshSurface r hr
  exact ⟨by decide, r, hr, h.1 (fun _ => Nat.zero_ne_one), h.2 (fun _ => rfl)⟩

/-! ## C11: rectangles outside the clip region -/

/-- C11 (the code departs from the claim): the rectangle `(0,20)-(5,30)` lies
to the left of the clip region `(10,10)-(200,100)` of `demoContext` and has no
pixel in common with it, and `GLIB_drawRect` returns `GLIB_DID_NOT_DRAW` for it
as the claim says, yet it has written the pixel `(10,20)` on the left edge of
the clip region; for the rectangle `(20,0)-(30,5)` above the clip region it
writes thirteen pixels; `GLIB_drawRectFilled` returns `GLIB_OK` for the first
rectangle after asking the driver for a window `65532` pixels wide and a run
of `720852` pixels in it. -/
theorem C11_rect_outside_clip_draws :
    clipWellFormed demoContext ∧
    ¬ overlapsClip demoContext (GLIB_normalizeRect ⟨0, 20, 5, 30⟩) ∧
    ¬ overlapsClip demoContext (GLIB_normalizeRect ⟨20, 0, 30, 5⟩) ∧
    (GLIB_drawRect demoContext ⟨0, 20, 5, 30⟩ freshSurface).1 = GLIB_DID_NOT_DRAW ∧
    (GLIB_drawRect demoContext ⟨0, 20, 5, 30⟩ freshSurface).2.pixels
      = [fgPixel demoContext 10 20] ∧
    (GLIB_drawRect demoContext ⟨20, 0, 30, 5⟩ freshSurface).2.pixels.length = 13 ∧
    (GLIB_drawRectFilled demoContext ⟨0, 20, 5, 30⟩ freshSurface).1 = GLIB_OK ∧
    (GLIB_drawRectFilled demoContext ⟨0, 20, 5, 30⟩ freshSurface).2.calls
      = [DMDCall.setClippingArea 10 20 65532 11,
         DMDCall.writeColor 0 0 255 255 255 720852,
         DMDCall.setClippingArea 0 0 320 240] := by
  refine ⟨by decide, by decide, by decide, by decide, by decide, by decide, by decide, ?_⟩
  decide

/-! ## Statuses on a surface that never fails -/

theorem GLIB_drawPixelColor_nf (ctx : GLIB_Context) (x y color : Nat) (s : Surface)
    (hs : neverFails s) :
    ((GLIB_drawPixelColor ctx x y color s).1 = GLIB_OK ∨
      (GLIB_drawPixelColor ctx x y color s).1 = GLIB_DID_NOT_DRAW) ∧
    neverFails (GLIB_drawPixelColor ctx x y color s).2 := by
  have h0 : s.status s.calls.length = 0 := hs _
  have h1 : s.status (s.calls.length + 1) = 0 := hs _
  rw [GLIB_drawPixelColor_eq]
  by_cases hc : GLIB_rectContainsPoint ctx.clippingRegion x y = 1
  · rw [if_pos hc, if_neg (by simpa using h0), GLIB_resetDisplayClippingArea_eq]
    exact ⟨Or.inl (by simpa using h1), neverFails_of_status_eq (by simp) hs⟩
  · rw [if_neg hc]
    exact ⟨Or.inr rfl, hs⟩

theorem GLIB_drawLineH_nf (ctx : GLIB_Context) (x1 y1 x2 : Nat) (s : Surface)
    (hs : neverFails s) :
    ((GLIB_drawLineH ctx x1 y1 x2 s).1 = GLIB_OK ∨
      (GLIB_drawLineH ctx x1 y1 x2 s).1 = GLIB_DID_NOT_DRAW) ∧
    neverFails (GLIB_drawLineH ctx x1 y1 x2 s).2 := by
  have h0 : s.status s.calls.length = 0 := hs _
  have h1 : s.status (s.calls.length + 1) = 0 := hs _
  rw [GLIB_drawLineH_eq]
  by_cases hy : y1 < ctx.clippingRegion.yMin ∨ y1 > ctx.clippingRegion.yMax
  · rw [if_pos hy]; exact ⟨Or.inr rfl, hs⟩
  · rw [if_neg hy, if_neg (by simpa using h0), GLIB_resetDisplayClippingArea_eq]
    by_cases hx : min x1 x2 > ctx.clippingRegion.xMax ∨ max x1 x2 < ctx.clippingRegion.xMin
    · rw [if_pos hx]
      exact ⟨Or.inr rfl, neverFails_of_status_eq (by simp) hs⟩
    · rw [if_neg hx]
      exact ⟨Or.inl (by simpa using h1), neverFails_of_status_eq (by simp) hs⟩

theorem GLIB_drawLineV_nf (ctx : GLIB_Context) (x1 y1 y2 : Nat) (s : Surface)
    (hs : neverFails s) :
    ((GLIB_drawLineV ctx x1 y1 y2 s).1 = GLIB_OK ∨
      (GLIB_drawLineV ctx x1 y1 y2 s).1 = GLIB_DID_NOT_DRAW) ∧
    neverFails (GLIB_drawLineV ctx x1 y1 y2 s).2 := by
  have h0 : s.status s.calls.length = 0 := hs _
  have h1 : s.status (s.calls.length + 1) = 0 := hs _
  have h2 : s.status (s.calls.length + 1 + 1) = 0 := hs _
  unfold GLIB_drawLineV
  by_cases hx : x1 < ctx.clippingRegion.xMin ∨ x1 > ctx.clippingRegion.xMax
  · rw [if_pos hx]; exact ⟨Or.inr rfl, hs⟩
  · rw [if_neg hx]
    simp only [GLIB_resetDisplayClippingArea_eq, DMD_setClippingArea_fst, DMD_writeColor_fst,
      DMD_setClippingArea_calls, DMD_writeColor_calls, DMD_setClippingArea_status,
      DMD_writeColor_status, List.length_append, List.length_singleton, h0, h1, h2]
    split_ifs <;>
      first
      | exact ⟨Or.inr rfl, hs⟩
      | exact ⟨Or.inl rfl, neverFails_of_status_eq (by simp) hs⟩
      | (exfalso; simp_all)

theorem lineLoop_nf (ctx : GLIB_Context) (steep : Bool) (deltaX deltaY yStep : Int) (x2 : Nat) :
    ∀ (fuel x1 y1 : Nat) (error : Int) (s : Surface) (r : EMSTATUS × Surface),
      neverFails s →
      lineLoop ctx steep deltaX deltaY yStep x2 fuel x1 y1 error s = some r →
      (r.1 = GLIB_OK ∨ r.1 = GLIB_DID_NOT_DRAW) ∧ neverFails r.2 := by
  intro fuel
  induction fuel with
  | zero => intro x1 y1 e s r _ h; simp [lineLoop] at h
  | succ f ih =>
    intro x1 y1 e s r hs h
    rw [lineLoop_succ] at h
    have hp : ∀ a b, ((GLIB_drawPixel ctx a b s).1 = GLIB_OK ∨
        (GLIB_drawPixel ctx a b s).1 = GLIB_DID_NOT_DRAW) ∧
        neverFails (GLIB_drawPixel ctx a b s).2 :=
      fun a b => GLIB_drawPixelColor_nf ctx a b _ s hs
    have hd : ((if steep then GLIB_drawPixel ctx y1 x1 s else GLIB_drawPixel ctx x1 y1 s).1
          = GLIB_OK ∨
        (if steep then GLIB_drawPixel ctx y1 x1 s else GLIB_drawPixel ctx x1 y1 s).1
          = GLIB_DID_NOT_DRAW) ∧
        neverFails (if steep then GLIB_drawPixel ctx y1 x1 s else GLIB_drawPixel ctx x1 y1 s).2 := by
      cases steep
      · exact hp _ _
      · exact hp _ _
    by_cases hx : x1 ≤ x2
    · rw [if_pos hx] at h
      by_cases hst : (if steep then GLIB_drawPixel ctx y1 x1 s
          else GLIB_drawPixel ctx x1 y1 s).1 ≠ 0
      · rw [if_pos hst] at h
        cases h
        exact hd
      · rw [if_neg hst] at h
        by_cases he : toI16 (e + deltaY) > 0
        · rw [if_pos he] at h
          exact ih _ _ _ _ _ hd.2 h
        · rw [if_neg he] at h
          exact ih _ _ _ _ _ hd.2 h
    · rw [if_neg hx] at h
      cases h
      exact ⟨Or.inl rfl, hs⟩

/-- On a surface that never fails `GLIB_drawLine` returns `GLIB_OK` or
`GLIB_DID_NOT_DRAW`, and the surface still never fails. -/
theorem GLIB_drawLine_nf (fuel : Nat) (ctx : GLIB_Context) (x1 y1 x2 y2 : Nat) (s : Surface)
    (r : EMSTATUS × Surface) (hs : neverFails s)
    (h : GLIB_drawLine fuel ctx x1 y1 x2 y2 s = some r) :
    (r.1 = GLIB_OK ∨ r.1 = GLIB_DID_NOT_DRAW) ∧ neverFails r.2 := by
  by_cases hx : x1 = x2
  · rw [GLIB_drawLine, if_pos hx] at h
    cases h; exact GLIB_drawLineV_nf ctx _ _ _ s hs
  · by_cases hy : y1 = y2
    · rw [GLIB_drawLine, if_neg hx, if_pos hy] at h
      cases h; exact GLIB_drawLineH_nf ctx _ _ _ s hs
    · rw [GLIB_drawLine_general fuel ctx x1 y1 x2 y2 s hx hy, if_neg (by simpa using hs _)] at h
      have hr : neverFails (GLIB_resetDisplayClippingArea ctx s).2 :=
        neverFails_of_status_eq (by simp [GLIB_resetDisplayClippingArea_eq]) hs
      cases hc : GLIB_clipLine ctx fuel 0 0 x1 y1 x2 y2 with
      | none => rw [hc] at h; simp at h
      | some c =>
        rw [hc] at h
        simp only at h
        by_cases h0 : c.1 = 0
        · rw [if_pos h0] at h
          cases h
          exact ⟨Or.inr rfl, hr⟩
        · rw [if_neg h0] at h
          unfold rasterLine at h
          exact lineLoop_nf _ _ _ _ _ _ _ _ _ _ _ _ hr h

/-! ## C15, C16: polygons -/

/-- The segments drawn by the loop of `GLIB_drawPolygon` from the point
`start`, when `counter` is the number of the next point and `n` points are
left. -/
theorem range_segments (polyPoints : Nat → Nat) (c n : Nat) :
    (List.range (n + 1)).map (fun i =>
        (polyPoint polyPoints (c + i), polyPoint polyPoints (c + i + 1))) =
      (polyPoint polyPoints c, polyPoint polyPoints (c + 1)) ::
        (List.range n).map (fun i =>
          (polyPoint polyPoints (c + 1 + i), polyPoint polyPoints (c + 1 + i + 1))) := by
  rw [List.range_succ_eq_map, List.map_cons, List.map_map]
  refine congrArg₂ _ rfl (List.map_congr_left fun i _ => ?_)
  simp only [Function.comp, Nat.succ_eq_add_one]
  rw [show c + (i + 1) = c + 1 + i by omega]

theorem didDraw_flag (st didDraw : Nat) :
    decide ((if st = 0 then 1 else didDraw) ≠ 0) = (decide (didDraw ≠ 0) || decide (st = GLIB_OK)) := by
  by_cases h : st = 0 <;> by_cases h2 : didDraw = 0 <;> simp [h, h2]

theorem polygonLoop_spec (fuel : Nat) (ctx : GLIB_Context) (polyPoints : Nat → Nat)
    (tail : List ((Nat × Nat) × (Nat × Nat))) :
    ∀ (n c ex ey didDraw : Nat) (s : Surface),
      drawSegments fuel ctx
          (((List.range n).map fun i =>
            (polyPoint polyPoints (c + i), polyPoint polyPoints (c + i + 1))) ++ tail)
          (decide (didDraw ≠ 0)) s =
        match polygonLoop fuel ctx polyPoints n (c + 1) (polyPoint polyPoints c).1
            (polyPoint polyPoints c).2 ex ey didDraw s with
        | none => none
        | some l =>
          match l.1 with
          | some e => some (e, l.2.2.2.2)
          | none => drawSegments fuel ctx tail (decide (l.2.2.2.1 ≠ 0)) l.2.2.2.2 := by
  intro n
  induction n with
  | zero => intro c ex ey didDraw s; simp [polygonLoop]
  | succ n ih =>
    intro c ex ey didDraw s
    rw [range_segments, List.cons_append, drawSegments, polygonLoop]
    have hp : polyPoint polyPoints (c + 1) =
        (polyPoints (2 * (c + 1)), polyPoints (2 * (c + 1) + 1)) := rfl
    simp only [hp]
    cases hl : GLIB_drawLine fuel ctx (polyPoint polyPoints c).1 (polyPoint polyPoints c).2
        (polyPoints (2 * (c + 1))) (polyPoints (2 * (c + 1) + 1)) s with
    | none => rfl
    | some r =>
      simp only
      by_cases hab : r.1 ≠ GLIB_OK ∧ r.1 ≠ GLIB_DID_NOT_DRAW
      · rw [if_pos hab, if_pos hab]
      · rw [if_neg hab, if_neg hab, ← didDraw_flag]
        exact ih (c + 1) _ _ _ r.2

theorem polygonLoop_end (fuel : Nat) (ctx : GLIB_Context) (polyPoints : Nat → Nat) :
    ∀ (n c sx sy ex ey didDraw : Nat) (s : Surface)
      (l : Option EMSTATUS × Nat × Nat × Nat × Surface),
      polygonLoop fuel ctx polyPoints n c sx sy ex ey didDraw s = some l → l.1 = none →
      (l.2.1, l.2.2.1) = if n = 0 then (ex, ey) else polyPoint polyPoints (c + n - 1) := by
  intro n
  induction n with
  | zero =>
    intro c sx sy ex ey didDraw s l h _
    simp only [polygonLoop, Option.some.injEq] at h
    subst h; rfl
  | succ n ih =>
    intro c sx sy ex ey didDraw s l h hl
    rw [polygonLoop] at h
    cases hd : GLIB_drawLine fuel ctx sx sy (polyPoints (2 * c)) (polyPoints (2 * c + 1)) s with
    | none => rw [hd] at h; simp at h
    | some r =>
      rw [hd] at h
      simp only at h
      by_cases hab : r.1 ≠ 0 ∧ r.1 ≠ GLIB_DID_NOT_DRAW
      · rw [if_pos hab] at h
        simp only [Option.some.injEq] at h
        subst h
        simp at hl
      · rw [if_neg hab] at h
        rw [ih _ _ _ _ _ _ _ _ h hl, if_neg (Nat.succ_ne_zero n)]
        by_cases hn : n = 0
        · subst hn; rfl
        · rw [if_neg hn]
          rw [show c + 1 + n - 1 = c + (n + 1) - 1 by omega]

/-- `GLIB_drawPolygon` applies the status rule of the specification to the
segments of the polygon. -/
theorem GLIB_drawPolygon_eq (fuel : Nat) (ctx : GLIB_Context) (numPoints : Nat)
    (polyPoints : Nat → Nat) (s : Surface) (hn : 2 ≤ numPoints) :
    GLIB_drawPolygon fuel ctx numPoints polyPoints s =
      drawSegments fuel ctx (polygonSegments numPoints polyPoints) false s := by
  unfold GLIB_drawPolygon polygonSegments
  rw [if_neg (by omega)]
  have h := polygonLoop_spec fuel ctx polyPoints
    (if polyPoint polyPoints (numPoints - 1) ≠ polyPoint polyPoints 0 then
      [(polyPoint polyPoints 0, polyPoint polyPoints (numPoints - 1))] else [])
    (numPoints - 1) 0 0 0 0 s
  simp only [Nat.zero_add] at h
  have h00 : decide ((0 : Nat) ≠ 0) = false := by decide
  rw [h00] at h
  rw [h]
  have hp0 : polyPoint polyPoints 0 = (polyPoints 0, polyPoints 1) := rfl
  simp only [hp0]
  cases hl : polygonLoop fuel ctx polyPoints (numPoints - 1) 1 (polyPoints 0) (polyPoints 1)
      0 0 0 s with
  | none => rfl
  | some l =>
    simp only
    cases hl1 : l.1 with
    | some e => rfl
    | none =>
      simp only
      have hend := polygonLoop_end fuel ctx polyPoints _ _ _ _ _ _ _ _ l hl hl1
      rw [if_neg (by omega), show 1 + (numPoints - 1) - 1 = numPoints - 1 by omega] at hend
      have hne : (l.2.1 ≠ polyPoints 0 ∨ l.2.2.1 ≠ polyPoints 1) ↔
          polyPoint polyPoints (numPoints - 1) ≠ (polyPoints 0, polyPoints 1) := by
        rw [← hend]
        simp only [ne_eq, Prod.mk.injEq]
        tauto
      by_cases hc : polyPoint polyPoints (numPoints - 1) ≠ (polyPoints 0, polyPoints 1)
      · rw [if_pos (hne.mpr hc), if_pos hc, drawSegments]
        have h1 : l.2.1 = (polyPoint polyPoints (numPoints - 1)).1 := by rw [← hend]
        have h2 : l.2.2.1 = (polyPoint polyPoints (numPoints - 1)).2 := by rw [← hend]
        simp only [← h1, ← h2]
        cases hd : GLIB_drawLine fuel ctx (polyPoints 0) (polyPoints 1) l.2.1 l.2.2.1
            l.2.2.2.2 with
        | none => rfl
        | some r =>
          simp only
          by_cases hab : r.1 ≠ GLIB_OK ∧ r.1 ≠ GLIB_DID_NOT_DRAW
          · rw [if_pos hab, if_pos hab]
          · rw [if_neg hab, if_neg hab, drawSegments, ← didDraw_flag]
            by_cases hz : (if r.1 = 0 then 1 else l.2.2.2.1) = 0 <;> simp [hz]
      · rw [if_neg (fun h => hc (hne.mp h)), if_neg hc, drawSegments]
        by_cases hz : l.2.2.2.1 = 0 <;> simp [hz]

theorem drawSegments_nf (fuel : Nat) (ctx : GLIB_Context) :
    ∀ (l : List ((Nat × Nat) × (Nat × Nat))) (drew : Bool) (s : Surface), neverFails s →
      (drawSegments fuel ctx l drew s).map Prod.snd = drawAllSegments fuel ctx l s := by
  intro l
  induction l with
  | nil => intro drew s _; rfl
  | cons g rest ih =>
    intro drew s hs
    rw [drawSegments, drawAllSegments]
    cases hd : GLIB_drawLine fuel ctx g.1.1 g.1.2 g.2.1 g.2.2 s with
    | none => rfl
    | some r =>
      simp only
      obtain ⟨hst, hr⟩ := GLIB_drawLine_nf fuel ctx _ _ _ _ s r hs hd
      rw [if_neg (by tauto)]
      exact ih _ _ hr

/-- C16: for a polygon of at least two points `GLIB_drawPolygon` follows the
status rule of the specification (`drawSegments`) on the segments of the
polygon, the closing one included: when the `GLIB_drawLine` of a segment
returns a status other than `GLIB_OK` and `GLIB_DID_NOT_DRAW` that status is
returned unchanged and no later segment is drawn, and otherwise the result is
`GLIB_OK` if at least one segment returned `GLIB_OK` and `GLIB_DID_NOT_DRAW`
if none did. -/
theorem C16_drawPolygon_status (fuel : Nat) (ctx : GLIB_Context) (numPoints : Nat)
    (polyPoints : Nat → Nat) (s : Surface) (hn : 2 ≤ numPoints) :
    GLIB_drawPolygon fuel ctx numPoints polyPoints s =
      drawSegments fuel ctx (polygonSegments numPoints polyPoints) false s :=
  GLIB_drawPolygon_eq fuel ctx numPoints polyPoints s hn

/-- The triangle `(20,20)`, `(30,20)`, `(30,30)` in `demoContext`: the three
segments are drawn and the status is `GLIB_OK`; on a surface whose first call
fails with status 9 the polygon returns 9 after that call. -/
theorem C16_drawPolygon_status_witness :
    GLIB_drawPolygon 100 demoContext 3 trianglePoints freshSurface =
      drawSegments 100 demoContext (polygonSegments 3 trianglePoints) false freshSurface ∧
    (GLIB_drawPolygon 100 demoContext 3 trianglePoints freshSurface).map Prod.fst
      = some GLIB_OK ∧
    (GLIB_drawPolygon 100 demoContext 3 trianglePoints (failingSurface 0 9)).map
      (fun r => (r.1, r.2.calls.length)) = some (9, 1) :=
  ⟨C16_drawPolygon_status 100 demoContext 3 trianglePoints freshSurface (by decide),
    by decide, by decide⟩

/-- A segment whose end points lie inside the clip region and have
coordinates below 2^15 is drawn, whatever its direction: with enough fuel
`GLIB_drawLine` returns `GLIB_OK` on a surface that never fails. -/
theorem GLIB_drawLine_total (ctx : GLIB_Context) (hwf : clipWellFormed ctx)
    (x1 y1 x2 y2 : Nat) (hx1 : x1 < 32768) (hy1 : y1 < 32768) (hx2 : x2 < 32768)
    (hy2 : y2 < 32768)
    (hin1 : inClip ctx (fgPixel ctx x1 y1)) (hin2 : inClip ctx (fgPixel ctx x2 y2))
    (fuel : Nat) (hf : 32769 < fuel) (s : Surface) (hs : neverFails s) :
    ∃ t, GLIB_drawLine fuel ctx x1 y1 x2 y2 s = some (GLIB_OK, t) ∧ neverFails t := by
  have h1 : ctx.clippingRegion.xMin ≤ x1 ∧ x1 ≤ ctx.clippingRegion.xMax ∧
      ctx.clippingRegion.yMin ≤ y1 ∧ y1 ≤ ctx.clippingRegion.yMax := hin1
  have h2 : ctx.clippingRegion.xMin ≤ x2 ∧ x2 ≤ ctx.clippingRegion.xMax ∧
      ctx.clippingRegion.yMin ≤ y2 ∧ y2 ≤ ctx.clippingRegion.yMax := hin2
  by_cases hx : x1 = x2
  · have hv := GLIB_drawLineV_spec ctx hwf x1 y1 y2 s (by omega) (by omega) (hs _) (hs _) (hs _)
    refine ⟨(GLIB_drawLineV ctx x1 y1 y2 s).2, ?_, neverFails_of_status_eq hv.2.1 hs⟩
    rw [GLIB_drawLine, if_pos hx]
    exact congrArg some (Prod.ext hv.1 rfl)
  · by_cases hy : y1 = y2
    · have hh := GLIB_drawLineH_spec ctx hwf x1 y1 x2 s (by omega) (hs _)
      rw [if_neg (by omega)] at hh
      refine ⟨(GLIB_drawLineH ctx x1 y1 x2 s).2, ?_, neverFails_of_status_eq hh.1 hs⟩
      rw [GLIB_drawLine, if_neg hx, if_pos hy]
      exact congrArg some (Prod.ext (by rw [hh.2.1]; exact hs _) rfl)
    · obtain ⟨_, t, ht, _⟩ := GLIB_drawLine_inside ctx hwf x1 y1 x2 y2 hx1 hy1 hx2 hy2 hin1 hin2
        hx hy fuel (by omega) s hs
      exact ⟨t, ht, (GLIB_drawLine_nf fuel ctx _ _ _ _ s _ hs ht).2⟩

theorem drawSegments_total (ctx : GLIB_Context) (hwf : clipWellFormed ctx) (fuel : Nat)
    (hf : 32769 < fuel) :
    ∀ (l : List ((Nat × Nat) × (Nat × Nat))) (drew : Bool) (s : Surface), neverFails s →
      (∀ g ∈ l, (inClip ctx (fgPixel ctx g.1.1 g.1.2) ∧ g.1.1 < 32768 ∧ g.1.2 < 32768) ∧
        (inClip ctx (fgPixel ctx g.2.1 g.2.2) ∧ g.2.1 < 32768 ∧ g.2.2 < 32768)) →
      ∃ t, drawSegments fuel ctx l drew s =
        some (if drew = true ∨ l ≠ [] then GLIB_OK else GLIB_DID_NOT_DRAW, t) := by
  intro l
  induction l with
  | nil =>
    intro drew s _ _
    refine ⟨s, ?_⟩
    rw [drawSegments]
    cases drew <;> simp
  | cons g rest ih =>
    intro drew s hs hall
    obtain ⟨⟨i1, a1, b1⟩, ⟨i2, a2, b2⟩⟩ := hall g (List.mem_cons_self _ _)
    obtain ⟨t, ht, hst⟩ := GLIB_drawLine_total ctx hwf g.1.1 g.1.2 g.2.1 g.2.2 a1 b1 a2 b2 i1 i2
      fuel hf s hs
    obtain ⟨u, hu⟩ := ih true t hst (fun g' hg' => hall g' (List.mem_cons_of_mem _ hg'))
    refine ⟨u, ?_⟩
    rw [drawSegments, ht]
    dsimp only
    have hb : (drew || decide (GLIB_OK = GLIB_OK)) = true := by simp
    rw [if_neg (by simp), hb, hu]
    simp

/-- C15: for a polygon of at least two points on a surface that never fails,
the surface is left as by drawing, in order, the `numPoints - 1` segments
between consecutive points and then exactly one closing segment when the last
point differs from the first, and none when it does not (`polygonSegments`);
and when the points lie inside a well-formed clip region and have coordinates
below 2^15, with enough fuel the polygon returns, with `GLIB_OK`. -/
theorem C15_drawPolygon_segments (fuel : Nat) (ctx : GLIB_Context) (numPoints : Nat)
    (polyPoints : Nat → Nat) (s : Surface) (hn : 2 ≤ numPoints) (hs : neverFails s) :
    (GLIB_drawPolygon fuel ctx numPoints polyPoints s).map Prod.snd =
      drawAllSegments fuel ctx (polygonSegments numPoints polyPoints) s ∧
    (polygonSegments numPoints polyPoints).length =
      numPoints - 1 +
        (if polyPoint polyPoints (numPoints - 1) ≠ polyPoint polyPoints 0 then 1 else 0) ∧
    (clipWellFormed ctx → 32769 < fuel →
      (∀ i, i < numPoints →
        inClip ctx (fgPixel ctx (polyPoint polyPoints i).1 (polyPoint polyPoints i).2) ∧
        (polyPoint polyPoints i).1 < 32768 ∧ (polyPoint polyPoints i).2 < 32768) →
      ∃ t, GLIB_drawPolygon fuel ctx numPoints polyPoints s = some (GLIB_OK, t)) := by
  refine ⟨?_, ?_, ?_⟩
  · rw [GLIB_drawPolygon_eq fuel ctx numPoints polyPoints s hn]
    exact drawSegments_nf fuel ctx _ _ s hs
  · unfold polygonSegments
    rw [List.length_append, List.length_map, List.length_range]
    split_ifs <;> rfl
  · intro hwf hf hall
    rw [GLIB_drawPolygon_eq fuel ctx numPoints polyPoints s hn]
    have hmem : ∀ g ∈ polygonSegments numPoints polyPoints,
        (inClip ctx (fgPixel ctx g.1.1 g.1.2) ∧ g.1.1 < 32768 ∧ g.1.2 < 32768) ∧
        (inClip ctx (fgPixel ctx g.2.1 g.2.2) ∧ g.2.1 < 32768 ∧ g.2.2 < 32768) := by
      intro g hg
      unfold polygonSegments at hg
      rcases List.mem_append.mp hg with h | h
      · obtain ⟨i, hi, rfl⟩ := List.mem_map.mp h
        have hi' := List.mem_range.mp hi
        exact ⟨hall i (by omega), hall (i + 1) (by omega)⟩
      · split_ifs at h
        · rw [List.mem_singleton] at h
          subst h
          exact ⟨hall 0 (by omega), hall (numPoints - 1) (by omega)⟩
        · simp at h
    obtain ⟨t, ht⟩ := drawSegments_total ctx hwf fuel hf _ false s hs hmem
    refine ⟨t, ?_⟩
    rw [ht, if_pos]
    right
    unfold polygonSegments
    intro h
    have := congrArg List.length h
    rw [List.length_append, List.length_map, List.length_range] at this
    simp at this
    omega

/-- The triangle `(20,20)`, `(30,20)`, `(30,30)` in `demoContext`: two
consecutive segments and the closing one, 33 pixel writes in all. -/
theorem C15_drawPolygon_segments_witness :
    (GLIB_drawPolygon 32770 demoContext 3 trianglePoints freshSurface).map Prod.snd =
      drawAllSegments 32770 demoContext (polygonSegments 3 trianglePoints) freshSurface ∧
    (∃ t, GLIB_drawPolygon 32770 demoContext 3 trianglePoints freshSurface
      = some (GLIB_OK, t)) ∧
    polygonSegments 3 trianglePoints =
      [((20, 20), (30, 20)), ((30, 20), (30, 30)), ((20, 20), (30, 30))] ∧
    (drawAllSegments 100 demoContext (polygonSegments 3 trianglePoints) freshSurface).map
      (fun t => t.pixels.length) = some 33 :=
  ⟨(C15_drawPolygon_segments 32770 demoContext 3 trianglePoints freshSurface (by decide)
      (fun _ => rfl)).1,
    (C15_drawPolygon_segments 32770 demoContext 3 trianglePoints freshSurface (by decide)
      (fun _ => rfl)).2.2 (by decide) (by decide) (by decide),
    by decide, by decide⟩

/-! ## C12, C20: two evaluations -/

/-- C12 (the code departs from the claim): in `smallContext`, whose clip
region is `(0,0)-(20,20)`, the filled circle of centre `(2,10)` and radius 3
returns `GLIB_OK` and has written the pixel `(20,10)`, eighteen columns to the
right of the centre, and has not written the pixel `(0,10)`, two columns to
the left of it on the row of the centre: the left end `xCenter - y` of the
span is handed to `GLIB_drawLineH` as an `uint16_t`, here `65535`. -/
theorem C12_drawCircleFilled_left_edge :
    clipWellFormed smallContext ∧
    inClip smallContext (fgPixel smallContext 2 10) ∧
    toU16 ((2 : Int) - 3) = 65535 ∧
    (GLIB_drawCircleFilled 4 smallContext 2 10 3 freshSurface).map
      (fun r => (r.1, decide (fgPixel smallContext 20 10 ∈ r.2.pixels),
        decide (fgPixel smallContext 0 10 ∈ r.2.pixels))) = some (GLIB_OK, true, false) := by
  refine ⟨by decide, by decide, by decide, ?_⟩
  decide

/-- C20 (the code departs from the claim): on a surface every call of which
fails with status 9, `GLIB_drawString` of the two characters `"AA"` with
`demoFont` at `(20,20)` inside the clip region of `demoContext` returns
`GLIB_OK`, not 9, and has gone on to issue six calls to the surface, one for
each set bit of the two glyphs: `GLIB_drawChar` does not look at the statuses
of its pixel draws. -/
theorem C20_drawString_ignores_failure :
    (GLIB_drawString demoFont demoContext [65, 65] 20 20 0 (deadSurface 9)).1 = GLIB_OK ∧
    (GLIB_drawString demoFont demoContext [65, 65] 20 20 0 (deadSurface 9)).2.calls
      = List.replicate 6 (resetCall demoContext) ∧
    (GLIB_drawChar demoFont demoContext 65 20 20 0 (deadSurface 9)).1 = GLIB_OK ∧
    (GLIB_drawPixel demoContext 20 20 (deadSurface 9)).1 = 9 := by
  refine ⟨by decide, by decide, by decide, by decide⟩

/-! ## Characters: the pixel draws of a glyph -/

theorem issueDraws_append (ctx : GLIB_Context) (l1 l2 : List ((Nat × Nat) × Bool))
    (s : Surface) : issueDraws ctx (l1 ++ l2) s = issueDraws ctx l2 (issueDraws ctx l1 s) := by
  unfold issueDraws; rw [List.foldl_append]

theorem issueDraws_nil (ctx : GLIB_Context) (s : Surface) : issueDraws ctx [] s = s := rfl

theorem issueDraws_cons (ctx : GLIB_Context) (d : (Nat × Nat) × Bool)
    (l : List ((Nat × Nat) × Bool)) (s : Surface) :
    issueDraws ctx (d :: l) s =
      issueDraws ctx l (if d.2 then (GLIB_drawPixel ctx d.1.1 d.1.2 s).2
        else (GLIB_drawPixelColor ctx d.1.1 d.1.2 ctx.backgroundColor s).2) := rfl

/-- The draws of one row of a glyph: the columns from `xOffset` on, `n` of
them, with the row byte shifted so that its bit 0 belongs to the first. -/
theorem charRowLoop_eq (ctx : GLIB_Context) (x y row opq : Nat) :
    ∀ (n xOffset currentRow : Nat) (s : Surface),
      charRowLoop ctx x y row opq n xOffset currentRow s =
        issueDraws ctx ((List.range n).filterMap fun i =>
          if currentRow.testBit i then some (cellPoint x y (row, xOffset + i), true)
          else if opq = 1 then some (cellPoint x y (row, xOffset + i), false)
          else none) s := by
  intro n
  induction n with
  | zero => intro xOffset currentRow s; rfl
  | succ n ih =>
    intro xOffset currentRow s
    rw [charRowLoop, ih, List.range_succ_eq_map, List.filterMap_cons, List.filterMap_map]
    have hbit : (currentRow &&& 1 = 1) ↔ currentRow.testBit 0 = true := by
      rw [Nat.and_one_is_mod, Nat.testBit_zero]; simp
    have hfun : ((fun i =>
          if currentRow.testBit i then some (cellPoint x y (row, xOffset + i), true)
          else if opq = 1 then some (cellPoint x y (row, xOffset + i), false)
          else none) ∘ Nat.succ) =
        (fun i =>
          if (currentRow >>> 1).testBit i then some (cellPoint x y (row, xOffset + 1 + i), true)
          else if opq = 1 then some (cellPoint x y (row, xOffset + 1 + i), false)
          else none) := by
      funext i
      simp only [Function.comp, Nat.succ_eq_add_one, Nat.testBit_shiftRight]
      rw [show xOffset + (i + 1) = xOffset + 1 + i by omega, show 1 + i = i + 1 by omega]
    rw [hfun]
    have hcell : cellPoint x y (row, xOffset + 0) =
        (toU16 ((x : Int) + xOffset), toU16 ((y : Int) + row)) := rfl
    by_cases hb : currentRow.testBit 0 = true
    · rw [if_pos (hbit.mpr hb)]
      simp only [hb, if_true]
      rw [issueDraws_cons, hcell]
      rfl
    · rw [if_neg (fun h => hb (hbit.mp h))]
      simp only [hb]
      by_cases ho : opq = 1
      · rw [if_pos ho]
        simp only [if_pos ho, Bool.false_eq_true, if_false]
        rw [issueDraws_cons, hcell]
        rfl
      · rw [if_neg ho]
        simp only [if_neg ho, Bool.false_eq_true, if_false]

theorem charLoop_eq (font : GLIB_Font) (ctx : GLIB_Context) (x y opq : Nat) :
    ∀ (n row fontIdx : Nat) (s : Surface), fontIdx < 65536 →
      charLoop font ctx x y opq n row fontIdx s =
        issueDraws ctx ((List.range n).flatMap fun j =>
          (List.range font.font_width).filterMap fun i =>
            if (font.fontBits ((fontIdx + FONT_ROW_OFFSET * j) % 65536) % 256).testBit i then
              some (cellPoint x y (row + j, i), true)
            else if opq = 1 then some (cellPoint x y (row + j, i), false)
            else none) s := by
  intro n
  induction n with
  | zero => intro row fontIdx s _; rfl
  | succ n ih =>
    intro row fontIdx s hidx
    have hlt : toU16 ((fontIdx : Int) + FONT_ROW_OFFSET) < 65536 := by unfold toU16; omega
    rw [charLoop, ih _ _ _ hlt, charRowLoop_eq, List.range_succ_eq_map, List.flatMap_cons,
      List.flatMap_map, issueDraws_append]
    have h0 : (fontIdx + FONT_ROW_OFFSET * 0) % 65536 = fontIdx := by
      simp only [Nat.mul_zero, Nat.add_zero]; exact Nat.mod_eq_of_lt hidx
    simp only [h0, Nat.zero_add, Nat.add_zero]
    refine congrArg₂ _ (congrArg₂ _ rfl ?_) rfl
    funext j
    have hj : (toU16 ((fontIdx : Int) + FONT_ROW_OFFSET) + FONT_ROW_OFFSET * j) % 65536 =
        (fontIdx + FONT_ROW_OFFSET * (j + 1)) % 65536 := by
      unfold toU16 FONT_ROW_OFFSET; omega
    simp only [Function.comp, Nat.succ_eq_add_one, hj]
    rw [show row + 1 + j = row + (j + 1) by omega]

theorem flatMap_filterMap_map {α β γ : Type} (l : List α) (g : α → List β)
    (f : β → Option γ) :
    (l.flatMap g).filterMap f = l.flatMap fun a => (g a).filterMap f := by
  induction l with
  | nil => rfl
  | cons a l ih => rw [List.flatMap_cons, List.flatMap_cons, List.filterMap_append, ih]

/-- `GLIB_drawChar` for a character of the font and an origin inside the clip
region issues the pixel draws of the glyph in order and returns `GLIB_OK`. -/
theorem GLIB_drawChar_eq (font : GLIB_Font) (ctx : GLIB_Context) (ch x y opq : Nat)
    (s : Surface) :
    GLIB_drawChar font ctx ch x y opq s =
      if ch < 32 ∨ ch > 126 then (GLIB_INVALID_CHAR, s)
      else if GLIB_rectContainsPoint ctx.clippingRegion x y = 0 then (GLIB_DID_NOT_DRAW, s)
      else (GLIB_OK, issueDraws ctx (glyphDraws font ch x y opq) s) := by
  unfold GLIB_drawChar
  by_cases h1 : ch < 32 ∨ ch > 126
  · rw [if_pos h1, if_pos h1]
  · rw [if_neg h1, if_neg h1]
    by_cases h2 : GLIB_rectContainsPoint ctx.clippingRegion x y = 0
    · rw [if_pos h2, if_pos h2]
    · rw [if_neg h2, if_neg h2]
      have hidx : toU16 ((ch : Int) - 32) = ch - 32 := by unfold toU16; omega
      rw [hidx, charLoop_eq font ctx x y opq _ _ _ _ (by omega)]
      unfold glyphDraws glyphCells
      rw [flatMap_filterMap_map]
      simp only [List.filterMap_map, Nat.zero_add, glyphBit]
      rfl
/-! ## Pixel draws on a surface that never fails -/

theorem drawnPixel_eq (ctx : GLIB_Context) (hwf : clipWellFormed ctx) (color x y : Nat)
    (hin : GLIB_rectContainsPoint ctx.clippingRegion x y = 1) :
    drawnPixel ctx color x y = colorPixel color x y := by
  obtain ⟨_, _, hX, _, _, _⟩ := hwf
  have h := GLIB_rectContainsPoint_eq_one.mp hin
  have hx : x < ctx.pDisplayGeometry.xSize := by omega
  unfold drawnPixel colorPixel
  simp only [Nat.add_zero, Nat.zero_add, Nat.mod_eq_of_lt hx, Nat.div_eq_of_lt hx]

/-- A pixel draw on a surface that never fails: inside the clip region it
returns `GLIB_OK` and writes one pixel, outside it returns
`GLIB_DID_NOT_DRAW` and leaves the surface alone. -/
theorem GLIB_drawPixelColor_write (ctx : GLIB_Context) (x y color : Nat) (s : Surface)
    (hs : neverFails s) :
    if GLIB_rectContainsPoint ctx.clippingRegion x y = 1 then
      (GLIB_drawPixelColor ctx x y color s).1 = GLIB_OK ∧
      neverFails (GLIB_drawPixelColor ctx x y color s).2 ∧
      (GLIB_drawPixelColor ctx x y color s).2.pixels = s.pixels ++ [drawnPixel ctx color x y]
    else GLIB_drawPixelColor ctx x y color s = (GLIB_DID_NOT_DRAW, s) := by
  have h0 : s.status s.calls.length = 0 := hs _
  have h1 : s.status (s.calls.length + 1) = 0 := hs _
  rw [GLIB_drawPixelColor_eq]
  by_cases hc : GLIB_rectContainsPoint ctx.clippingRegion x y = 1
  · rw [if_pos hc, if_pos hc, if_neg (by simpa using h0), GLIB_resetDisplayClippingArea_eq]
    refine ⟨by simpa using h1, neverFails_of_status_eq (by simp) hs, ?_⟩
    obtain ⟨hx, hy, hw, _⟩ := DMD_setClippingArea_window 0 0 ctx.pDisplayGeometry.xSize
      ctx.pDisplayGeometry.ySize s h0
    rw [DMD_writeColor_pixels, DMD_setClippingArea_pixels, DMD_setClippingArea_calls,
      DMD_setClippingArea_status, List.length_append, List.length_singleton, if_pos h1]
    unfold runPixels drawnPixel
    rw [hx, hy, hw]
    rfl
  · rw [if_neg hc, if_neg hc]

/-- The pixels written by a list of pixel draws on a surface that never
fails: one for each draw inside the clip region, in order. -/
theorem issueDraws_write (ctx : GLIB_Context) :
    ∀ (l : List ((Nat × Nat) × Bool)) (s : Surface), neverFails s →
      neverFails (issueDraws ctx l s) ∧
      (issueDraws ctx l s).pixels = s.pixels ++
        (l.filter fun d =>
          decide (GLIB_rectContainsPoint ctx.clippingRegion d.1.1 d.1.2 = 1)).map fun d =>
            drawnPixel ctx (if d.2 then ctx.foregroundColor else ctx.backgroundColor)
              d.1.1 d.1.2 := by
  intro l
  induction l with
  | nil => intro s hs; exact ⟨hs, by simp [issueDraws_nil]⟩
  | cons d l ih =>
    intro s hs
    rw [issueDraws_cons]
    have hfg := GLIB_drawPixelColor_write ctx d.1.1 d.1.2 ctx.foregroundColor s hs
    have hbg := GLIB_drawPixelColor_write ctx d.1.1 d.1.2 ctx.backgroundColor s hs
    by_cases hc : GLIB_rectContainsPoint ctx.clippingRegion d.1.1 d.1.2 = 1
    · rw [if_pos hc] at hfg hbg
      rw [List.filter_cons_of_pos (by simpa using hc), List.map_cons]
      cases hd : d.2
      · simp only [Bool.false_eq_true, if_false]
        obtain ⟨h1, h2⟩ := ih _ hbg.2.1
        exact ⟨h1, by rw [h2, hbg.2.2, List.append_assoc, List.singleton_append]⟩
      · simp only [if_true]
        obtain ⟨h1, h2⟩ := ih _ hfg.2.1
        exact ⟨h1, by unfold GLIB_drawPixel; rw [h2, hfg.2.2, List.append_assoc,
          List.singleton_append]⟩
    · rw [if_neg hc] at hfg hbg
      rw [List.filter_cons_of_neg (by simpa using hc)]
      cases hd : d.2
      · simp only [Bool.false_eq_true, if_false, hbg]
        exact ih _ hs
      · simp only [if_true]
        unfold GLIB_drawPixel
        rw [hfg]
        exact ih _ hs

/-! ## C17, C18: `GLIB_drawChar` -/

theorem filterMap_ite {α β : Type} (l : List α) (p : α → Bool) (f : α → β) :
    (l.filterMap fun a => if p a then some (f a) else none) = (l.filter p).map f := by
  induction l with
  | nil => rfl
  | cons a l ih =>
    rw [List.filterMap_cons]
    cases hp : p a
    · simp only [Bool.false_eq_true, if_false]
      rw [List.filter_cons_of_neg (by simp [hp]), ih]
    · simp only [if_true]
      rw [List.filter_cons_of_pos hp, List.map_cons, ih]

theorem glyphDraws_transparent (font : GLIB_Font) (ch x y : Nat) :
    glyphDraws font ch x y 0 =
      ((glyphCells font).filter (glyphBit font ch)).map fun cell => (cellPoint x y cell, true) := by
  unfold glyphDraws
  rw [← filterMap_ite]
  refine List.filterMap_congr fun cell _ => ?_
  simp

theorem glyphDraws_opaque (font : GLIB_Font) (ch x y : Nat) :
    glyphDraws font ch x y 1 =
      (glyphCells font).map fun cell => (cellPoint x y cell, glyphBit font ch cell) := by
  unfold glyphDraws
  rw [← List.filterMap_eq_map]
  refine List.filterMap_congr fun cell _ => ?_
  by_cases h : glyphBit font ch cell = true <;> simp [h]

theorem issueDraws_foreground (ctx : GLIB_Context) (l : List (Nat × Nat)) (s : Surface) :
    issueDraws ctx (l.map fun p => (p, true)) s = issuePixels ctx l s := by
  unfold issueDraws issuePixels
  rw [List.foldl_map]
  rfl

/-- The pixels written by a pixel draw, on any surface, have the colour of the
draw. -/
theorem GLIB_drawPixelColor_colour (ctx : GLIB_Context) (x y color : Nat) (s : Surface) :
    ∃ w, (GLIB_drawPixelColor ctx x y color s).2.pixels = s.pixels ++ w ∧
      ∀ p ∈ w, (p.red, p.green, p.blue) = GLIB_colorTranslate24bpp color := by
  rw [GLIB_drawPixelColor_eq]
  by_cases hc : GLIB_rectContainsPoint ctx.clippingRegion x y = 1
  · rw [if_pos hc]
    by_cases h0 : s.status s.calls.length ≠ 0
    · rw [if_pos h0]
      exact ⟨[], by simp [GLIB_resetDisplayClippingArea_eq], by simp⟩
    · rw [if_neg h0, DMD_writeColor_pixels]
      split_ifs
      · refine ⟨_, by rw [GLIB_resetDisplayClippingArea_eq, DMD_setClippingArea_pixels], ?_⟩
        intro p hp
        unfold runPixels at hp
        simp only [List.mem_map] at hp
        obtain ⟨i, _, rfl⟩ := hp
        rfl
      · exact ⟨[], by simp [GLIB_resetDisplayClippingArea_eq], by simp⟩
  · rw [if_neg hc]
    exact ⟨[], by simp, by simp⟩

theorem issuePixels_colour (ctx : GLIB_Context) :
    ∀ (l : List (Nat × Nat)) (s : Surface),
      ∃ w, (issuePixels ctx l s).pixels = s.pixels ++ w ∧
        ∀ p ∈ w, (p.red, p.green, p.blue) = GLIB_colorTranslate24bpp ctx.foregroundColor := by
  intro l
  induction l with
  | nil => intro s; exact ⟨[], by simp [issuePixels], by simp⟩
  | cons a l ih =>
    intro s
    obtain ⟨w1, h1, c1⟩ := GLIB_drawPixelColor_colour ctx a.1 a.2 ctx.foregroundColor s
    obtain ⟨w2, h2, c2⟩ := ih (GLIB_drawPixel ctx a.1 a.2 s).2
    refine ⟨w1 ++ w2, ?_, ?_⟩
    · have : issuePixels ctx (a :: l) s = issuePixels ctx l (GLIB_drawPixel ctx a.1 a.2 s).2 := rfl
      rw [this, h2]
      unfold GLIB_drawPixel
      rw [h1, List.append_assoc]
    · intro p hp
      rcases List.mem_append.mp hp with h | h
      · exact c1 p h
      · exact c2 p h

/-- C18: with `opq = 0` the surface is left by `GLIB_drawChar` as by issuing,
in order, one foreground pixel draw (`GLIB_drawPixel`) at `(x + c, y + r)` for
each cell whose font bit is set, and nothing for a cell whose bit is clear
(and nothing at all for a character outside the font or an origin outside the
clip region); every pixel it writes has the foreground colour. -/
theorem C18_drawChar_transparent (font : GLIB_Font) (ctx : GLIB_Context) (ch x y : Nat)
    (s : Surface) :
    (GLIB_drawChar font ctx ch x y 0 s).2 =
      (if (32 ≤ ch ∧ ch ≤ 126) ∧ GLIB_rectContainsPoint ctx.clippingRegion x y = 1 then
        issuePixels ctx (((glyphCells font).filter (glyphBit font ch)).map (cellPoint x y)) s
      else s) ∧
    ∃ w, Writes s (GLIB_drawChar font ctx ch x y 0 s).2 w ∧
      ∀ p ∈ w, (p.red, p.green, p.blue) = GLIB_colorTranslate24bpp ctx.foregroundColor := by
  have hkey : (GLIB_drawChar font ctx ch x y 0 s).2 =
      (if (32 ≤ ch ∧ ch ≤ 126) ∧ GLIB_rectContainsPoint ctx.clippingRegion x y = 1 then
        issuePixels ctx (((glyphCells font).filter (glyphBit font ch)).map (cellPoint x y)) s
      else s) := by
    rw [GLIB_drawChar_eq]
    by_cases h1 : ch < 32 ∨ ch > 126
    · rw [if_pos h1, if_neg (by omega)]
    · rw [if_neg h1]
      by_cases h2 : GLIB_rectContainsPoint ctx.clippingRegion x y = 0
      · rw [if_pos h2, if_neg (by omega)]
      · have h3 : GLIB_rectContainsPoint ctx.clippingRegion x y = 1 := by
          unfold GLIB_rectContainsPoint at h2 ⊢
          split_ifs at h2 ⊢ <;> simp_all
        rw [if_neg h2, if_pos ⟨by omega, h3⟩, glyphDraws_transparent,
          ← issueDraws_foreground, List.map_map]
        rfl
  refine ⟨hkey, ?_⟩
  rw [hkey]
  split_ifs
  · exact issuePixels_colour ctx _ s
  · exact ⟨[], by simp [Writes], by simp⟩

/-- C17 (counterexample): with `demoFont` the glyph of `'A'` drawn opaque at
`(9,10)` in `demoContext`, whose clip region starts at column 10, has the cell
of column 1 in row 0 inside the clip region, at `(10,10)`; the claim gives
that cell one pixel write, but `GLIB_drawChar` returns `GLIB_DID_NOT_DRAW`
and writes nothing, because the origin is outside the clip region. -/
theorem C17_drawChar_opaque_counterexample :
    (32 ≤ 65 ∧ 65 ≤ 126) ∧ neverFails freshSurface ∧
    (0, 1) ∈ glyphCells demoFont ∧ cellPoint 9 10 (0, 1) = (10, 10) ∧
    cellInClip demoContext 9 10 (0, 1) = true ∧
    (GLIB_drawChar demoFont demoContext 65 9 10 1 freshSurface).1 = GLIB_DID_NOT_DRAW ∧
    (GLIB_drawChar demoFont demoContext 65 9 10 1 freshSurface).2.pixels = [] := by
  refine ⟨by decide, fun _ => rfl, by decide, by decide, by decide, by decide, by decide⟩

/-- C17 (amended): for a character in `[' ', '~']` and `opq = 1`, when the
origin is inside the clip region and no call of the surface fails,
`GLIB_drawChar` returns `GLIB_OK` and its pixel writes are, in the order of
the cells, one write for each cell whose pixel `(x + c, y + r)` lies inside
the clip region, in the foreground colour if the font bit is set and in the
background colour otherwise, the cells outside the clip region being skipped
(the write of a cell is the pixel that the driver writes for a run of one
pixel at `(x + c, y + r)`, which is that pixel itself when the clip region is
well-formed); when the origin is outside the clip region it returns
`GLIB_DID_NOT_DRAW` and leaves the surface alone. -/
theorem C17_drawChar_opaque_amended (font : GLIB_Font) (ctx : GLIB_Context)
    (ch x y : Nat) (s : Surface) (hch : 32 ≤ ch ∧ ch ≤ 126) :
    (GLIB_rectContainsPoint ctx.clippingRegion x y = 1 → neverFails s →
      (GLIB_drawChar font ctx ch x y 1 s).1 = GLIB_OK ∧
      Writes s (GLIB_drawChar font ctx ch x y 1 s).2
        (((glyphCells font).filter (cellInClip ctx x y)).map (glyphWrite font ctx ch x y)) ∧
      (clipWellFormed ctx →
        ((glyphCells font).filter (cellInClip ctx x y)).map (glyphWrite font ctx ch x y) =
          ((glyphCells font).filter (cellInClip ctx x y)).map (glyphPixel font ctx ch x y))) ∧
    (GLIB_rectContainsPoint ctx.clippingRegion x y = 0 →
      GLIB_drawChar font ctx ch x y 1 s = (GLIB_DID_NOT_DRAW, s)) := by
  rw [GLIB_drawChar_eq, if_neg (by omega)]
  refine ⟨fun hin hs => ?_, fun hout => by rw [if_pos hout]⟩
  rw [if_neg (by omega)]
  refine ⟨rfl, ?_, ?_⟩
  · unfold Writes
    rw [(issueDraws_write ctx _ s hs).2, glyphDraws_opaque, List.filter_map, List.map_map]
    rfl
  · intro hwf
    refine List.map_congr_left fun cell hcell => ?_
    have hc : GLIB_rectContainsPoint ctx.clippingRegion (cellPoint x y cell).1
        (cellPoint x y cell).2 = 1 := by
      have := (List.mem_filter.mp hcell).2
      unfold cellInClip at this
      simpa using this
    unfold glyphWrite glyphPixel
    rw [drawnPixel_eq ctx hwf _ _ _ hc]
    by_cases hb : glyphBit font ch cell = true <;> simp [hb]

/-- The glyph of `'A'` of `demoFont` drawn opaque at `(20,20)` in
`demoContext`: six writes, foreground for the bits of the rows `101` and
`010`, background for the others. -/
theorem C17_drawChar_opaque_amended_witness :
    ((GLIB_drawChar demoFont demoContext 65 20 20 1 freshSurface).1 = GLIB_OK ∧
    Writes freshSurface (GLIB_drawChar demoFont demoContext 65 20 20 1 freshSurface).2
      (((glyphCells demoFont).filter (cellInClip demoContext 20 20)).map
        (glyphWrite demoFont demoContext 65 20 20)) ∧
    ((glyphCells demoFont).filter (cellInClip demoContext 20 20)).map
        (glyphWrite demoFont demoContext 65 20 20) =
      ((glyphCells demoFont).filter (cellInClip demoContext 20 20)).map
        (glyphPixel demoFont demoContext 65 20 20)) ∧
    ((glyphCells demoFont).filter (cellInClip demoContext 20 20)).map
        (glyphPixel demoFont demoContext 65 20 20) =
      [colorPixel 0xFFFFFF 20 20, colorPixel 0 21 20, colorPixel 0xFFFFFF 22 20,
       colorPixel 0 20 21, colorPixel 0xFFFFFF 21 21, colorPixel 0 22 21] :=
  ⟨⟨((C17_drawChar_opaque_amended demoFont demoContext 65 20 20 freshSurface
      (by decide)).1 (by decide) (fun _ => rfl)).1,
    ((C17_drawChar_opaque_amended demoFont demoContext 65 20 20 freshSurface
      (by decide)).1 (by decide) (fun _ => rfl)).2.1,
    ((C17_drawChar_opaque_amended demoFont demoContext 65 20 20 freshSurface
      (by decide)).1 (by decide) (fun _ => rfl)).2.2 (by decide)⟩, by decide⟩

/-! ## C19: `GLIB_drawString` -/

theorem stringColumn_snoc (pre : List Nat) (ch : Nat) :
    stringColumn (pre ++ [ch]) = if ch = 10 then 0 else stringColumn pre + 1 := by
  unfold stringColumn
  rw [List.reverse_append, List.reverse_singleton, List.singleton_append, List.takeWhile_cons]
  by_cases h : ch = 10 <;> simp [h]

theorem stringLine_snoc (pre : List Nat) (ch : Nat) :
    stringLine (pre ++ [ch]) = stringLine pre + if ch = 10 then 1 else 0 := by
  unfold stringLine
  rw [List.count_append, List.count_singleton]
  by_cases h : ch = 10 <;> simp [h]

theorem stringOrigin_newline (font : GLIB_Font) (x0 y0 : Nat) (pre : List Nat)
    (hx0 : x0 < 65536) :
    stringOrigin font x0 y0 (pre ++ [10]) =
      (x0, toU16 (((stringOrigin font x0 y0 pre).2 : Int) + font.font_height
        + SPACE_BETWEEN_LINES)) := by
  unfold stringOrigin
  rw [stringColumn_snoc, stringLine_snoc, if_pos rfl, if_pos rfl, Nat.mul_zero, Nat.add_zero,
    Nat.mod_eq_of_lt hx0, Nat.mul_add, Nat.mul_one]
  refine Prod.ext rfl ?_
  simp only
  generalize (font.font_height + SPACE_BETWEEN_LINES) * stringLine pre = a
  unfold toU16 SPACE_BETWEEN_LINES
  omega

theorem stringOrigin_char (font : GLIB_Font) (x0 y0 : Nat) (pre : List Nat) (ch : Nat)
    (hch : ch ≠ 10) :
    stringOrigin font x0 y0 (pre ++ [ch]) =
      (toU16 (((stringOrigin font x0 y0 pre).1 : Int) + font.font_width),
        (stringOrigin font x0 y0 pre).2) := by
  unfold stringOrigin
  rw [stringColumn_snoc, stringLine_snoc, if_neg hch, if_neg hch, Nat.add_zero, Nat.mul_add,
    Nat.mul_one]
  refine Prod.ext ?_ rfl
  simp only
  generalize font.font_width * stringColumn pre = a
  unfold toU16
  omega

theorem stringLoop_spec (font : GLIB_Font) (ctx : GLIB_Context) (x0 y0 opq : Nat)
    (hx0 : x0 < 65536) :
    ∀ (rest pre : List Nat) (didDraw : Nat) (s : Surface),
      (stringLoop font ctx x0 opq rest (stringOrigin font x0 y0 pre).1
          (stringOrigin font x0 y0 pre).2 didDraw s).2 =
        drawCharsAt font ctx x0 y0 opq pre
          (rest.takeWhile fun ch => decide (drawableChar ch)) s ∧
      ((rest.takeWhile fun ch => decide (drawableChar ch)) ≠ rest →
        (stringLoop font ctx x0 opq rest (stringOrigin font x0 y0 pre).1
          (stringOrigin font x0 y0 pre).2 didDraw s).1 = GLIB_INVALID_CHAR) := by
  intro rest
  induction rest with
  | nil => intro pre d s; exact ⟨rfl, fun h => absurd rfl h⟩
  | cons ch rest ih =>
    intro pre d s
    rw [stringLoop, List.takeWhile_cons]
    by_cases hnl : ch = 10
    · subst hnl
      have hd : decide (drawableChar 10) = true := by decide
      rw [if_pos rfl, hd]
      simp only [if_true]
      rw [drawCharsAt, if_pos rfl]
      have ho := stringOrigin_newline font x0 y0 pre hx0
      have h1 : (stringOrigin font x0 y0 (pre ++ [10])).1 = x0 := by rw [ho]
      have h2 : (stringOrigin font x0 y0 (pre ++ [10])).2 =
          toU16 (((stringOrigin font x0 y0 pre).2 : Int) + font.font_height
            + SPACE_BETWEEN_LINES) := by rw [ho]
      have := ih (pre ++ [10]) d s
      rw [h1, h2] at this
      refine ⟨this.1, fun hne => this.2 (fun h => hne (by rw [h]))⟩
    · rw [if_neg hnl]
      simp only
      rw [GLIB_drawChar_eq]
      by_cases hv : ch < 32 ∨ ch > 126
      · have hd : decide (drawableChar ch) = false := by
          unfold drawableChar; simp; omega
        rw [if_pos hv, hd]
        simp only [Bool.false_eq_true, if_false]
        rw [if_pos (by simp)]
        exact ⟨rfl, fun _ => rfl⟩
      · have hd : decide (drawableChar ch) = true := by
          unfold drawableChar; simp; omega
        rw [if_neg hv, hd]
        simp only [if_true]
        rw [drawCharsAt, if_neg hnl, GLIB_drawChar_eq, if_neg hv]
        have ho := stringOrigin_char font x0 y0 pre ch hnl
        have h1 : (stringOrigin font x0 y0 (pre ++ [ch])).1 =
            toU16 (((stringOrigin font x0 y0 pre).1 : Int) + font.font_width) := by rw [ho]
        have h2 : (stringOrigin font x0 y0 (pre ++ [ch])).2 = (stringOrigin font x0 y0 pre).2 := by
          rw [ho]
        by_cases hc : GLIB_rectContainsPoint ctx.clippingRegion (stringOrigin font x0 y0 pre).1
            (stringOrigin font x0 y0 pre).2 = 0
        · rw [if_pos hc, if_neg (by simp)]
          have := ih (pre ++ [ch]) (if d = 0 ∧ GLIB_DID_NOT_DRAW = 0 then 1 else d) s
          rw [h1, h2] at this
          refine ⟨this.1, fun hne => this.2 (fun h => hne (by rw [h]))⟩
        · rw [if_neg hc, if_neg (by simp)]
          have := ih (pre ++ [ch]) (if d = 0 ∧ GLIB_OK = 0 then 1 else d)
            (issueDraws ctx (glyphDraws font ch (stringOrigin font x0 y0 pre).1
              (stringOrigin font x0 y0 pre).2 opq) s)
          rw [h1, h2] at this
          refine ⟨this.1, fun hne => this.2 (fun h => hne (by rw [h]))⟩

/-- C19 (counterexample): in the string of a tab (code 9) and an `'A'` drawn
at `(20,20)` in `demoContext` the character `'A'` is at position 1 with
origin `(23,20)`, where `GLIB_drawChar` would write pixels, but
`GLIB_drawString` returns `GLIB_INVALID_CHAR` at the tab and writes
nothing. -/
theorem C19_drawString_origin_counterexample :
    stringOrigin demoFont 20 20 [9] = (23, 20) ∧
    (GLIB_drawChar demoFont demoContext 65 23 20 1 freshSurface).2.pixels.length = 6 ∧
    (GLIB_drawString demoFont demoContext [9, 65] 20 20 1 freshSurface).1 = GLIB_INVALID_CHAR ∧
    (GLIB_drawString demoFont demoContext [9, 65] 20 20 1 freshSurface).2.pixels = [] := by
  refine ⟨by decide, by decide, by decide, by decide⟩

/-- C19 (amended): `GLIB_drawString` leaves the surface as by drawing, in
order, each character that has no character outside `[' ', '~']` other than
`'\n'` before it or at its place, by `GLIB_drawChar` at the origin
`(x0 + W * c, y0 + (H + 2) * n)` modulo `2^16`, where `c` counts the
characters since the last `'\n'` and `n` the `'\n'` before it, a `'\n'`
drawing nothing; when the string has a character outside `[' ', '~']` other
than `'\n'`, the result is `GLIB_INVALID_CHAR` and no later character is
drawn. -/
theorem C19_drawString_origin_amended (font : GLIB_Font) (ctx : GLIB_Context)
    (pString : List Nat) (x0 y0 opq : Nat) (s : Surface) (hx0 : x0 < 65536)
    (hy0 : y0 < 65536) :
    (GLIB_drawString font ctx pString x0 y0 opq s).2 =
      drawCharsAt font ctx x0 y0 opq []
        (pString.takeWhile fun ch => decide (drawableChar ch)) s ∧
    ((pString.takeWhile fun ch => decide (drawableChar ch)) ≠ pString →
      (GLIB_drawString font ctx pString x0 y0 opq s).1 = GLIB_INVALID_CHAR) := by
  have h := stringLoop_spec font ctx x0 y0 opq hx0 pString [] 0 s
  have ho : stringOrigin font x0 y0 [] = (x0, y0) := by
    unfold stringOrigin stringColumn stringLine
    simp [Nat.mod_eq_of_lt hx0, Nat.mod_eq_of_lt hy0]
  rw [ho] at h
  exact h

/-- The string of a `'\n'` and an `'A'` drawn at `(20,20)` in `demoContext`
with `demoFont`: the `'A'` is drawn at `(20,24)`; and the string of a tab and
an `'A'` gives `GLIB_INVALID_CHAR`. -/
theorem C19_drawString_origin_amended_witness :
    (GLIB_drawString demoFont demoContext [10, 65] 20 20 0 freshSurface).2 =
      drawCharsAt demoFont demoContext 20 20 0 []
        ([10, 65].takeWhile fun ch => decide (drawableChar ch)) freshSurface ∧
    (GLIB_drawString demoFont demoContext [9, 65] 20 20 0 freshSurface).1
      = GLIB_INVALID_CHAR ∧
    stringOrigin demoFont 20 20 [10] = (20, 24) ∧
    (GLIB_drawString demoFont demoContext [10, 65] 20 20 0 freshSurface).2.pixels
      = [fgPixel demoContext 20 24, fgPixel demoContext 22 24, fgPixel demoContext 21 25] :=
  ⟨(C19_drawString_origin_amended demoFont demoContext [10, 65] 20 20 0 freshSurface
      (by decide) (by decide)).1,
    (C19_drawString_origin_amended demoFont demoContext [9, 65] 20 20 0 freshSurface
      (by decide) (by decide)).2 (by decide),
    by decide, by decide⟩

/-! ## Circles: the pixel draws on a surface that never fails -/

theorem issuePixels_nil (ctx : GLIB_Context) (s : Surface) : issuePixels ctx [] s = s := rfl

theorem issuePixels_cons (ctx : GLIB_Context) (p : Nat × Nat) (l : List (Nat × Nat))
    (s : Surface) :
    issuePixels ctx (p :: l) s = issuePixels ctx l (GLIB_drawPixel ctx p.1 p.2 s).2 := rfl

theorem issuePixels_append (ctx : GLIB_Context) (l1 l2 : List (Nat × Nat)) (s : Surface) :
    issuePixels ctx (l1 ++ l2) s = issuePixels ctx l2 (issuePixels ctx l1 s) := by
  unfold issuePixels; rw [List.foldl_append]

theorem anyInClip_nil (ctx : GLIB_Context) : ¬ anyInClip ctx [] := by
  unfold anyInClip; simp

theorem anyInClip_cons (ctx : GLIB_Context) (p : Nat × Nat) (l : List (Nat × Nat)) :
    anyInClip ctx (p :: l) ↔
      GLIB_rectContainsPoint ctx.clippingRegion p.1 p.2 = 1 ∨ anyInClip ctx l := by
  unfold anyInClip; simp

theorem anyInClip_append (ctx : GLIB_Context) (l1 l2 : List (Nat × Nat)) :
    anyInClip ctx (l1 ++ l2) ↔ anyInClip ctx l1 ∨ anyInClip ctx l2 := by
  unfold anyInClip
  constructor
  · rintro ⟨p, hp, h⟩
    rcases List.mem_append.mp hp with h1 | h1
    · exact Or.inl ⟨p, h1, h⟩
    · exact Or.inr ⟨p, h1, h⟩
  · rintro (⟨p, hp, h⟩ | ⟨p, hp, h⟩)
    · exact ⟨p, List.mem_append.mpr (Or.inl hp), h⟩
    · exact ⟨p, List.mem_append.mpr (Or.inr hp), h⟩

/-- The pixels written by a list of foreground pixel draws on a surface that
never fails: none exactly when no point lies inside the clip region. -/
theorem issuePixels_write (ctx : GLIB_Context) :
    ∀ (l : List (Nat × Nat)) (s : Surface), neverFails s →
      neverFails (issuePixels ctx l s) ∧
      (∃ w, (issuePixels ctx l s).pixels = s.pixels ++ w ∧ (w = [] ↔ ¬ anyInClip ctx l)) := by
  intro l
  induction l with
  | nil => intro s hs; exact ⟨hs, [], by simp [issuePixels_nil], by simp [anyInClip_nil]⟩
  | cons p l ih =>
    intro s hs
    rw [issuePixels_cons, anyInClip_cons]
    have hfg := GLIB_drawPixelColor_write ctx p.1 p.2 ctx.foregroundColor s hs
    by_cases hc : GLIB_rectContainsPoint ctx.clippingRegion p.1 p.2 = 1
    · rw [if_pos hc] at hfg
      obtain ⟨h1, w, h2, _⟩ := ih (GLIB_drawPixel ctx p.1 p.2 s).2 hfg.2.1
      refine ⟨h1, drawnPixel ctx ctx.foregroundColor p.1 p.2 :: w, ?_, ?_⟩
      · rw [h2]; unfold GLIB_drawPixel; rw [hfg.2.2, List.append_assoc, List.singleton_append]
      · simp [hc]
    · rw [if_neg hc] at hfg
      have hp : (GLIB_drawPixel ctx p.1 p.2 s).2 = s := by unfold GLIB_drawPixel; rw [hfg]
      rw [hp]
      obtain ⟨h1, w, h2, h3⟩ := ih s hs
      exact ⟨h1, w, h2, by rw [h3]; simp [hc]⟩

theorem GLIB_drawPixel_nf (ctx : GLIB_Context) (x y : Nat) (s : Surface) (hs : neverFails s) :
    GLIB_drawPixel ctx x y s =
      (if GLIB_rectContainsPoint ctx.clippingRegion x y = 1 then GLIB_OK else GLIB_DID_NOT_DRAW,
        (GLIB_drawPixel ctx x y s).2) ∧ neverFails (GLIB_drawPixel ctx x y s).2 := by
  have hfg := GLIB_drawPixelColor_write ctx x y ctx.foregroundColor s hs
  unfold GLIB_drawPixel
  by_cases hc : GLIB_rectContainsPoint ctx.clippingRegion x y = 1
  · rw [if_pos hc] at hfg ⊢
    exact ⟨Prod.ext hfg.1 rfl, hfg.2.1⟩
  · rw [if_neg hc] at hfg ⊢
    rw [hfg]
    exact ⟨rfl, hs⟩

/-- The points of the offsets `offs`, numbered from `k + 1` on. -/
theorem partialCirclePointsLoop_nf (ctx : GLIB_Context) (xCenter yCenter bitMask : Nat) :
    ∀ (offs : List (Int × Int)) (k didDraw : Nat) (s : Surface), neverFails s →
      partialCirclePointsLoop ctx xCenter yCenter offs (bitMask >>> k) didDraw s =
        (if didDraw = 0 ∧ ¬ anyInClip ctx ((maskedDraws bitMask ((offs.enumFrom k).map fun e =>
            (e.1 + 1, (toU16 ((xCenter : Int) + e.2.1), toU16 ((yCenter : Int) + e.2.2))))).map
              Prod.snd)
          then GLIB_DID_NOT_DRAW else GLIB_OK,
         issuePixels ctx ((maskedDraws bitMask ((offs.enumFrom k).map fun e =>
            (e.1 + 1, (toU16 ((xCenter : Int) + e.2.1), toU16 ((yCenter : Int) + e.2.2))))).map
              Prod.snd) s) := by
  intro offs
  induction offs with
  | nil =>
    intro k d s _
    simp only [partialCirclePointsLoop, List.enumFrom_nil, List.map_nil, maskedDraws,
      List.filter_nil, issuePixels_nil]
    by_cases hd : d = 0 <;> simp [hd, anyInClip_nil]
  | cons o rest ih =>
    intro k d s hs
    rw [partialCirclePointsLoop]
    have hbit : ((bitMask >>> k) &&& 1 ≠ 0) ↔ bitMask.testBit k = true := by
      have h0 : bitMask.testBit k = (bitMask >>> k).testBit 0 := by
        rw [Nat.testBit_shiftRight, Nat.add_zero]
      rw [h0, Nat.and_one_is_mod, Nat.testBit_zero, decide_eq_true_iff]
      omega
    have hshift : bitMask >>> k >>> 1 = bitMask >>> (k + 1) := (Nat.shiftRight_add _ _ _).symm
    rw [hshift]
    by_cases hb : bitMask.testBit k = true
    · have hm : maskedDraws bitMask (((o :: rest).enumFrom k).map fun e =>
          (e.1 + 1, (toU16 ((xCenter : Int) + e.2.1), toU16 ((yCenter : Int) + e.2.2)))) =
          (k + 1, (toU16 ((xCenter : Int) + o.1), toU16 ((yCenter : Int) + o.2))) ::
            maskedDraws bitMask ((rest.enumFrom (k + 1)).map fun e =>
              (e.1 + 1, (toU16 ((xCenter : Int) + e.2.1), toU16 ((yCenter : Int) + e.2.2)))) := by
        unfold maskedDraws
        rw [List.enumFrom_cons, List.map_cons, List.filter_cons_of_pos (by simpa using hb)]
      rw [hm, if_pos (hbit.mpr hb), List.map_cons, issuePixels_cons]
      simp only [anyInClip_cons]
      obtain ⟨hpx, hnf⟩ := GLIB_drawPixel_nf ctx (toU16 ((xCenter : Int) + o.1))
        (toU16 ((yCenter : Int) + o.2)) s hs
      have hst : ¬ ((GLIB_drawPixel ctx (toU16 ((xCenter : Int) + o.1))
            (toU16 ((yCenter : Int) + o.2)) s).1 ≠ 0 ∧
          (GLIB_drawPixel ctx (toU16 ((xCenter : Int) + o.1))
            (toU16 ((yCenter : Int) + o.2)) s).1 ≠ GLIB_DID_NOT_DRAW) := by
        rw [hpx]; split_ifs <;> simp
      rw [if_neg hst, ih (k + 1) _ _ hnf]
      refine Prod.ext ?_ rfl
      simp only
      by_cases hc : GLIB_rectContainsPoint ctx.clippingRegion (toU16 ((xCenter : Int) + o.1))
          (toU16 ((yCenter : Int) + o.2)) = 1
      · have h1 : (GLIB_drawPixel ctx (toU16 ((xCenter : Int) + o.1))
            (toU16 ((yCenter : Int) + o.2)) s).1 = 0 := by rw [hpx, if_pos hc]
        by_cases hd : d = 0 <;> simp [h1, hc, hd]
      · have h1 : (GLIB_drawPixel ctx (toU16 ((xCenter : Int) + o.1))
            (toU16 ((yCenter : Int) + o.2)) s).1 = 1 := by rw [hpx, if_neg hc]
        by_cases hd : d = 0 <;> simp [h1, hc, hd]
    · have hm : maskedDraws bitMask (((o :: rest).enumFrom k).map fun e =>
          (e.1 + 1, (toU16 ((xCenter : Int) + e.2.1), toU16 ((yCenter : Int) + e.2.2)))) =
            maskedDraws bitMask ((rest.enumFrom (k + 1)).map fun e =>
              (e.1 + 1, (toU16 ((xCenter : Int) + e.2.1), toU16 ((yCenter : Int) + e.2.2)))) := by
        unfold maskedDraws
        rw [List.enumFrom_cons, List.map_cons, List.filter_cons_of_neg (by simpa using hb)]
      rw [hm, if_neg (fun h => hb (hbit.mp h)), ih (k + 1) _ _ hs]

theorem circlePointsLoop_eq_partial (ctx : GLIB_Context) (xCenter yCenter : Nat) :
    ∀ (offs : List (Int × Int)) (k didDraw : Nat) (s : Surface), offs.length + k ≤ 8 →
      circlePointsLoop ctx xCenter yCenter offs didDraw s =
        partialCirclePointsLoop ctx xCenter yCenter offs (255 >>> k) didDraw s := by
  intro offs
  induction offs with
  | nil => intro k d s _; rfl
  | cons o rest ih =>
    intro k d s hk
    rw [circlePointsLoop, partialCirclePointsLoop]
    have hk8 : k < 8 := by simp only [List.length_cons] at hk; omega
    have hbit : (255 >>> k) &&& 1 ≠ 0 := by
      interval_cases k <;> decide
    have hshift : 255 >>> k >>> 1 = 255 >>> (k + 1) := (Nat.shiftRight_add _ _ _).symm
    rw [if_pos hbit, hshift]
    simp only
    rw [ih (k + 1) _ _ (by simp only [List.length_cons] at hk; omega)]

/-- The eight points of a step are drawn by `GLIB_drawCirclePoints` as by
`GLIB_drawPartialCirclePoints` with the mask `0xFF`, on every surface. -/
theorem GLIB_drawCirclePoints_eq (ctx : GLIB_Context) (xCenter yCenter x y : Nat)
    (s : Surface) :
    GLIB_drawCirclePoints ctx xCenter yCenter x y s =
      GLIB_drawPartialCirclePoints ctx xCenter yCenter x y 255 s := by
  unfold GLIB_drawCirclePoints GLIB_drawPartialCirclePoints
  exact circlePointsLoop_eq_partial ctx xCenter yCenter _ 0 0 s (by simp [octantOffsets])

theorem circleStep_eq (ctx : GLIB_Context) (xCenter yCenter : Nat) :
    circleStep ctx xCenter yCenter = partialCircleStep ctx xCenter yCenter 255 := by
  funext x y d s
  unfold circleStep partialCircleStep
  rw [GLIB_drawCirclePoints_eq]

/-- On every surface whose next call succeeds, `GLIB_drawCircle` is the reset
of the hardware clip window followed by `GLIB_drawPartialCircle` with the
mask `0xFF`. -/
theorem GLIB_drawCircle_eq (fuel : Nat) (ctx : GLIB_Context) (xCenter yCenter radius : Nat)
    (s : Surface) (hin : GLIB_rectContainsPoint ctx.clippingRegion xCenter yCenter = 1)
    (h0 : s.status s.calls.length = 0) :
    GLIB_drawCircle fuel ctx xCenter yCenter radius s =
      GLIB_drawPartialCircle fuel ctx xCenter yCenter radius 255
        (GLIB_resetDisplayClippingArea ctx s).2 := by
  unfold GLIB_drawCircle GLIB_drawPartialCircle
  have hc : ¬ GLIB_rectContainsPoint ctx.clippingRegion xCenter yCenter = 0 := by omega
  rw [if_neg hc, if_neg hc]
  have hr : ¬ (GLIB_resetDisplayClippingArea ctx s).1 ≠ 0 := by
    rw [GLIB_resetDisplayClippingArea_eq, DMD_setClippingArea_fst]; simpa using h0
  simp only [if_neg hr, circleStep_eq]

/-- The step of the masked circle on a surface that never fails: the draws of
the octants of the mask, no early return. -/
theorem partialCircleStep_nf (ctx : GLIB_Context) (xCenter yCenter bitMask x y didDraw : Nat)
    (s : Surface) (hs : neverFails s) :
    partialCircleStep ctx xCenter yCenter bitMask x y didDraw s =
      (none,
        if anyInClip ctx ((maskedDraws bitMask (octantPoints xCenter yCenter x y)).map Prod.snd)
          then 1 else didDraw,
        issuePixels ctx ((maskedDraws bitMask (octantPoints xCenter yCenter x y)).map Prod.snd)
          s) := by
  have h := partialCirclePointsLoop_nf ctx xCenter yCenter bitMask (octantOffsets x y) 0 0 s hs
  rw [Nat.shiftRight_zero] at h
  unfold partialCircleStep GLIB_drawPartialCirclePoints
  rw [h]
  unfold octantPoints List.enum
  by_cases ha : anyInClip ctx ((maskedDraws bitMask ((List.enumFrom 0 (octantOffsets x y)).map
      fun e => (e.1 + 1, (toU16 ((xCenter : Int) + e.2.1),
        toU16 ((yCenter : Int) + e.2.2))))).map Prod.snd)
  · simp [ha]
  · simp [ha]

theorem midpointNext_bounds (x y : Nat) (d : Int) (hxy : x < y) (hy : y < 65536) :
    (midpointNext x y d).1 = x + 1 ∧ (midpointNext x y d).2.1 ≤ y := by
  have hx1 : toU16 ((x : Int) + 1) = x + 1 := by unfold toU16; omega
  have hy1 : toU16 ((y : Int) - 1) = y - 1 := by unfold toU16; omega
  unfold midpointNext
  by_cases hd : d < 0
  · simp only [if_pos hd, hx1]
    exact ⟨trivial, Nat.le_refl _⟩
  · simp only [if_neg hd, hx1, hy1]
    exact ⟨trivial, Nat.sub_le _ _⟩

/-- The loop of a circle function whose step issues the pixel draws `pts x y`
and never returns early, on a surface that never fails and with enough fuel:
it returns, having issued the draws of all steps in order. -/
theorem midpointLoop_nf (ctx : GLIB_Context) (step : CircleStep)
    (pts : Nat → Nat → List (Nat × Nat))
    (hstep : ∀ x y didDraw s, neverFails s →
      step x y didDraw s =
        (none, if anyInClip ctx (pts x y) then 1 else didDraw, issuePixels ctx (pts x y) s)) :
    ∀ (fuel x y : Nat) (d : Int) (didDraw : Nat) (s : Surface), neverFails s →
      y < 65536 → y < x + fuel → 0 < fuel →
      midpointLoop step fuel x y d didDraw s =
        some (if didDraw = 0 ∧
            ¬ anyInClip ctx ((midpointStates fuel x y d).flatMap fun p => pts p.1 p.2)
          then GLIB_DID_NOT_DRAW else GLIB_OK,
          issuePixels ctx ((midpointStates fuel x y d).flatMap fun p => pts p.1 p.2) s) := by
  intro fuel
  induction fuel with
  | zero => intro x y d dd s _ _ _ h; omega
  | succ f ih =>
    intro x y d dd s hs hy hfuel _
    rw [midpointLoop, midpointStates]
    by_cases hxy : x < y
    · obtain ⟨hn1, hn2⟩ := midpointNext_bounds x y d hxy hy
      rw [if_pos hxy, if_pos hxy, hstep _ _ _ _ hs]
      simp only
      have hs1 := (issuePixels_write ctx (pts (midpointNext x y d).1 (midpointNext x y d).2.1)
        s hs).1
      rw [ih _ _ _ _ _ hs1 (by omega) (by omega) (by omega), List.flatMap_cons,
        issuePixels_append]
      simp only [anyInClip_append]
      refine congrArg some (Prod.ext ?_ rfl)
      simp only
      by_cases ha : anyInClip ctx (pts (midpointNext x y d).1 (midpointNext x y d).2.1)
      · simp [ha]
      · simp [ha]
    · rw [if_neg hxy, if_neg hxy]
      simp [anyInClip_nil, issuePixels_nil]

/-- The masked circle on a surface that never fails, with enough fuel: the
status and the surface. -/
theorem GLIB_drawPartialCircle_nf (fuel : Nat) (ctx : GLIB_Context)
    (xCenter yCenter radius bitMask : Nat) (s : Surface)
    (hin : GLIB_rectContainsPoint ctx.clippingRegion xCenter yCenter = 1)
    (hr : radius < 65536) (hfuel : radius < fuel) (hs : neverFails s) :
    GLIB_drawPartialCircle fuel ctx xCenter yCenter radius bitMask s =
      some (if anyInClip ctx
            ((maskedDraws bitMask (circleDraws fuel xCenter yCenter radius)).map Prod.snd)
          then GLIB_OK else GLIB_DID_NOT_DRAW,
        issuePixels ctx
          ((maskedDraws bitMask (circleDraws fuel xCenter yCenter radius)).map Prod.snd) s) := by
  unfold GLIB_drawPartialCircle
  rw [if_neg (by omega), partialCircleStep_nf ctx _ _ _ _ _ _ s hs]
  simp only
  have hs1 := (issuePixels_write ctx
    ((maskedDraws bitMask (octantPoints xCenter yCenter 0 radius)).map Prod.snd) s hs).1
  rw [midpointLoop_nf ctx (partialCircleStep ctx xCenter yCenter bitMask)
    (fun x y => (maskedDraws bitMask (octantPoints xCenter yCenter x y)).map Prod.snd)
    (fun x y dd t ht => partialCircleStep_nf ctx _ _ _ _ _ _ t ht) fuel 0 radius _ _ _ hs1 hr
    (by omega) (by omega)]
  have hall : (maskedDraws bitMask (circleDraws fuel xCenter yCenter radius)).map Prod.snd =
      (maskedDraws bitMask (octantPoints xCenter yCenter 0 radius)).map Prod.snd ++
        (midpointStates fuel 0 radius (toI16 (1 - (radius : Int)))).flatMap fun p =>
          (maskedDraws bitMask (octantPoints xCenter yCenter p.1 p.2)).map Prod.snd := by
    unfold circleDraws circleSteps maskedDraws
    rw [List.flatMap_cons, List.filter_append, List.map_append]
    refine congrArg₂ _ rfl ?_
    generalize midpointStates fuel 0 radius (toI16 (1 - (radius : Int))) = l
    induction l with
    | nil => rfl
    | cons a l ih =>
      rw [List.flatMap_cons, List.flatMap_cons, List.filter_append, List.map_append, ih]
  rw [hall, issuePixels_append]
  simp only [anyInClip_append]
  refine congrArg some (Prod.ext ?_ rfl)
  simp only
  by_cases ha : anyInClip ctx ((maskedDraws bitMask
      (octantPoints xCenter yCenter 0 radius)).map Prod.snd)
  · simp [ha]
  · simp [ha]

/-! ## C13: `GLIB_drawCircle` and `GLIB_drawPartialCircle` -/

theorem issuePixels_pixels (ctx : GLIB_Context) (l : List (Nat × Nat)) (s : Surface)
    (hs : neverFails s) : (issuePixels ctx l s).pixels = s.pixels ++ drawnPixels ctx l := by
  rw [← issueDraws_foreground, (issueDraws_write ctx _ s hs).2, List.filter_map, List.map_map]
  rfl

theorem drawnPixels_eq_nil (ctx : GLIB_Context) (l : List (Nat × Nat)) :
    drawnPixels ctx l = [] ↔ ¬ anyInClip ctx l := by
  unfold drawnPixels anyInClip
  rw [List.map_eq_nil_iff, List.filter_eq_nil_iff]
  simp

theorem maskedDraws_octantPoints_full (xCenter yCenter x y : Nat) :
    maskedDraws 255 (octantPoints xCenter yCenter x y) = octantPoints xCenter yCenter x y := by
  unfold maskedDraws
  rw [List.filter_eq_self]
  intro e he
  unfold octantPoints octantOffsets List.enum at he
  simp only [List.enumFrom_cons, List.enumFrom_nil, List.map_cons, List.map_nil,
    List.mem_cons, List.mem_singleton, List.not_mem_nil, or_false] at he
  rcases he with h | h | h | h | h | h | h | h <;>
    (rw [h]; simp only [Nat.zero_add, Nat.add_one_sub_one]; decide)

theorem maskedDraws_circleDraws_full (fuel xCenter yCenter radius : Nat) :
    maskedDraws 255 (circleDraws fuel xCenter yCenter radius) =
      circleDraws fuel xCenter yCenter radius := by
  unfold circleDraws
  generalize circleSteps fuel radius = l
  induction l with
  | nil => rfl
  | cons a l ih =>
    have happ : ∀ l1 l2, maskedDraws 255 (l1 ++ l2) = maskedDraws 255 l1 ++ maskedDraws 255 l2 :=
      fun l1 l2 => by unfold maskedDraws; rw [List.filter_append]
    rw [List.flatMap_cons, happ, ih, maskedDraws_octantPoints_full]

theorem maskedDraws_zero (l : List (Nat × (Nat × Nat))) : maskedDraws 0 l = [] := by
  unfold maskedDraws
  rw [List.filter_eq_nil_iff]
  intro e _
  simp

/-- The full circle on a surface that never fails, with enough fuel: the
status and the surface. -/
theorem GLIB_drawCircle_nf (fuel : Nat) (ctx : GLIB_Context)
    (xCenter yCenter radius : Nat) (s : Surface)
    (hin : GLIB_rectContainsPoint ctx.clippingRegion xCenter yCenter = 1)
    (hr : radius < 65536) (hfuel : radius < fuel) (hs : neverFails s) :
    GLIB_drawCircle fuel ctx xCenter yCenter radius s =
      some (if anyInClip ctx ((circleDraws fuel xCenter yCenter radius).map Prod.snd)
          then GLIB_OK else GLIB_DID_NOT_DRAW,
        issuePixels ctx ((circleDraws fuel xCenter yCenter radius).map Prod.snd)
          (GLIB_resetDisplayClippingArea ctx s).2) := by
  have hs1 : neverFails (GLIB_resetDisplayClippingArea ctx s).2 :=
    neverFails_of_status_eq (by simp [GLIB_resetDisplayClippingArea_eq]) hs
  rw [GLIB_drawCircle_eq fuel ctx xCenter yCenter radius s hin (hs _),
    GLIB_drawPartialCircle_nf fuel ctx xCenter yCenter radius 255 _ hin hr hfuel hs1,
    maskedDraws_circleDraws_full]

/-- C13 (counterexample): on a surface whose call number 2 fails with status
9, the circle of centre `(10,10)` and radius 3 in `smallContext` returns 9
from both functions, but `GLIB_drawCircle`, which begins with a reset of the
hardware clip window, has written no pixel, and `GLIB_drawPartialCircle` with
the mask `0xFF` has written the pixel `(13,10)`. -/
theorem C13_partial_circle_counterexample :
    GLIB_rectContainsPoint smallContext.clippingRegion 10 10 = 1 ∧
    (GLIB_drawCircle 4 smallContext 10 10 3 (failingSurface 2 9)).map
      (fun r => (r.1, r.2.pixels)) = some (9, []) ∧
    (GLIB_drawPartialCircle 4 smallContext 10 10 3 255 (failingSurface 2 9)).map
      (fun r => (r.1, r.2.pixels)) = some (9, [fgPixel smallContext 13 10]) := by
  refine ⟨by decide, by decide, by decide⟩

/-- C13 (amended): for a centre inside the clip region, on a surface no call
of which fails, `GLIB_drawPartialCircle` leaves the surface as by issuing, in
the same order, the pixel draws of the full circle (`circleDraws`) restricted
to the octants `i` whose bit `i - 1` of the mask is set, `GLIB_drawCircle` as
by issuing all of them after the reset of the hardware clip window, and with
the mask `0xFF` the status and the pixel writes of the two are the same. -/
theorem C13_partial_circle_amended (fuel : Nat) (ctx : GLIB_Context)
    (xCenter yCenter radius bitMask : Nat) (s : Surface)
    (hin : GLIB_rectContainsPoint ctx.clippingRegion xCenter yCenter = 1)
    (hr : radius < 65536) (hfuel : radius < fuel) (hs : neverFails s) :
    GLIB_drawPartialCircle fuel ctx xCenter yCenter radius bitMask s =
      some (if anyInClip ctx
            ((maskedDraws bitMask (circleDraws fuel xCenter yCenter radius)).map Prod.snd)
          then GLIB_OK else GLIB_DID_NOT_DRAW,
        issuePixels ctx
          ((maskedDraws bitMask (circleDraws fuel xCenter yCenter radius)).map Prod.snd) s) ∧
    GLIB_drawCircle fuel ctx xCenter yCenter radius s =
      some (if anyInClip ctx ((circleDraws fuel xCenter yCenter radius).map Prod.snd)
          then GLIB_OK else GLIB_DID_NOT_DRAW,
        issuePixels ctx ((circleDraws fuel xCenter yCenter radius).map Prod.snd)
          (GLIB_resetDisplayClippingArea ctx s).2) ∧
    (GLIB_drawPartialCircle fuel ctx xCenter yCenter radius 255 s).map
        (fun r => (r.1, r.2.pixels)) =
      (GLIB_drawCircle fuel ctx xCenter yCenter radius s).map (fun r => (r.1, r.2.pixels)) := by
  have hs1 : neverFails (GLIB_resetDisplayClippingArea ctx s).2 :=
    neverFails_of_status_eq (by simp [GLIB_resetDisplayClippingArea_eq]) hs
  refine ⟨GLIB_drawPartialCircle_nf fuel ctx _ _ _ _ s hin hr hfuel hs,
    GLIB_drawCircle_nf fuel ctx _ _ _ s hin hr hfuel hs, ?_⟩
  rw [GLIB_drawPartialCircle_nf fuel ctx _ _ _ _ s hin hr hfuel hs,
    GLIB_drawCircle_nf fuel ctx _ _ _ s hin hr hfuel hs, maskedDraws_circleDraws_full]
  simp only [Option.map_some']
  rw [issuePixels_pixels ctx _ s hs, issuePixels_pixels ctx _ _ hs1]
  simp [GLIB_resetDisplayClippingArea_eq]

/-- The circle of centre `(10,10)` and radius 3 in `smallContext` with the
mask 5: the draws of the octants 1 and 3 only. -/
theorem C13_partial_circle_amended_witness :
    (GLIB_drawPartialCircle 4 smallContext 10 10 3 5 freshSurface =
      some (if anyInClip smallContext
            ((maskedDraws 5 (circleDraws 4 10 10 3)).map Prod.snd)
          then GLIB_OK else GLIB_DID_NOT_DRAW,
        issuePixels smallContext
          ((maskedDraws 5 (circleDraws 4 10 10 3)).map Prod.snd) freshSurface) ∧
    GLIB_drawCircle 4 smallContext 10 10 3 freshSurface =
      some (if anyInClip smallContext ((circleDraws 4 10 10 3).map Prod.snd)
          then GLIB_OK else GLIB_DID_NOT_DRAW,
        issuePixels smallContext ((circleDraws 4 10 10 3).map Prod.snd)
          (GLIB_resetDisplayClippingArea smallContext freshSurface).2) ∧
    (GLIB_drawPartialCircle 4 smallContext 10 10 3 255 freshSurface).map
        (fun r => (r.1, r.2.pixels)) =
      (GLIB_drawCircle 4 smallContext 10 10 3 freshSurface).map (fun r => (r.1, r.2.pixels))) ∧
    maskedDraws 5 (circleDraws 4 10 10 3) =
      [(1, (13, 10)), (3, (10, 7)), (1, (13, 9)), (3, (9, 7)), (1, (12, 8)), (3, (8, 8))] ∧
    maskedDraws 4 (circleDraws 4 10 10 3) = [(3, (10, 7)), (3, (9, 7)), (3, (8, 8))] :=
  ⟨C13_partial_circle_amended 4 smallContext 10 10 3 5 freshSurface (by decide) (by decide)
    (by decide) (fun _ => rfl), by decide, by decide⟩

/-! ## C21: argument errors -/

/-- C21: the argument errors are returned with the surface left as it was, so
that no call of the surface has been issued: `GLIB_INVALID_ARGUMENT` by
`GLIB_drawPolygon` when `numPoints < 2`, `GLIB_INVALID_CHAR` by
`GLIB_drawChar` for a character outside `[' ', '~']`, and
`GLIB_OUT_OF_BOUNDS` by `GLIB_drawCircle`, `GLIB_drawPartialCircle` and
`GLIB_drawCircleFilled` for a centre outside the clip region. -/
theorem C21_argument_errors (fuel : Nat) (ctx : GLIB_Context) (s : Surface)
    (numPoints : Nat) (polyPoints : Nat → Nat) (font : GLIB_Font) (ch x y opq : Nat)
    (xCenter yCenter radius bitMask : Nat) :
    (numPoints < 2 →
      GLIB_drawPolygon fuel ctx numPoints polyPoints s = some (GLIB_INVALID_ARGUMENT, s)) ∧
    (ch < 32 ∨ ch > 126 → GLIB_drawChar font ctx ch x y opq s = (GLIB_INVALID_CHAR, s)) ∧
    (GLIB_rectContainsPoint ctx.clippingRegion xCenter yCenter = 0 →
      GLIB_drawCircle fuel ctx xCenter yCenter radius s = some (GLIB_OUT_OF_BOUNDS, s) ∧
      GLIB_drawPartialCircle fuel ctx xCenter yCenter radius bitMask s
        = some (GLIB_OUT_OF_BOUNDS, s) ∧
      GLIB_drawCircleFilled fuel ctx xCenter yCenter radius s
        = some (GLIB_OUT_OF_BOUNDS, s)) := by
  refine ⟨fun h => ?_, fun h => ?_, fun h => ⟨?_, ?_, ?_⟩⟩
  · rw [GLIB_drawPolygon, if_pos h]
  · rw [GLIB_drawChar, if_pos h]
  · rw [GLIB_drawCircle, if_pos h]
  · rw [GLIB_drawPartialCircle, if_pos h]
  · rw [GLIB_drawCircleFilled, if_pos h]

/-- In `demoContext`, whose clip region is `(10,10)-(200,100)`: a polygon of
one point, a tab character, and circles around `(5,5)`, with fuel 0 and on a
surface every call of which would fail. -/
theorem C21_argument_errors_witness :
    GLIB_drawPolygon 0 demoContext 1 trianglePoints (deadSurface 9)
      = some (GLIB_INVALID_ARGUMENT, deadSurface 9) ∧
    GLIB_drawChar demoFont demoContext 9 20 20 1 (deadSurface 9)
      = (GLIB_INVALID_CHAR, deadSurface 9) ∧
    GLIB_drawCircle 0 demoContext 5 5 3 (deadSurface 9)
      = some (GLIB_OUT_OF_BOUNDS, deadSurface 9) ∧
    GLIB_drawPartialCircle 0 demoContext 5 5 3 255 (deadSurface 9)
      = some (GLIB_OUT_OF_BOUNDS, deadSurface 9) ∧
    GLIB_drawCircleFilled 0 demoContext 5 5 3 (deadSurface 9)
      = some (GLIB_OUT_OF_BOUNDS, deadSurface 9) :=
  ⟨(C21_argument_errors 0 demoContext (deadSurface 9) 1 trianglePoints demoFont 9 20 20 1
      5 5 3 255).1 (by decide),
   (C21_argument_errors 0 demoContext (deadSurface 9) 1 trianglePoints demoFont 9 20 20 1
      5 5 3 255).2.1 (by decide),
   (C21_argument_errors 0 demoContext (deadSurface 9) 1 trianglePoints demoFont 9 20 20 1
      5 5 3 255).2.2 (by decide)⟩

/-! ## C27, C28: rectangles -/

/-- C27: `GLIB_rectContainsPoint` returns 1 exactly for the points with
`xMin <= x <= xMax` and `yMin <= y <= yMax` and 0 for all others; so it is 1
on the four edges of an ordered rectangle and 0 one step outside each edge. -/
theorem C27_rectContainsPoint_inclusive (r : GLIB_Rectangle) (x y : Nat) :
    (GLIB_rectContainsPoint r x y = 1 ↔
      (r.xMin ≤ x ∧ x ≤ r.xMax) ∧ (r.yMin ≤ y ∧ y ≤ r.yMax)) ∧
    (GLIB_rectContainsPoint r x y = 0 ↔
      ¬ ((r.xMin ≤ x ∧ x ≤ r.xMax) ∧ (r.yMin ≤ y ∧ y ≤ r.yMax))) ∧
    (r.xMin ≤ r.xMax → r.yMin ≤ y ∧ y ≤ r.yMax →
      GLIB_rectContainsPoint r r.xMin y = 1 ∧ GLIB_rectContainsPoint r r.xMax y = 1) ∧
    (r.yMin ≤ r.yMax → r.xMin ≤ x ∧ x ≤ r.xMax →
      GLIB_rectContainsPoint r x r.yMin = 1 ∧ GLIB_rectContainsPoint r x r.yMax = 1) ∧
    (x + 1 = r.xMin ∨ x = r.xMax + 1 ∨ y + 1 = r.yMin ∨ y = r.yMax + 1 →
      GLIB_rectContainsPoint r x y = 0) := by
  have key : ∀ a b, GLIB_rectContainsPoint r a b =
      if (r.xMin ≤ a ∧ a ≤ r.xMax) ∧ (r.yMin ≤ b ∧ b ≤ r.yMax) then 1 else 0 := by
    intro a b
    unfold GLIB_rectContainsPoint
    split_ifs <;> first | rfl | omega
  refine ⟨?_, ?_, ?_, ?_, ?_⟩
  · rw [key]; split_ifs with h <;> simp [h]
  · rw [key]; split_ifs with h <;> simp [h]
  · intro hx hy
    rw [key, key, if_pos ⟨⟨Nat.le_refl _, hx⟩, hy⟩, if_pos ⟨⟨hx, Nat.le_refl _⟩, hy⟩]
    exact ⟨rfl, rfl⟩
  · intro hy hx
    rw [key, key, if_pos ⟨hx, Nat.le_refl _, hy⟩, if_pos ⟨hx, hy, Nat.le_refl _⟩]
    exact ⟨rfl, rfl⟩
  · intro h
    rw [key, if_neg (by omega)]

/-- The rectangle `(10,10)-(200,100)`: the corner `(10,10)`, the edge points
and the points one step outside. -/
theorem C27_rectContainsPoint_inclusive_witness :
    (GLIB_rectContainsPoint ⟨10, 10, 200, 100⟩ 10 50 = 1 ∧
      GLIB_rectContainsPoint ⟨10, 10, 200, 100⟩ 200 50 = 1) ∧
    (GLIB_rectContainsPoint ⟨10, 10, 200, 100⟩ 50 10 = 1 ∧
      GLIB_rectContainsPoint ⟨10, 10, 200, 100⟩ 50 100 = 1) ∧
    GLIB_rectContainsPoint ⟨10, 10, 200, 100⟩ 9 50 = 0 ∧
    GLIB_rectContainsPoint ⟨10, 10, 200, 100⟩ 201 50 = 0 ∧
    GLIB_rectContainsPoint ⟨10, 10, 200, 100⟩ 50 9 = 0 ∧
    GLIB_rectContainsPoint ⟨10, 10, 200, 100⟩ 50 101 = 0 :=
  ⟨(C27_rectContainsPoint_inclusive ⟨10, 10, 200, 100⟩ 50 50).2.2.1 (by decide) (by decide),
   (C27_rectContainsPoint_inclusive ⟨10, 10, 200, 100⟩ 50 50).2.2.2.1 (by decide) (by decide),
   (C27_rectContainsPoint_inclusive ⟨10, 10, 200, 100⟩ 9 50).2.2.2.2 (by decide),
   (C27_rectContainsPoint_inclusive ⟨10, 10, 200, 100⟩ 201 50).2.2.2.2 (by decide),
   (C27_rectContainsPoint_inclusive ⟨10, 10, 200, 100⟩ 50 9).2.2.2.2 (by decide),
   (C27_rectContainsPoint_inclusive ⟨10, 10, 200, 100⟩ 50 101).2.2.2.2 (by decide)⟩

theorem GLIB_Rectangle_ext {a b : GLIB_Rectangle} (h1 : a.xMin = b.xMin)
    (h2 : a.yMin = b.yMin) (h3 : a.xMax = b.xMax) (h4 : a.yMax = b.yMax) : a = b := by
  cases a; cases b; simp only at h1 h2 h3 h4; subst h1 h2 h3 h4; rfl

/-- C28: `GLIB_normalizeRect` puts the smaller bound of each axis in the
`Min` field and the larger in the `Max` field, whatever their order, so that
`min <= max` on both axes, and normalising twice is normalising once. -/
theorem C28_normalizeRect (r : GLIB_Rectangle) :
    ((GLIB_normalizeRect r).xMin = min r.xMin r.xMax ∧
      (GLIB_normalizeRect r).xMax = max r.xMin r.xMax ∧
      (GLIB_normalizeRect r).yMin = min r.yMin r.yMax ∧
      (GLIB_normalizeRect r).yMax = max r.yMin r.yMax) ∧
    ((GLIB_normalizeRect r).xMin ≤ (GLIB_normalizeRect r).xMax ∧
      (GLIB_normalizeRect r).yMin ≤ (GLIB_normalizeRect r).yMax) ∧
    GLIB_normalizeRect (GLIB_normalizeRect r) = GLIB_normalizeRect r := by
  obtain ⟨n1, n2, n3, n4⟩ := GLIB_normalizeRect_fields r
  obtain ⟨m1, m2, m3, m4⟩ := GLIB_normalizeRect_fields (GLIB_normalizeRect r)
  obtain ⟨o1, o2⟩ := GLIB_normalizeRect_ordered r
  refine ⟨⟨n1, n2, n3, n4⟩, ⟨o1, o2⟩, GLIB_Rectangle_ext ?_ ?_ ?_ ?_⟩
  · rw [m1]; exact Nat.min_eq_left o1
  · rw [m3]; exact Nat.min_eq_left o2
  · rw [m2]; exact Nat.max_eq_right o1
  · rw [m4]; exact Nat.max_eq_right o2

/-! ## C22 .. C25: the clip region of the context -/

/-- C22 (the code departs from the claim): on the display of 320 x 240 pixels
whose addressable clip area is the whole display (columns 0..319), the
rectangle `(0,0)-(320,100)` has `xMin < xMax` and `yMin < yMax` and exceeds
the addressable clip area by its column 320, yet `GLIB_setClippingRegion`
returns `GLIB_OK` and makes it the clip region: the test is
`xMax > clipWidth`.  And when the addressable clip area starts at column 100,
the rectangle `(100,0)-(400,100)` inside it is refused with
`GLIB_OUT_OF_BOUNDS`, and the rectangle `(0,0)-(50,100)` outside it is
accepted. -/
theorem C22_setClippingRegion_bounds :
    (GLIB_contextInit (DMD_OK, stdGeometry) blankContext).1 = GLIB_OK ∧
    ¬ withinClipArea stdGeometry ⟨0, 0, 320, 100⟩ ∧
    (GLIB_setClippingRegion (GLIB_contextInit (DMD_OK, stdGeometry) blankContext).2
      ⟨0, 0, 320, 100⟩).1 = GLIB_OK ∧
    (GLIB_setClippingRegion (GLIB_contextInit (DMD_OK, stdGeometry) blankContext).2
      ⟨0, 0, 320, 100⟩).2.clippingRegion = ⟨0, 0, 320, 100⟩ ∧
    withinClipArea ⟨520, 240, 100, 0, 320, 240⟩ ⟨100, 0, 400, 100⟩ ∧
    (GLIB_setClippingRegion { blankContext with pDisplayGeometry := ⟨520, 240, 100, 0, 320, 240⟩ }
      ⟨100, 0, 400, 100⟩).1 = GLIB_OUT_OF_BOUNDS ∧
    ¬ withinClipArea ⟨520, 240, 100, 0, 320, 240⟩ ⟨0, 0, 50, 100⟩ ∧
    (GLIB_setClippingRegion { blankContext with pDisplayGeometry := ⟨520, 240, 100, 0, 320, 240⟩ }
      ⟨0, 0, 50, 100⟩).1 = GLIB_OK := by
  refine ⟨by decide, by decide, by decide, by decide, by decide, by decide, by decide,
    by decide⟩

/-- C23: `GLIB_setClippingRegion` returns `GLIB_INVALID_CLIPPINGREGION`
exactly when `xMin >= xMax` or `yMin >= yMax`, whatever the geometry of the
display, and when its status is not `GLIB_OK` the context is left as it
was. -/
theorem C23_setClippingRegion_invalid (ctx : GLIB_Context) (rect : GLIB_Rectangle) :
    ((GLIB_setClippingRegion ctx rect).1 = GLIB_INVALID_CLIPPINGREGION ↔
      (rect.xMin ≥ rect.xMax ∨ rect.yMin ≥ rect.yMax)) ∧
    ((GLIB_setClippingRegion ctx rect).1 ≠ GLIB_OK → (GLIB_setClippingRegion ctx rect).2 = ctx) := by
  unfold GLIB_setClippingRegion
  by_cases h1 : rect.xMin ≥ rect.xMax ∨ rect.yMin ≥ rect.yMax
  · rw [if_pos h1]
    exact ⟨⟨fun _ => h1, fun _ => rfl⟩, fun _ => rfl⟩
  · rw [if_neg h1]
    by_cases h2 : rect.xMax > ctx.pDisplayGeometry.clipWidth
    · rw [if_pos h2]
      exact ⟨⟨fun h => absurd h (by simp), fun h => absurd h h1⟩, fun _ => rfl⟩
    · rw [if_neg h2]
      by_cases h3 : rect.yMax > ctx.pDisplayGeometry.clipHeight
      · rw [if_pos h3]
        exact ⟨⟨fun h => absurd h (by simp), fun h => absurd h h1⟩, fun _ => rfl⟩
      · rw [if_neg h3]
        exact ⟨⟨fun h => absurd h (by simp), fun h => absurd h h1⟩, fun h => absurd rfl h⟩

/-- C24 (the code departs from the claim): after a successful
`GLIB_contextInit` on the display of 320 x 240 pixels the clip region is
`(0,0)-(319,239)` and satisfies the invariant, and the call
`GLIB_setClippingRegion` with the rectangle `(0,0)-(320,240)` succeeds and
leaves a clip region that does not lie within the addressable clip area
(columns 0..319, rows 0..239). -/
theorem C24_clip_invariant_broken :
    (GLIB_contextInit (DMD_OK, stdGeometry) blankContext).1 = GLIB_OK ∧
    (GLIB_contextInit (DMD_OK, stdGeometry) blankContext).2.clippingRegion
      = ⟨0, 0, 319, 239⟩ ∧
    clipInvariant (GLIB_contextInit (DMD_OK, stdGeometry) blankContext).2 ∧
    (GLIB_setClippingRegion (GLIB_contextInit (DMD_OK, stdGeometry) blankContext).2
      ⟨0, 0, 320, 240⟩).1 = GLIB_OK ∧
    ¬ clipInvariant (applyOps (GLIB_contextInit (DMD_OK, stdGeometry) blankContext).2
      [ContextOp.draw, ContextOp.setClippingRegion ⟨0, 0, 320, 240⟩, ContextOp.draw]) ∧
    (applyOps (GLIB_contextInit (DMD_OK, stdGeometry) blankContext).2
      [ContextOp.draw, ContextOp.setClippingRegion ⟨0, 0, 320, 240⟩,
        ContextOp.draw]).clippingRegion = ⟨0, 0, 320, 240⟩ := by
  refine ⟨by decide, by decide, by decide, by decide, by decide, by decide⟩

/-- C25: `GLIB_resetClippingRegion` returns `GLIB_OK`, leaves the colours and
the geometry as they were and sets the clip region, whatever it was, to
`(xClipStart, yClipStart, xClipStart + clipWidth - 1,
yClipStart + clipHeight - 1)`, the two sums being stored in `uint16_t`
fields: they are the sums themselves when the addressable clip area is not
empty and ends within the 16-bit coordinate range. -/
theorem C25_resetClippingRegion (ctx : GLIB_Context) :
    (GLIB_resetClippingRegion ctx).1 = GLIB_OK ∧
    (GLIB_resetClippingRegion ctx).2.clippingRegion =
      ⟨ctx.pDisplayGeometry.xClipStart, ctx.pDisplayGeometry.yClipStart,
        toU16 ((ctx.pDisplayGeometry.xClipStart : Int) + ctx.pDisplayGeometry.clipWidth - 1),
        toU16 ((ctx.pDisplayGeometry.yClipStart : Int) + ctx.pDisplayGeometry.clipHeight - 1)⟩ ∧
    (GLIB_resetClippingRegion ctx).2.foregroundColor = ctx.foregroundColor ∧
    (GLIB_resetClippingRegion ctx).2.backgroundColor = ctx.backgroundColor ∧
    (GLIB_resetClippingRegion ctx).2.pDisplayGeometry = ctx.pDisplayGeometry ∧
    (1 ≤ ctx.pDisplayGeometry.clipWidth →
      ctx.pDisplayGeometry.xClipStart + ctx.pDisplayGeometry.clipWidth ≤ 65536 →
      1 ≤ ctx.pDisplayGeometry.clipHeight →
      ctx.pDisplayGeometry.yClipStart + ctx.pDisplayGeometry.clipHeight ≤ 65536 →
      (GLIB_resetClippingRegion ctx).2.clippingRegion =
        ⟨ctx.pDisplayGeometry.xClipStart, ctx.pDisplayGeometry.yClipStart,
          ctx.pDisplayGeometry.xClipStart + ctx.pDisplayGeometry.clipWidth - 1,
          ctx.pDisplayGeometry.yClipStart + ctx.pDisplayGeometry.clipHeight - 1⟩) := by
  refine ⟨rfl, rfl, rfl, rfl, rfl, fun hw hx hh hy => ?_⟩
  have e1 : toU16 ((ctx.pDisplayGeometry.xClipStart : Int) + ctx.pDisplayGeometry.clipWidth - 1)
      = ctx.pDisplayGeometry.xClipStart + ctx.pDisplayGeometry.clipWidth - 1 := by
    unfold toU16; omega
  have e2 : toU16 ((ctx.pDisplayGeometry.yClipStart : Int) + ctx.pDisplayGeometry.clipHeight - 1)
      = ctx.pDisplayGeometry.yClipStart + ctx.pDisplayGeometry.clipHeight - 1 := by
    unfold toU16; omega
  unfold GLIB_resetClippingRegion
  simp only [e1, e2]

/-- In `demoContext` (display of 320 x 240 pixels, clip region
`(10,10)-(200,100)`) the reset gives the clip region `(0,0)-(319,239)`. -/
theorem C25_resetClippingRegion_witness :
    (GLIB_resetClippingRegion demoContext).1 = GLIB_OK ∧
    (GLIB_resetClippingRegion demoContext).2.clippingRegion = ⟨0, 0, 319, 239⟩ ∧
    (GLIB_resetClippingRegion demoContext).2.foregroundColor = demoContext.foregroundColor ∧
    (GLIB_resetClippingRegion demoContext).2.backgroundColor = demoContext.backgroundColor ∧
    (GLIB_resetClippingRegion demoContext).2.pDisplayGeometry = demoContext.pDisplayGeometry :=
  ⟨(C25_resetClippingRegion demoContext).1,
   (C25_resetClippingRegion demoContext).2.2.2.2.2 (by decide) (by decide) (by decide)
     (by decide),
   (C25_resetClippingRegion demoContext).2.2.1,
   (C25_resetClippingRegion demoContext).2.2.2.1,
   (C25_resetClippingRegion demoContext).2.2.2.2.1⟩

/-- The rectangle `(5,5)-(5,9)` has `xMin >= xMax`: the status is
`GLIB_INVALID_CLIPPINGREGION` and `demoContext` is left as it was. -/
theorem C23_setClippingRegion_invalid_witness :
    (GLIB_setClippingRegion demoContext ⟨5, 5, 5, 9⟩).1 = GLIB_INVALID_CLIPPINGREGION ∧
    (GLIB_setClippingRegion demoContext ⟨5, 5, 5, 9⟩).2 = demoContext ∧
    (GLIB_setClippingRegion demoContext ⟨5, 5, 400, 9⟩).1 = GLIB_OUT_OF_BOUNDS ∧
    (GLIB_setClippingRegion demoContext ⟨5, 5, 400, 9⟩).2 = demoContext :=
  ⟨(C23_setClippingRegion_invalid demoContext ⟨5, 5, 5, 9⟩).1.mpr (by decide),
   (C23_setClippingRegion_invalid demoContext ⟨5, 5, 5, 9⟩).2 (by decide),
   by decide,
   (C23_setClippingRegion_invalid demoContext ⟨5, 5, 400, 9⟩).2 (by decide)⟩

/-! ## C26: `GLIB_drawPixelColor` -/

/-- C26 (counterexample): in `demoContext` the point `(20,20)` is inside the
clip region, but on a surface whose first call fails with status 9
`GLIB_drawPixelColor` issues the reset of the hardware clip window only,
returns 9 and neither issues a write nor writes a pixel. -/
theorem C26_drawPixelColor_counterexample :
    GLIB_rectContainsPoint demoContext.clippingRegion 20 20 = 1 ∧
    (GLIB_drawPixelColor demoContext 20 20 0x102030 (failingSurface 0 9)).1 = 9 ∧
    (GLIB_drawPixelColor demoContext 20 20 0x102030 (failingSurface 0 9)).2.calls
      = [resetCall demoContext] ∧
    (GLIB_drawPixelColor demoContext 20 20 0x102030 (failingSurface 0 9)).2.pixels = [] := by
  refine ⟨by decide, by decide, by decide, by decide⟩

/-- C26 (amended): for a point outside the clip region `GLIB_drawPixelColor`
returns `GLIB_DID_NOT_DRAW` and leaves the surface alone; for a point inside
it issues the call that sets the hardware clip window to the full display,
and when that call fails it returns its status with nothing else issued or
written; when it succeeds it issues one write of a run of one pixel at
`(x, y)` with the red, green and blue bytes of the colour and returns the
status of that call, and the pixel is written exactly when that call
succeeds (it is the pixel `(x, y)` when the clip region is well-formed);
`GLIB_drawPixel` is `GLIB_drawPixelColor` with the foreground colour. -/
theorem C26_drawPixelColor_amended (ctx : GLIB_Context) (x y color : Nat) (s : Surface) :
    (GLIB_rectContainsPoint ctx.clippingRegion x y ≠ 1 →
      GLIB_drawPixelColor ctx x y color s = (GLIB_DID_NOT_DRAW, s)) ∧
    (GLIB_rectContainsPoint ctx.clippingRegion x y = 1 → s.status s.calls.length ≠ 0 →
      (GLIB_drawPixelColor ctx x y color s).1 = s.status s.calls.length ∧
      Issues s (GLIB_drawPixelColor ctx x y color s).2 [resetCall ctx] ∧
      Writes s (GLIB_drawPixelColor ctx x y color s).2 []) ∧
    (GLIB_rectContainsPoint ctx.clippingRegion x y = 1 → s.status s.calls.length = 0 →
      (GLIB_drawPixelColor ctx x y color s).1 = s.status (s.calls.length + 1) ∧
      Issues s (GLIB_drawPixelColor ctx x y color s).2
        [resetCall ctx,
         DMDCall.writeColor x y (GLIB_colorTranslate24bpp color).1
           (GLIB_colorTranslate24bpp color).2.1 (GLIB_colorTranslate24bpp color).2.2 1] ∧
      Writes s (GLIB_drawPixelColor ctx x y color s).2
        (if s.status (s.calls.length + 1) = 0 then [drawnPixel ctx color x y] else [])) ∧
    (clipWellFormed ctx → GLIB_rectContainsPoint ctx.clippingRegion x y = 1 →
      drawnPixel ctx color x y = colorPixel color x y) ∧
    GLIB_drawPixel ctx x y s = GLIB_drawPixelColor ctx x y ctx.foregroundColor s := by
  refine ⟨fun hc => ?_, fun hc h0 => ?_, fun hc h0 => ?_,
    fun hwf hc => drawnPixel_eq ctx hwf color x y hc, rfl⟩
  · rw [GLIB_drawPixelColor_eq, if_neg hc]
  · rw [GLIB_drawPixelColor_eq, if_pos hc, if_pos h0, GLIB_resetDisplayClippingArea_eq]
    refine ⟨by simp, ?_, ?_⟩
    · unfold Issues resetCall; simp
    · unfold Writes; simp
  · rw [GLIB_drawPixelColor_eq, if_pos hc, if_neg (by simpa using h0),
      GLIB_resetDisplayClippingArea_eq]
    obtain ⟨hx, hy, hw, _⟩ := DMD_setClippingArea_window 0 0 ctx.pDisplayGeometry.xSize
      ctx.pDisplayGeometry.ySize s h0
    refine ⟨by simp, ?_, ?_⟩
    · unfold Issues resetCall; simp
    · unfold Writes
      rw [DMD_writeColor_pixels, DMD_setClippingArea_pixels, DMD_setClippingArea_calls,
        DMD_setClippingArea_status, List.length_append, List.length_singleton]
      by_cases h1 : s.status (s.calls.length + 1) = 0
      · rw [if_pos h1, if_pos h1]
        unfold runPixels drawnPixel
        rw [hx, hy, hw]
        rfl
      · rw [if_neg h1, if_neg h1, List.append_nil]

/-- In `demoContext` on a surface that never fails: the point `(20,20)` in the
colour `0x102030` gives the reset, one write of the bytes `0x10, 0x20, 0x30`
and the pixel `(20,20)`; the point `(5,5)` outside the clip region gives
`GLIB_DID_NOT_DRAW`. -/
theorem C26_drawPixelColor_amended_witness :
    GLIB_drawPixelColor demoContext 5 5 0x102030 freshSurface
      = (GLIB_DID_NOT_DRAW, freshSurface) ∧
    ((GLIB_drawPixelColor demoContext 20 20 0x102030 freshSurface).1
        = freshSurface.status (freshSurface.calls.length + 1) ∧
      Issues freshSurface (GLIB_drawPixelColor demoContext 20 20 0x102030 freshSurface).2
        [resetCall demoContext,
         DMDCall.writeColor 20 20 (GLIB_colorTranslate24bpp 0x102030).1
           (GLIB_colorTranslate24bpp 0x102030).2.1 (GLIB_colorTranslate24bpp 0x102030).2.2 1] ∧
      Writes freshSurface (GLIB_drawPixelColor demoContext 20 20 0x102030 freshSurface).2
        (if freshSurface.status (freshSurface.calls.length + 1) = 0
          then [drawnPixel demoContext 0x102030 20 20] else [])) ∧
    drawnPixel demoContext 0x102030 20 20 = colorPixel 0x102030 20 20 ∧
    (GLIB_drawPixelColor demoContext 20 20 0x102030 freshSurface).2.pixels
      = [⟨20, 20, 0x10, 0x20, 0x30⟩] :=
  ⟨(C26_drawPixelColor_amended demoContext 5 5 0x102030 freshSurface).1 (by decide),
   (C26_drawPixelColor_amended demoContext 20 20 0x102030 freshSurface).2.2.1 (by decide) rfl,
   (C26_drawPixelColor_amended demoContext 20 20 0x102030 freshSurface).2.2.2.1 (by decide)
     (by decide),
   by decide⟩

/-! ## C29: colours -/

theorem mask_shift (c k : Nat) : ((c &&& (255 <<< k)) >>> k) = (c >>> k) % 256 := by
  apply Nat.eq_of_testBit_eq
  intro i
  have h255 : (255 : Nat) = 2 ^ 8 - 1 := by norm_num
  have h256 : (256 : Nat) = 2 ^ 8 := by norm_num
  rw [Nat.testBit_shiftRight, Nat.testBit_and, Nat.testBit_shiftLeft, h256,
    Nat.testBit_mod_two_pow, Nat.testBit_shiftRight, h255, Nat.testBit_two_pow_sub_one]
  simp only [Nat.add_sub_cancel_left, ge_iff_le, Nat.le_add_right, decide_True, Bool.true_and]
  exact Bool.and_comm _ _

/-- The channels of a colour, in arithmetic. -/
theorem GLIB_colorTranslate24bpp_eq (c : Nat) :
    GLIB_colorTranslate24bpp c = ((c / 65536) % 256, (c / 256) % 256, c % 256) := by
  unfold GLIB_colorTranslate24bpp
  have m16 : (0x00FF0000 : Nat) = 255 <<< 16 := by decide
  have m8 : (0x0000FF00 : Nat) = 255 <<< 8 := by decide
  have m0 : c &&& 0x000000FF = c % 256 := by
    have h : (0x000000FF : Nat) = 2 ^ 8 - 1 := by norm_num
    rw [h, Nat.and_pow_two_sub_one_eq_mod]
  rw [m0, m16, m8, mask_shift, mask_shift]
  simp only [Nat.mod_mod, Nat.shiftRight_eq_div_pow, Nat.shiftRight_zero]
  norm_num

/-- The packing of three bytes, in arithmetic. -/
theorem GLIB_rgbColor_eq (r g b : Nat) (hr : r < 256) (hg : g < 256) (hb : b < 256) :
    GLIB_rgbColor r g b = r * 65536 + g * 256 + b := by
  unfold GLIB_rgbColor
  have e1 : g <<< 8 ||| b <<< 0 = g * 256 + b := by
    rw [Nat.shiftLeft_eq, Nat.shiftLeft_eq, Nat.pow_zero, Nat.mul_one, Nat.mul_comm g,
      ← Nat.mul_add_lt_is_or (by omega : b < 2 ^ 8)]
  have e2 : r <<< 16 ||| (g * 256 + b) = r * 65536 + (g * 256 + b) := by
    rw [Nat.shiftLeft_eq, Nat.mul_comm r,
      ← Nat.mul_add_lt_is_or (by omega : g * 256 + b < 2 ^ 16)]
  rw [Nat.lor_assoc, e1, e2]
  omega

/-- C29: for all bytes `r`, `g`, `b` the channels of `GLIB_rgbColor r g b` are
`(r, g, b)` and its value is `0x00RRGGBB`, that is `r * 2^16 + g * 2^8 + b`;
and for every colour `c` packing the channels of `c` gives `c` with
its top byte cleared. -/
theorem C29_colour_roundtrip (r g b c : Nat) (hr : r < 256) (hg : g < 256) (hb : b < 256) :
    GLIB_colorTranslate24bpp (GLIB_rgbColor r g b) = (r, g, b) ∧
    GLIB_rgbColor r g b = r * 65536 + g * 256 + b ∧
    GLIB_rgbColor (GLIB_colorTranslate24bpp c).1 (GLIB_colorTranslate24bpp c).2.1
        (GLIB_colorTranslate24bpp c).2.2 = c % 16777216 ∧
    c % 16777216 = c &&& 0x00FFFFFF := by
  refine ⟨?_, GLIB_rgbColor_eq r g b hr hg hb, ?_, ?_⟩
  · rw [GLIB_rgbColor_eq r g b hr hg hb, GLIB_colorTranslate24bpp_eq]
    refine Prod.ext ?_ (Prod.ext ?_ ?_) <;> simp only <;> omega
  · rw [GLIB_colorTranslate24bpp_eq]
    simp only
    rw [GLIB_rgbColor_eq _ _ _ (Nat.mod_lt _ (by norm_num)) (Nat.mod_lt _ (by norm_num))
      (Nat.mod_lt _ (by norm_num))]
    omega
  · have h : (0x00FFFFFF : Nat) = 2 ^ 24 - 1 := by norm_num
    rw [h, Nat.and_pow_two_sub_one_eq_mod]

/-- The bytes `(0xFF, 0xFF, 0x00)` and the colour `0x00FFFF00`; the colour
`0xAB123456` loses its top byte. -/
theorem C29_colour_roundtrip_witness :
    (GLIB_colorTranslate24bpp (GLIB_rgbColor 0xFF 0xFF 0x00) = (0xFF, 0xFF, 0x00) ∧
    GLIB_rgbColor 0xFF 0xFF 0x00 = 0xFF * 65536 + 0xFF * 256 + 0x00 ∧
    GLIB_rgbColor (GLIB_colorTranslate24bpp 0xAB123456).1 (GLIB_colorTranslate24bpp 0xAB123456).2.1
        (GLIB_colorTranslate24bpp 0xAB123456).2.2 = 0xAB123456 % 16777216 ∧
    0xAB123456 % 16777216 = 0xAB123456 &&& 0x00FFFFFF) ∧
    GLIB_rgbColor 0xFF 0xFF 0x00 = 0x00FFFF00 ∧
    GLIB_colorTranslate24bpp 0x00FFFF00 = (0xFF, 0xFF, 0x00) ∧
    (0xAB123456 : Nat) % 16777216 = 0x123456 :=
  ⟨C29_colour_roundtrip 0xFF 0xFF 0x00 0xAB123456 (by decide) (by decide) (by decide),
    by decide, by decide, by decide⟩

/-! ## C30: `GLIB_drawBitmap` -/

@[simp] theorem DMD_writeData_fst (x y : Nat) (data : List Nat) (n : Nat) (s : Surface) :
    (DMD_writeData x y data n s).1 = s.status s.calls.length := by
  unfold DMD_writeData; split_ifs with hs <;> simp [hs]

@[simp] theorem DMD_writeData_status (x y : Nat) (data : List Nat) (n : Nat) (s : Surface) :
    (DMD_writeData x y data n s).2.status = s.status := by
  unfold DMD_writeData; split_ifs <;> rfl

@[simp] theorem DMD_writeData_calls (x y : Nat) (data : List Nat) (n : Nat) (s : Surface) :
    (DMD_writeData x y data n s).2.calls = s.calls ++ [DMDCall.writeData x y data n] := by
  unfold DMD_writeData; split_ifs <;> rfl

@[simp] theorem DMD_writeData_window (x y : Nat) (data : List Nat) (n : Nat) (s : Surface) :
    (DMD_writeData x y data n s).2.clipX = s.clipX ∧
    (DMD_writeData x y data n s).2.clipY = s.clipY ∧
    (DMD_writeData x y data n s).2.clipW = s.clipW ∧
    (DMD_writeData x y data n s).2.clipH = s.clipH := by
  unfold DMD_writeData; split_ifs <;> simp

/-- The driver calls of `GLIB_drawBitmap`, by the statuses of the first two. -/
theorem GLIB_drawBitmap_calls (ctx : GLIB_Context) (x y width height : Nat)
    (picData : List Nat) (s : Surface) :
    (GLIB_drawBitmap ctx x y width height picData s).2.calls =
      if s.status s.calls.length ≠ 0 then
        s.calls ++ [DMDCall.setClippingArea x y width height]
      else if s.status (s.calls.length + 1) ≠ 0 then
        s.calls ++ [DMDCall.setClippingArea x y width height,
          DMDCall.writeData 0 0 picData (toU32 (toI32 ((width : Int) * (height : Int))))]
      else
        s.calls ++ [DMDCall.setClippingArea x y width height,
          DMDCall.writeData 0 0 picData (toU32 (toI32 ((width : Int) * (height : Int)))),
          resetCall ctx] := by
  unfold GLIB_drawBitmap
  simp only [DMD_setClippingArea_fst, DMD_writeData_fst, DMD_setClippingArea_calls,
    DMD_setClippingArea_status, List.length_append, List.length_singleton]
  by_cases h0 : s.status s.calls.length ≠ 0
  · rw [if_pos h0, if_pos h0, DMD_setClippingArea_calls]
  · rw [if_neg h0, if_neg h0]
    by_cases h1 : s.status (s.calls.length + 1) ≠ 0
    · rw [if_pos h1, if_pos h1, DMD_writeData_calls, DMD_setClippingArea_calls,
        List.append_assoc]
      rfl
    · rw [if_neg h1, if_neg h1]
      have h1' : s.status (s.calls.length + 1) = 0 := by simpa using h1
      simp only [h1', GLIB_resetDisplayClippingArea_eq, DMD_setClippingArea_calls,
        DMD_writeData_calls, List.append_assoc, resetCall]
      rfl

/-- C30: `GLIB_drawBitmap` does not read the clip region of the context: the
same call in a context that differs in its clip region only gives the same
status and the same surface, calls included, on every surface; the calls
issued begin with the clip window `(x, y, w, h)`, and when the first two
succeed they are that window, one transfer of `w * h` pixels of the data at
the origin of the window, and the window of the full display. -/
theorem C30_drawBitmap_ignores_clip (ctx : GLIB_Context) (region : GLIB_Rectangle)
    (x y width height : Nat) (picData : List Nat) (s : Surface) :
    GLIB_drawBitmap { ctx with clippingRegion := region } x y width height picData s =
      GLIB_drawBitmap ctx x y width height picData s ∧
    (∃ l, Issues s (GLIB_drawBitmap ctx x y width height picData s).2
      (DMDCall.setClippingArea x y width height :: l)) ∧
    (width < 65536 → height < 65536 → s.status s.calls.length = 0 →
      s.status (s.calls.length + 1) = 0 →
      Issues s (GLIB_drawBitmap ctx x y width height picData s).2
        [DMDCall.setClippingArea x y width height,
          DMDCall.writeData 0 0 picData (width * height),
          DMDCall.setClippingArea 0 0 ctx.pDisplayGeometry.xSize ctx.pDisplayGeometry.ySize]) := by
  refine ⟨rfl, ?_, fun hw hh h0 h1 => ?_⟩
  · unfold Issues
    rw [GLIB_drawBitmap_calls]
    split_ifs
    · exact ⟨_, rfl⟩
    · exact ⟨_, rfl⟩
    · exact ⟨_, rfl⟩
  · unfold Issues
    rw [GLIB_drawBitmap_calls, if_neg (by simpa using h0), if_neg (by simpa using h1)]
    have hp : width * height < 4294967296 := by
      calc width * height ≤ 65535 * 65535 := Nat.mul_le_mul (by omega) (by omega)
        _ < 4294967296 := by norm_num
    have hn : toU32 (toI32 ((width : Int) * (height : Int))) = width * height := by
      rw [← Int.natCast_mul, toU32_toI32 (Int.natCast_nonneg _) (by exact_mod_cast hp)]
      exact Int.toNat_natCast _
    rw [hn]
    rfl

/-- A bitmap of 2 x 1 pixels at `(300,200)`, outside the clip region
`(10,10)-(200,100)` of `demoContext`, in `demoContext` and in the same context
with the clip region `(0,0)-(5,5)`: the same three calls and the same
status. -/
theorem C30_drawBitmap_ignores_clip_witness :
    GLIB_drawBitmap { demoContext with clippingRegion := ⟨0, 0, 5, 5⟩ } 300 200 2 1
        [1, 2, 3, 4, 5, 6] freshSurface =
      GLIB_drawBitmap demoContext 300 200 2 1 [1, 2, 3, 4, 5, 6] freshSurface ∧
    Issues freshSurface (GLIB_drawBitmap demoContext 300 200 2 1 [1, 2, 3, 4, 5, 6] freshSurface).2
      [DMDCall.setClippingArea 300 200 2 1, DMDCall.writeData 0 0 [1, 2, 3, 4, 5, 6] (2 * 1),
        DMDCall.setClippingArea 0 0 demoContext.pDisplayGeometry.xSize
          demoContext.pDisplayGeometry.ySize] ∧
    (GLIB_drawBitmap demoContext 300 200 2 1 [1, 2, 3, 4, 5, 6] freshSurface).1 = GLIB_OK ∧
    (GLIB_drawBitmap demoContext 300 200 2 1 [1, 2, 3, 4, 5, 6] freshSurface).2.pixels
      = [⟨300, 200, 1, 2, 3⟩, ⟨301, 200, 4, 5, 6⟩] :=
  ⟨(C30_drawBitmap_ignores_clip demoContext ⟨0, 0, 5, 5⟩ 300 200 2 1 [1, 2, 3, 4, 5, 6]
      freshSurface).1,
   (C30_drawBitmap_ignores_clip demoContext ⟨0, 0, 5, 5⟩ 300 200 2 1 [1, 2, 3, 4, 5, 6]
      freshSurface).2.2 (by decide) (by decide) rfl rfl,
   by decide, by decide⟩

/-! ## C31: the statuses of the driver calls of `GLIB_drawBitmap` -/

/-- The status of `GLIB_drawBitmap`: the status of the first call when it is
not `DMD_OK`, else the status of the second call when it is not `DMD_OK`, and
`GLIB_OK` otherwise, whatever the status of the third call. -/
theorem GLIB_drawBitmap_status (ctx : GLIB_Context) (x y width height : Nat)
    (picData : List Nat) (s : Surface) :
    (GLIB_drawBitmap ctx x y width height picData s).1 =
      if s.status s.calls.length ≠ 0 then s.status s.calls.length
      else if s.status (s.calls.length + 1) ≠ 0 then s.status (s.calls.length + 1)
      else GLIB_OK := by
  unfold GLIB_drawBitmap
  simp only [DMD_setClippingArea_fst, DMD_writeData_fst, DMD_setClippingArea_calls,
    DMD_setClippingArea_status, List.length_append, List.length_singleton]
  by_cases h0 : s.status s.calls.length ≠ 0
  · rw [if_pos h0, if_pos h0, DMD_setClippingArea_fst]
  · rw [if_neg h0, if_neg h0]
    by_cases h1 : s.status (s.calls.length + 1) ≠ 0
    · rw [if_pos h1, if_pos h1, DMD_writeData_fst, DMD_setClippingArea_calls,
        DMD_setClippingArea_status, List.length_append, List.length_singleton]
    · rw [if_neg h1, if_neg h1]
      have h1' : s.status (s.calls.length + 1) = 0 := by simpa using h1
      simp only [h1']
      rfl

/-- C31 (the code departs from the claim): `GLIB_drawBitmap` returns the
status of its first call when that call fails and the status of its second
call when that call fails, but when the two succeed it returns `GLIB_OK`
whatever the status of the third call.  On the surface whose third call (call
number 2) fails with status 9, the bitmap of 2 x 1 pixels at `(5,5)` issues
its three calls, the third call is answered with 9, the hardware clip window
stays `(5, 5, 2, 1)`, and the status returned is `GLIB_OK`. -/
theorem C31_drawBitmap_reset_status_lost :
    (∀ (ctx : GLIB_Context) (x y width height : Nat) (picData : List Nat) (s : Surface),
      (GLIB_drawBitmap ctx x y width height picData s).1 =
        if s.status s.calls.length ≠ 0 then s.status s.calls.length
        else if s.status (s.calls.length + 1) ≠ 0 then s.status (s.calls.length + 1)
        else GLIB_OK) ∧
    (GLIB_drawBitmap demoContext 5 5 2 1 [1, 2, 3, 4, 5, 6] (failingSurface 0 9)).1 = 9 ∧
    (GLIB_drawBitmap demoContext 5 5 2 1 [1, 2, 3, 4, 5, 6] (failingSurface 1 9)).1 = 9 ∧
    (GLIB_drawBitmap demoContext 5 5 2 1 [1, 2, 3, 4, 5, 6] (failingSurface 2 9)).2.calls =
      [DMDCall.setClippingArea 5 5 2 1, DMDCall.writeData 0 0 [1, 2, 3, 4, 5, 6] 2,
        resetCall demoContext] ∧
    (failingSurface 2 9).status 2 = 9 ∧
    (GLIB_resetDisplayClippingArea demoContext
      (DMD_writeData 0 0 [1, 2, 3, 4, 5, 6] 2
        (DMD_setClippingArea 5 5 2 1 (failingSurface 2 9)).2).2).1 = 9 ∧
    ((GLIB_drawBitmap demoContext 5 5 2 1 [1, 2, 3, 4, 5, 6] (failingSurface 2 9)).2.clipX,
     (GLIB_drawBitmap demoContext 5 5 2 1 [1, 2, 3, 4, 5, 6] (failingSurface 2 9)).2.clipY,
     (GLIB_drawBitmap demoContext 5 5 2 1 [1, 2, 3, 4, 5, 6] (failingSurface 2 9)).2.clipW,
     (GLIB_drawBitmap demoContext 5 5 2 1 [1, 2, 3, 4, 5, 6] (failingSurface 2 9)).2.clipH) =
      (5, 5, 2, 1) ∧
    (GLIB_drawBitmap demoContext 5 5 2 1 [1, 2, 3, 4, 5, 6] (failingSurface 2 9)).1 = GLIB_OK := by
  refine ⟨GLIB_drawBitmap_status, by decide, by decide, by decide, by decide, by decide,
    by decide, by decide⟩

/-! ## C40: the order of the endpoints of a segment -/

/-- The rasterisation does not depend on the order of the two endpoints of a
segment that is not axis-aligned: the endpoint with the smaller major
coordinate comes first after the swap. -/
theorem rasterLine_comm (fuel : Nat) (ctx : GLIB_Context) (x1 y1 x2 y2 : Nat) (s : Surface)
    (hx : x1 ≠ x2) (hy : y1 ≠ y2) :
    rasterLine fuel ctx x1 y1 x2 y2 s = rasterLine fuel ctx x2 y2 x1 y1 s := by
  have ey : (if y1 > y2 then (y1 : Int) - y2 else (y2 : Int) - y1) =
      (if y2 > y1 then (y2 : Int) - y1 else (y1 : Int) - y2) := by
    split_ifs <;> omega
  have ex : (if x1 > x2 then (x1 : Int) - x2 else (x2 : Int) - x1) =
      (if x2 > x1 then (x2 : Int) - x1 else (x1 : Int) - x2) := by
    split_ifs <;> omega
  unfold rasterLine
  simp only [ey, ex]
  by_cases hs : toU16 (if y2 > y1 then (y2 : Int) - y1 else (y1 : Int) - y2) >
      toU16 (if x2 > x1 then (x2 : Int) - x1 else (x1 : Int) - x2)
  · simp only [hs, decide_True, if_true]
    rcases Nat.lt_or_gt_of_ne hy with h | h
    · have h' : ¬ y1 > y2 := by omega
      simp only [h, h', if_true, if_false, gt_iff_lt, not_lt.mpr (Nat.le_of_lt h)]
    · have h' : ¬ y1 < y2 := by omega
      simp only [h, h', if_true, if_false, gt_iff_lt]
  · simp only [hs, decide_False, if_false, Bool.false_eq_true]
    rcases Nat.lt_or_gt_of_ne hx with h | h
    · have h' : ¬ x1 > x2 := by omega
      simp only [h, h', if_true, if_false, gt_iff_lt, not_lt.mpr (Nat.le_of_lt h)]
    · have h' : ¬ x1 < x2 := by omega
      simp only [h, h', if_true, if_false, gt_iff_lt]

/-- C40: for every segment that is not axis-aligned and whose two endpoints
lie inside the clip region, `GLIB_drawLine` gives the same status and the same
surface state, pixel writes and driver calls included and in the same order,
for the two orders of the endpoints, on every surface and with every fuel;
and it returns `GLIB_OK` when the clip region is well-formed, the coordinates
are below 2^15, no driver call fails and the fuel exceeds 32769. -/
theorem C40_drawLine_endpoint_order (fuel : Nat) (ctx : GLIB_Context) (x1 y1 x2 y2 : Nat)
    (s : Surface) (hx : x1 ≠ x2) (hy : y1 ≠ y2)
    (h1 : GLIB_rectContainsPoint ctx.clippingRegion x1 y1 = 1)
    (h2 : GLIB_rectContainsPoint ctx.clippingRegion x2 y2 = 1) :
    GLIB_drawLine fuel ctx x1 y1 x2 y2 s = GLIB_drawLine fuel ctx x2 y2 x1 y1 s ∧
    (clipWellFormed ctx → x1 < 32768 → y1 < 32768 → x2 < 32768 → y2 < 32768 →
      neverFails s → 32769 < fuel →
      ∃ t, GLIB_drawLine fuel ctx x1 y1 x2 y2 s = some (GLIB_OK, t) ∧
        Writes s t (linePixels ctx x1 y1 x2 y2)) := by
  have i1 := GLIB_rectContainsPoint_eq_one.mp h1
  have i2 := GLIB_rectContainsPoint_eq_one.mp h2
  have hc1 : GLIB_getClipCode ctx x1 y1 = 0 := (GLIB_getClipCode_eq_zero ctx x1 y1).mpr i1
  have hc2 : GLIB_getClipCode ctx x2 y2 = 0 := (GLIB_getClipCode_eq_zero ctx x2 y2).mpr i2
  refine ⟨?_, fun hwf b1 b2 b3 b4 hs hf => ?_⟩
  · rw [GLIB_drawLine_general fuel ctx x1 y1 x2 y2 s hx hy,
      GLIB_drawLine_general fuel ctx x2 y2 x1 y1 s (Ne.symm hx) (Ne.symm hy)]
    cases fuel with
    | zero => rfl
    | succ f =>
      rw [GLIB_clipLine_inside ctx (f + 1) 0 0 x1 y1 x2 y2 (by omega) hc1 hc2,
        GLIB_clipLine_inside ctx (f + 1) 0 0 x2 y2 x1 y1 (by omega) hc2 hc1]
      simp only [one_ne_zero, if_false]
      rw [rasterLine_comm (f + 1) ctx x1 y1 x2 y2 _ hx hy]
  · exact (GLIB_drawLine_inside ctx hwf x1 y1 x2 y2 b1 b2 b3 b4 i1 i2 hx hy fuel (by omega) s
      hs).2

/-- The segment `(20,20)-(30,25)` of `demoContext` in its two orders. -/
theorem C40_drawLine_endpoint_order_witness :
    GLIB_drawLine 32770 demoContext 20 20 30 25 freshSurface =
      GLIB_drawLine 32770 demoContext 30 25 20 20 freshSurface ∧
    ∃ t, GLIB_drawLine 32770 demoContext 20 20 30 25 freshSurface = some (GLIB_OK, t) ∧
      Writes freshSurface t (linePixels demoContext 20 20 30 25) :=
  ⟨(C40_drawLine_endpoint_order 32770 demoContext 20 20 30 25 freshSurface (by decide)
      (by decide) (by decide) (by decide)).1,
   (C40_drawLine_endpoint_order 32770 demoContext 20 20 30 25 freshSurface (by decide)
      (by decide) (by decide) (by decide)).2 (by decide) (by decide) (by decide) (by decide)
      (by decide) (fun _ => rfl) (by decide)⟩

/-! ## C35: the closing segment of a polygon -/

/-- C35 (counterexample): in `demoContext` (clip columns 10..200) the polygon
`(8,20)`, `(8,22)`, `(14,22)` has its last point different from the first.
After the two segments between consecutive points the closing step writes the
pixels of `GLIB_drawLine` from the first point to the last,
`(10,20) (11,20) (12,21) (13,21) (14,22)`, and not those of `GLIB_drawLine`
from the last point to the first, which are
`(10,21) (11,21) (12,21) (13,22) (14,22)`: the clipping moves the endpoint
`(8,20)` to `(10,20)` in the first order and to `(10,21)` in the second. -/
theorem C35_closing_segment_counterexample :
    polyPoint wedgePoints 2 ≠ polyPoint wedgePoints 0 ∧
    GLIB_clipLine demoContext 100 0 0 8 20 14 22 = some (1, 10, 20, 14, 22) ∧
    GLIB_clipLine demoContext 100 0 0 14 22 8 20 = some (1, 14, 22, 10, 21) ∧
    (drawAllSegments 100 demoContext [((8, 20), (8, 22)), ((8, 22), (14, 22))]
      freshSurface).map (fun s => s.pixels) =
      some [fgPixel demoContext 10 22, fgPixel demoContext 11 22, fgPixel demoContext 12 22,
        fgPixel demoContext 13 22, fgPixel demoContext 14 22] ∧
    (GLIB_drawPolygon 100 demoContext 3 wedgePoints freshSurface).map
        (fun r => (r.1, r.2.pixels)) =
      some (GLIB_OK,
        [fgPixel demoContext 10 22, fgPixel demoContext 11 22, fgPixel demoContext 12 22,
          fgPixel demoContext 13 22, fgPixel demoContext 14 22] ++
        [fgPixel demoContext 10 20, fgPixel demoContext 11 20, fgPixel demoContext 12 21,
          fgPixel demoContext 13 21, fgPixel demoContext 14 22]) ∧
    ((drawAllSegments 100 demoContext [((8, 20), (8, 22)), ((8, 22), (14, 22))]
      freshSurface).bind fun s =>
        (GLIB_drawLine 100 demoContext 8 20 14 22 s).map fun r => r.2.pixels) =
      some ([fgPixel demoContext 10 22, fgPixel demoContext 11 22, fgPixel demoContext 12 22,
          fgPixel demoContext 13 22, fgPixel demoContext 14 22] ++
        [fgPixel demoContext 10 20, fgPixel demoContext 11 20, fgPixel demoContext 12 21,
          fgPixel demoContext 13 21, fgPixel demoContext 14 22]) ∧
    ((drawAllSegments 100 demoContext [((8, 20), (8, 22)), ((8, 22), (14, 22))]
      freshSurface).bind fun s =>
        (GLIB_drawLine 100 demoContext 14 22 8 20 s).map fun r => r.2.pixels) =
      some ([fgPixel demoContext 10 22, fgPixel demoContext 11 22, fgPixel demoContext 12 22,
          fgPixel demoContext 13 22, fgPixel demoContext 14 22] ++
        [fgPixel demoContext 10 21, fgPixel demoContext 11 21, fgPixel demoContext 12 21,
          fgPixel demoContext 13 22, fgPixel demoContext 14 22]) := by
  refine ⟨by decide, by decide, by decide, by decide, by decide, by decide, by decide⟩

/-! ## C39: the outline of a circle and the filled circle -/

/-- C39 (the code departs from the claim): in `smallContext`, a display of
32 x 32 pixels with the clip region `(0,0)-(20,20)`, the centre `(0,10)` lies
inside the clip region and on a surface that never fails both
`GLIB_drawCircle` and `GLIB_drawCircleFilled` of radius 3 return `GLIB_OK`;
the outline has written the pixels `(0,13)` and `(0,7)`, straight below and
above the centre, and the filled circle has written neither: the left end
`xCenter - x = 0 - 1` of the span of row 13 is handed to `GLIB_drawLineH` as
the `uint16_t` value 65535, and the span drawn is that of columns 1..20. -/
theorem C39_outline_not_in_filled :
    clipWellFormed smallContext ∧
    smallContext.pDisplayGeometry.xSize < 32768 ∧
    smallContext.pDisplayGeometry.ySize < 32768 ∧
    GLIB_rectContainsPoint smallContext.clippingRegion 0 10 = 1 ∧
    toU16 ((0 : Int) - 1) = 65535 ∧
    (GLIB_drawCircle 4 smallContext 0 10 3 freshSurface).map
      (fun r => (r.1, decide (fgPixel smallContext 0 13 ∈ r.2.pixels),
        decide (fgPixel smallContext 0 7 ∈ r.2.pixels))) = some (GLIB_OK, true, true) ∧
    (GLIB_drawCircleFilled 4 smallContext 0 10 3 freshSurface).map
      (fun r => (r.1, decide (fgPixel smallContext 0 13 ∈ r.2.pixels),
        decide (fgPixel smallContext 0 7 ∈ r.2.pixels),
        decide (fgPixel smallContext 1 13 ∈ r.2.pixels),
        decide (fgPixel smallContext 20 13 ∈ r.2.pixels))) =
      some (GLIB_OK, false, false, true, true) := by
  refine ⟨by decide, by decide, by decide, by decide, by decide, by decide, by decide⟩

/-! ## C34: the reflections of the octant tables -/

/-- The eight offsets of one step are closed under the reflections
`dx -> -dx`, `dy -> -dy` and the exchange of `dx` and `dy`. -/
theorem octantOffsets_symmetric (x y : Nat) (dx dy : Int)
    (h : (dx, dy) ∈ octantOffsets x y) :
    (-dx, dy) ∈ octantOffsets x y ∧ (dx, -dy) ∈ octantOffsets x y ∧
    (dy, dx) ∈ octantOffsets x y := by
  unfold octantOffsets at h ⊢
  simp only [List.mem_cons, List.mem_singleton, List.not_mem_nil, or_false, Prod.mk.injEq] at h
  rcases h with h | h | h | h | h | h | h | h <;>
    (obtain ⟨rfl, rfl⟩ := h
     simp only [List.mem_cons, List.mem_singleton, Prod.mk.injEq, neg_neg, true_and, and_true,
       and_self, true_or, or_true])

/-- The points of the pixel draws of the full circle are the centre plus the
emitted offsets, as `uint16_t` values. -/
theorem circleDraws_offsets (fuel xCenter yCenter radius : Nat) :
    (circleDraws fuel xCenter yCenter radius).map Prod.snd =
      (circleOffsets fuel radius).map fun o =>
        (toU16 ((xCenter : Int) + o.1), toU16 ((yCenter : Int) + o.2)) := by
  unfold circleDraws circleOffsets
  generalize circleSteps fuel radius = l
  induction l with
  | nil => rfl
  | cons p l ih =>
    rw [List.flatMap_cons, List.flatMap_cons, List.map_append, List.map_append, ih]
    refine congrArg₂ _ ?_ rfl
    unfold octantPoints octantOffsets List.enum
    rfl

/-- C34: the offsets `(dx, dy)` from the centre that the full circle emits
over all its steps are closed under the reflections of the octant tables:
with `(dx, dy)` the offsets `(-dx, dy)`, `(dx, -dy)` and `(dy, dx)` are
emitted too, for every radius; and for a centre inside the clip region, on a
surface that never fails, `GLIB_drawCircle` returns after issuing, once the
hardware clip window is reset, the pixel draws at the centre plus these
offsets, in their order. -/
theorem C34_offsets_symmetric (fuel radius : Nat) (dx dy : Int)
    (h : (dx, dy) ∈ circleOffsets fuel radius) :
    ((-dx, dy) ∈ circleOffsets fuel radius ∧ (dx, -dy) ∈ circleOffsets fuel radius ∧
      (dy, dx) ∈ circleOffsets fuel radius) ∧
    ∀ (ctx : GLIB_Context) (xCenter yCenter : Nat) (s : Surface),
      GLIB_rectContainsPoint ctx.clippingRegion xCenter yCenter = 1 → radius < 65536 →
      radius < fuel → neverFails s →
      ∃ st, GLIB_drawCircle fuel ctx xCenter yCenter radius s =
        some (st, issuePixels ctx
          ((circleOffsets fuel radius).map fun o =>
            (toU16 ((xCenter : Int) + o.1), toU16 ((yCenter : Int) + o.2)))
          (GLIB_resetDisplayClippingArea ctx s).2) := by
  refine ⟨?_, fun ctx xCenter yCenter s hin hr hfuel hs => ?_⟩
  · unfold circleOffsets at h ⊢
    simp only [List.mem_flatMap] at h ⊢
    obtain ⟨p, hp, ho⟩ := h
    obtain ⟨h1, h2, h3⟩ := octantOffsets_symmetric p.1 p.2 dx dy ho
    exact ⟨⟨p, hp, h1⟩, ⟨p, hp, h2⟩, ⟨p, hp, h3⟩⟩
  · rw [← circleDraws_offsets]
    exact ⟨_, GLIB_drawCircle_nf fuel ctx xCenter yCenter radius s hin hr hfuel hs⟩

/-- The circle of radius 3: its steps are `(0,3)`, `(1,3)`, `(2,2)`, the
offset `(1,-3)` is emitted, and so are `(-1,-3)`, `(1,3)` and `(-3,1)`. -/
theorem C34_offsets_symmetric_witness :
    circleSteps 4 3 = [(0, 3), (1, 3), (2, 2)] ∧
    (((-1 : Int), (-3 : Int)) ∈ circleOffsets 4 3 ∧
      ((1 : Int), (3 : Int)) ∈ circleOffsets 4 3 ∧
      ((-3 : Int), (1 : Int)) ∈ circleOffsets 4 3) ∧
    ∃ st, GLIB_drawCircle 4 smallContext 10 10 3 freshSurface =
      some (st, issuePixels smallContext
        ((circleOffsets 4 3).map fun o =>
          (toU16 (((10 : Nat) : Int) + o.1), toU16 (((10 : Nat) : Int) + o.2)))
        (GLIB_resetDisplayClippingArea smallContext freshSurface).2) :=
  ⟨by decide,
   by simpa using (C34_offsets_symmetric 4 3 1 (-3) (by decide)).1,
   (C34_offsets_symmetric 4 3 1 (-3) (by decide)).2 smallContext 10 10 freshSurface (by decide)
     (by decide) (by decide) (fun _ => rfl)⟩

/-! ## C33: the numbering of the octants -/

/-- The draws of octant 1 among the eight points of a step: the first entry of
the tables. -/
theorem maskedDraws_one (xCenter yCenter x y : Nat) :
    maskedDraws 1 (octantPoints xCenter yCenter x y) =
      [(1, (toU16 ((xCenter : Int) + (y : Int)), toU16 ((yCenter : Int) + -(x : Int))))] := by
  unfold maskedDraws octantPoints octantOffsets List.enum
  simp only [List.enumFrom_cons, List.enumFrom_nil, List.map_cons, List.map_nil]
  simp +decide [List.filter_cons]

/-- C33 (counterexample): in `smallContext` the circle of centre `(10,10)` and
radius 3 lies inside the clip region `(0,0)-(20,20)`; with the mask `0x01`
`GLIB_drawPartialCircle` writes the pixels `(13,10)`, `(13,9)`, `(12,8)`: its
first point is the pixel straight right of the centre, and the pixel straight
above the centre, `(10,7)`, is not written; that pixel is the first point
written with the mask `0x02`. -/
theorem C33_octant_one_counterexample :
    (GLIB_drawPartialCircle 4 smallContext 10 10 3 1 freshSurface).map
        (fun r => (r.1, r.2.pixels)) =
      some (GLIB_OK, [fgPixel smallContext 13 10, fgPixel smallContext 13 9,
        fgPixel smallContext 12 8]) ∧
    (GLIB_drawPartialCircle 4 smallContext 10 10 3 2 freshSurface).map
        (fun r => (r.1, r.2.pixels)) =
      some (GLIB_OK, [fgPixel smallContext 10 7, fgPixel smallContext 11 7,
        fgPixel smallContext 12 8]) := by
  refine ⟨by decide, by decide⟩

/-- The draws of the octant `k + 1` alone among the eight points of a step:
the entry `k` of the tables. -/
theorem maskedDraws_single (xCenter yCenter x y k : Nat) (hk : k < 8) :
    (maskedDraws (2 ^ k) (octantPoints xCenter yCenter x y)).map Prod.snd =
      [(toU16 ((xCenter : Int) + ((octantOffsets x y).getD k (0, 0)).1),
        toU16 ((yCenter : Int) + ((octantOffsets x y).getD k (0, 0)).2))] := by
  unfold maskedDraws octantPoints octantOffsets List.enum
  simp only [List.enumFrom_cons, List.enumFrom_nil, List.map_cons, List.map_nil]
  interval_cases k <;> simp +decide [List.filter_cons]

/-- C33 (amended): the octants are numbered 1 to 8 counter-clockwise starting
straight right of the centre.  For a centre inside a well-formed clip region
whose point straight right of it at the distance of the radius is inside the
clip region too, on a surface that never fails, `GLIB_drawPartialCircle` with
the mask `0x01` returns `GLIB_OK` and the first pixel it writes is
`(xCenter + radius, yCenter)`; and for every step `(x, y)` with `x ≤ y` and
every `k < 8` the point drawn with the mask `2^k` (octant `k + 1` alone) is
the centre plus the entry `k` of the tables, an offset that lies in the wedge
of 45 degrees from the compass direction `k` counter-clockwise to the
direction `k + 1`, the direction 0 being straight right. -/
theorem C33_octant_numbering_amended (fuel : Nat) (ctx : GLIB_Context)
    (xCenter yCenter radius : Nat) (s : Surface) (hwf : clipWellFormed ctx)
    (hin : GLIB_rectContainsPoint ctx.clippingRegion xCenter yCenter = 1)
    (hright : xCenter + radius ≤ ctx.clippingRegion.xMax)
    (hfuel : radius < fuel) (hs : neverFails s) :
    (∃ t tail, GLIB_drawPartialCircle fuel ctx xCenter yCenter radius 1 s = some (GLIB_OK, t) ∧
      Writes s t (fgPixel ctx (xCenter + radius) yCenter :: tail)) ∧
    compassDirection 0 = (1, 0) ∧
    ∀ x y k : Nat, k < 8 →
      (maskedDraws (2 ^ k) (octantPoints xCenter yCenter x y)).map Prod.snd =
        [(toU16 ((xCenter : Int) + ((octantOffsets x y).getD k (0, 0)).1),
          toU16 ((yCenter : Int) + ((octantOffsets x y).getD k (0, 0)).2))] ∧
      (x ≤ y → inWedge k ((octantOffsets x y).getD k (0, 0))) := by
  have hwf' := hwf
  obtain ⟨_, _, hX, _, hXs, _⟩ := hwf'
  have hc := GLIB_rectContainsPoint_eq_one.mp hin
  have hr : radius < 65536 := by omega
  refine ⟨?_, by decide, fun x y k hk => ⟨maskedDraws_single xCenter yCenter x y k hk, ?_⟩⟩
  · have hx : toU16 ((xCenter : Int) + (radius : Int)) = xCenter + radius := by
      unfold toU16; omega
    have hy : toU16 ((yCenter : Int) + -((0 : Nat) : Int)) = yCenter := by
      unfold toU16; omega
    have hp : GLIB_rectContainsPoint ctx.clippingRegion (xCenter + radius) yCenter = 1 :=
      GLIB_rectContainsPoint_eq_one.mpr ⟨by omega, hright, hc.2.2.1, hc.2.2.2⟩
    have hl : ∃ rest, (maskedDraws 1 (circleDraws fuel xCenter yCenter radius)).map Prod.snd =
        (xCenter + radius, yCenter) :: rest := by
      unfold circleDraws circleSteps maskedDraws
      rw [List.flatMap_cons, List.filter_append, List.map_append]
      have h1 := maskedDraws_one xCenter yCenter 0 radius
      unfold maskedDraws at h1
      rw [h1, hx, hy]
      exact ⟨_, rfl⟩
    obtain ⟨rest, hrest⟩ := hl
    rw [GLIB_drawPartialCircle_nf fuel ctx xCenter yCenter radius 1 s hin hr hfuel hs, hrest]
    have ha : anyInClip ctx ((xCenter + radius, yCenter) :: rest) :=
      (anyInClip_cons ctx _ _).mpr (Or.inl hp)
    rw [if_pos ha]
    refine ⟨_, drawnPixels ctx rest, rfl, ?_⟩
    unfold Writes
    rw [issuePixels_pixels ctx _ s hs]
    refine congrArg _ ?_
    unfold drawnPixels
    rw [List.filter_cons_of_pos (by simpa using hp), List.map_cons,
      drawnPixel_eq ctx hwf _ _ _ hp]
    rfl
  · intro hxy
    unfold inWedge compassDirection octantOffsets
    interval_cases k <;> simp <;> omega

/-- The circle of centre `(10,10)` and radius 3 in `smallContext`: with the
mask `0x01` the first pixel written is `(13,10)`; at the step `(1,3)` the
octants 1, 2 and 3 draw the points `(13,9)`, `(11,7)` and `(9,7)`. -/
theorem C33_octant_numbering_amended_witness :
    (∃ t tail, GLIB_drawPartialCircle 4 smallContext 10 10 3 1 freshSurface =
        some (GLIB_OK, t) ∧
      Writes freshSurface t (fgPixel smallContext (10 + 3) 10 :: tail)) ∧
    (maskedDraws (2 ^ 0) (octantPoints 10 10 1 3)).map Prod.snd = [(13, 9)] ∧
    inWedge 0 ((octantOffsets 1 3).getD 0 (0, 0)) ∧
    (maskedDraws (2 ^ 1) (octantPoints 10 10 1 3)).map Prod.snd = [(11, 7)] ∧
    inWedge 1 ((octantOffsets 1 3).getD 1 (0, 0)) ∧
    (maskedDraws (2 ^ 2) (octantPoints 10 10 1 3)).map Prod.snd = [(9, 7)] ∧
    inWedge 2 ((octantOffsets 1 3).getD 2 (0, 0)) :=
  ⟨(C33_octant_numbering_amended 4 smallContext 10 10 3 freshSurface (by decide) (by decide)
      (by decide) (by decide) (fun _ => rfl)).1,
   by decide,
   ((C33_octant_numbering_amended 4 smallContext 10 10 3 freshSurface (by decide) (by decide)
      (by decide) (by decide) (fun _ => rfl)).2.2 1 3 0 (by decide)).2 (by decide),
   by decide,
   ((C33_octant_numbering_amended 4 smallContext 10 10 3 freshSurface (by decide) (by decide)
      (by decide) (by decide) (fun _ => rfl)).2.2 1 3 1 (by decide)).2 (by decide),
   by decide,
   ((C33_octant_numbering_amended 4 smallContext 10 10 3 freshSurface (by decide) (by decide)
      (by decide) (by decide) (fun _ => rfl)).2.2 1 3 2 (by decide)).2 (by decide)⟩

/-! ## C37: the midpoint recurrence -/

theorem midpointStates_eq_trace : ∀ (fuel x y : Nat) (d : Int),
    midpointStates fuel x y d = (midpointTrace fuel x y d).map fun t => (t.1, t.2.1) := by
  intro fuel
  induction fuel with
  | zero => intro x y d; rfl
  | succ f ih =>
    intro x y d
    rw [midpointStates, midpointTrace]
    by_cases h : x < y
    · rw [if_pos h, if_pos h, List.map_cons, ih]
    · rw [if_neg h, if_neg h]; rfl

/-- A point within the one-pixel ring of the circle of a radius below 2^14,
with `x ≤ y + 1`: the value `r + 2 x + 1 - y` fits an `int16_t`. -/
theorem ring_bound (r x y : Int) (hr0 : 0 ≤ r) (hr : r ≤ 16383) (hx : 0 ≤ x) (hy : 0 ≤ y)
    (hxy : x ≤ y + 1) (hF : x ^ 2 + y ^ 2 - r ^ 2 ≤ r) : r + 2 * x + 1 - y ≤ 32767 := by
  by_cases h3 : r ≤ 2
  · have hx2 : x ≤ 2 := by nlinarith
    nlinarith
  · have hxr : x ≤ r - 1 := by
      by_contra hc
      have h1 : r ≤ x := by omega
      have h2 : r - 1 ≤ y := by omega
      nlinarith [mul_self_nonneg (x - r), mul_self_nonneg (y - (r - 1))]
    omega

/-- One step of the loop from a state inside the ring, for a radius below
2^14: the fixed-width step is the step over the integers, and the new state
is inside the ring again. -/
theorem midpointNext_ring (r x y : Nat) (d : Int) (hr : r < 16384) (hy : y ≤ r) (hxy : x < y)
    (hd : d = (x : Int) ^ 2 + (y : Int) ^ 2 - (r : Int) ^ 2 + 2 * (x : Int) + 1 - (y : Int))
    (hF1 : -(r : Int) ≤ (x : Int) ^ 2 + (y : Int) ^ 2 - (r : Int) ^ 2)
    (hF2 : (x : Int) ^ 2 + (y : Int) ^ 2 - (r : Int) ^ 2 ≤ (r : Int)) :
    ((((midpointNext x y d).1 : Nat) : Int), (((midpointNext x y d).2.1 : Nat) : Int),
      (midpointNext x y d).2.2) = midpointNextExact x y d ∧
    (midpointNext x y d).2.1 ≤ r ∧
    (midpointNext x y d).1 ≤ (midpointNext x y d).2.1 + 1 ∧
    (midpointNext x y d).2.2 =
      ((midpointNext x y d).1 : Int) ^ 2 + ((midpointNext x y d).2.1 : Int) ^ 2 - (r : Int) ^ 2 +
        2 * ((midpointNext x y d).1 : Int) + 1 - ((midpointNext x y d).2.1 : Int) ∧
    -(r : Int) ≤
      ((midpointNext x y d).1 : Int) ^ 2 + ((midpointNext x y d).2.1 : Int) ^ 2 - (r : Int) ^ 2 ∧
    ((midpointNext x y d).1 : Int) ^ 2 + ((midpointNext x y d).2.1 : Int) ^ 2 - (r : Int) ^ 2 ≤
      (r : Int) := by
  have hx1 : toU16 ((x : Int) + 1) = x + 1 := by unfold toU16; omega
  have hy1 : toU16 ((y : Int) - 1) = y - 1 := by unfold toU16; omega
  have hyc : (((y - 1 : Nat) : Nat) : Int) = (y : Int) - 1 := by omega
  have hxc : (((x + 1 : Nat) : Nat) : Int) = (x : Int) + 1 := by omega
  unfold midpointNext midpointNextExact
  by_cases hneg : d < 0
  · simp only [if_pos hneg, hx1, hxc]
    have hF' : ((x : Int) + 1) ^ 2 + (y : Int) ^ 2 - (r : Int) ^ 2 =
        (x : Int) ^ 2 + (y : Int) ^ 2 - (r : Int) ^ 2 + 2 * (x : Int) + 1 := by ring
    have hFle : ((x : Int) + 1) ^ 2 + (y : Int) ^ 2 - (r : Int) ^ 2 ≤ (r : Int) := by
      rw [hF']; omega
    have hFge : -(r : Int) ≤ ((x : Int) + 1) ^ 2 + (y : Int) ^ 2 - (r : Int) ^ 2 := by
      rw [hF']; omega
    have hv : d + (2 * ((x : Int) + 1) + 1) =
        ((x : Int) + 1) ^ 2 + (y : Int) ^ 2 - (r : Int) ^ 2 + 2 * ((x : Int) + 1) + 1 -
          (y : Int) := by
      rw [hd]; ring
    have hub := ring_bound r ((x : Int) + 1) y (by omega) (by omega) (by omega) (by omega)
      (by omega) hFle
    have hw : toI16 (d + (2 * ((x : Int) + 1) + 1)) = d + (2 * ((x : Int) + 1) + 1) :=
      toI16_of_lt (by rw [hv]; omega) (by rw [hv]; omega)
    rw [hw]
    exact ⟨rfl, hy, by omega, hv, hFge, hFle⟩
  · simp only [if_neg hneg, hx1, hy1, hxc, hyc]
    have hF' : ((x : Int) + 1) ^ 2 + ((y : Int) - 1) ^ 2 - (r : Int) ^ 2 =
        (x : Int) ^ 2 + (y : Int) ^ 2 - (r : Int) ^ 2 + 2 * (x : Int) - 2 * (y : Int) + 2 := by
      ring
    have hFle : ((x : Int) + 1) ^ 2 + ((y : Int) - 1) ^ 2 - (r : Int) ^ 2 ≤ (r : Int) := by
      rw [hF']; omega
    have hFge : -(r : Int) ≤ ((x : Int) + 1) ^ 2 + ((y : Int) - 1) ^ 2 - (r : Int) ^ 2 := by
      rw [hF']; omega
    have hv : d + (2 * (((x : Int) + 1) - ((y : Int) - 1)) + 1) =
        ((x : Int) + 1) ^ 2 + ((y : Int) - 1) ^ 2 - (r : Int) ^ 2 + 2 * ((x : Int) + 1) + 1 -
          ((y : Int) - 1) := by
      rw [hd]; ring
    have hub := ring_bound r ((x : Int) + 1) ((y : Int) - 1) (by omega) (by omega) (by omega)
      (by omega) (by omega) hFle
    have hw : toI16 (d + (2 * (((x : Int) + 1) - ((y : Int) - 1)) + 1)) =
        d + (2 * (((x : Int) + 1) - ((y : Int) - 1)) + 1) :=
      toI16_of_lt (by rw [hv]; omega) (by rw [hv]; omega)
    rw [hw]
    exact ⟨rfl, by omega, by omega, hv, hFge, hFle⟩

/-- Every state of the loop entered inside the ring is inside the ring. -/
theorem midpointTrace_ring (r : Nat) (hr : r < 16384) :
    ∀ (fuel x y : Nat) (d : Int), y ≤ r →
      d = (x : Int) ^ 2 + (y : Int) ^ 2 - (r : Int) ^ 2 + 2 * (x : Int) + 1 - (y : Int) →
      -(r : Int) ≤ (x : Int) ^ 2 + (y : Int) ^ 2 - (r : Int) ^ 2 →
      (x : Int) ^ 2 + (y : Int) ^ 2 - (r : Int) ^ 2 ≤ (r : Int) →
      ∀ t ∈ midpointTrace fuel x y d,
        t.2.1 ≤ r ∧ t.1 ≤ t.2.1 + 1 ∧
        t.2.2 = (t.1 : Int) ^ 2 + (t.2.1 : Int) ^ 2 - (r : Int) ^ 2 + 2 * (t.1 : Int) + 1 -
          (t.2.1 : Int) ∧
        -(r : Int) ≤ (t.1 : Int) ^ 2 + (t.2.1 : Int) ^ 2 - (r : Int) ^ 2 ∧
        (t.1 : Int) ^ 2 + (t.2.1 : Int) ^ 2 - (r : Int) ^ 2 ≤ (r : Int) := by
  intro fuel
  induction fuel with
  | zero => intro x y d _ _ _ _ t ht; simp [midpointTrace] at ht
  | succ f ih =>
    intro x y d hy hd hF1 hF2 t ht
    rw [midpointTrace] at ht
    by_cases hxy : x < y
    · rw [if_pos hxy, List.mem_cons] at ht
      obtain ⟨_, n1, n2, n3, n4, n5⟩ := midpointNext_ring r x y d hr hy hxy hd hF1 hF2
      rcases ht with ht | ht
      · rw [ht]; exact ⟨n1, n2, n3, n4, n5⟩
      · exact ih _ _ _ n1 n3 n4 n5 t ht
    · rw [if_neg hxy] at ht
      simp at ht

/-- C37: for every radius below 2^14, every state `(x, y, d)` of the midpoint
recurrence of the circle functions (start `x = 0`, `y = r`, `d = 1 - r`, loop
while `x < y`) has `y ≤ r` and `|x² + y² - r²| ≤ r`; the decision variable is
`x² + y² - r² + 2 x + 1 - y`, a value of the `int16_t` range, and the step
that the loop takes from the state is the step over the integers, without
any wrap of `x`, `y` or `d`.  The steps `(x, y)` of the states are the steps
at which the three circle functions draw. -/
theorem C37_midpoint_ring (fuel radius : Nat) (hr : radius < 16384) (x y : Nat) (d : Int)
    (h : (x, y, d) ∈ (0, radius, toI16 (1 - (radius : Int))) ::
      midpointTrace fuel 0 radius (toI16 (1 - (radius : Int)))) :
    (y ≤ radius ∧ |(x : Int) ^ 2 + (y : Int) ^ 2 - (radius : Int) ^ 2| ≤ (radius : Int)) ∧
    (d = (x : Int) ^ 2 + (y : Int) ^ 2 - (radius : Int) ^ 2 + 2 * (x : Int) + 1 - (y : Int) ∧
      -32768 ≤ d ∧ d ≤ 32767) ∧
    (x < y →
      ((((midpointNext x y d).1 : Nat) : Int), (((midpointNext x y d).2.1 : Nat) : Int),
        (midpointNext x y d).2.2) = midpointNextExact x y d) ∧
    toI16 (1 - (radius : Int)) = 1 - (radius : Int) ∧
    circleSteps fuel radius =
      ((0, radius, toI16 (1 - (radius : Int))) ::
        midpointTrace fuel 0 radius (toI16 (1 - (radius : Int)))).map fun t => (t.1, t.2.1) := by
  have h0 : toI16 (1 - (radius : Int)) = 1 - (radius : Int) :=
    toI16_of_lt (by omega) (by omega)
  have hinv : y ≤ radius ∧ x ≤ y + 1 ∧
      d = (x : Int) ^ 2 + (y : Int) ^ 2 - (radius : Int) ^ 2 + 2 * (x : Int) + 1 - (y : Int) ∧
      -(radius : Int) ≤ (x : Int) ^ 2 + (y : Int) ^ 2 - (radius : Int) ^ 2 ∧
      (x : Int) ^ 2 + (y : Int) ^ 2 - (radius : Int) ^ 2 ≤ (radius : Int) := by
    rw [List.mem_cons] at h
    rcases h with h | h
    · simp only [Prod.mk.injEq] at h
      rw [h.1, h.2.1, h.2.2]
      refine ⟨Nat.le_refl _, by omega, ?_, ?_, ?_⟩
      · rw [h0]; push_cast; ring
      · push_cast; have : (0 : Int) ^ 2 + (radius : Int) ^ 2 - (radius : Int) ^ 2 = 0 := by ring
        omega
      · push_cast; have : (0 : Int) ^ 2 + (radius : Int) ^ 2 - (radius : Int) ^ 2 = 0 := by ring
        omega
    · exact midpointTrace_ring radius hr fuel 0 radius _ (Nat.le_refl _)
        (by rw [h0]; push_cast; ring)
        (by push_cast
            have : (0 : Int) ^ 2 + (radius : Int) ^ 2 - (radius : Int) ^ 2 = 0 := by ring
            omega)
        (by push_cast
            have : (0 : Int) ^ 2 + (radius : Int) ^ 2 - (radius : Int) ^ 2 = 0 := by ring
            omega) (x, y, d) h
  obtain ⟨i1, i2, i3, i4, i5⟩ := hinv
  have hub := ring_bound radius x y (by omega) (by omega) (by omega) (by omega) (by omega) i5
  refine ⟨⟨i1, abs_le.mpr ⟨i4, i5⟩⟩, ⟨i3, by omega, by omega⟩, fun hxy => ?_, h0,
    ?_⟩
  · exact (midpointNext_ring radius x y d hr i1 hxy i3 i4 i5).1
  · unfold circleSteps
    rw [List.map_cons, midpointStates_eq_trace]

/-- The radius 3: the states are `(0,3,-2)`, `(1,3,1)`, `(2,2,2)`; the state
`(1,3,1)` has `1 + 9 - 9 = 1 ≤ 3`, and the step from it leads to `(2,2,2)`. -/
theorem C37_midpoint_ring_witness :
    (0, 3, toI16 (1 - ((3 : Nat) : Int))) :: midpointTrace 4 0 3 (toI16 (1 - ((3 : Nat) : Int))) =
      [(0, 3, -2), (1, 3, 1), (2, 2, 2)] ∧
    ((3 ≤ 3 ∧ |((1 : Nat) : Int) ^ 2 + ((3 : Nat) : Int) ^ 2 - ((3 : Nat) : Int) ^ 2| ≤
        ((3 : Nat) : Int)) ∧
      (((1 : Int)) = ((1 : Nat) : Int) ^ 2 + ((3 : Nat) : Int) ^ 2 - ((3 : Nat) : Int) ^ 2 +
          2 * ((1 : Nat) : Int) + 1 - ((3 : Nat) : Int) ∧
        -32768 ≤ (1 : Int) ∧ (1 : Int) ≤ 32767)) ∧
    ((((midpointNext 1 3 1).1 : Nat) : Int), (((midpointNext 1 3 1).2.1 : Nat) : Int),
      (midpointNext 1 3 1).2.2) = midpointNextExact ((1 : Nat) : Int) ((3 : Nat) : Int) 1 ∧
    midpointNext 1 3 1 = (2, 2, 2) ∧
    circleSteps 4 3 = [(0, 3), (1, 3), (2, 2)] :=
  ⟨by decide,
   ⟨(C37_midpoint_ring 4 3 (by decide) 1 3 1 (by decide)).1,
    (C37_midpoint_ring 4 3 (by decide) 1 3 1 (by decide)).2.1⟩,
   (C37_midpoint_ring 4 3 (by decide) 1 3 1 (by decide)).2.2.1 (by decide),
   by decide, by decide⟩

/-! ## C32, C36: one move of the Cohen-Sutherland loop -/

/-- The truncating quotient `(a * b) / c` for a ratio `b / c` between 0 and 1
lies between 0 and `a`. -/
theorem tdiv_between_nonneg (a b c : Int) (ha : 0 ≤ a) (hb : 0 ≤ b) (hbc : b ≤ c)
    (hc : 0 < c) : 0 ≤ Int.tdiv (a * b) c ∧ Int.tdiv (a * b) c ≤ a := by
  have hab : 0 ≤ a * b := mul_nonneg ha hb
  rw [Int.tdiv_eq_ediv hab (le_of_lt hc)]
  exact ⟨Int.ediv_nonneg hab (le_of_lt hc),
    Int.ediv_le_of_le_mul hc (mul_le_mul_of_nonneg_left hbc ha)⟩

theorem tdiv_between (a b c : Int)
    (hb : (0 ≤ b ∧ b ≤ c ∧ 0 < c) ∨ (c ≤ b ∧ b ≤ 0 ∧ c < 0)) :
    (0 ≤ a → 0 ≤ Int.tdiv (a * b) c ∧ Int.tdiv (a * b) c ≤ a) ∧
    (a ≤ 0 → a ≤ Int.tdiv (a * b) c ∧ Int.tdiv (a * b) c ≤ 0) := by
  rcases hb with ⟨h1, h2, h3⟩ | ⟨h1, h2, h3⟩
  · refine ⟨fun ha => tdiv_between_nonneg a b c ha h1 h2 h3, fun ha => ?_⟩
    have h := tdiv_between_nonneg (-a) b c (by omega) h1 h2 h3
    rw [neg_mul, Int.neg_tdiv] at h
    omega
  · refine ⟨fun ha => ?_, fun ha => ?_⟩
    · have h := tdiv_between_nonneg a (-b) (-c) ha (by omega) (by omega) (by omega)
      rw [mul_neg, Int.neg_tdiv, Int.tdiv_neg, neg_neg] at h
      exact h
    · have h := tdiv_between_nonneg (-a) (-b) (-c) (by omega) (by omega) (by omega) (by omega)
      rw [neg_mul_neg, Int.tdiv_neg] at h
      omega

/-- The product of two differences of coordinates below 46341 fits a 32-bit
`int`. -/
theorem toI32_product (a b : Int) (ha : |a| ≤ 46340) (hb : |b| ≤ 46340) :
    toI32 (a * b) = a * b := by
  have h : |a * b| ≤ 46340 * 46340 := by
    rw [abs_mul]
    exact mul_le_mul ha hb (abs_nonneg _) (by norm_num)
  have h' := abs_le.mp h
  exact toI32_of_lt (by omega) (by omega)

/-- The intersection computed by `GLIB_clipLine` with a boundary `bound` that
lies between the coordinates `p1 ≠ p2` of the endpoints, all coordinates below
46341: the division is defined, nothing wraps, and the other coordinate of the
new point lies between `q1` and `q2`. -/
theorem clipMove_between (q1 q2 bound p1 p2 : Nat) (hq1 : q1 < 46341) (hq2 : q2 < 46341)
    (hp1 : p1 < 46341) (hp2 : p2 < 46341)
    (hb : (p1 ≤ bound ∧ bound ≤ p2 ∧ p1 < p2) ∨
      (p2 ≤ bound ∧ bound ≤ p1 ∧ p2 < p1)) :
    ∃ v : Nat, clipMove q1 q1 q2 bound p1 p2 = some v ∧
      (v : Int) = (q1 : Int) +
        Int.tdiv (((q2 : Int) - (q1 : Int)) * ((bound : Int) - (p1 : Int)))
          ((p2 : Int) - (p1 : Int)) ∧
      min q1 q2 ≤ v ∧ v ≤ max q1 q2 := by
  have hne : ¬ ((p2 : Int) - (p1 : Int) = 0) := by omega
  have hprod : toI32 (((q2 : Int) - (q1 : Int)) * ((bound : Int) - (p1 : Int))) =
      ((q2 : Int) - (q1 : Int)) * ((bound : Int) - (p1 : Int)) :=
    toI32_product _ _ (abs_le.mpr ⟨by omega, by omega⟩) (abs_le.mpr ⟨by omega, by omega⟩)
  have hbt := tdiv_between ((q2 : Int) - (q1 : Int)) ((bound : Int) - (p1 : Int))
    ((p2 : Int) - (p1 : Int)) (by omega)
  obtain ⟨t, ht⟩ : ∃ t, t =
      Int.tdiv (((q2 : Int) - (q1 : Int)) * ((bound : Int) - (p1 : Int)))
        ((p2 : Int) - (p1 : Int)) := ⟨_, rfl⟩
  rw [← ht] at hbt
  have hrange : 0 ≤ (q1 : Int) + t ∧ (q1 : Int) + t < 65536 ∧
      (min q1 q2 : Int) ≤ (q1 : Int) + t ∧ (q1 : Int) + t ≤ (max q1 q2 : Int) := by
    rcases Nat.le_total q1 q2 with h | h
    · have := hbt.1 (by omega)
      rw [min_eq_left (by exact_mod_cast h), max_eq_right (by exact_mod_cast h)]
      omega
    · have := hbt.2 (by omega)
      rw [min_eq_right (by exact_mod_cast h), max_eq_left (by exact_mod_cast h)]
      omega
  refine ⟨((q1 : Int) + t).toNat, ?_, by rw [← ht]; omega, ?_, ?_⟩
  · unfold clipMove
    rw [if_neg hne, hprod, ← ht, toU16_of_lt hrange.1 hrange.2.1]
  · have := hrange.2.2.1
    omega
  · have := hrange.2.2.2
    omega

/-- The bits of the outcode. -/
theorem GLIB_getClipCode_bits (ctx : GLIB_Context) (x y : Nat) :
    (GLIB_getClipCode ctx x y &&& 1 ≠ 0 ↔ x < ctx.clippingRegion.xMin) ∧
    (GLIB_getClipCode ctx x y &&& 2 ≠ 0 ↔ x > ctx.clippingRegion.xMax) ∧
    (GLIB_getClipCode ctx x y &&& 4 ≠ 0 ↔ y > ctx.clippingRegion.yMax) ∧
    (GLIB_getClipCode ctx x y &&& 8 ≠ 0 ↔ y < ctx.clippingRegion.yMin) ∧
    (GLIB_getClipCode ctx x y &&& 3 ≠ 0 ↔
      (x < ctx.clippingRegion.xMin ∨ x > ctx.clippingRegion.xMax)) := by
  rw [GLIB_getClipCode_eq]
  split_ifs <;> refine ⟨?_, ?_, ?_, ?_, ?_⟩ <;> simp [*] <;> decide

/-- Two outcodes share a bit exactly when the two points lie beyond the same
boundary. -/
theorem clipCode_shared_iff (ctx : GLIB_Context) (x1 y1 x2 y2 : Nat) :
    GLIB_getClipCode ctx x1 y1 &&& GLIB_getClipCode ctx x2 y2 ≠ 0 ↔
      beyondSameEdge ctx x1 y1 x2 y2 := by
  constructor
  · intro h
    by_contra hn
    apply h
    unfold beyondSameEdge at hn
    rw [GLIB_getClipCode_eq, GLIB_getClipCode_eq]
    split_ifs <;> first | (exfalso; omega) | decide
  · intro h
    exact (clipCode_shared ctx x1 y1 x2 y2 h).2

theorem clipViolations_comm (ctx : GLIB_Context) (x1 y1 x2 y2 : Nat) :
    clipViolations ctx x1 y1 x2 y2 = clipViolations ctx x2 y2 x1 y1 := by
  unfold clipViolations
  simp only [or_comm]

/-- Moving an endpoint from beyond the left boundary onto it, to a row
between the rows of the two endpoints, when the other endpoint is not beyond
that boundary: the endpoints lie beyond fewer boundaries. -/
theorem clipViolations_left (ctx : GLIB_Context)
    (hx : ctx.clippingRegion.xMin ≤ ctx.clippingRegion.xMax) (px py ox oy v : Nat)
    (hp : px < ctx.clippingRegion.xMin) (ho : ¬ ox < ctx.clippingRegion.xMin)
    (hv1 : min py oy ≤ v) (hv2 : v ≤ max py oy) :
    clipViolations ctx ctx.clippingRegion.xMin v ox oy < clipViolations ctx px py ox oy := by
  have hv : (py ≤ v ∨ oy ≤ v) ∧ (v ≤ py ∨ v ≤ oy) := by omega
  clear hv1 hv2
  unfold clipViolations
  split_ifs <;> omega

theorem clipViolations_right (ctx : GLIB_Context)
    (hx : ctx.clippingRegion.xMin ≤ ctx.clippingRegion.xMax) (px py ox oy v : Nat)
    (hp : px > ctx.clippingRegion.xMax) (ho : ¬ ox > ctx.clippingRegion.xMax)
    (hv1 : min py oy ≤ v) (hv2 : v ≤ max py oy) :
    clipViolations ctx ctx.clippingRegion.xMax v ox oy < clipViolations ctx px py ox oy := by
  have hv : (py ≤ v ∨ oy ≤ v) ∧ (v ≤ py ∨ v ≤ oy) := by omega
  clear hv1 hv2
  unfold clipViolations
  split_ifs <;> omega

theorem clipViolations_bottom (ctx : GLIB_Context)
    (hy : ctx.clippingRegion.yMin ≤ ctx.clippingRegion.yMax) (px py ox oy v : Nat)
    (hp : py > ctx.clippingRegion.yMax) (ho : ¬ oy > ctx.clippingRegion.yMax)
    (hv1 : min px ox ≤ v) (hv2 : v ≤ max px ox) :
    clipViolations ctx v ctx.clippingRegion.yMax ox oy < clipViolations ctx px py ox oy := by
  have hv : (px ≤ v ∨ ox ≤ v) ∧ (v ≤ px ∨ v ≤ ox) := by omega
  clear hv1 hv2
  unfold clipViolations
  split_ifs <;> omega

theorem clipViolations_top (ctx : GLIB_Context)
    (hy : ctx.clippingRegion.yMin ≤ ctx.clippingRegion.yMax) (px py ox oy v : Nat)
    (hp : py < ctx.clippingRegion.yMin) (ho : ¬ oy < ctx.clippingRegion.yMin)
    (hv1 : min px ox ≤ v) (hv2 : v ≤ max px ox) :
    clipViolations ctx v ctx.clippingRegion.yMin ox oy < clipViolations ctx px py ox oy := by
  have hv : (px ≤ v ∨ ox ≤ v) ∧ (v ≤ px ∨ v ≤ ox) := by omega
  clear hv1 hv2
  unfold clipViolations
  split_ifs <;> omega

/-- One move of the first endpoint, which lies outside an ordered clip region
while no boundary has both endpoints beyond it, all coordinates being below
46341: the division is defined, each coordinate of the new position lies
between those of the two endpoints, and after the move the endpoints lie
beyond fewer boundaries. -/
theorem clipMoved_first (ctx : GLIB_Context)
    (hx : ctx.clippingRegion.xMin ≤ ctx.clippingRegion.xMax)
    (hy : ctx.clippingRegion.yMin ≤ ctx.clippingRegion.yMax)
    (hX : ctx.clippingRegion.xMax < 46341) (hY : ctx.clippingRegion.yMax < 46341)
    (x y x1 y1 x2 y2 : Nat) (b1 : x1 < 46341) (b2 : y1 < 46341) (b3 : x2 < 46341)
    (b4 : y2 < 46341) (hc1 : GLIB_getClipCode ctx x1 y1 ≠ 0)
    (hsh : ¬ beyondSameEdge ctx x1 y1 x2 y2) :
    ∃ nx ny, clipMoved ctx (GLIB_getClipCode ctx x1 y1) x y x1 y1 x2 y2 = some (nx, ny) ∧
      nx < 46341 ∧ ny < 46341 ∧
      ClipMove.sound ⟨x1, y1, x2, y2, GLIB_getClipCode ctx x1 y1, nx, ny⟩ ∧
      clipViolations ctx nx ny x2 y2 < clipViolations ctx x1 y1 x2 y2 := by
  have hout : ¬ (ctx.clippingRegion.xMin ≤ x1 ∧ x1 ≤ ctx.clippingRegion.xMax ∧
      ctx.clippingRegion.yMin ≤ y1 ∧ y1 ≤ ctx.clippingRegion.yMax) := fun h =>
    hc1 ((GLIB_getClipCode_eq_zero ctx x1 y1).mpr h)
  clear hc1
  unfold beyondSameEdge at hsh
  unfold ClipMove.sound
  simp only
  by_cases hL : x1 < ctx.clippingRegion.xMin
  · have hn2 : ¬ x2 < ctx.clippingRegion.xMin := by omega
    obtain ⟨v, hv, _, hv1, hv2⟩ := clipMove_between y1 y2 ctx.clippingRegion.xMin x1 x2
      b2 b4 b1 b3 (by omega)
    have hvb : v < 46341 := by omega
    have hxb : min x1 x2 ≤ ctx.clippingRegion.xMin ∧ ctx.clippingRegion.xMin ≤ max x1 x2 ∧
        x1 ≠ x2 ∧ ctx.clippingRegion.xMin < 46341 := by omega
    refine ⟨ctx.clippingRegion.xMin, v, ?_, hxb.2.2.2, hvb,
      ⟨?_, hxb.1, hxb.2.1, hv1, hv2⟩, clipViolations_left ctx hx x1 y1 x2 y2 v hL hn2 hv1 hv2⟩
    · unfold clipMoved
      rw [if_pos ((GLIB_getClipCode_bits ctx x1 y1).1.mpr hL), hv]; rfl
    · rw [if_pos ((GLIB_getClipCode_bits ctx x1 y1).2.2.2.2.mpr (Or.inl hL))]
      exact hxb.2.2.1
  · have k1 : ¬ (GLIB_getClipCode ctx x1 y1 &&& 1 ≠ 0) := fun h =>
      hL ((GLIB_getClipCode_bits ctx x1 y1).1.mp h)
    by_cases hR : x1 > ctx.clippingRegion.xMax
    · have hn2 : ¬ x2 > ctx.clippingRegion.xMax := by omega
      obtain ⟨v, hv, _, hv1, hv2⟩ := clipMove_between y1 y2 ctx.clippingRegion.xMax x1 x2
        b2 b4 b1 b3 (by omega)
      have hvb : v < 46341 := by omega
      have hxb : min x1 x2 ≤ ctx.clippingRegion.xMax ∧ ctx.clippingRegion.xMax ≤ max x1 x2 ∧
          x1 ≠ x2 := by omega
      refine ⟨ctx.clippingRegion.xMax, v, ?_, hX, hvb,
        ⟨?_, hxb.1, hxb.2.1, hv1, hv2⟩,
        clipViolations_right ctx hx x1 y1 x2 y2 v hR hn2 hv1 hv2⟩
      · unfold clipMoved
        rw [if_neg k1, if_pos ((GLIB_getClipCode_bits ctx x1 y1).2.1.mpr hR), hv]; rfl
      · rw [if_pos ((GLIB_getClipCode_bits ctx x1 y1).2.2.2.2.mpr (Or.inr hR))]
        exact hxb.2.2
    · have k2 : ¬ (GLIB_getClipCode ctx x1 y1 &&& 2 ≠ 0) := fun h =>
        hR ((GLIB_getClipCode_bits ctx x1 y1).2.1.mp h)
      have k3 : ¬ (GLIB_getClipCode ctx x1 y1 &&& 3 ≠ 0) := fun h => by
        rcases (GLIB_getClipCode_bits ctx x1 y1).2.2.2.2.mp h with h | h
        · exact hL h
        · exact hR h
      by_cases hB : y1 > ctx.clippingRegion.yMax
      · have hn2 : ¬ y2 > ctx.clippingRegion.yMax := by omega
        obtain ⟨v, hv, _, hv1, hv2⟩ := clipMove_between x1 x2 ctx.clippingRegion.yMax y1 y2
          b1 b3 b2 b4 (by omega)
        have hvb : v < 46341 := by omega
        have hyb : min y1 y2 ≤ ctx.clippingRegion.yMax ∧
            ctx.clippingRegion.yMax ≤ max y1 y2 ∧ y1 ≠ y2 := by omega
        refine ⟨v, ctx.clippingRegion.yMax, ?_, hvb, hY,
          ⟨?_, hv1, hv2, hyb.1, hyb.2.1⟩,
          clipViolations_bottom ctx hy x1 y1 x2 y2 v hB hn2 hv1 hv2⟩
        · unfold clipMoved
          rw [if_neg k1, if_neg k2, if_pos ((GLIB_getClipCode_bits ctx x1 y1).2.2.1.mpr hB), hv]
          rfl
        · rw [if_neg k3]
          exact hyb.2.2
      · have k4 : ¬ (GLIB_getClipCode ctx x1 y1 &&& 4 ≠ 0) := fun h =>
          hB ((GLIB_getClipCode_bits ctx x1 y1).2.2.1.mp h)
        have hT : y1 < ctx.clippingRegion.yMin := by omega
        have hn2 : ¬ y2 < ctx.clippingRegion.yMin := by omega
        obtain ⟨v, hv, _, hv1, hv2⟩ := clipMove_between x1 x2 ctx.clippingRegion.yMin y1 y2
          b1 b3 b2 b4 (by omega)
        have hvb : v < 46341 := by omega
        have hyb : min y1 y2 ≤ ctx.clippingRegion.yMin ∧
            ctx.clippingRegion.yMin ≤ max y1 y2 ∧
            y1 ≠ y2 ∧ ctx.clippingRegion.yMin < 46341 := by omega
        refine ⟨v, ctx.clippingRegion.yMin, ?_, hvb, hyb.2.2.2,
          ⟨?_, hv1, hv2, hyb.1, hyb.2.1⟩,
          clipViolations_top ctx hy x1 y1 x2 y2 v hT hn2 hv1 hv2⟩
        · unfold clipMoved
          rw [if_neg k1, if_neg k2, if_neg k4,
            if_pos ((GLIB_getClipCode_bits ctx x1 y1).2.2.2.1.mpr hT), hv]
          rfl
        · rw [if_neg k3]
          exact hyb.2.2.1

/-- One move of the second endpoint, which lies outside an ordered clip
region while the first endpoint lies inside it, all coordinates being below
46341. -/
theorem clipMoved_second (ctx : GLIB_Context)
    (hx : ctx.clippingRegion.xMin ≤ ctx.clippingRegion.xMax)
    (hy : ctx.clippingRegion.yMin ≤ ctx.clippingRegion.yMax)
    (hX : ctx.clippingRegion.xMax < 46341) (hY : ctx.clippingRegion.yMax < 46341)
    (x y x1 y1 x2 y2 : Nat) (b1 : x1 < 46341) (b2 : y1 < 46341) (b3 : x2 < 46341)
    (b4 : y2 < 46341) (hc1 : GLIB_getClipCode ctx x1 y1 = 0)
    (hc2 : GLIB_getClipCode ctx x2 y2 ≠ 0) :
    ∃ nx ny, clipMoved ctx (GLIB_getClipCode ctx x2 y2) x y x1 y1 x2 y2 = some (nx, ny) ∧
      nx < 46341 ∧ ny < 46341 ∧
      ClipMove.sound ⟨x1, y1, x2, y2, GLIB_getClipCode ctx x2 y2, nx, ny⟩ ∧
      clipViolations ctx x1 y1 nx ny < clipViolations ctx x1 y1 x2 y2 := by
  have hin := (GLIB_getClipCode_eq_zero ctx x1 y1).mp hc1
  have hout : ¬ (ctx.clippingRegion.xMin ≤ x2 ∧ x2 ≤ ctx.clippingRegion.xMax ∧
      ctx.clippingRegion.yMin ≤ y2 ∧ y2 ≤ ctx.clippingRegion.yMax) := fun h =>
    hc2 ((GLIB_getClipCode_eq_zero ctx x2 y2).mpr h)
  clear hc1 hc2
  unfold ClipMove.sound
  simp only
  rw [clipViolations_comm ctx x1 y1 x2 y2]
  by_cases hL : x2 < ctx.clippingRegion.xMin
  · have hn2 : ¬ x1 < ctx.clippingRegion.xMin := by omega
    obtain ⟨v, hv, _, hv1, hv2⟩ := clipMove_between y1 y2 ctx.clippingRegion.xMin x1 x2
      b2 b4 b1 b3 (by omega)
    have hvb : v < 46341 := by omega
    have hxb : min x1 x2 ≤ ctx.clippingRegion.xMin ∧ ctx.clippingRegion.xMin ≤ max x1 x2 ∧
        x1 ≠ x2 ∧ ctx.clippingRegion.xMin < 46341 := by omega
    refine ⟨ctx.clippingRegion.xMin, v, ?_, hxb.2.2.2, hvb,
      ⟨?_, hxb.1, hxb.2.1, hv1, hv2⟩, ?_⟩
    · unfold clipMoved
      rw [if_pos ((GLIB_getClipCode_bits ctx x2 y2).1.mpr hL), hv]; rfl
    · rw [if_pos ((GLIB_getClipCode_bits ctx x2 y2).2.2.2.2.mpr (Or.inl hL))]
      exact hxb.2.2.1
    · rw [clipViolations_comm ctx x1 y1]
      exact clipViolations_left ctx hx x2 y2 x1 y1 v hL hn2 (by rw [min_comm]; exact hv1)
        (by rw [max_comm]; exact hv2)
  · have k1 : ¬ (GLIB_getClipCode ctx x2 y2 &&& 1 ≠ 0) := fun h =>
      hL ((GLIB_getClipCode_bits ctx x2 y2).1.mp h)
    by_cases hR : x2 > ctx.clippingRegion.xMax
    · have hn2 : ¬ x1 > ctx.clippingRegion.xMax := by omega
      obtain ⟨v, hv, _, hv1, hv2⟩ := clipMove_between y1 y2 ctx.clippingRegion.xMax x1 x2
        b2 b4 b1 b3 (by omega)
      have hvb : v < 46341 := by omega
      have hxb : min x1 x2 ≤ ctx.clippingRegion.xMax ∧ ctx.clippingRegion.xMax ≤ max x1 x2 ∧
          x1 ≠ x2 := by omega
      refine ⟨ctx.clippingRegion.xMax, v, ?_, hX, hvb,
        ⟨?_, hxb.1, hxb.2.1, hv1, hv2⟩, ?_⟩
      · unfold clipMoved
        rw [if_neg k1, if_pos ((GLIB_getClipCode_bits ctx x2 y2).2.1.mpr hR), hv]; rfl
      · rw [if_pos ((GLIB_getClipCode_bits ctx x2 y2).2.2.2.2.mpr (Or.inr hR))]
        exact hxb.2.2
      · rw [clipViolations_comm ctx x1 y1]
        exact clipViolations_right ctx hx x2 y2 x1 y1 v hR hn2 (by rw [min_comm]; exact hv1)
          (by rw [max_comm]; exact hv2)
    · have k2 : ¬ (GLIB_getClipCode ctx x2 y2 &&& 2 ≠ 0) := fun h =>
        hR ((GLIB_getClipCode_bits ctx x2 y2).2.1.mp h)
      have k3 : ¬ (GLIB_getClipCode ctx x2 y2 &&& 3 ≠ 0) := fun h => by
        rcases (GLIB_getClipCode_bits ctx x2 y2).2.2.2.2.mp h with h | h
        · exact hL h
        · exact hR h
      by_cases hB : y2 > ctx.clippingRegion.yMax
      · have hn2 : ¬ y1 > ctx.clippingRegion.yMax := by omega
        obtain ⟨v, hv, _, hv1, hv2⟩ := clipMove_between x1 x2 ctx.clippingRegion.yMax y1 y2
          b1 b3 b2 b4 (by omega)
        have hvb : v < 46341 := by omega
        have hyb : min y1 y2 ≤ ctx.clippingRegion.yMax ∧
            ctx.clippingRegion.yMax ≤ max y1 y2 ∧ y1 ≠ y2 := by omega
        refine ⟨v, ctx.clippingRegion.yMax, ?_, hvb, hY,
          ⟨?_, hv1, hv2, hyb.1, hyb.2.1⟩, ?_⟩
        · unfold clipMoved
          rw [if_neg k1, if_neg k2, if_pos ((GLIB_getClipCode_bits ctx x2 y2).2.2.1.mpr hB), hv]
          rfl
        · rw [if_neg k3]
          exact hyb.2.2
        · rw [clipViolations_comm ctx x1 y1]
          exact clipViolations_bottom ctx hy x2 y2 x1 y1 v hB hn2 (by rw [min_comm]; exact hv1)
            (by rw [max_comm]; exact hv2)
      · have k4 : ¬ (GLIB_getClipCode ctx x2 y2 &&& 4 ≠ 0) := fun h =>
          hB ((GLIB_getClipCode_bits ctx x2 y2).2.2.1.mp h)
        have hT : y2 < ctx.clippingRegion.yMin := by omega
        have hn2 : ¬ y1 < ctx.clippingRegion.yMin := by omega
        obtain ⟨v, hv, _, hv1, hv2⟩ := clipMove_between x1 x2 ctx.clippingRegion.yMin y1 y2
          b1 b3 b2 b4 (by omega)
        have hvb : v < 46341 := by omega
        have hyb : min y1 y2 ≤ ctx.clippingRegion.yMin ∧
            ctx.clippingRegion.yMin ≤ max y1 y2 ∧
            y1 ≠ y2 ∧ ctx.clippingRegion.yMin < 46341 := by omega
        refine ⟨v, ctx.clippingRegion.yMin, ?_, hvb, hyb.2.2.2,
          ⟨?_, hv1, hv2, hyb.1, hyb.2.1⟩, ?_⟩
        · unfold clipMoved
          rw [if_neg k1, if_neg k2, if_neg k4,
            if_pos ((GLIB_getClipCode_bits ctx x2 y2).2.2.2.1.mpr hT), hv]
          rfl
        · rw [if_neg k3]
          exact hyb.2.2.1
        · rw [clipViolations_comm ctx x1 y1]
          exact clipViolations_top ctx hy x2 y2 x1 y1 v hT hn2 (by rw [min_comm]; exact hv1)
            (by rw [max_comm]; exact hv2)

/-! ## C36: the loop of `GLIB_clipLine` -/

/-- One iteration of the loop with its record of moves. -/
theorem clipLineTrace_succ (ctx : GLIB_Context) (fuel x y x1 y1 x2 y2 : Nat) :
    clipLineTrace ctx (fuel + 1) x y x1 y1 x2 y2 =
      if GLIB_getClipCode ctx x1 y1 ||| GLIB_getClipCode ctx x2 y2 = 0 then
        some ([], (1, x1, y1, x2, y2))
      else if GLIB_getClipCode ctx x1 y1 &&& GLIB_getClipCode ctx x2 y2 ≠ 0 then
        some ([], (0, x1, y1, x2, y2))
      else
        match clipMoved ctx
          (if GLIB_getClipCode ctx x1 y1 ≠ 0 then GLIB_getClipCode ctx x1 y1
            else GLIB_getClipCode ctx x2 y2) x y x1 y1 x2 y2 with
        | none => none
        | some (nx, ny) =>
          (if GLIB_getClipCode ctx x1 y1 ≠ 0 then clipLineTrace ctx fuel nx ny nx ny x2 y2
            else clipLineTrace ctx fuel nx ny x1 y1 nx ny).map fun t =>
              (⟨x1, y1, x2, y2,
                if GLIB_getClipCode ctx x1 y1 ≠ 0 then GLIB_getClipCode ctx x1 y1
                  else GLIB_getClipCode ctx x2 y2, nx, ny⟩ :: t.1, t.2) := rfl

/-- The record of moves does not change the result: `GLIB_clipLine` is the
second component of `clipLineTrace`. -/
theorem GLIB_clipLine_eq_trace (ctx : GLIB_Context) :
    ∀ (fuel x y x1 y1 x2 y2 : Nat),
      GLIB_clipLine ctx fuel x y x1 y1 x2 y2 =
        (clipLineTrace ctx fuel x y x1 y1 x2 y2).map Prod.snd := by
  intro fuel
  induction fuel with
  | zero => intro x y x1 y1 x2 y2; rfl
  | succ f ih =>
    intro x y x1 y1 x2 y2
    rw [GLIB_clipLine_succ, clipLineTrace_succ]
    by_cases hacc : GLIB_getClipCode ctx x1 y1 ||| GLIB_getClipCode ctx x2 y2 = 0
    · rw [if_pos hacc, if_pos hacc]; rfl
    · rw [if_neg hacc, if_neg hacc]
      by_cases hrej : GLIB_getClipCode ctx x1 y1 &&& GLIB_getClipCode ctx x2 y2 ≠ 0
      · rw [if_pos hrej, if_pos hrej]; rfl
      · rw [if_neg hrej, if_neg hrej]
        cases hm : clipMoved ctx
          (if GLIB_getClipCode ctx x1 y1 ≠ 0 then GLIB_getClipCode ctx x1 y1
            else GLIB_getClipCode ctx x2 y2) x y x1 y1 x2 y2 with
        | none => rfl
        | some p =>
          obtain ⟨nx, ny⟩ := p
          simp only
          by_cases hc1 : GLIB_getClipCode ctx x1 y1 ≠ 0
          · simp only [if_pos hc1, ih, Option.map_map]; rfl
          · simp only [if_neg hc1, ih, Option.map_map]; rfl

/-- The number of boundaries beyond which an endpoint lies is at most four,
and it is zero only when both endpoints are inside the clip region. -/
theorem clipViolations_le (ctx : GLIB_Context) (x1 y1 x2 y2 : Nat) :
    clipViolations ctx x1 y1 x2 y2 ≤ 4 := by
  unfold clipViolations
  split_ifs <;> omega

/-- The loop on an ordered clip region with coordinates below 46341: with
`n + 1` iterations, where the endpoints lie beyond at most `n` boundaries, it
returns after at most `n` moves, all of them sound. -/
theorem clipLineTrace_total (ctx : GLIB_Context)
    (hx : ctx.clippingRegion.xMin ≤ ctx.clippingRegion.xMax)
    (hy : ctx.clippingRegion.yMin ≤ ctx.clippingRegion.yMax)
    (hX : ctx.clippingRegion.xMax < 46341) (hY : ctx.clippingRegion.yMax < 46341) :
    ∀ (n x y x1 y1 x2 y2 : Nat), x1 < 46341 → y1 < 46341 → x2 < 46341 → y2 < 46341 →
      clipViolations ctx x1 y1 x2 y2 ≤ n →
      ∃ moves r, clipLineTrace ctx (n + 1) x y x1 y1 x2 y2 = some (moves, r) ∧
        moves.length ≤ n ∧ (r.1 = 0 ∨ r.1 = 1) ∧ ∀ m ∈ moves, ClipMove.sound m := by
  intro n
  induction n with
  | zero =>
    intro x y x1 y1 x2 y2 b1 b2 b3 b4 hv
    rw [clipLineTrace_succ]
    by_cases hacc : GLIB_getClipCode ctx x1 y1 ||| GLIB_getClipCode ctx x2 y2 = 0
    · rw [if_pos hacc]
      exact ⟨[], _, rfl, Nat.le_refl _, Or.inr rfl, by simp⟩
    · rw [if_neg hacc]
      by_cases hrej : GLIB_getClipCode ctx x1 y1 &&& GLIB_getClipCode ctx x2 y2 ≠ 0
      · rw [if_pos hrej]
        exact ⟨[], _, rfl, Nat.le_refl _, Or.inl rfl, by simp⟩
      · exfalso
        have hsh : ¬ beyondSameEdge ctx x1 y1 x2 y2 := fun h =>
          hrej ((clipCode_shared_iff ctx x1 y1 x2 y2).mpr h)
        by_cases hc1 : GLIB_getClipCode ctx x1 y1 ≠ 0
        · obtain ⟨nx, ny, _, _, _, _, hlt⟩ := clipMoved_first ctx hx hy hX hY x y x1 y1 x2 y2
            b1 b2 b3 b4 hc1 hsh
          omega
        · have hc1' : GLIB_getClipCode ctx x1 y1 = 0 := by simpa using hc1
          have hc2 : GLIB_getClipCode ctx x2 y2 ≠ 0 := fun h => hacc (by rw [hc1', h]; rfl)
          obtain ⟨nx, ny, _, _, _, _, hlt⟩ := clipMoved_second ctx hx hy hX hY x y x1 y1 x2 y2
            b1 b2 b3 b4 hc1' hc2
          omega
  | succ k ih =>
    intro x y x1 y1 x2 y2 b1 b2 b3 b4 hv
    rw [clipLineTrace_succ]
    by_cases hacc : GLIB_getClipCode ctx x1 y1 ||| GLIB_getClipCode ctx x2 y2 = 0
    · rw [if_pos hacc]
      exact ⟨[], _, rfl, Nat.zero_le _, Or.inr rfl, by simp⟩
    · rw [if_neg hacc]
      by_cases hrej : GLIB_getClipCode ctx x1 y1 &&& GLIB_getClipCode ctx x2 y2 ≠ 0
      · rw [if_pos hrej]
        exact ⟨[], _, rfl, Nat.zero_le _, Or.inl rfl, by simp⟩
      · rw [if_neg hrej]
        have hsh : ¬ beyondSameEdge ctx x1 y1 x2 y2 := fun h =>
          hrej ((clipCode_shared_iff ctx x1 y1 x2 y2).mpr h)
        by_cases hc1 : GLIB_getClipCode ctx x1 y1 ≠ 0
        · obtain ⟨nx, ny, hm, c1, c2, hsound, hlt⟩ := clipMoved_first ctx hx hy hX hY x y
            x1 y1 x2 y2 b1 b2 b3 b4 hc1 hsh
          obtain ⟨moves, r, ht, hlen, hr, hall⟩ := ih nx ny nx ny x2 y2 c1 c2 b3 b4 (by omega)
          rw [if_pos hc1, hm]
          simp only [if_pos hc1]
          rw [ht]
          refine ⟨_, _, rfl, by simp only [List.length_cons]; omega, hr, ?_⟩
          intro m hmem
          rcases List.mem_cons.mp hmem with h | h
          · rw [h]; exact hsound
          · exact hall m h
        · have hc1' : GLIB_getClipCode ctx x1 y1 = 0 := by simpa using hc1
          have hc2 : GLIB_getClipCode ctx x2 y2 ≠ 0 := fun h => hacc (by rw [hc1', h]; rfl)
          obtain ⟨nx, ny, hm, c1, c2, hsound, hlt⟩ := clipMoved_second ctx hx hy hX hY x y
            x1 y1 x2 y2 b1 b2 b3 b4 hc1' hc2
          obtain ⟨moves, r, ht, hlen, hr, hall⟩ := ih nx ny x1 y1 nx ny b1 b2 c1 c2 (by omega)
          rw [if_neg hc1, hm]
          simp only [if_neg hc1]
          rw [ht]
          refine ⟨_, _, rfl, by simp only [List.length_cons]; omega, hr, ?_⟩
          intro m hmem
          rcases List.mem_cons.mp hmem with h | h
          · rw [h]; exact hsound
          · exact hall m h

/-- More fuel does not change a result of the loop. -/
theorem clipLineTrace_mono (ctx : GLIB_Context) :
    ∀ (fuel x y x1 y1 x2 y2 : Nat) (t : List ClipMove × (Nat × Nat × Nat × Nat × Nat)),
      clipLineTrace ctx fuel x y x1 y1 x2 y2 = some t →
      ∀ k, clipLineTrace ctx (fuel + k) x y x1 y1 x2 y2 = some t := by
  intro fuel
  induction fuel with
  | zero => intro x y x1 y1 x2 y2 t h; simp [clipLineTrace] at h
  | succ f ih =>
    intro x y x1 y1 x2 y2 t h k
    rw [show f + 1 + k = (f + k) + 1 by omega, clipLineTrace_succ]
    rw [clipLineTrace_succ] at h
    by_cases hacc : GLIB_getClipCode ctx x1 y1 ||| GLIB_getClipCode ctx x2 y2 = 0
    · rw [if_pos hacc] at h ⊢; exact h
    · rw [if_neg hacc] at h ⊢
      by_cases hrej : GLIB_getClipCode ctx x1 y1 &&& GLIB_getClipCode ctx x2 y2 ≠ 0
      · rw [if_pos hrej] at h ⊢; exact h
      · rw [if_neg hrej] at h ⊢
        cases hm : clipMoved ctx
          (if GLIB_getClipCode ctx x1 y1 ≠ 0 then GLIB_getClipCode ctx x1 y1
            else GLIB_getClipCode ctx x2 y2) x y x1 y1 x2 y2 with
        | none => rw [hm] at h; simp at h
        | some p =>
          obtain ⟨nx, ny⟩ := p
          rw [hm] at h
          simp only at h ⊢
          by_cases hc1 : GLIB_getClipCode ctx x1 y1 ≠ 0
          · simp only [if_pos hc1] at h ⊢
            cases ht : clipLineTrace ctx f nx ny nx ny x2 y2 with
            | none => rw [ht] at h; simp at h
            | some u => rw [ht] at h; rw [ih _ _ _ _ _ _ u ht k]; exact h
          · simp only [if_neg hc1] at h ⊢
            cases ht : clipLineTrace ctx f nx ny x1 y1 nx ny with
            | none => rw [ht] at h; simp at h
            | some u => rw [ht] at h; rw [ih _ _ _ _ _ _ u ht k]; exact h

/-- C36: for every clip region with `xMin ≤ xMax` and `yMin ≤ yMax` and every
pair of endpoints, all coordinates being below 46341 (so that the 32-bit
products do not overflow), the loop of `GLIB_clipLine` returns, with five or
more iterations allowed, an acceptance (1) or a rejection (0) after at most
four endpoint moves; every move divides by a non-zero difference of
coordinates of the two endpoints, and each coordinate of the moved point lies
between the same coordinates of the two endpoints. -/
theorem C36_clipLine_total (ctx : GLIB_Context) (fuel x y x1 y1 x2 y2 : Nat)
    (hx : ctx.clippingRegion.xMin ≤ ctx.clippingRegion.xMax)
    (hy : ctx.clippingRegion.yMin ≤ ctx.clippingRegion.yMax)
    (hX : ctx.clippingRegion.xMax < 46341) (hY : ctx.clippingRegion.yMax < 46341)
    (b1 : x1 < 46341) (b2 : y1 < 46341) (b3 : x2 < 46341) (b4 : y2 < 46341)
    (hf : 5 ≤ fuel) :
    ∃ moves r, clipLineTrace ctx fuel x y x1 y1 x2 y2 = some (moves, r) ∧
      GLIB_clipLine ctx fuel x y x1 y1 x2 y2 = some r ∧
      (r.1 = 0 ∨ r.1 = 1) ∧ moves.length ≤ 4 ∧ ∀ m ∈ moves, ClipMove.sound m := by
  obtain ⟨moves, r, ht, hlen, hr, hall⟩ := clipLineTrace_total ctx hx hy hX hY 4 x y x1 y1 x2 y2
    b1 b2 b3 b4 (clipViolations_le ctx x1 y1 x2 y2)
  have ht' := clipLineTrace_mono ctx 5 x y x1 y1 x2 y2 _ ht (fuel - 5)
  rw [show 5 + (fuel - 5) = fuel by omega] at ht'
  refine ⟨moves, r, ht', ?_, hr, hlen, hall⟩
  rw [GLIB_clipLine_eq_trace, ht']
  rfl

/-- In `demoContext` (clip region `(10,10)-(200,100)`) the segment
`(0,50)-(300,60)` is accepted after two moves: the first endpoint to
`(10,50)`, then the second to `(200,56)`; the segment `(0,0)-(300,150)` is
accepted after three moves, as `(20,10)-(200,100)`. -/
theorem C36_clipLine_total_witness :
    (∃ moves r, clipLineTrace demoContext 5 0 0 0 50 300 60 = some (moves, r) ∧
      GLIB_clipLine demoContext 5 0 0 0 50 300 60 = some r ∧
      (r.1 = 0 ∨ r.1 = 1) ∧ moves.length ≤ 4) ∧
    clipLineTrace demoContext 5 0 0 0 50 300 60 =
      some ([⟨0, 50, 300, 60, 1, 10, 50⟩, ⟨10, 50, 300, 60, 2, 200, 56⟩],
        (1, 10, 50, 200, 56)) ∧
    ClipMove.sound ⟨0, 50, 300, 60, 1, 10, 50⟩ ∧
    ClipMove.sound ⟨10, 50, 300, 60, 2, 200, 56⟩ ∧
    GLIB_clipLine demoContext 5 0 0 0 0 300 150 = some (1, 20, 10, 200, 100) :=
  ⟨(C36_clipLine_total demoContext 5 0 0 0 50 300 60 (by decide) (by decide) (by decide)
      (by decide) (by decide) (by decide) (by decide) (by decide) (by decide)).elim
      fun moves h => h.elim fun r h => ⟨moves, r, h.1, h.2.1, h.2.2.1, h.2.2.2.1⟩,
   by decide, by decide, by decide, by decide⟩

/-! ## C32: a segment that crosses one boundary -/

/-- The loop on a segment whose second endpoint is inside the clip region and
whose first endpoint is moved to a point inside it: one move, then the
acceptance. -/
theorem GLIB_clipLine_one_move (ctx : GLIB_Context) (fuel x y x1 y1 x2 y2 nx ny : Nat)
    (hc1 : GLIB_getClipCode ctx x1 y1 ≠ 0) (hc2 : GLIB_getClipCode ctx x2 y2 = 0)
    (hm : clipMoved ctx (GLIB_getClipCode ctx x1 y1) x y x1 y1 x2 y2 = some (nx, ny))
    (hin : GLIB_getClipCode ctx nx ny = 0) :
    GLIB_clipLine ctx (fuel + 2) x y x1 y1 x2 y2 = some (1, nx, ny, x2, y2) := by
  rw [GLIB_clipLine_succ, hc2, Nat.or_zero, Nat.and_zero, if_neg hc1, if_neg (by simp),
    if_pos hc1, hm]
  simp only [if_pos hc1]
  exact GLIB_clipLine_inside ctx (fuel + 1) nx ny nx ny x2 y2 (by omega) hin hc2

/-- C32 (counterexample): in `wideContext`, whose clip region
`(60000,0)-(65534,65534)` is well-formed, the segment from `(0,0)`, left of
the clip region, to `(60001,60000)`, inside it, is accepted after one move,
but the first endpoint becomes `(60000, 53954)`, whereas the parametric
formula gives `0 + (60000 * 60000) / 60001 = 59999`: the product does not fit
a 32-bit `int`. -/
theorem C32_clip_single_move_counterexample :
    clipWellFormed wideContext ∧
    GLIB_rectContainsPoint wideContext.clippingRegion 60001 60000 = 1 ∧
    GLIB_getClipCode wideContext 0 0 = 1 ∧
    GLIB_clipLine wideContext 2 0 0 0 0 60001 60000 = some (1, 60000, 53954, 60001, 60000) ∧
    (0 : Int) + Int.tdiv (((60000 : Int) - 0) * ((60000 : Int) - 0)) ((60001 : Int) - 0) =
      59999 ∧
    toI32 (((60000 : Int) - 0) * ((60000 : Int) - 0)) = -694967296 := by
  refine ⟨by decide, by decide, by decide, by decide, by decide, by decide⟩

/-- With a single iteration the loop does not return on such a segment: the
acceptance comes after the move. -/
theorem GLIB_clipLine_needs_move (ctx : GLIB_Context) (x y x1 y1 x2 y2 nx ny : Nat)
    (hc1 : GLIB_getClipCode ctx x1 y1 ≠ 0) (hc2 : GLIB_getClipCode ctx x2 y2 = 0)
    (hm : clipMoved ctx (GLIB_getClipCode ctx x1 y1) x y x1 y1 x2 y2 = some (nx, ny)) :
    GLIB_clipLine ctx 1 x y x1 y1 x2 y2 = none := by
  rw [GLIB_clipLine_succ, hc2, Nat.or_zero, Nat.and_zero, if_neg hc1, if_neg (by simp),
    if_pos hc1, hm]
  simp only [if_pos hc1]
  rfl

/-- C32 (amended): for a segment whose second endpoint is inside the clip
region and whose first endpoint lies beyond exactly one boundary, all
coordinates being below 46341 (so that the 32-bit product does not overflow),
`GLIB_clipLine` accepts the segment after a single move (not with one
iteration, and with two or more), leaves the second endpoint unchanged and
replaces the first by the intersection of the parametric formula with the
division truncating toward zero: `(xMin, y1 + ((y2-y1)*(xMin-x1)) / (x2-x1))`
for the left boundary, the same with `xMax` for the right one, and
`(x1 + ((x2-x1)*(yMax-y1)) / (y2-y1), yMax)` for the bottom boundary, the same
with `yMin` for the top one; that point lies inside the clip region. -/
theorem C32_clip_single_move_amended (ctx : GLIB_Context) (fuel x y x1 y1 x2 y2 : Nat)
    (hX : ctx.clippingRegion.xMax < 46341) (hY : ctx.clippingRegion.yMax < 46341)
    (b1 : x1 < 46341) (b2 : y1 < 46341)
    (h2 : GLIB_rectContainsPoint ctx.clippingRegion x2 y2 = 1) :
    (x1 < ctx.clippingRegion.xMin → ctx.clippingRegion.yMin ≤ y1 →
      y1 ≤ ctx.clippingRegion.yMax →
      ∃ ny : Nat,
        GLIB_clipLine ctx (fuel + 2) x y x1 y1 x2 y2 =
          some (1, ctx.clippingRegion.xMin, ny, x2, y2) ∧
        GLIB_clipLine ctx 1 x y x1 y1 x2 y2 = none ∧
        (ny : Int) = (y1 : Int) +
          Int.tdiv (((y2 : Int) - (y1 : Int)) * ((ctx.clippingRegion.xMin : Int) - (x1 : Int)))
            ((x2 : Int) - (x1 : Int)) ∧
        GLIB_rectContainsPoint ctx.clippingRegion ctx.clippingRegion.xMin ny = 1) ∧
    (x1 > ctx.clippingRegion.xMax → ctx.clippingRegion.yMin ≤ y1 →
      y1 ≤ ctx.clippingRegion.yMax →
      ∃ ny : Nat,
        GLIB_clipLine ctx (fuel + 2) x y x1 y1 x2 y2 =
          some (1, ctx.clippingRegion.xMax, ny, x2, y2) ∧
        GLIB_clipLine ctx 1 x y x1 y1 x2 y2 = none ∧
        (ny : Int) = (y1 : Int) +
          Int.tdiv (((y2 : Int) - (y1 : Int)) * ((ctx.clippingRegion.xMax : Int) - (x1 : Int)))
            ((x2 : Int) - (x1 : Int)) ∧
        GLIB_rectContainsPoint ctx.clippingRegion ctx.clippingRegion.xMax ny = 1) ∧
    (y1 > ctx.clippingRegion.yMax → ctx.clippingRegion.xMin ≤ x1 →
      x1 ≤ ctx.clippingRegion.xMax →
      ∃ nx : Nat,
        GLIB_clipLine ctx (fuel + 2) x y x1 y1 x2 y2 =
          some (1, nx, ctx.clippingRegion.yMax, x2, y2) ∧
        GLIB_clipLine ctx 1 x y x1 y1 x2 y2 = none ∧
        (nx : Int) = (x1 : Int) +
          Int.tdiv (((x2 : Int) - (x1 : Int)) * ((ctx.clippingRegion.yMax : Int) - (y1 : Int)))
            ((y2 : Int) - (y1 : Int)) ∧
        GLIB_rectContainsPoint ctx.clippingRegion nx ctx.clippingRegion.yMax = 1) ∧
    (y1 < ctx.clippingRegion.yMin → ctx.clippingRegion.xMin ≤ x1 →
      x1 ≤ ctx.clippingRegion.xMax →
      ∃ nx : Nat,
        GLIB_clipLine ctx (fuel + 2) x y x1 y1 x2 y2 =
          some (1, nx, ctx.clippingRegion.yMin, x2, y2) ∧
        GLIB_clipLine ctx 1 x y x1 y1 x2 y2 = none ∧
        (nx : Int) = (x1 : Int) +
          Int.tdiv (((x2 : Int) - (x1 : Int)) * ((ctx.clippingRegion.yMin : Int) - (y1 : Int)))
            ((y2 : Int) - (y1 : Int)) ∧
        GLIB_rectContainsPoint ctx.clippingRegion nx ctx.clippingRegion.yMin = 1) := by
  have i2 := GLIB_rectContainsPoint_eq_one.mp h2
  have hc2 : GLIB_getClipCode ctx x2 y2 = 0 := (GLIB_getClipCode_eq_zero ctx x2 y2).mpr i2
  have b3 : x2 < 46341 := by omega
  have b4 : y2 < 46341 := by omega
  refine ⟨fun hL h3 h4 => ?_, fun hR h3 h4 => ?_, fun hB h3 h4 => ?_, fun hT h3 h4 => ?_⟩
  · have hc1 : GLIB_getClipCode ctx x1 y1 ≠ 0 := fun h => by
      have := (GLIB_getClipCode_eq_zero ctx x1 y1).mp h
      omega
    obtain ⟨v, hv, hf, hv1, hv2⟩ := clipMove_between y1 y2 ctx.clippingRegion.xMin x1 x2
      b2 b4 b1 b3 (by omega)
    have hm : clipMoved ctx (GLIB_getClipCode ctx x1 y1) x y x1 y1 x2 y2 =
        some (ctx.clippingRegion.xMin, v) := by
      unfold clipMoved
      rw [if_pos ((GLIB_getClipCode_bits ctx x1 y1).1.mpr hL), hv]; rfl
    have hin : ctx.clippingRegion.xMin ≤ ctx.clippingRegion.xMin ∧
        ctx.clippingRegion.xMin ≤ ctx.clippingRegion.xMax ∧
        ctx.clippingRegion.yMin ≤ v ∧ v ≤ ctx.clippingRegion.yMax := by omega
    exact ⟨v, GLIB_clipLine_one_move ctx fuel x y x1 y1 x2 y2 _ _ hc1 hc2 hm
      ((GLIB_getClipCode_eq_zero ctx _ _).mpr hin),
      GLIB_clipLine_needs_move ctx x y x1 y1 x2 y2 _ _ hc1 hc2 hm, hf,
      GLIB_rectContainsPoint_eq_one.mpr hin⟩
  · have hc1 : GLIB_getClipCode ctx x1 y1 ≠ 0 := fun h => by
      have := (GLIB_getClipCode_eq_zero ctx x1 y1).mp h
      omega
    obtain ⟨v, hv, hf, hv1, hv2⟩ := clipMove_between y1 y2 ctx.clippingRegion.xMax x1 x2
      b2 b4 b1 b3 (by omega)
    have hm : clipMoved ctx (GLIB_getClipCode ctx x1 y1) x y x1 y1 x2 y2 =
        some (ctx.clippingRegion.xMax, v) := by
      unfold clipMoved
      rw [if_neg (by rw [not_not]; by_contra h
                     have := (GLIB_getClipCode_bits ctx x1 y1).1.mp h; omega),
        if_pos ((GLIB_getClipCode_bits ctx x1 y1).2.1.mpr hR), hv]; rfl
    have hin : ctx.clippingRegion.xMin ≤ ctx.clippingRegion.xMax ∧
        ctx.clippingRegion.xMax ≤ ctx.clippingRegion.xMax ∧
        ctx.clippingRegion.yMin ≤ v ∧ v ≤ ctx.clippingRegion.yMax := by omega
    exact ⟨v, GLIB_clipLine_one_move ctx fuel x y x1 y1 x2 y2 _ _ hc1 hc2 hm
      ((GLIB_getClipCode_eq_zero ctx _ _).mpr hin),
      GLIB_clipLine_needs_move ctx x y x1 y1 x2 y2 _ _ hc1 hc2 hm, hf,
      GLIB_rectContainsPoint_eq_one.mpr hin⟩
  · have hc1 : GLIB_getClipCode ctx x1 y1 ≠ 0 := fun h => by
      have := (GLIB_getClipCode_eq_zero ctx x1 y1).mp h
      omega
    obtain ⟨v, hv, hf, hv1, hv2⟩ := clipMove_between x1 x2 ctx.clippingRegion.yMax y1 y2
      b1 b3 b2 b4 (by omega)
    have hm : clipMoved ctx (GLIB_getClipCode ctx x1 y1) x y x1 y1 x2 y2 =
        some (v, ctx.clippingRegion.yMax) := by
      unfold clipMoved
      rw [if_neg (by rw [not_not]; by_contra h
                     have := (GLIB_getClipCode_bits ctx x1 y1).1.mp h; omega),
        if_neg (by rw [not_not]; by_contra h
                   have := (GLIB_getClipCode_bits ctx x1 y1).2.1.mp h; omega),
        if_pos ((GLIB_getClipCode_bits ctx x1 y1).2.2.1.mpr hB), hv]; rfl
    have hin : ctx.clippingRegion.xMin ≤ v ∧ v ≤ ctx.clippingRegion.xMax ∧
        ctx.clippingRegion.yMin ≤ ctx.clippingRegion.yMax ∧
        ctx.clippingRegion.yMax ≤ ctx.clippingRegion.yMax := by omega
    exact ⟨v, GLIB_clipLine_one_move ctx fuel x y x1 y1 x2 y2 _ _ hc1 hc2 hm
      ((GLIB_getClipCode_eq_zero ctx _ _).mpr hin),
      GLIB_clipLine_needs_move ctx x y x1 y1 x2 y2 _ _ hc1 hc2 hm, hf,
      GLIB_rectContainsPoint_eq_one.mpr hin⟩
  · have hc1 : GLIB_getClipCode ctx x1 y1 ≠ 0 := fun h => by
      have := (GLIB_getClipCode_eq_zero ctx x1 y1).mp h
      omega
    obtain ⟨v, hv, hf, hv1, hv2⟩ := clipMove_between x1 x2 ctx.clippingRegion.yMin y1 y2
      b1 b3 b2 b4 (by omega)
    have hm : clipMoved ctx (GLIB_getClipCode ctx x1 y1) x y x1 y1 x2 y2 =
        some (v, ctx.clippingRegion.yMin) := by
      unfold clipMoved
      rw [if_neg (by rw [not_not]; by_contra h
                     have := (GLIB_getClipCode_bits ctx x1 y1).1.mp h; omega),
        if_neg (by rw [not_not]; by_contra h
                   have := (GLIB_getClipCode_bits ctx x1 y1).2.1.mp h; omega),
        if_neg (by rw [not_not]; by_contra h
                   have := (GLIB_getClipCode_bits ctx x1 y1).2.2.1.mp h; omega),
        if_pos ((GLIB_getClipCode_bits ctx x1 y1).2.2.2.1.mpr hT), hv]; rfl
    have hin : ctx.clippingRegion.xMin ≤ v ∧ v ≤ ctx.clippingRegion.xMax ∧
        ctx.clippingRegion.yMin ≤ ctx.clippingRegion.yMin ∧
        ctx.clippingRegion.yMin ≤ ctx.clippingRegion.yMax := by omega
    exact ⟨v, GLIB_clipLine_one_move ctx fuel x y x1 y1 x2 y2 _ _ hc1 hc2 hm
      ((GLIB_getClipCode_eq_zero ctx _ _).mpr hin),
      GLIB_clipLine_needs_move ctx x y x1 y1 x2 y2 _ _ hc1 hc2 hm, hf,
      GLIB_rectContainsPoint_eq_one.mpr hin⟩

/-- In `demoContext` (clip region `(10,10)-(200,100)`): the segment from
`(0,20)` to `(30,31)` is cut at `(10,23)`, the segment from `(300,50)` to
`(100,60)` at `(200,55)`, the segment from `(50,150)` to `(60,50)` at
`(55,100)` and the segment from `(50,0)` to `(61,30)` at `(53,10)`. -/
theorem C32_clip_single_move_amended_witness :
    (∃ ny : Nat,
      GLIB_clipLine demoContext (0 + 2) 0 0 0 20 30 31 =
        some (1, demoContext.clippingRegion.xMin, ny, 30, 31) ∧
      GLIB_clipLine demoContext 1 0 0 0 20 30 31 = none ∧
      (ny : Int) = ((20 : Nat) : Int) +
        Int.tdiv ((((31 : Nat) : Int) - ((20 : Nat) : Int)) *
          ((demoContext.clippingRegion.xMin : Int) - ((0 : Nat) : Int)))
          (((30 : Nat) : Int) - ((0 : Nat) : Int)) ∧
      GLIB_rectContainsPoint demoContext.clippingRegion demoContext.clippingRegion.xMin ny
        = 1) ∧
    (∃ ny : Nat,
      GLIB_clipLine demoContext (0 + 2) 0 0 300 50 100 60 =
        some (1, demoContext.clippingRegion.xMax, ny, 100, 60) ∧
      GLIB_clipLine demoContext 1 0 0 300 50 100 60 = none ∧
      (ny : Int) = ((50 : Nat) : Int) +
        Int.tdiv ((((60 : Nat) : Int) - ((50 : Nat) : Int)) *
          ((demoContext.clippingRegion.xMax : Int) - ((300 : Nat) : Int)))
          (((100 : Nat) : Int) - ((300 : Nat) : Int)) ∧
      GLIB_rectContainsPoint demoContext.clippingRegion demoContext.clippingRegion.xMax ny
        = 1) ∧
    (∃ nx : Nat,
      GLIB_clipLine demoContext (0 + 2) 0 0 50 150 60 50 =
        some (1, nx, demoContext.clippingRegion.yMax, 60, 50) ∧
      GLIB_clipLine demoContext 1 0 0 50 150 60 50 = none ∧
      (nx : Int) = ((50 : Nat) : Int) +
        Int.tdiv ((((60 : Nat) : Int) - ((50 : Nat) : Int)) *
          ((demoContext.clippingRegion.yMax : Int) - ((150 : Nat) : Int)))
          (((50 : Nat) : Int) - ((150 : Nat) : Int)) ∧
      GLIB_rectContainsPoint demoContext.clippingRegion nx demoContext.clippingRegion.yMax
        = 1) ∧
    (∃ nx : Nat,
      GLIB_clipLine demoContext (0 + 2) 0 0 50 0 61 30 =
        some (1, nx, demoContext.clippingRegion.yMin, 61, 30) ∧
      GLIB_clipLine demoContext 1 0 0 50 0 61 30 = none ∧
      (nx : Int) = ((50 : Nat) : Int) +
        Int.tdiv ((((61 : Nat) : Int) - ((50 : Nat) : Int)) *
          ((demoContext.clippingRegion.yMin : Int) - ((0 : Nat) : Int)))
          (((30 : Nat) : Int) - ((0 : Nat) : Int)) ∧
      GLIB_rectContainsPoint demoContext.clippingRegion nx demoContext.clippingRegion.yMin
        = 1) ∧
    GLIB_clipLine demoContext 2 0 0 0 20 30 31 = some (1, 10, 23, 30, 31) ∧
    GLIB_clipLine demoContext 2 0 0 300 50 100 60 = some (1, 200, 55, 100, 60) ∧
    GLIB_clipLine demoContext 2 0 0 50 150 60 50 = some (1, 55, 100, 60, 50) ∧
    GLIB_clipLine demoContext 2 0 0 50 0 61 30 = some (1, 53, 10, 61, 30) :=
  ⟨(C32_clip_single_move_amended demoContext 0 0 0 0 20 30 31 (by decide) (by decide)
      (by decide) (by decide) (by decide)).1 (by decide) (by decide) (by decide),
   (C32_clip_single_move_amended demoContext 0 0 0 300 50 100 60 (by decide) (by decide)
      (by decide) (by decide) (by decide)).2.1 (by decide) (by decide) (by decide),
   (C32_clip_single_move_amended demoContext 0 0 0 50 150 60 50 (by decide) (by decide)
      (by decide) (by decide) (by decide)).2.2.1 (by decide) (by decide) (by decide),
   (C32_clip_single_move_amended demoContext 0 0 0 50 0 61 30 (by decide) (by decide)
      (by decide) (by decide) (by decide)).2.2.2 (by decide) (by decide) (by decide),
   by decide, by decide, by decide, by decide⟩

/-! ## C38: the hardware clip window -/

theorem windowRun_fresh (ctx : GLIB_Context) (rel : Bool) (win w : Nat × Nat × Nat × Nat)
    (l : List DMDCall) (h : windowRun ctx rel win false l = some w) :
    windowRun ctx rel win true l = some w := by
  cases l with
  | nil => exact h
  | cons c rest =>
    cases c with
    | setClippingArea x y a b => exact h
    | writeColor x y r g b n =>
      simp only [windowRun] at h ⊢
      by_cases hc : win = fullDisplay ctx
      · simp only [hc, true_or, if_true] at h ⊢; exact h
      · simp [hc] at h
    | writeData x y d n =>
      simp only [windowRun] at h ⊢
      by_cases hc : win = fullDisplay ctx
      · simp only [hc, true_or, if_true] at h ⊢; exact h
      · simp [hc] at h

theorem windowRun_append (ctx : GLIB_Context) (rel : Bool) (l2 : List DMDCall)
    (w1 w2 : Nat × Nat × Nat × Nat) (h2 : windowRun ctx rel w1 false l2 = some w2) :
    ∀ (l1 : List DMDCall) (win : Nat × Nat × Nat × Nat) (fresh : Bool),
      windowRun ctx rel win fresh l1 = some w1 →
      windowRun ctx rel win fresh (l1 ++ l2) = some w2 := by
  intro l1
  induction l1 with
  | nil =>
    intro win fresh h1
    simp only [windowRun, Option.some.injEq] at h1
    subst h1
    cases fresh
    · exact h2
    · exact windowRun_fresh ctx rel _ _ _ h2
  | cons c rest ih =>
    intro win fresh h1
    cases c with
    | setClippingArea x y a b =>
      simp only [List.cons_append, windowRun] at h1 ⊢
      exact ih _ _ h1
    | writeColor x y r g b n =>
      simp only [List.cons_append, windowRun] at h1 ⊢
      split_ifs at h1 ⊢ with hc
      exact ih _ _ h1
    | writeData x y d n =>
      simp only [List.cons_append, windowRun] at h1 ⊢
      split_ifs at h1 ⊢ with hc
      exact ih _ _ h1

theorem WindowKept.unchanged (ctx : GLIB_Context) (rel : Bool) (s : Surface) :
    WindowKept ctx rel s s :=
  fun hs hw => ⟨hs, hw, [], by simp [Issues], rfl⟩

theorem WindowKept.andThen {ctx : GLIB_Context} {rel : Bool} {s t u : Surface}
    (h1 : WindowKept ctx rel s t) (h2 : WindowKept ctx rel t u) : WindowKept ctx rel s u := by
  intro hs hw
  obtain ⟨hs1, hw1, l1, e1, r1⟩ := h1 hs hw
  obtain ⟨hs2, hw2, l2, e2, r2⟩ := h2 hs1 hw1
  refine ⟨hs2, hw2, l1 ++ l2, ?_, windowRun_append ctx rel l2 _ _ r2 l1 _ _ r1⟩
  unfold Issues at e1 e2 ⊢
  rw [e2, e1, List.append_assoc]

/-- The reset of the hardware clip window on a surface that never fails. -/
theorem GLIB_resetDisplayClippingArea_kept (ctx : GLIB_Context) (rel : Bool) (s : Surface) :
    WindowKept ctx rel s (GLIB_resetDisplayClippingArea ctx s).2 := by
  intro hs hw
  have h0 : s.status s.calls.length = 0 := hs _
  refine ⟨neverFails_of_status_eq (by simp [GLIB_resetDisplayClippingArea_eq]) hs, ?_,
    [resetCall ctx], by simp [Issues, GLIB_resetDisplayClippingArea_eq, resetCall], ?_⟩
  · unfold fullWindow fullDisplay
    simp [GLIB_resetDisplayClippingArea, DMD_setClippingArea, h0]
  · simp [windowRun, resetCall, fullDisplay]

/-- A pixel draw on a surface that never fails: no call, or the reset and one
write in the window of the full display. -/
theorem GLIB_drawPixelColor_kept (ctx : GLIB_Context) (rel : Bool) (x y color : Nat) (s : Surface) :
    WindowKept ctx rel s (GLIB_drawPixelColor ctx x y color s).2 := by
  intro hs hw
  have h0 : ∀ n, s.status n = 0 := hs
  rw [GLIB_drawPixelColor_eq]
  by_cases hc : GLIB_rectContainsPoint ctx.clippingRegion x y = 1
  · rw [if_pos hc, if_neg (by simpa using h0 _)]
    refine ⟨neverFails_of_status_eq (by simp [GLIB_resetDisplayClippingArea_eq]) hs, ?_,
      [resetCall ctx, DMDCall.writeColor x y (GLIB_colorTranslate24bpp color).1
        (GLIB_colorTranslate24bpp color).2.1 (GLIB_colorTranslate24bpp color).2.2 1], ?_, ?_⟩
    · unfold fullWindow fullDisplay
      simp [GLIB_resetDisplayClippingArea, DMD_setClippingArea, DMD_writeColor, h0]
    · simp [Issues, GLIB_resetDisplayClippingArea_eq, resetCall]
    · simp [windowRun, resetCall, fullDisplay]
  · rw [if_neg hc]
    exact WindowKept.unchanged ctx rel s hs hw

theorem GLIB_drawPixel_kept (ctx : GLIB_Context) (rel : Bool) (x y : Nat) (s : Surface) :
    WindowKept ctx rel s (GLIB_drawPixel ctx x y s).2 :=
  GLIB_drawPixelColor_kept ctx rel x y ctx.foregroundColor s

/-- The horizontal line on a surface that never fails: no call, the reset
alone, or the reset and one write in the window of the full display. -/
theorem GLIB_drawLineH_kept (ctx : GLIB_Context) (rel : Bool) (x1 y1 x2 : Nat) (s : Surface) :
    WindowKept ctx rel s (GLIB_drawLineH ctx x1 y1 x2 s).2 := by
  intro hs hw
  have h0 : ∀ n, s.status n = 0 := hs
  refine ⟨(GLIB_drawLineH_nf ctx x1 y1 x2 s hs).2, ?_⟩
  rw [GLIB_drawLineH_eq]
  by_cases hy : y1 < ctx.clippingRegion.yMin ∨ y1 > ctx.clippingRegion.yMax
  · rw [if_pos hy]
    exact (WindowKept.unchanged ctx rel s hs hw).2
  · rw [if_neg hy, if_neg (by simpa using h0 _)]
    by_cases hx : min x1 x2 > ctx.clippingRegion.xMax ∨ max x1 x2 < ctx.clippingRegion.xMin
    · rw [if_pos hx]
      exact (GLIB_resetDisplayClippingArea_kept ctx rel s hs hw).2
    · rw [if_neg hx]
      refine ⟨?_, [resetCall ctx, DMDCall.writeColor (max ctx.clippingRegion.xMin (min x1 x2)) y1
        (GLIB_colorTranslate24bpp ctx.foregroundColor).1
        (GLIB_colorTranslate24bpp ctx.foregroundColor).2.1
        (GLIB_colorTranslate24bpp ctx.foregroundColor).2.2
        (toU32 ((min (max x1 x2) ctx.clippingRegion.xMax : Nat) -
          (max ctx.clippingRegion.xMin (min x1 x2) : Nat) + 1))], ?_, ?_⟩
      · unfold fullWindow fullDisplay
        simp [GLIB_resetDisplayClippingArea, DMD_setClippingArea, DMD_writeColor, h0]
      · simp [Issues, GLIB_resetDisplayClippingArea_eq, resetCall]
      · simp [windowRun, resetCall, fullDisplay]

/-- The vertical line on a surface that never fails: no call, or a window one
pixel wide, one write at its origin and the reset. -/
theorem GLIB_drawLineV_kept (ctx : GLIB_Context) (x1 y1 y2 : Nat) (s : Surface) :
    WindowKept ctx true s (GLIB_drawLineV ctx x1 y1 y2 s).2 := by
  intro hs hw
  have h0 : ∀ n, s.status n = 0 := hs
  refine ⟨(GLIB_drawLineV_nf ctx x1 y1 y2 s hs).2, ?_⟩
  rw [GLIB_drawLineV_eq]
  by_cases hx : x1 < ctx.clippingRegion.xMin ∨ x1 > ctx.clippingRegion.xMax
  · rw [if_pos hx]
    exact (WindowKept.unchanged ctx true s hs hw).2
  · rw [if_neg hx]
    by_cases hy : min y1 y2 > ctx.clippingRegion.yMax ∨ max y1 y2 < ctx.clippingRegion.yMin
    · rw [if_pos hy]
      exact (WindowKept.unchanged ctx true s hs hw).2
    · rw [if_neg hy, if_neg (by simpa using h0 _), if_neg (by simpa using h0 _)]
      refine ⟨?_, [DMDCall.setClippingArea x1 (max ctx.clippingRegion.yMin (min y1 y2)) 1
          (toU16 ((min (max y1 y2) ctx.clippingRegion.yMax : Nat) -
            (max ctx.clippingRegion.yMin (min y1 y2) : Nat) + 1)),
        DMDCall.writeColor 0 0 (GLIB_colorTranslate24bpp ctx.foregroundColor).1
          (GLIB_colorTranslate24bpp ctx.foregroundColor).2.1
          (GLIB_colorTranslate24bpp ctx.foregroundColor).2.2
          (toU16 ((min (max y1 y2) ctx.clippingRegion.yMax : Nat) -
            (max ctx.clippingRegion.yMin (min y1 y2) : Nat) + 1)),
        resetCall ctx], ?_, ?_⟩
      · unfold fullWindow fullDisplay
        simp [GLIB_resetDisplayClippingArea, DMD_setClippingArea, DMD_writeColor, h0]
      · simp [Issues, GLIB_resetDisplayClippingArea_eq, resetCall]
      · simp [windowRun, resetCall, fullDisplay]

/-- The filled rectangle on a surface that never fails: the window of the
rectangle, one write at its origin and the reset. -/
theorem GLIB_drawRectFilled_kept (ctx : GLIB_Context) (rect : GLIB_Rectangle) (s : Surface) :
    WindowKept ctx true s (GLIB_drawRectFilled ctx rect s).2 := by
  intro hs hw
  have h0 : ∀ n, s.status n = 0 := hs
  refine ⟨neverFails_of_status_eq ?_ hs, ?_, ?_⟩
  · simp [GLIB_drawRectFilled, GLIB_resetDisplayClippingArea, DMD_setClippingArea,
      DMD_writeColor, h0]
  · unfold fullWindow fullDisplay
    simp [GLIB_drawRectFilled, GLIB_resetDisplayClippingArea, DMD_setClippingArea,
      DMD_writeColor, h0]
  · refine ⟨[DMDCall.setClippingArea (clampRect ctx (GLIB_normalizeRect rect)).xMin
        (clampRect ctx (GLIB_normalizeRect rect)).yMin
        (toU16 (((clampRect ctx (GLIB_normalizeRect rect)).xMax : Int) -
          ((clampRect ctx (GLIB_normalizeRect rect)).xMin : Int) + 1))
        (toU16 (((clampRect ctx (GLIB_normalizeRect rect)).yMax : Int) -
          ((clampRect ctx (GLIB_normalizeRect rect)).yMin : Int) + 1)),
      DMDCall.writeColor 0 0 (GLIB_colorTranslate24bpp ctx.foregroundColor).1
        (GLIB_colorTranslate24bpp ctx.foregroundColor).2.1
        (GLIB_colorTranslate24bpp ctx.foregroundColor).2.2
        (toU32 (toI32 (((toU16 (((clampRect ctx (GLIB_normalizeRect rect)).xMax : Int) -
          ((clampRect ctx (GLIB_normalizeRect rect)).xMin : Int) + 1) : Nat) : Int) *
          ((toU16 (((clampRect ctx (GLIB_normalizeRect rect)).yMax : Int) -
          ((clampRect ctx (GLIB_normalizeRect rect)).yMin : Int) + 1) : Nat) : Int)))),
      resetCall ctx], ?_, ?_⟩
    · simp [Issues, GLIB_drawRectFilled, GLIB_resetDisplayClippingArea, DMD_setClippingArea,
        DMD_writeColor, h0, resetCall]
    · simp [windowRun, resetCall, fullDisplay]

/-- The bitmap on a surface that never fails: the window of the bitmap, one
transfer at its origin and the reset. -/
theorem GLIB_drawBitmap_kept (ctx : GLIB_Context) (x y width height : Nat)
    (picData : List Nat) (s : Surface) :
    WindowKept ctx true s (GLIB_drawBitmap ctx x y width height picData s).2 := by
  intro hs hw
  have h0 : ∀ n, s.status n = 0 := hs
  refine ⟨neverFails_of_status_eq ?_ hs, ?_, ?_⟩
  · simp [GLIB_drawBitmap, GLIB_resetDisplayClippingArea, DMD_setClippingArea,
      DMD_writeData, h0]
  · unfold fullWindow fullDisplay
    simp [GLIB_drawBitmap, GLIB_resetDisplayClippingArea, DMD_setClippingArea,
      DMD_writeData, h0]
  · refine ⟨[DMDCall.setClippingArea x y width height,
      DMDCall.writeData 0 0 picData (toU32 (toI32 ((width : Int) * (height : Int)))),
      resetCall ctx], ?_, ?_⟩
    · simp [Issues, GLIB_drawBitmap, GLIB_resetDisplayClippingArea, DMD_setClippingArea,
        DMD_writeData, h0, resetCall]
    · simp [windowRun, resetCall, fullDisplay]

/-- The outline of a rectangle: up to four lines in sequence. -/
theorem GLIB_drawRect_kept (ctx : GLIB_Context) (rect : GLIB_Rectangle) (s : Surface) :
    WindowKept ctx true s (GLIB_drawRect ctx rect s).2 := by
  have k1 := GLIB_drawLineH_kept ctx true (clampRect ctx (GLIB_normalizeRect rect)).xMin
    (clampRect ctx (GLIB_normalizeRect rect)).yMin
    (clampRect ctx (GLIB_normalizeRect rect)).xMax s
  have k2 := fun t => GLIB_drawLineV_kept ctx (clampRect ctx (GLIB_normalizeRect rect)).xMax
    (toU16 (((clampRect ctx (GLIB_normalizeRect rect)).yMin : Int) + 1))
    (clampRect ctx (GLIB_normalizeRect rect)).yMax t
  have k3 := fun t => GLIB_drawLineH_kept ctx true (clampRect ctx (GLIB_normalizeRect rect)).xMin
    (clampRect ctx (GLIB_normalizeRect rect)).yMax
    (toU16 (((clampRect ctx (GLIB_normalizeRect rect)).xMax : Int) - 1)) t
  have k4 := fun t => GLIB_drawLineV_kept ctx (clampRect ctx (GLIB_normalizeRect rect)).xMin
    (toU16 (((clampRect ctx (GLIB_normalizeRect rect)).yMin : Int) + 1))
    (toU16 (((clampRect ctx (GLIB_normalizeRect rect)).yMax : Int) - 1)) t
  unfold GLIB_drawRect
  simp only
  split_ifs
  · exact k1
  · exact k1
  · exact k1.andThen (k2 _)
  · exact k1.andThen (k2 _)
  · exact (k1.andThen (k2 _)).andThen (k3 _)
  · exact (k1.andThen (k2 _)).andThen (k3 _)
  · exact ((k1.andThen (k2 _)).andThen (k3 _)).andThen (k4 _)
  · exact ((k1.andThen (k2 _)).andThen (k3 _)).andThen (k4 _)

theorem lineLoop_kept (ctx : GLIB_Context) (rel : Bool) (steep : Bool)
    (deltaX deltaY yStep : Int) (x2 : Nat) :
    ∀ (fuel x1 y1 : Nat) (error : Int) (s : Surface) (r : EMSTATUS × Surface),
      lineLoop ctx steep deltaX deltaY yStep x2 fuel x1 y1 error s = some r →
      WindowKept ctx rel s r.2 := by
  intro fuel
  induction fuel with
  | zero => intro x1 y1 error s r h; simp [lineLoop] at h
  | succ n ih =>
    intro x1 y1 error s r h
    rw [lineLoop_succ] at h
    have hpix : WindowKept ctx rel s
        (if steep then GLIB_drawPixel ctx y1 x1 s else GLIB_drawPixel ctx x1 y1 s).2 := by
      split_ifs
      · exact GLIB_drawPixel_kept ctx rel _ _ s
      · exact GLIB_drawPixel_kept ctx rel _ _ s
    by_cases hle : x1 ≤ x2
    · rw [if_pos hle] at h
      by_cases hst : (if steep then GLIB_drawPixel ctx y1 x1 s
          else GLIB_drawPixel ctx x1 y1 s).1 ≠ 0
      · rw [if_pos hst] at h
        cases h; exact hpix
      · rw [if_neg hst] at h
        by_cases herr : toI16 (error + deltaY) > 0
        · rw [if_pos herr] at h
          exact hpix.andThen (ih _ _ _ _ _ h)
        · rw [if_neg herr] at h
          exact hpix.andThen (ih _ _ _ _ _ h)
    · rw [if_neg hle] at h
      cases h; exact WindowKept.unchanged ctx rel s

/-- A line, when `GLIB_drawLine` returns. -/
theorem GLIB_drawLine_kept (ctx : GLIB_Context) (fuel x1 y1 x2 y2 : Nat) (s : Surface)
    (r : EMSTATUS × Surface) (h : GLIB_drawLine fuel ctx x1 y1 x2 y2 s = some r) :
    WindowKept ctx true s r.2 := by
  have hreset := GLIB_resetDisplayClippingArea_kept ctx true s
  by_cases hx : x1 = x2
  · rw [GLIB_drawLine, if_pos hx] at h
    cases h; exact GLIB_drawLineV_kept ctx _ _ _ s
  by_cases hy : y1 = y2
  · rw [GLIB_drawLine, if_neg hx, if_pos hy] at h
    cases h; exact GLIB_drawLineH_kept ctx true _ _ _ s
  rw [GLIB_drawLine_general fuel ctx x1 y1 x2 y2 s hx hy] at h
  by_cases hr : s.status s.calls.length ≠ 0
  · rw [if_pos hr] at h
    cases h; exact hreset
  · rw [if_neg hr] at h
    cases hc : GLIB_clipLine ctx fuel 0 0 x1 y1 x2 y2 with
    | none => simp [hc] at h
    | some c =>
      simp only [hc] at h
      by_cases h0 : c.1 = 0
      · rw [if_pos h0] at h
        cases h; exact hreset
      · rw [if_neg h0] at h
        exact hreset.andThen (lineLoop_kept ctx true _ _ _ _ _ _ _ _ _ _ _ h)

theorem circlePointsLoop_kept (ctx : GLIB_Context) (rel : Bool) (xCenter yCenter : Nat) :
    ∀ (l : List (Int × Int)) (didDraw : Nat) (s : Surface),
      WindowKept ctx rel s (circlePointsLoop ctx xCenter yCenter l didDraw s).2 := by
  intro l
  induction l with
  | nil => intro didDraw s; exact WindowKept.unchanged ctx rel s
  | cons o rest ih =>
    intro didDraw s
    rw [circlePointsLoop]
    by_cases h1 : (GLIB_drawPixel ctx (toU16 ((xCenter : Int) + o.1))
        (toU16 ((yCenter : Int) + o.2)) s).1 ≠ 0 ∧
        (GLIB_drawPixel ctx (toU16 ((xCenter : Int) + o.1))
          (toU16 ((yCenter : Int) + o.2)) s).1 ≠ GLIB_DID_NOT_DRAW
    · simp only [if_pos h1]
      exact GLIB_drawPixel_kept ctx rel _ _ s
    · simp only [if_neg h1]
      exact (GLIB_drawPixel_kept ctx rel _ _ s).andThen (ih _ _)

theorem partialCirclePointsLoop_kept (ctx : GLIB_Context) (rel : Bool) (xCenter yCenter : Nat) :
    ∀ (l : List (Int × Int)) (bitMask didDraw : Nat) (s : Surface),
      WindowKept ctx rel s (partialCirclePointsLoop ctx xCenter yCenter l bitMask didDraw s).2 := by
  intro l
  induction l with
  | nil => intro bitMask didDraw s; exact WindowKept.unchanged ctx rel s
  | cons o rest ih =>
    intro bitMask didDraw s
    rw [partialCirclePointsLoop]
    by_cases hb : bitMask &&& 1 ≠ 0
    · rw [if_pos hb]
      by_cases h1 : (GLIB_drawPixel ctx (toU16 ((xCenter : Int) + o.1))
          (toU16 ((yCenter : Int) + o.2)) s).1 ≠ 0 ∧
          (GLIB_drawPixel ctx (toU16 ((xCenter : Int) + o.1))
            (toU16 ((yCenter : Int) + o.2)) s).1 ≠ GLIB_DID_NOT_DRAW
      · simp only [if_pos h1]
        exact GLIB_drawPixel_kept ctx rel _ _ s
      · simp only [if_neg h1]
        exact (GLIB_drawPixel_kept ctx rel _ _ s).andThen (ih _ _ _)
    · rw [if_neg hb]
      exact ih _ _ _

theorem circleStep_kept (ctx : GLIB_Context) (rel : Bool) (xCenter yCenter x y didDraw : Nat)
    (s : Surface) : WindowKept ctx rel s (circleStep ctx xCenter yCenter x y didDraw s).2.2 := by
  unfold circleStep GLIB_drawCirclePoints
  simp only
  split_ifs <;> exact circlePointsLoop_kept ctx rel xCenter yCenter _ _ s

theorem partialCircleStep_kept (ctx : GLIB_Context) (rel : Bool)
    (xCenter yCenter bitMask x y didDraw : Nat)
    (s : Surface) :
    WindowKept ctx rel s (partialCircleStep ctx xCenter yCenter bitMask x y didDraw s).2.2 := by
  unfold partialCircleStep GLIB_drawPartialCirclePoints
  simp only
  split_ifs <;> exact partialCirclePointsLoop_kept ctx rel xCenter yCenter _ _ _ s

theorem filledLine_kept (ctx : GLIB_Context) (rel : Bool) (x1 y x2 : Int) (s : Surface)
    (acc : Option EMSTATUS × Nat × Surface) (h : WindowKept ctx rel s acc.2.2) :
    WindowKept ctx rel s (filledLine ctx x1 y x2 acc).2.2 := by
  unfold filledLine
  cases h1 : acc.1 with
  | some e => exact h
  | none =>
    simp only
    split_ifs <;> exact h.andThen (GLIB_drawLineH_kept ctx rel _ _ _ _)

theorem filledCircleStep_kept (ctx : GLIB_Context) (rel : Bool) (xCenter yCenter x y didDraw : Nat)
    (s : Surface) :
    WindowKept ctx rel s (filledCircleStep ctx xCenter yCenter x y didDraw s).2.2 := by
  unfold filledCircleStep
  exact filledLine_kept ctx rel _ _ _ s _ (filledLine_kept ctx rel _ _ _ s _
    (filledLine_kept ctx rel _ _ _ s _ (filledLine_kept ctx rel _ _ _ s _
      (WindowKept.unchanged ctx rel s))))

theorem midpointLoop_kept (ctx : GLIB_Context) (rel : Bool) (step : CircleStep)
    (hstep : ∀ x y didDraw s, WindowKept ctx rel s (step x y didDraw s).2.2) :
    ∀ (fuel x y : Nat) (d : Int) (didDraw : Nat) (s : Surface) (r : EMSTATUS × Surface),
      midpointLoop step fuel x y d didDraw s = some r → WindowKept ctx rel s r.2 := by
  intro fuel
  induction fuel with
  | zero => intro x y d dd s r h; simp [midpointLoop] at h
  | succ f ih =>
    intro x y d dd s r h
    rw [midpointLoop] at h
    by_cases hxy : x < y
    · rw [if_pos hxy] at h
      cases hst : (step (midpointNext x y d).1 (midpointNext x y d).2.1 dd s).1 with
      | some e =>
        rw [hst] at h
        simp only [Option.some.injEq] at h
        rw [← h]
        exact hstep _ _ _ _
      | none =>
        rw [hst] at h
        simp only at h
        exact (hstep _ _ _ _).andThen (ih _ _ _ _ _ _ h)
    · rw [if_neg hxy] at h
      simp only [Option.some.injEq] at h
      rw [← h]
      exact WindowKept.unchanged ctx rel s

theorem GLIB_drawCircle_kept (ctx : GLIB_Context) (rel : Bool) (fuel xCenter yCenter radius : Nat)
    (s : Surface) (r : EMSTATUS × Surface)
    (h : GLIB_drawCircle fuel ctx xCenter yCenter radius s = some r) :
    WindowKept ctx rel s r.2 := by
  have hreset := GLIB_resetDisplayClippingArea_kept ctx rel s
  unfold GLIB_drawCircle at h
  by_cases hc : GLIB_rectContainsPoint ctx.clippingRegion xCenter yCenter = 0
  · rw [if_pos hc] at h
    cases h; exact WindowKept.unchanged ctx rel s
  · rw [if_neg hc] at h
    simp only at h
    by_cases hr : (GLIB_resetDisplayClippingArea ctx s).1 ≠ 0
    · rw [if_pos hr] at h
      cases h; exact hreset
    · rw [if_neg hr] at h
      have hk := circleStep_kept ctx rel xCenter yCenter 0 radius 0
        (GLIB_resetDisplayClippingArea ctx s).2
      cases hst : (circleStep ctx xCenter yCenter 0 radius 0
          (GLIB_resetDisplayClippingArea ctx s).2).1 with
      | some e =>
        rw [hst] at h
        simp only [Option.some.injEq] at h
        rw [← h]
        exact hreset.andThen hk
      | none =>
        rw [hst] at h
        simp only at h
        exact (hreset.andThen hk).andThen (midpointLoop_kept ctx rel _
          (fun x y dd t => circleStep_kept ctx rel xCenter yCenter x y dd t) _ _ _ _ _ _ _ h)

theorem GLIB_drawPartialCircle_kept (ctx : GLIB_Context) (rel : Bool)
    (fuel xCenter yCenter radius bitMask : Nat) (s : Surface) (r : EMSTATUS × Surface)
    (h : GLIB_drawPartialCircle fuel ctx xCenter yCenter radius bitMask s = some r) :
    WindowKept ctx rel s r.2 := by
  unfold GLIB_drawPartialCircle at h
  by_cases hc : GLIB_rectContainsPoint ctx.clippingRegion xCenter yCenter = 0
  · rw [if_pos hc] at h
    cases h; exact WindowKept.unchanged ctx rel s
  · rw [if_neg hc] at h
    simp only at h
    have hk := partialCircleStep_kept ctx rel xCenter yCenter bitMask 0 radius 0 s
    cases hst : (partialCircleStep ctx xCenter yCenter bitMask 0 radius 0 s).1 with
    | some e =>
      rw [hst] at h
      simp only [Option.some.injEq] at h
      rw [← h]
      exact hk
    | none =>
      rw [hst] at h
      simp only at h
      exact hk.andThen (midpointLoop_kept ctx rel _
        (fun x y dd t => partialCircleStep_kept ctx rel xCenter yCenter bitMask x y dd t)
        _ _ _ _ _ _ _ h)

theorem GLIB_drawCircleFilled_kept (ctx : GLIB_Context) (rel : Bool)
    (fuel xCenter yCenter radius : Nat)
    (s : Surface) (r : EMSTATUS × Surface)
    (h : GLIB_drawCircleFilled fuel ctx xCenter yCenter radius s = some r) :
    WindowKept ctx rel s r.2 := by
  unfold GLIB_drawCircleFilled at h
  by_cases hc : GLIB_rectContainsPoint ctx.clippingRegion xCenter yCenter = 0
  · rw [if_pos hc] at h
    cases h; exact WindowKept.unchanged ctx rel s
  · rw [if_neg hc] at h
    simp only at h
    have hk := filledLine_kept ctx rel ((xCenter : Int) - radius) (yCenter : Int)
      ((xCenter : Int) + radius) s (none, 0, s) (WindowKept.unchanged ctx rel s)
    cases hst : (filledLine ctx ((xCenter : Int) - radius) (yCenter : Int)
        ((xCenter : Int) + radius) (none, 0, s)).1 with
    | some e =>
      rw [hst] at h
      simp only [Option.some.injEq] at h
      rw [← h]
      exact hk
    | none =>
      rw [hst] at h
      simp only at h
      exact hk.andThen (midpointLoop_kept ctx rel _
        (fun x y dd t => filledCircleStep_kept ctx rel xCenter yCenter x y dd t) _ _ _ _ _ _ _ h)

theorem polygonLoop_kept (fuel : Nat) (ctx : GLIB_Context) (polyPoints : Nat → Nat) :
    ∀ (n counter startX startY endX endY didDraw : Nat) (s : Surface)
      (l : Option EMSTATUS × Nat × Nat × Nat × Surface),
      polygonLoop fuel ctx polyPoints n counter startX startY endX endY didDraw s = some l →
      WindowKept ctx true s l.2.2.2.2 := by
  intro n
  induction n with
  | zero =>
    intro counter startX startY endX endY didDraw s l h
    simp only [polygonLoop, Option.some.injEq] at h
    rw [← h]
    exact WindowKept.unchanged ctx true s
  | succ k ih =>
    intro counter startX startY endX endY didDraw s l h
    rw [polygonLoop] at h
    cases hd : GLIB_drawLine fuel ctx startX startY (polyPoints (2 * counter))
        (polyPoints (2 * counter + 1)) s with
    | none => rw [hd] at h; simp at h
    | some r =>
      rw [hd] at h
      simp only at h
      have hk := GLIB_drawLine_kept ctx fuel _ _ _ _ s r hd
      by_cases h1 : r.1 ≠ 0 ∧ r.1 ≠ GLIB_DID_NOT_DRAW
      · rw [if_pos h1] at h
        simp only [Option.some.injEq] at h
        rw [← h]
        exact hk
      · rw [if_neg h1] at h
        exact hk.andThen (ih _ _ _ _ _ _ _ _ h)

theorem GLIB_drawPolygon_kept (ctx : GLIB_Context) (fuel numPoints : Nat)
    (polyPoints : Nat → Nat) (s : Surface) (r : EMSTATUS × Surface)
    (h : GLIB_drawPolygon fuel ctx numPoints polyPoints s = some r) :
    WindowKept ctx true s r.2 := by
  unfold GLIB_drawPolygon at h
  by_cases hn : numPoints < 2
  · rw [if_pos hn] at h
    cases h; exact WindowKept.unchanged ctx true s
  · rw [if_neg hn] at h
    simp only at h
    cases hl : polygonLoop fuel ctx polyPoints (numPoints - 1) 1 (polyPoints 0) (polyPoints 1)
        0 0 0 s with
    | none => rw [hl] at h; simp at h
    | some l =>
      rw [hl] at h
      simp only at h
      have hk := polygonLoop_kept fuel ctx polyPoints _ _ _ _ _ _ _ s l hl
      cases he : l.1 with
      | some e =>
        rw [he] at h
        simp only [Option.some.injEq] at h
        rw [← h]
        exact hk
      | none =>
        rw [he] at h
        simp only at h
        by_cases hne : l.2.1 ≠ polyPoints 0 ∨ l.2.2.1 ≠ polyPoints 1
        · rw [if_pos hne] at h
          cases hd : GLIB_drawLine fuel ctx (polyPoints 0) (polyPoints 1) l.2.1 l.2.2.1
              l.2.2.2.2 with
          | none => rw [hd] at h; simp at h
          | some q =>
            rw [hd] at h
            simp only at h
            have hq := GLIB_drawLine_kept ctx fuel _ _ _ _ _ q hd
            by_cases h1 : q.1 ≠ 0 ∧ q.1 ≠ GLIB_DID_NOT_DRAW
            · rw [if_pos h1] at h
              simp only [Option.some.injEq] at h
              rw [← h]
              exact hk.andThen hq
            · rw [if_neg h1] at h
              simp only [Option.some.injEq] at h
              rw [← h]
              exact hk.andThen hq
        · rw [if_neg hne] at h
          simp only [Option.some.injEq] at h
          rw [← h]
          exact hk

theorem charRowLoop_kept (ctx : GLIB_Context) (rel : Bool) (x y row opq : Nat) :
    ∀ (n xOffset currentRow : Nat) (s : Surface),
      WindowKept ctx rel s (charRowLoop ctx x y row opq n xOffset currentRow s) := by
  intro n
  induction n with
  | zero => intro xOffset currentRow s; exact WindowKept.unchanged ctx rel s
  | succ k ih =>
    intro xOffset currentRow s
    rw [charRowLoop]
    by_cases hb : currentRow &&& 1 = 1
    · rw [if_pos hb]
      exact (GLIB_drawPixel_kept ctx rel _ _ s).andThen (ih _ _ _)
    · rw [if_neg hb]
      by_cases ho : opq = 1
      · rw [if_pos ho]
        exact (GLIB_drawPixelColor_kept ctx rel _ _ _ s).andThen (ih _ _ _)
      · rw [if_neg ho]
        exact ih _ _ _

theorem charLoop_kept (font : GLIB_Font) (ctx : GLIB_Context) (rel : Bool) (x y opq : Nat) :
    ∀ (n row fontIdx : Nat) (s : Surface),
      WindowKept ctx rel s (charLoop font ctx x y opq n row fontIdx s) := by
  intro n
  induction n with
  | zero => intro row fontIdx s; exact WindowKept.unchanged ctx rel s
  | succ k ih =>
    intro row fontIdx s
    rw [charLoop]
    exact (charRowLoop_kept ctx rel x y row opq _ _ _ s).andThen (ih _ _ _)

theorem GLIB_drawChar_kept (font : GLIB_Font) (ctx : GLIB_Context) (rel : Bool)
    (myChar x y opq : Nat)
    (s : Surface) : WindowKept ctx rel s (GLIB_drawChar font ctx myChar x y opq s).2 := by
  unfold GLIB_drawChar
  split_ifs
  · exact WindowKept.unchanged ctx rel s
  · exact WindowKept.unchanged ctx rel s
  · exact charLoop_kept font ctx rel x y opq _ _ _ s

theorem stringLoop_kept (font : GLIB_Font) (ctx : GLIB_Context) (rel : Bool) (x0 opq : Nat) :
    ∀ (l : List Nat) (x y didDraw : Nat) (s : Surface),
      WindowKept ctx rel s (stringLoop font ctx x0 opq l x y didDraw s).2 := by
  intro l
  induction l with
  | nil => intro x y didDraw s; exact WindowKept.unchanged ctx rel s
  | cons ch rest ih =>
    intro x y didDraw s
    rw [stringLoop]
    by_cases hn : ch = 10
    · rw [if_pos hn]
      exact ih _ _ _ _
    · rw [if_neg hn]
      by_cases h1 : (GLIB_drawChar font ctx ch x y opq s).1 ≠ 0 ∧
          (GLIB_drawChar font ctx ch x y opq s).1 ≠ GLIB_DID_NOT_DRAW
      · simp only [if_pos h1]
        exact GLIB_drawChar_kept font ctx rel ch x y opq s
      · simp only [if_neg h1]
        exact (GLIB_drawChar_kept font ctx rel ch x y opq s).andThen (ih _ _ _ _)

theorem GLIB_drawString_kept (font : GLIB_Font) (ctx : GLIB_Context) (rel : Bool)
    (pString : List Nat)
    (x0 y0 opq : Nat) (s : Surface) :
    WindowKept ctx rel s (GLIB_drawString font ctx pString x0 y0 opq s).2 :=
  stringLoop_kept font ctx rel x0 opq pString x0 y0 0 s

/-- C38: on a surface on which no call fails and whose hardware clip window is
the full display `(0, 0, xSize, ySize)`, after each of the thirteen drawing
functions the window is the full display again, and the driver calls it has
issued, replayed from the window of the full display, have their writes in
order.  For `GLIB_drawPixel`, `GLIB_drawLineH`, the three circle functions,
`GLIB_drawChar` and `GLIB_drawString`, whose writes use absolute coordinates,
every write is issued while the window is the full display; for
`GLIB_drawLineV`, `GLIB_drawLine`, `GLIB_drawRect`, `GLIB_drawRectFilled`,
`GLIB_drawPolygon` and `GLIB_drawBitmap` every write is issued while the
window is the full display or is the write at the origin `(0, 0)` of the
window that the call just before it has programmed.  The functions that take
fuel are covered when they return. -/
theorem C38_clip_window_restored (ctx : GLIB_Context) (s : Surface) (hs : neverFails s)
    (hw : fullWindow ctx s) :
    (∀ x y, windowRestored ctx false s (GLIB_drawPixel ctx x y s).2) ∧
    (∀ x1 y x2, windowRestored ctx false s (GLIB_drawLineH ctx x1 y x2 s).2) ∧
    (∀ x y1 y2, windowRestored ctx true s (GLIB_drawLineV ctx x y1 y2 s).2) ∧
    (∀ fuel x1 y1 x2 y2,
      windowRestoredOnReturn ctx true s (GLIB_drawLine fuel ctx x1 y1 x2 y2 s)) ∧
    (∀ rect, windowRestored ctx true s (GLIB_drawRect ctx rect s).2) ∧
    (∀ rect, windowRestored ctx true s (GLIB_drawRectFilled ctx rect s).2) ∧
    (∀ fuel xCenter yCenter radius,
      windowRestoredOnReturn ctx false s (GLIB_drawCircle fuel ctx xCenter yCenter radius s)) ∧
    (∀ fuel xCenter yCenter radius bitMask,
      windowRestoredOnReturn ctx false s
        (GLIB_drawPartialCircle fuel ctx xCenter yCenter radius bitMask s)) ∧
    (∀ fuel xCenter yCenter radius,
      windowRestoredOnReturn ctx false s
        (GLIB_drawCircleFilled fuel ctx xCenter yCenter radius s)) ∧
    (∀ fuel numPoints polyPoints,
      windowRestoredOnReturn ctx true s (GLIB_drawPolygon fuel ctx numPoints polyPoints s)) ∧
    (∀ font myChar x y opq,
      windowRestored ctx false s (GLIB_drawChar font ctx myChar x y opq s).2) ∧
    (∀ font pString x0 y0 opq,
      windowRestored ctx false s (GLIB_drawString font ctx pString x0 y0 opq s).2) ∧
    (∀ x y width height picData,
      windowRestored ctx true s (GLIB_drawBitmap ctx x y width height picData s).2) :=
  ⟨fun x y => (GLIB_drawPixel_kept ctx false x y s hs hw).2,
   fun x1 y x2 => (GLIB_drawLineH_kept ctx false x1 y x2 s hs hw).2,
   fun x y1 y2 => (GLIB_drawLineV_kept ctx x y1 y2 s hs hw).2,
   fun fuel x1 y1 x2 y2 r h => (GLIB_drawLine_kept ctx fuel x1 y1 x2 y2 s r h hs hw).2,
   fun rect => (GLIB_drawRect_kept ctx rect s hs hw).2,
   fun rect => (GLIB_drawRectFilled_kept ctx rect s hs hw).2,
   fun fuel xCenter yCenter radius r h =>
     (GLIB_drawCircle_kept ctx false fuel xCenter yCenter radius s r h hs hw).2,
   fun fuel xCenter yCenter radius bitMask r h =>
     (GLIB_drawPartialCircle_kept ctx false fuel xCenter yCenter radius bitMask s r h hs hw).2,
   fun fuel xCenter yCenter radius r h =>
     (GLIB_drawCircleFilled_kept ctx false fuel xCenter yCenter radius s r h hs hw).2,
   fun fuel numPoints polyPoints r h =>
     (GLIB_drawPolygon_kept ctx fuel numPoints polyPoints s r h hs hw).2,
   fun font myChar x y opq => (GLIB_drawChar_kept font ctx false myChar x y opq s hs hw).2,
   fun font pString x0 y0 opq =>
     (GLIB_drawString_kept font ctx false pString x0 y0 opq s hs hw).2,
   fun x y width height picData =>
     (GLIB_drawBitmap_kept ctx x y width height picData s hs hw).2⟩

/-- On `readySurface`, whose window is the full display of `demoContext`: a
pixel, the three kinds of lines, the two rectangles, the three circles, a
polygon, a character, a string and a bitmap; the functions that take fuel
return. -/
theorem C38_clip_window_restored_witness :
    windowRestored demoContext false readySurface
      (GLIB_drawPixel demoContext 20 20 readySurface).2 ∧
    windowRestored demoContext false readySurface
      (GLIB_drawLineH demoContext 5 20 30 readySurface).2 ∧
    windowRestored demoContext true readySurface
      (GLIB_drawLineV demoContext 20 5 30 readySurface).2 ∧
    windowRestoredOnReturn demoContext true readySurface
      (GLIB_drawLine 100 demoContext 0 0 30 20 readySurface) ∧
    windowRestored demoContext true readySurface
      (GLIB_drawRect demoContext ⟨20, 20, 30, 30⟩ readySurface).2 ∧
    windowRestored demoContext true readySurface
      (GLIB_drawRectFilled demoContext ⟨20, 20, 30, 30⟩ readySurface).2 ∧
    windowRestoredOnReturn demoContext false readySurface
      (GLIB_drawCircle 4 demoContext 50 50 3 readySurface) ∧
    windowRestoredOnReturn demoContext false readySurface
      (GLIB_drawPartialCircle 4 demoContext 50 50 3 5 readySurface) ∧
    windowRestoredOnReturn demoContext false readySurface
      (GLIB_drawCircleFilled 4 demoContext 50 50 3 readySurface) ∧
    windowRestoredOnReturn demoContext true readySurface
      (GLIB_drawPolygon 100 demoContext 3 trianglePoints readySurface) ∧
    windowRestored demoContext false readySurface
      (GLIB_drawChar demoFont demoContext 65 20 20 1 readySurface).2 ∧
    windowRestored demoContext false readySurface
      (GLIB_drawString demoFont demoContext [65, 10, 65] 20 20 0 readySurface).2 ∧
    windowRestored demoContext true readySurface
      (GLIB_drawBitmap demoContext 5 5 2 1 [1, 2, 3, 4, 5, 6] readySurface).2 ∧
    (GLIB_drawLine 100 demoContext 0 0 30 20 readySurface).isSome = true ∧
    (GLIB_drawCircle 4 demoContext 50 50 3 readySurface).isSome = true ∧
    (GLIB_drawPartialCircle 4 demoContext 50 50 3 5 readySurface).isSome = true ∧
    (GLIB_drawCircleFilled 4 demoContext 50 50 3 readySurface).isSome = true ∧
    (GLIB_drawPolygon 100 demoContext 3 trianglePoints readySurface).isSome = true ∧
    (GLIB_drawLineV demoContext 20 5 30 readySurface).2.calls =
      [DMDCall.setClippingArea 20 10 1 21, fgRun demoContext 0 0 21, resetCall demoContext] ∧
    windowRun demoContext true (fullDisplay demoContext) false
      [DMDCall.setClippingArea 20 10 1 21, fgRun demoContext 0 0 21, resetCall demoContext] =
      some (fullDisplay demoContext) ∧
    windowRun demoContext true (fullDisplay demoContext) false
      [DMDCall.setClippingArea 20 10 1 21, fgRun demoContext 20 10 21, resetCall demoContext] =
      none :=
  ⟨(C38_clip_window_restored demoContext readySurface (fun _ => rfl) (by decide)).1 20 20,
   (C38_clip_window_restored demoContext readySurface (fun _ => rfl) (by decide)).2.1 5 20 30,
   (C38_clip_window_restored demoContext readySurface (fun _ => rfl) (by decide)).2.2.1 20 5 30,
   (C38_clip_window_restored demoContext readySurface (fun _ => rfl) (by decide)).2.2.2.1
     100 0 0 30 20,
   (C38_clip_window_restored demoContext readySurface (fun _ => rfl) (by decide)).2.2.2.2.1
     ⟨20, 20, 30, 30⟩,
   (C38_clip_window_restored demoContext readySurface (fun _ => rfl) (by decide)).2.2.2.2.2.1
     ⟨20, 20, 30, 30⟩,
   (C38_clip_window_restored demoContext readySurface (fun _ => rfl) (by decide)).2.2.2.2.2.2.1
     4 50 50 3,
   (C38_clip_window_restored demoContext readySurface (fun _ => rfl)
     (by decide)).2.2.2.2.2.2.2.1 4 50 50 3 5,
   (C38_clip_window_restored demoContext readySurface (fun _ => rfl)
     (by decide)).2.2.2.2.2.2.2.2.1 4 50 50 3,
   (C38_clip_window_restored demoContext readySurface (fun _ => rfl)
     (by decide)).2.2.2.2.2.2.2.2.2.1 100 3 trianglePoints,
   (C38_clip_window_restored demoContext readySurface (fun _ => rfl)
     (by decide)).2.2.2.2.2.2.2.2.2.2.1 demoFont 65 20 20 1,
   (C38_clip_window_restored demoContext readySurface (fun _ => rfl)
     (by decide)).2.2.2.2.2.2.2.2.2.2.2.1 demoFont [65, 10, 65] 20 20 0,
   (C38_clip_window_restored demoContext readySurface (fun _ => rfl)
     (by decide)).2.2.2.2.2.2.2.2.2.2.2.2 5 5 2 1 [1, 2, 3, 4, 5, 6],
   by decide, by decide, by decide, by decide, by decide, by decide, by decide, by decide⟩

/-! ## C35, amended: the closing segment runs from the first point to the last -/

/-- Drawing a list of segments and then one more. -/
theorem drawAllSegments_append (fuel : Nat) (ctx : GLIB_Context)
    (g : (Nat × Nat) × (Nat × Nat)) :
    ∀ (l : List ((Nat × Nat) × (Nat × Nat))) (s : Surface),
      drawAllSegments fuel ctx (l ++ [g]) s =
        (drawAllSegments fuel ctx l s).bind fun t =>
          (GLIB_drawLine fuel ctx g.1.1 g.1.2 g.2.1 g.2.2 t).map Prod.snd := by
  intro l
  induction l with
  | nil =>
    intro s
    simp only [List.nil_append, drawAllSegments, Option.some_bind]
    cases GLIB_drawLine fuel ctx g.1.1 g.1.2 g.2.1 g.2.2 s <;> rfl
  | cons a l ih =>
    intro s
    rw [List.cons_append, drawAllSegments, drawAllSegments]
    cases GLIB_drawLine fuel ctx a.1.1 a.1.2 a.2.1 a.2.2 s with
    | none => rfl
    | some r => exact ih r.2

/-- For two endpoints inside the clip region `GLIB_drawLine` does not depend
on their order, whether the segment is axis-aligned or not. -/
theorem GLIB_drawLine_comm (fuel : Nat) (ctx : GLIB_Context) (x1 y1 x2 y2 : Nat) (s : Surface)
    (h1 : GLIB_rectContainsPoint ctx.clippingRegion x1 y1 = 1)
    (h2 : GLIB_rectContainsPoint ctx.clippingRegion x2 y2 = 1) :
    GLIB_drawLine fuel ctx x1 y1 x2 y2 s = GLIB_drawLine fuel ctx x2 y2 x1 y1 s := by
  by_cases hx : x1 = x2
  · subst hx
    rw [GLIB_drawLine, if_pos rfl, GLIB_drawLine, if_pos rfl, GLIB_drawLineV_eq,
      GLIB_drawLineV_eq, min_comm y1 y2, max_comm y1 y2]
  by_cases hy : y1 = y2
  · subst hy
    rw [GLIB_drawLine, if_neg hx, if_pos rfl, GLIB_drawLine, if_neg (Ne.symm hx), if_pos rfl,
      GLIB_drawLineH_eq, GLIB_drawLineH_eq, min_comm x1 x2, max_comm x1 x2]
  have i1 := GLIB_rectContainsPoint_eq_one.mp h1
  have i2 := GLIB_rectContainsPoint_eq_one.mp h2
  have hc1 : GLIB_getClipCode ctx x1 y1 = 0 := (GLIB_getClipCode_eq_zero ctx x1 y1).mpr i1
  have hc2 : GLIB_getClipCode ctx x2 y2 = 0 := (GLIB_getClipCode_eq_zero ctx x2 y2).mpr i2
  rw [GLIB_drawLine_general fuel ctx x1 y1 x2 y2 s hx hy,
    GLIB_drawLine_general fuel ctx x2 y2 x1 y1 s (Ne.symm hx) (Ne.symm hy)]
  cases fuel with
  | zero => rfl
  | succ f =>
    rw [GLIB_clipLine_inside ctx (f + 1) 0 0 x1 y1 x2 y2 (by omega) hc1 hc2,
      GLIB_clipLine_inside ctx (f + 1) 0 0 x2 y2 x1 y1 (by omega) hc2 hc1]
    simp only [one_ne_zero, if_false]
    rw [rasterLine_comm (f + 1) ctx x1 y1 x2 y2 _ hx hy]

/-- On a surface no call of which fails, for a well-formed clip region inside
the first 2^15 columns and rows and endpoints with coordinates below 2^15,
`GLIB_drawLine` returns when its fuel exceeds 32769, whether the segment is
clipped or not. -/
theorem GLIB_drawLine_returns (ctx : GLIB_Context) (hwf : clipWellFormed ctx)
    (hX : ctx.clippingRegion.xMax < 32768) (hY : ctx.clippingRegion.yMax < 32768)
    (x1 y1 x2 y2 : Nat) (b1 : x1 < 32768) (b2 : y1 < 32768) (b3 : x2 < 32768)
    (b4 : y2 < 32768) (fuel : Nat) (hf : 32769 < fuel) (s : Surface) (hs : neverFails s) :
    ∃ r, GLIB_drawLine fuel ctx x1 y1 x2 y2 s = some r ∧ neverFails r.2 ∧
      (r.1 = GLIB_OK ∨ r.1 = GLIB_DID_NOT_DRAW) := by
  have key : ∃ r, GLIB_drawLine fuel ctx x1 y1 x2 y2 s = some r := by
    by_cases hx : x1 = x2
    · exact ⟨_, by rw [GLIB_drawLine, if_pos hx]⟩
    by_cases hy : y1 = y2
    · exact ⟨_, by rw [GLIB_drawLine, if_neg hx, if_pos hy]⟩
    rw [GLIB_drawLine_general fuel ctx x1 y1 x2 y2 s hx hy, if_neg (by simpa using hs _)]
    obtain ⟨moves, c, htr, -, -, -⟩ := clipLineTrace_total ctx hwf.1 hwf.2.1 (by omega)
      (by omega) 4 0 0 x1 y1 x2 y2 (by omega) (by omega) (by omega) (by omega)
      (clipViolations_le ctx x1 y1 x2 y2)
    have htr' := clipLineTrace_mono ctx 5 0 0 x1 y1 x2 y2 _ htr (fuel - 5)
    rw [show 5 + (fuel - 5) = fuel by omega] at htr'
    have hc : GLIB_clipLine ctx fuel 0 0 x1 y1 x2 y2 = some c := by
      rw [GLIB_clipLine_eq_trace, htr']
      rfl
    rw [hc]
    dsimp only
    rcases GLIB_clipLine_result ctx fuel 0 0 x1 y1 x2 y2 c hc with h0 | ⟨h1, z1, z2⟩
    · rw [if_pos h0]
      exact ⟨_, rfl⟩
    · rw [if_neg (by omega)]
      have i1 := (GLIB_getClipCode_eq_zero ctx _ _).mp z1
      have i2 := (GLIB_getClipCode_eq_zero ctx _ _).mp z2
      have j1 : ctx.clippingRegion.xMin ≤ c.2.1 ∧ c.2.1 ≤ ctx.clippingRegion.xMax ∧
          ctx.clippingRegion.yMin ≤ c.2.2.1 ∧ c.2.2.1 ≤ ctx.clippingRegion.yMax := i1
      have j2 : ctx.clippingRegion.xMin ≤ c.2.2.2.1 ∧ c.2.2.2.1 ≤ ctx.clippingRegion.xMax ∧
          ctx.clippingRegion.yMin ≤ c.2.2.2.2 ∧ c.2.2.2.2 ≤ ctx.clippingRegion.yMax := i2
      have hs1 : neverFails (GLIB_resetDisplayClippingArea ctx s).2 :=
        neverFails_of_status_eq (by simp [GLIB_resetDisplayClippingArea_eq]) hs
      obtain ⟨t, ht, -⟩ := (rasterLine_spec ctx hwf c.2.1 c.2.2.1 c.2.2.2.1 c.2.2.2.2
        (by omega) (by omega) (by omega) (by omega) i1 i2 fuel _).2 (by omega) hs1
      exact ⟨_, ht⟩
  obtain ⟨r, hr⟩ := key
  have hnf := GLIB_drawLine_nf fuel ctx _ _ _ _ s r hs hr
  exact ⟨r, hr, hnf.2, hnf.1⟩

/-- Under the same conditions the segments of a list are all drawn and the
status rule returns. -/
theorem drawSegments_returns (ctx : GLIB_Context) (hwf : clipWellFormed ctx)
    (hX : ctx.clippingRegion.xMax < 32768) (hY : ctx.clippingRegion.yMax < 32768)
    (fuel : Nat) (hf : 32769 < fuel) :
    ∀ (l : List ((Nat × Nat) × (Nat × Nat))) (drew : Bool) (s : Surface), neverFails s →
      (∀ g ∈ l, (g.1.1 < 32768 ∧ g.1.2 < 32768) ∧ (g.2.1 < 32768 ∧ g.2.2 < 32768)) →
      ∃ r, drawSegments fuel ctx l drew s = some r ∧
        (r.1 = GLIB_OK ∨ r.1 = GLIB_DID_NOT_DRAW) := by
  intro l
  induction l with
  | nil =>
    intro drew s _ _
    rw [drawSegments]
    cases drew
    · exact ⟨_, rfl, Or.inr rfl⟩
    · exact ⟨_, rfl, Or.inl rfl⟩
  | cons g rest ih =>
    intro drew s hs hall
    obtain ⟨⟨a1, a2⟩, ⟨a3, a4⟩⟩ := hall g (List.mem_cons_self _ _)
    obtain ⟨r, hr, hnf, hst⟩ := GLIB_drawLine_returns ctx hwf hX hY g.1.1 g.1.2 g.2.1 g.2.2
      a1 a2 a3 a4 fuel hf s hs
    rw [drawSegments, hr]
    dsimp only
    rw [if_neg (by tauto)]
    exact ih _ r.2 hnf (fun g' hg' => hall g' (List.mem_cons_of_mem _ hg'))

/-- C35 (amended): when the last point of a polygon of at least two points
differs from the first, `GLIB_drawPolygon` draws the segments between
consecutive points and then the closing segment from the first point to the
last, for every clip region: it follows the status rule on that list of
segments on every surface, and on a surface no call of which fails the surface
is left as by `GLIB_drawLine` from the first point to the last on the surface
left by the segments between consecutive points.  When the first and the last
point lie inside the clip region, `GLIB_drawLine` from the last point to the
first gives the same result.  For a well-formed clip region and coordinates
below 2^15 the polygon returns, with `GLIB_OK` or `GLIB_DID_NOT_DRAW`, when no
call of the surface fails and the fuel exceeds 32769. -/
theorem C35_closing_segment_amended (fuel : Nat) (ctx : GLIB_Context) (numPoints : Nat)
    (polyPoints : Nat → Nat) (s : Surface) (hn : 2 ≤ numPoints)
    (hne : polyPoint polyPoints (numPoints - 1) ≠ polyPoint polyPoints 0) :
    GLIB_drawPolygon fuel ctx numPoints polyPoints s =
      drawSegments fuel ctx
        (((List.range (numPoints - 1)).map fun i =>
            (polyPoint polyPoints i, polyPoint polyPoints (i + 1))) ++
          [(polyPoint polyPoints 0, polyPoint polyPoints (numPoints - 1))]) false s ∧
    (neverFails s →
      (GLIB_drawPolygon fuel ctx numPoints polyPoints s).map Prod.snd =
        (drawAllSegments fuel ctx
          ((List.range (numPoints - 1)).map fun i =>
            (polyPoint polyPoints i, polyPoint polyPoints (i + 1))) s).bind fun t =>
          (GLIB_drawLine fuel ctx (polyPoint polyPoints 0).1 (polyPoint polyPoints 0).2
            (polyPoint polyPoints (numPoints - 1)).1
            (polyPoint polyPoints (numPoints - 1)).2 t).map Prod.snd) ∧
    (GLIB_rectContainsPoint ctx.clippingRegion (polyPoint polyPoints 0).1
        (polyPoint polyPoints 0).2 = 1 →
      GLIB_rectContainsPoint ctx.clippingRegion (polyPoint polyPoints (numPoints - 1)).1
        (polyPoint polyPoints (numPoints - 1)).2 = 1 →
      ∀ t, GLIB_drawLine fuel ctx (polyPoint polyPoints 0).1 (polyPoint polyPoints 0).2
          (polyPoint polyPoints (numPoints - 1)).1 (polyPoint polyPoints (numPoints - 1)).2 t =
        GLIB_drawLine fuel ctx (polyPoint polyPoints (numPoints - 1)).1
          (polyPoint polyPoints (numPoints - 1)).2 (polyPoint polyPoints 0).1
          (polyPoint polyPoints 0).2 t) ∧
    (clipWellFormed ctx → ctx.clippingRegion.xMax < 32768 →
      ctx.clippingRegion.yMax < 32768 → 32769 < fuel → neverFails s →
      (∀ i, i < numPoints →
        (polyPoint polyPoints i).1 < 32768 ∧ (polyPoint polyPoints i).2 < 32768) →
      ∃ r, GLIB_drawPolygon fuel ctx numPoints polyPoints s = some r ∧
        (r.1 = GLIB_OK ∨ r.1 = GLIB_DID_NOT_DRAW)) := by
  have heq := GLIB_drawPolygon_eq fuel ctx numPoints polyPoints s hn
  unfold polygonSegments at heq
  rw [if_pos hne] at heq
  refine ⟨heq, fun hs => ?_, fun h1 h2 t => GLIB_drawLine_comm fuel ctx _ _ _ _ t h1 h2,
    fun hwf hX hY hf hs hall => ?_⟩
  · rw [heq, drawSegments_nf fuel ctx _ false s hs, drawAllSegments_append]
  · rw [heq]
    refine drawSegments_returns ctx hwf hX hY fuel hf _ false s hs (fun g hg => ?_)
    rcases List.mem_append.mp hg with h | h
    · obtain ⟨i, hi, rfl⟩ := List.mem_map.mp h
      have hi' := List.mem_range.mp hi
      exact ⟨hall i (by omega), hall (i + 1) (by omega)⟩
    · rw [List.mem_singleton] at h
      subst h
      exact ⟨hall 0 (by omega), hall (numPoints - 1) (by omega)⟩

/-- The polygon `(8,20)`, `(8,22)`, `(14,22)` in `demoContext`, whose first
point lies left of the clip region: the closing step is `GLIB_drawLine` from
`(8,20)` to `(14,22)`; and the triangle `(20,20)`, `(30,20)`, `(30,30)`, whose
points lie inside the clip region, where the two orders agree. -/
theorem C35_closing_segment_amended_witness :
    ((GLIB_drawPolygon 100 demoContext 3 wedgePoints freshSurface).map Prod.snd =
      (drawAllSegments 100 demoContext
        ((List.range (3 - 1)).map fun i =>
          (polyPoint wedgePoints i, polyPoint wedgePoints (i + 1))) freshSurface).bind fun t =>
        (GLIB_drawLine 100 demoContext (polyPoint wedgePoints 0).1 (polyPoint wedgePoints 0).2
          (polyPoint wedgePoints (3 - 1)).1 (polyPoint wedgePoints (3 - 1)).2 t).map Prod.snd) ∧
    (GLIB_drawPolygon 100 demoContext 3 wedgePoints freshSurface).map Prod.fst =
      some GLIB_OK ∧
    (∃ r, GLIB_drawPolygon 32770 demoContext 3 wedgePoints freshSurface = some r ∧
      (r.1 = GLIB_OK ∨ r.1 = GLIB_DID_NOT_DRAW)) ∧
    GLIB_drawLine 100 demoContext (polyPoint trianglePoints 0).1 (polyPoint trianglePoints 0).2
        (polyPoint trianglePoints (3 - 1)).1 (polyPoint trianglePoints (3 - 1)).2 freshSurface =
      GLIB_drawLine 100 demoContext (polyPoint trianglePoints (3 - 1)).1
        (polyPoint trianglePoints (3 - 1)).2 (polyPoint trianglePoints 0).1
        (polyPoint trianglePoints 0).2 freshSurface :=
  ⟨(C35_closing_segment_amended 100 demoContext 3 wedgePoints freshSurface (by decide)
      (by decide)).2.1 (fun _ => rfl),
    by decide,
    (C35_closing_segment_amended 32770 demoContext 3 wedgePoints freshSurface (by decide)
      (by decide)).2.2.2 (by decide) (by decide) (by decide) (by decide) (fun _ => rfl)
      (by decide),
    (C35_closing_segment_amended 100 demoContext 3 trianglePoints freshSurface (by decide)
      (by decide)).2.2.1 (by decide) (by decide) freshSurface⟩

/-! ## C14: the status of `GLIB_drawCircle` and `GLIB_drawPartialCircle` -/

/-- The status `GLIB_OK` or `GLIB_DID_NOT_DRAW` chosen by the presence of a
point inside the clip region among the pixel draws `l`, and the surface left
by these draws on a surface no call of which fails and whose pixel log is that
of `s`. -/
theorem circleStatus_spec (ctx : GLIB_Context) (l : List (Nat × (Nat × Nat)))
    (s t : Surface) (ht : neverFails t) (hp : t.pixels = s.pixels) :
    Writes s (issuePixels ctx (l.map Prod.snd) t) (drawnPixels ctx (l.map Prod.snd)) ∧
    ((if anyInClip ctx (l.map Prod.snd) then GLIB_OK else GLIB_DID_NOT_DRAW) =
        GLIB_DID_NOT_DRAW ↔
      ∀ e ∈ l, GLIB_rectContainsPoint ctx.clippingRegion e.2.1 e.2.2 ≠ 1) ∧
    ((if anyInClip ctx (l.map Prod.snd) then GLIB_OK else GLIB_DID_NOT_DRAW) = GLIB_OK ↔
      ∃ e ∈ l, GLIB_rectContainsPoint ctx.clippingRegion e.2.1 e.2.2 = 1) ∧
    ((if anyInClip ctx (l.map Prod.snd) then GLIB_OK else GLIB_DID_NOT_DRAW) =
        GLIB_DID_NOT_DRAW ↔
      (issuePixels ctx (l.map Prod.snd) t).pixels = s.pixels) ∧
    ((if anyInClip ctx (l.map Prod.snd) then GLIB_OK else GLIB_DID_NOT_DRAW) = GLIB_OK ↔
      (issuePixels ctx (l.map Prod.snd) t).pixels ≠ s.pixels) := by
  have hany : anyInClip ctx (l.map Prod.snd) ↔
      ∃ e ∈ l, GLIB_rectContainsPoint ctx.clippingRegion e.2.1 e.2.2 = 1 := by
    unfold anyInClip
    constructor
    · rintro ⟨p, hp, h⟩
      obtain ⟨e, he, rfl⟩ := List.mem_map.mp hp
      exact ⟨e, he, h⟩
    · rintro ⟨e, he, h⟩
      exact ⟨e.2, List.mem_map.mpr ⟨e, he, rfl⟩, h⟩
  have hw : (issuePixels ctx (l.map Prod.snd) t).pixels =
      s.pixels ++ drawnPixels ctx (l.map Prod.snd) := by
    rw [issuePixels_pixels ctx _ t ht, hp]
  have hnil := drawnPixels_eq_nil ctx (l.map Prod.snd)
  have hne : GLIB_OK ≠ GLIB_DID_NOT_DRAW := by decide
  refine ⟨hw, ?_, ?_, ?_, ?_⟩
  · by_cases ha : anyInClip ctx (l.map Prod.snd)
    · rw [if_pos ha]
      refine ⟨fun h => absurd h hne, fun h => ?_⟩
      obtain ⟨e, he, h1⟩ := hany.mp ha
      exact absurd h1 (h e he)
    · rw [if_neg ha]
      exact ⟨fun _ e he h1 => ha (hany.mpr ⟨e, he, h1⟩), fun _ => rfl⟩
  · by_cases ha : anyInClip ctx (l.map Prod.snd)
    · rw [if_pos ha]
      exact ⟨fun _ => hany.mp ha, fun _ => rfl⟩
    · rw [if_neg ha]
      exact ⟨fun h => absurd h.symm hne, fun h => absurd (hany.mpr h) ha⟩
  · rw [hw]
    by_cases ha : anyInClip ctx (l.map Prod.snd)
    · have hd : drawnPixels ctx (l.map Prod.snd) ≠ [] := fun h => (hnil.mp h) ha
      rw [if_pos ha]
      exact ⟨fun h => absurd h hne, fun h => absurd (List.append_right_eq_self.mp h) hd⟩
    · rw [if_neg ha, hnil.mpr ha, List.append_nil]
      exact ⟨fun _ => rfl, fun _ => rfl⟩
  · rw [hw]
    by_cases ha : anyInClip ctx (l.map Prod.snd)
    · have hd : drawnPixels ctx (l.map Prod.snd) ≠ [] := fun h => (hnil.mp h) ha
      rw [if_pos ha]
      exact ⟨fun _ h => hd (List.append_right_eq_self.mp h), fun _ => rfl⟩
    · rw [if_neg ha, hnil.mpr ha, List.append_nil]
      exact ⟨fun h => absurd h.symm hne, fun h => absurd rfl h⟩

/-- C14: for a centre inside the clip region, on a surface no call of which
fails and with enough fuel, `GLIB_drawCircle` and `GLIB_drawPartialCircle`
return.  The points emitted over all steps are those of `circleDraws`, each
with the number of its octant: the surface is left as by the pixel draws at
these points (after the reset of the hardware clip window for
`GLIB_drawCircle`, and at the points of the octants enabled by the mask for
`GLIB_drawPartialCircle`), so that the pixels written are those of the emitted
points that lie inside the clip region and are not masked off.  The status is
`GLIB_DID_NOT_DRAW` exactly when every emitted point is outside the clip
region or masked off, which is exactly when no pixel was written, and it is
`GLIB_OK` exactly when some emitted point is inside the clip region and
enabled, which is exactly when a pixel was written.  `GLIB_drawPartialCircle`
with the mask `0x00` returns `GLIB_DID_NOT_DRAW` and leaves the surface
alone. -/
theorem C14_circle_status (fuel : Nat) (ctx : GLIB_Context)
    (xCenter yCenter radius bitMask : Nat) (s : Surface)
    (hin : GLIB_rectContainsPoint ctx.clippingRegion xCenter yCenter = 1)
    (hr : radius < 65536) (hfuel : radius < fuel) (hs : neverFails s) :
    (∃ r, GLIB_drawCircle fuel ctx xCenter yCenter radius s = some r ∧
      r.2 = issuePixels ctx ((circleDraws fuel xCenter yCenter radius).map Prod.snd)
        (GLIB_resetDisplayClippingArea ctx s).2 ∧
      Writes s r.2 (drawnPixels ctx ((circleDraws fuel xCenter yCenter radius).map Prod.snd)) ∧
      (r.1 = GLIB_DID_NOT_DRAW ↔
        ∀ e ∈ circleDraws fuel xCenter yCenter radius,
          GLIB_rectContainsPoint ctx.clippingRegion e.2.1 e.2.2 ≠ 1) ∧
      (r.1 = GLIB_OK ↔
        ∃ e ∈ circleDraws fuel xCenter yCenter radius,
          GLIB_rectContainsPoint ctx.clippingRegion e.2.1 e.2.2 = 1) ∧
      (r.1 = GLIB_DID_NOT_DRAW ↔ r.2.pixels = s.pixels) ∧
      (r.1 = GLIB_OK ↔ r.2.pixels ≠ s.pixels)) ∧
    (∃ r, GLIB_drawPartialCircle fuel ctx xCenter yCenter radius bitMask s = some r ∧
      r.2 = issuePixels ctx
        ((maskedDraws bitMask (circleDraws fuel xCenter yCenter radius)).map Prod.snd) s ∧
      Writes s r.2 (drawnPixels ctx
        ((maskedDraws bitMask (circleDraws fuel xCenter yCenter radius)).map Prod.snd)) ∧
      (r.1 = GLIB_DID_NOT_DRAW ↔
        ∀ e ∈ circleDraws fuel xCenter yCenter radius,
          bitMask.testBit (e.1 - 1) = false ∨
          GLIB_rectContainsPoint ctx.clippingRegion e.2.1 e.2.2 ≠ 1) ∧
      (r.1 = GLIB_OK ↔
        ∃ e ∈ circleDraws fuel xCenter yCenter radius,
          bitMask.testBit (e.1 - 1) = true ∧
          GLIB_rectContainsPoint ctx.clippingRegion e.2.1 e.2.2 = 1) ∧
      (r.1 = GLIB_DID_NOT_DRAW ↔ r.2.pixels = s.pixels) ∧
      (r.1 = GLIB_OK ↔ r.2.pixels ≠ s.pixels)) ∧
    GLIB_drawPartialCircle fuel ctx xCenter yCenter radius 0 s = some (GLIB_DID_NOT_DRAW, s) := by
  have hs1 : neverFails (GLIB_resetDisplayClippingArea ctx s).2 :=
    neverFails_of_status_eq (by simp [GLIB_resetDisplayClippingArea_eq]) hs
  have hfull := circleStatus_spec ctx (circleDraws fuel xCenter yCenter radius) s
    (GLIB_resetDisplayClippingArea ctx s).2 hs1 (by simp [GLIB_resetDisplayClippingArea_eq])
  have hmask := circleStatus_spec ctx
    (maskedDraws bitMask (circleDraws fuel xCenter yCenter radius)) s s hs rfl
  refine ⟨⟨_, GLIB_drawCircle_nf fuel ctx _ _ _ s hin hr hfuel hs, rfl, hfull⟩,
    ⟨_, GLIB_drawPartialCircle_nf fuel ctx _ _ _ bitMask s hin hr hfuel hs, rfl,
      hmask.1, ?_, ?_, hmask.2.2.2⟩, ?_⟩
  · refine hmask.2.1.trans ⟨fun h e he => ?_, fun h e he => ?_⟩
    · by_cases hb : bitMask.testBit (e.1 - 1) = true
      · exact Or.inr (h e (List.mem_filter.mpr ⟨he, hb⟩))
      · exact Or.inl (by simpa using hb)
    · obtain ⟨he1, hb⟩ := List.mem_filter.mp he
      rcases h e he1 with h0 | h0
      · rw [h0] at hb; exact absurd hb (by decide)
      · exact h0
  · refine hmask.2.2.1.trans ⟨fun h => ?_, fun h => ?_⟩
    · obtain ⟨e, he, h1⟩ := h
      obtain ⟨he1, hb⟩ := List.mem_filter.mp he
      exact ⟨e, he1, hb, h1⟩
    · obtain ⟨e, he, hb, h1⟩ := h
      exact ⟨e, List.mem_filter.mpr ⟨he, hb⟩, h1⟩
  · rw [GLIB_drawPartialCircle_nf fuel ctx _ _ _ 0 s hin hr hfuel hs, maskedDraws_zero]
    simp [anyInClip_nil, issuePixels_nil]

/-- The circle of centre `(10,10)` and radius 3 in `smallContext` draws and
returns `GLIB_OK`, and with the mask 5 the pixels of the octants 1 and 3 are
written; the circle of radius 30 around the same centre has no point in the
clip region `(0,0)-(20,20)` and returns `GLIB_DID_NOT_DRAW`. -/
theorem C14_circle_status_witness :
    ((∃ r, GLIB_drawCircle 4 smallContext 10 10 3 freshSurface = some r ∧
      r.2 = issuePixels smallContext ((circleDraws 4 10 10 3).map Prod.snd)
        (GLIB_resetDisplayClippingArea smallContext freshSurface).2 ∧
      Writes freshSurface r.2
        (drawnPixels smallContext ((circleDraws 4 10 10 3).map Prod.snd)) ∧
      (r.1 = GLIB_DID_NOT_DRAW ↔
        ∀ e ∈ circleDraws 4 10 10 3,
          GLIB_rectContainsPoint smallContext.clippingRegion e.2.1 e.2.2 ≠ 1) ∧
      (r.1 = GLIB_OK ↔
        ∃ e ∈ circleDraws 4 10 10 3,
          GLIB_rectContainsPoint smallContext.clippingRegion e.2.1 e.2.2 = 1) ∧
      (r.1 = GLIB_DID_NOT_DRAW ↔ r.2.pixels = freshSurface.pixels) ∧
      (r.1 = GLIB_OK ↔ r.2.pixels ≠ freshSurface.pixels)) ∧
    (∃ r, GLIB_drawPartialCircle 4 smallContext 10 10 3 5 freshSurface = some r ∧
      r.2 = issuePixels smallContext
        ((maskedDraws 5 (circleDraws 4 10 10 3)).map Prod.snd) freshSurface ∧
      Writes freshSurface r.2 (drawnPixels smallContext
        ((maskedDraws 5 (circleDraws 4 10 10 3)).map Prod.snd)) ∧
      (r.1 = GLIB_DID_NOT_DRAW ↔
        ∀ e ∈ circleDraws 4 10 10 3,
          (5 : Nat).testBit (e.1 - 1) = false ∨
          GLIB_rectContainsPoint smallContext.clippingRegion e.2.1 e.2.2 ≠ 1) ∧
      (r.1 = GLIB_OK ↔
        ∃ e ∈ circleDraws 4 10 10 3,
          (5 : Nat).testBit (e.1 - 1) = true ∧
          GLIB_rectContainsPoint smallContext.clippingRegion e.2.1 e.2.2 = 1) ∧
      (r.1 = GLIB_DID_NOT_DRAW ↔ r.2.pixels = freshSurface.pixels) ∧
      (r.1 = GLIB_OK ↔ r.2.pixels ≠ freshSurface.pixels)) ∧
    GLIB_drawPartialCircle 4 smallContext 10 10 3 0 freshSurface
      = some (GLIB_DID_NOT_DRAW, freshSurface)) ∧
    (GLIB_drawCircle 4 smallContext 10 10 3 freshSurface).map Prod.fst = some GLIB_OK ∧
    (GLIB_drawPartialCircle 4 smallContext 10 10 3 5 freshSurface).map
      (fun r => (r.1, r.2.pixels)) =
      some (GLIB_OK, [fgPixel smallContext 13 10, fgPixel smallContext 10 7,
        fgPixel smallContext 13 9, fgPixel smallContext 9 7, fgPixel smallContext 12 8,
        fgPixel smallContext 8 8]) ∧
    (GLIB_drawCircle 31 smallContext 10 10 30 freshSurface).map
      (fun r => (r.1, r.2.pixels)) = some (GLIB_DID_NOT_DRAW, []) :=
  ⟨C14_circle_status 4 smallContext 10 10 3 5 freshSurface (by decide) (by decide)
    (by decide) (fun _ => rfl), by decide, by decide, by decide⟩

/-! ## C2: segments that stay clear of the clip region -/

theorem tdiv_spec_nonneg (n m : Int) (hn : 0 ≤ n) (hm : 0 < m) :
    0 ≤ n - Int.tdiv n m * m ∧ n - Int.tdiv n m * m < m := by
  rw [Int.tdiv_eq_ediv hn (le_of_lt hm)]
  have h1 := Int.emod_nonneg n (ne_of_gt hm)
  have h2 := Int.emod_lt_of_pos n hm
  have h3 := Int.emod_def n m
  rw [mul_comm] at h3
  omega

/-- The truncating division by a non-zero divisor: the remainder is smaller
than the divisor in absolute value and has the sign of the dividend. -/
theorem tdiv_spec (n m : Int) (hm : m ≠ 0) :
    ∃ r : Int, n = Int.tdiv n m * m + r ∧ -|m| < r ∧ r < |m| ∧
      (0 ≤ n → 0 ≤ r) ∧ (n ≤ 0 → r ≤ 0) := by
  refine ⟨n - Int.tdiv n m * m, by ring, ?_⟩
  rcases lt_or_gt_of_ne hm with hm | hm
  · rw [abs_of_neg hm]
    rcases le_total 0 n with hn | hn
    · have h := tdiv_spec_nonneg n (-m) hn (by omega)
      rw [Int.tdiv_neg, neg_mul_neg] at h
      refine ⟨by omega, by omega, fun _ => h.1, fun h0 => ?_⟩
      have : n = 0 := by omega
      subst this
      simp
    · have h := tdiv_spec_nonneg (-n) (-m) (by omega) (by omega)
      rw [Int.neg_tdiv_neg, mul_neg] at h
      refine ⟨by omega, by omega, fun h0 => ?_, fun _ => by omega⟩
      have : n = 0 := by omega
      subst this
      simp
  · rw [abs_of_pos hm]
    rcases le_total 0 n with hn | hn
    · have h := tdiv_spec_nonneg n m hn hm
      refine ⟨by omega, by omega, fun _ => h.1, fun h0 => ?_⟩
      have : n = 0 := by omega
      subst this
      simp
    · have h := tdiv_spec_nonneg (-n) m (by omega) hm
      rw [Int.neg_tdiv, neg_mul] at h
      refine ⟨by omega, by omega, fun h0 => ?_, fun _ => by omega⟩
      have : n = 0 := by omega
      subst this
      simp

/-- Bounds on a truncated quotient from bounds on the exact one. -/
theorem tdiv_bounds (n m k : Int) :
    (0 < m → k * m ≤ n → k ≤ Int.tdiv n m) ∧
    (0 < m → n ≤ k * m → Int.tdiv n m ≤ k) ∧
    (m < 0 → n ≤ k * m → k ≤ Int.tdiv n m) ∧
    (m < 0 → k * m ≤ n → Int.tdiv n m ≤ k) := by
  refine ⟨fun hm h => ?_, fun hm h => ?_, fun hm h => ?_, fun hm h => ?_⟩
  · obtain ⟨r, hr, h1, h2, _, _⟩ := tdiv_spec n m (ne_of_gt hm)
    rw [abs_of_pos hm] at h1 h2
    by_contra hc
    have : (Int.tdiv n m + 1) * m ≤ k * m :=
      mul_le_mul_of_nonneg_right (by omega) (le_of_lt hm)
    nlinarith
  · obtain ⟨r, hr, h1, h2, _, _⟩ := tdiv_spec n m (ne_of_gt hm)
    rw [abs_of_pos hm] at h1 h2
    by_contra hc
    have : (k + 1) * m ≤ Int.tdiv n m * m :=
      mul_le_mul_of_nonneg_right (by omega) (le_of_lt hm)
    nlinarith
  · obtain ⟨r, hr, h1, h2, _, _⟩ := tdiv_spec n m (ne_of_lt hm)
    rw [abs_of_neg hm] at h1 h2
    by_contra hc
    have : k * m ≤ (Int.tdiv n m + 1) * m :=
      mul_le_mul_of_nonpos_right (by omega) (le_of_lt hm)
    nlinarith
  · obtain ⟨r, hr, h1, h2, _, _⟩ := tdiv_spec n m (ne_of_lt hm)
    rw [abs_of_neg hm] at h1 h2
    by_contra hc
    have : Int.tdiv n m * m ≤ (k + 1) * m :=
      mul_le_mul_of_nonpos_right (by omega) (le_of_lt hm)
    nlinarith

/-- The other endpoint lies beyond a boundary that the segment passes at a
distance: with `u` the distance of the first endpoint from a row between the
two endpoints, `w` the distance of the two endpoints across the rows, and the
segment passing that row at least `K` columns away. -/
theorem clear_far (K D u w : Int) (hK : 0 < K) (hu : 0 < u) (huw : u ≤ w)
    (h : K * w ≤ D * u) : K ≤ D := by
  by_contra hc
  have h1 : D * u ≤ (K - 1) * u := mul_le_mul_of_nonneg_right (by omega) (le_of_lt hu)
  have h2 : K * u ≤ K * w := mul_le_mul_of_nonneg_left huw (le_of_lt hK)
  nlinarith

/-- The first endpoint lies beyond the row that the segment passes at the
column `A` columns away from it. -/
theorem clear_side (A D P E : Int) (hA : 0 < A) (hAD : A ≤ D) (hPE : P ≤ E)
    (h : E * A ≤ (P - 1) * D) : 1 ≤ P := by
  by_contra hc
  have hE : E < 0 := by
    by_contra hE
    have h1 : 0 ≤ E * A := mul_nonneg (by omega) (le_of_lt hA)
    have h2 : (P - 1) * D < 0 := mul_neg_of_neg_of_pos (by omega) (by omega)
    omega
  have h1 : E * D ≤ E * A := mul_le_mul_of_nonpos_left hAD (le_of_lt hE)
  have h2 : P * D ≤ E * D := mul_le_mul_of_nonneg_right hPE (by omega)
  nlinarith

/-- After the move of the first endpoint onto a column, to a row not nearer
to the clip rectangle than the segment, the new segment passes the next row
at least `W` columns away, as the segment did. -/
theorem clear_next (A D W P E q : Int) (hA : 0 < A) (hW : 0 ≤ W) (hD : A + W ≤ D)
    (hq : -(E * A) ≤ q * D) (h : (A + W) * E ≤ D * P) :
    W * (E + q) ≤ (D - A) * (P + q) := by
  have hD0 : 0 < D := by omega
  have h1 : 0 ≤ (D - A - W) * (q * D + E * A) := mul_nonneg (by omega) (by omega)
  have h2 : 0 ≤ (D - A) * (D * P - (A + W) * E) := mul_nonneg (by omega) (by omega)
  have h3 : 0 ≤ D * ((D - A) * (P + q) - W * (E + q)) := by nlinarith
  by_contra hc
  have h4 : D * ((D - A) * (P + q) - W * (E + q)) < 0 :=
    mul_neg_of_pos_of_neg hD0 (by omega)
  omega

/-- The parameter of the point of a segment whose first coordinate is `B`,
between those of the endpoints. -/
theorem segment_param (p1 p2 B : ℚ) (hp : p1 ≠ p2)
    (hB : (p1 ≤ B ∧ B ≤ p2) ∨ (p2 ≤ B ∧ B ≤ p1)) :
    ∃ t : ℚ, 0 ≤ t ∧ t ≤ 1 ∧ p1 + t * (p2 - p1) = B ∧ t * (p2 - p1) = B - p1 := by
  have hne : p2 - p1 ≠ 0 := sub_ne_zero.mpr (Ne.symm hp)
  have hmul : (B - p1) / (p2 - p1) * (p2 - p1) = B - p1 := div_mul_cancel₀ _ hne
  refine ⟨(B - p1) / (p2 - p1), ?_, ?_, by rw [hmul]; ring, hmul⟩
  · rcases hB with ⟨h1, h2⟩ | ⟨h1, h2⟩
    · exact div_nonneg (by linarith) (by linarith)
    · exact div_nonneg_of_nonpos (by linarith) (by linarith)
  · rcases hB with ⟨h1, h2⟩ | ⟨h1, h2⟩
    · have hpos : 0 < p2 - p1 := lt_of_le_of_ne (by linarith) (Ne.symm hne)
      rw [div_le_one hpos]
      linarith
    · have hneg : p2 - p1 < 0 := lt_of_le_of_ne (by linarith) hne
      rw [div_le_one_of_neg hneg]
      linarith

/-- A segment clear of the clip region, at a column of the clip region
between the columns of its endpoints: it passes that column at least one row
above the clip region or at least one row below it. -/
theorem clear_at_column (ctx : GLIB_Context) (x1 y1 x2 y2 : Nat)
    (h : segmentClearOfClip ctx x1 y1 x2 y2) (X : Nat)
    (hXa : ctx.clippingRegion.xMin ≤ X) (hXb : X ≤ ctx.clippingRegion.xMax) :
    (x1 < x2 → x1 ≤ X → X ≤ x2 →
      ((y2 : Int) - y1) * ((X : Int) - x1) ≤
          ((ctx.clippingRegion.yMin : Int) - 1 - y1) * ((x2 : Int) - x1) ∨
        ((ctx.clippingRegion.yMax : Int) + 1 - y1) * ((x2 : Int) - x1) ≤
          ((y2 : Int) - y1) * ((X : Int) - x1)) ∧
    (x2 < x1 → x2 ≤ X → X ≤ x1 →
      ((ctx.clippingRegion.yMin : Int) - 1 - y1) * ((x2 : Int) - x1) ≤
          ((y2 : Int) - y1) * ((X : Int) - x1) ∨
        ((y2 : Int) - y1) * ((X : Int) - x1) ≤
          ((ctx.clippingRegion.yMax : Int) + 1 - y1) * ((x2 : Int) - x1)) := by
  have ha : (ctx.clippingRegion.xMin : ℚ) - 1 < X := by
    have : (ctx.clippingRegion.xMin : ℚ) ≤ X := by exact_mod_cast hXa
    linarith
  have hb : (X : ℚ) < ctx.clippingRegion.xMax + 1 := by
    have : (X : ℚ) ≤ ctx.clippingRegion.xMax := by exact_mod_cast hXb
    linarith
  constructor
  · intro h12 h1 h2
    have hdx : (0 : ℚ) < (x2 : ℚ) - x1 := by
      have : (x1 : ℚ) < x2 := by exact_mod_cast h12
      linarith
    obtain ⟨t, ht0, ht1, hxt, htx⟩ := segment_param (x1 : ℚ) x2 X
      (by exact_mod_cast (ne_of_lt h12))
      (Or.inl ⟨by exact_mod_cast h1, by exact_mod_cast h2⟩)
    have hc := h t ht0 ht1
    rw [hxt] at hc
    have hprod : ((y2 : ℚ) - y1) * ((X : ℚ) - x1) =
        t * ((y2 : ℚ) - y1) * ((x2 : ℚ) - x1) := by
      rw [← htx]; ring
    by_cases hlow : (y1 : ℚ) + t * ((y2 : ℚ) - y1) ≤ ctx.clippingRegion.yMin - 1
    · left
      have hq : ((y2 : ℚ) - y1) * ((X : ℚ) - x1) ≤
          ((ctx.clippingRegion.yMin : ℚ) - 1 - y1) * ((x2 : ℚ) - x1) := by
        rw [hprod]
        exact mul_le_mul_of_nonneg_right (by linarith) (le_of_lt hdx)
      exact_mod_cast hq
    · right
      have hhigh : (ctx.clippingRegion.yMax : ℚ) + 1 ≤ y1 + t * ((y2 : ℚ) - y1) := by
        by_contra hn
        exact hc ⟨ha, hb, lt_of_not_le hlow, lt_of_not_le hn⟩
      have hq : ((ctx.clippingRegion.yMax : ℚ) + 1 - y1) * ((x2 : ℚ) - x1) ≤
          ((y2 : ℚ) - y1) * ((X : ℚ) - x1) := by
        rw [hprod]
        exact mul_le_mul_of_nonneg_right (by linarith) (le_of_lt hdx)
      exact_mod_cast hq
  · intro h12 h1 h2
    have hdx : (x2 : ℚ) - x1 < 0 := by
      have : (x2 : ℚ) < x1 := by exact_mod_cast h12
      linarith
    obtain ⟨t, ht0, ht1, hxt, htx⟩ := segment_param (x1 : ℚ) x2 X
      (by exact_mod_cast (ne_of_gt h12))
      (Or.inr ⟨by exact_mod_cast h1, by exact_mod_cast h2⟩)
    have hc := h t ht0 ht1
    rw [hxt] at hc
    have hprod : ((y2 : ℚ) - y1) * ((X : ℚ) - x1) =
        t * ((y2 : ℚ) - y1) * ((x2 : ℚ) - x1) := by
      rw [← htx]; ring
    by_cases hlow : (y1 : ℚ) + t * ((y2 : ℚ) - y1) ≤ ctx.clippingRegion.yMin - 1
    · left
      have hq : ((ctx.clippingRegion.yMin : ℚ) - 1 - y1) * ((x2 : ℚ) - x1) ≤
          ((y2 : ℚ) - y1) * ((X : ℚ) - x1) := by
        rw [hprod]
        exact mul_le_mul_of_nonpos_right (by linarith) (le_of_lt hdx)
      exact_mod_cast hq
    · right
      have hhigh : (ctx.clippingRegion.yMax : ℚ) + 1 ≤ y1 + t * ((y2 : ℚ) - y1) := by
        by_contra hn
        exact hc ⟨ha, hb, lt_of_not_le hlow, lt_of_not_le hn⟩
      have hq : ((y2 : ℚ) - y1) * ((X : ℚ) - x1) ≤
          ((ctx.clippingRegion.yMax : ℚ) + 1 - y1) * ((x2 : ℚ) - x1) := by
        rw [hprod]
        exact mul_le_mul_of_nonpos_right (by linarith) (le_of_lt hdx)
      exact_mod_cast hq

/-- A segment clear of the clip region, at a row of the clip region between
the rows of its endpoints: it passes that row at least one column left of the
clip region or at least one column right of it. -/
theorem clear_at_row (ctx : GLIB_Context) (x1 y1 x2 y2 : Nat)
    (h : segmentClearOfClip ctx x1 y1 x2 y2) (Y : Nat)
    (hYc : ctx.clippingRegion.yMin ≤ Y) (hYd : Y ≤ ctx.clippingRegion.yMax) :
    (y1 < y2 → y1 ≤ Y → Y ≤ y2 →
      ((x2 : Int) - x1) * ((Y : Int) - y1) ≤
          ((ctx.clippingRegion.xMin : Int) - 1 - x1) * ((y2 : Int) - y1) ∨
        ((ctx.clippingRegion.xMax : Int) + 1 - x1) * ((y2 : Int) - y1) ≤
          ((x2 : Int) - x1) * ((Y : Int) - y1)) ∧
    (y2 < y1 → y2 ≤ Y → Y ≤ y1 →
      ((ctx.clippingRegion.xMin : Int) - 1 - x1) * ((y2 : Int) - y1) ≤
          ((x2 : Int) - x1) * ((Y : Int) - y1) ∨
        ((x2 : Int) - x1) * ((Y : Int) - y1) ≤
          ((ctx.clippingRegion.xMax : Int) + 1 - x1) * ((y2 : Int) - y1)) := by
  have hc' : (ctx.clippingRegion.yMin : ℚ) - 1 < Y := by
    have : (ctx.clippingRegion.yMin : ℚ) ≤ Y := by exact_mod_cast hYc
    linarith
  have hd' : (Y : ℚ) < ctx.clippingRegion.yMax + 1 := by
    have : (Y : ℚ) ≤ ctx.clippingRegion.yMax := by exact_mod_cast hYd
    linarith
  constructor
  · intro h12 h1 h2
    have hdy : (0 : ℚ) < (y2 : ℚ) - y1 := by
      have : (y1 : ℚ) < y2 := by exact_mod_cast h12
      linarith
    obtain ⟨t, ht0, ht1, hyt, hty⟩ := segment_param (y1 : ℚ) y2 Y
      (by exact_mod_cast (ne_of_lt h12))
      (Or.inl ⟨by exact_mod_cast h1, by exact_mod_cast h2⟩)
    have hc := h t ht0 ht1
    rw [hyt] at hc
    have hprod : ((x2 : ℚ) - x1) * ((Y : ℚ) - y1) =
        t * ((x2 : ℚ) - x1) * ((y2 : ℚ) - y1) := by
      rw [← hty]; ring
    by_cases hlow : (x1 : ℚ) + t * ((x2 : ℚ) - x1) ≤ ctx.clippingRegion.xMin - 1
    · left
      have hq : ((x2 : ℚ) - x1) * ((Y : ℚ) - y1) ≤
          ((ctx.clippingRegion.xMin : ℚ) - 1 - x1) * ((y2 : ℚ) - y1) := by
        rw [hprod]
        exact mul_le_mul_of_nonneg_right (by linarith) (le_of_lt hdy)
      exact_mod_cast hq
    · right
      have hhigh : (ctx.clippingRegion.xMax : ℚ) + 1 ≤ x1 + t * ((x2 : ℚ) - x1) := by
        by_contra hn
        exact hc ⟨lt_of_not_le hlow, lt_of_not_le hn, hc', hd'⟩
      have hq : ((ctx.clippingRegion.xMax : ℚ) + 1 - x1) * ((y2 : ℚ) - y1) ≤
          ((x2 : ℚ) - x1) * ((Y : ℚ) - y1) := by
        rw [hprod]
        exact mul_le_mul_of_nonneg_right (by linarith) (le_of_lt hdy)
      exact_mod_cast hq
  · intro h12 h1 h2
    have hdy : (y2 : ℚ) - y1 < 0 := by
      have : (y2 : ℚ) < y1 := by exact_mod_cast h12
      linarith
    obtain ⟨t, ht0, ht1, hyt, hty⟩ := segment_param (y1 : ℚ) y2 Y
      (by exact_mod_cast (ne_of_gt h12))
      (Or.inr ⟨by exact_mod_cast h1, by exact_mod_cast h2⟩)
    have hc := h t ht0 ht1
    rw [hyt] at hc
    have hprod : ((x2 : ℚ) - x1) * ((Y : ℚ) - y1) =
        t * ((x2 : ℚ) - x1) * ((y2 : ℚ) - y1) := by
      rw [← hty]; ring
    by_cases hlow : (x1 : ℚ) + t * ((x2 : ℚ) - x1) ≤ ctx.clippingRegion.xMin - 1
    · left
      have hq : ((ctx.clippingRegion.xMin : ℚ) - 1 - x1) * ((y2 : ℚ) - y1) ≤
          ((x2 : ℚ) - x1) * ((Y : ℚ) - y1) := by
        rw [hprod]
        exact mul_le_mul_of_nonpos_right (by linarith) (le_of_lt hdy)
      exact_mod_cast hq
    · right
      have hhigh : (ctx.clippingRegion.xMax : ℚ) + 1 ≤ x1 + t * ((x2 : ℚ) - x1) := by
        by_contra hn
        exact hc ⟨lt_of_not_le hlow, lt_of_not_le hn, hc', hd'⟩
      have hq : ((x2 : ℚ) - x1) * ((Y : ℚ) - y1) ≤
          ((ctx.clippingRegion.xMax : ℚ) + 1 - x1) * ((y2 : ℚ) - y1) := by
        rw [hprod]
        exact mul_le_mul_of_nonpos_right (by linarith) (le_of_lt hdy)
      exact_mod_cast hq

/-- An endpoint of a segment clear of the clip region lies outside it. -/
theorem clear_endpoints (ctx : GLIB_Context) (x1 y1 x2 y2 : Nat)
    (h : segmentClearOfClip ctx x1 y1 x2 y2) :
    ¬ (ctx.clippingRegion.xMin ≤ x1 ∧ x1 ≤ ctx.clippingRegion.xMax ∧
      ctx.clippingRegion.yMin ≤ y1 ∧ y1 ≤ ctx.clippingRegion.yMax) ∧
    ¬ (ctx.clippingRegion.xMin ≤ x2 ∧ x2 ≤ ctx.clippingRegion.xMax ∧
      ctx.clippingRegion.yMin ≤ y2 ∧ y2 ≤ ctx.clippingRegion.yMax) := by
  constructor
  · rintro ⟨h1, h2, h3, h4⟩
    refine h 0 le_rfl zero_le_one ⟨?_, ?_, ?_, ?_⟩
    · have : (ctx.clippingRegion.xMin : ℚ) ≤ x1 := by exact_mod_cast h1
      linarith
    · have : (x1 : ℚ) ≤ ctx.clippingRegion.xMax := by exact_mod_cast h2
      linarith
    · have : (ctx.clippingRegion.yMin : ℚ) ≤ y1 := by exact_mod_cast h3
      linarith
    · have : (y1 : ℚ) ≤ ctx.clippingRegion.yMax := by exact_mod_cast h4
      linarith
  · rintro ⟨h1, h2, h3, h4⟩
    refine h 1 zero_le_one le_rfl ⟨?_, ?_, ?_, ?_⟩
    · have : (ctx.clippingRegion.xMin : ℚ) ≤ x2 := by exact_mod_cast h1
      linarith
    · have : (x2 : ℚ) ≤ ctx.clippingRegion.xMax := by exact_mod_cast h2
      linarith
    · have : (ctx.clippingRegion.yMin : ℚ) ≤ y2 := by exact_mod_cast h3
      linarith
    · have : (y2 : ℚ) ≤ ctx.clippingRegion.yMax := by exact_mod_cast h4
      linarith

/-- Two endpoints beyond the same edge: the loop rejects the segment at once. -/
theorem GLIB_clipLine_reject (ctx : GLIB_Context) (fuel x y x1 y1 x2 y2 : Nat)
    (h : beyondSameEdge ctx x1 y1 x2 y2) :
    GLIB_clipLine ctx (fuel + 1) x y x1 y1 x2 y2 = some (0, x1, y1, x2, y2) := by
  obtain ⟨c1, c2⟩ := clipCode_shared ctx x1 y1 x2 y2 h
  rw [GLIB_clipLine_succ, if_neg c1, if_pos c2]

/-- One iteration of the loop that moves the first endpoint. -/
theorem GLIB_clipLine_move (ctx : GLIB_Context) (fuel x y x1 y1 x2 y2 nx ny : Nat)
    (hc1 : GLIB_getClipCode ctx x1 y1 ≠ 0) (hsh : ¬ beyondSameEdge ctx x1 y1 x2 y2)
    (hm : clipMoved ctx (GLIB_getClipCode ctx x1 y1) x y x1 y1 x2 y2 = some (nx, ny)) :
    GLIB_clipLine ctx (fuel + 1) x y x1 y1 x2 y2 = GLIB_clipLine ctx fuel nx ny nx ny x2 y2 := by
  have h0 : ¬ (GLIB_getClipCode ctx x1 y1 ||| GLIB_getClipCode ctx x2 y2 = 0) := fun hacc =>
    hc1 (lor_eq_zero_of_lt _ (GLIB_getClipCode_lt ctx x1 y1) _
      (GLIB_getClipCode_lt ctx x2 y2) hacc).1
  have h1 : ¬ (GLIB_getClipCode ctx x1 y1 &&& GLIB_getClipCode ctx x2 y2 ≠ 0) := fun h =>
    hsh ((clipCode_shared_iff ctx x1 y1 x2 y2).mp h)
  rw [GLIB_clipLine_succ, if_neg h0, if_neg h1, if_pos hc1, hm]
  simp only [if_pos hc1]

/-- The new position of an endpoint by the boundary that it is moved to. -/
theorem clipMoved_cases (ctx : GLIB_Context) (x y x1 y1 x2 y2 : Nat) :
    (x1 < ctx.clippingRegion.xMin →
      clipMoved ctx (GLIB_getClipCode ctx x1 y1) x y x1 y1 x2 y2 =
        (clipMove y1 y1 y2 ctx.clippingRegion.xMin x1 x2).map
          fun v => (ctx.clippingRegion.xMin, v)) ∧
    (¬ x1 < ctx.clippingRegion.xMin → x1 > ctx.clippingRegion.xMax →
      clipMoved ctx (GLIB_getClipCode ctx x1 y1) x y x1 y1 x2 y2 =
        (clipMove y1 y1 y2 ctx.clippingRegion.xMax x1 x2).map
          fun v => (ctx.clippingRegion.xMax, v)) ∧
    (¬ x1 < ctx.clippingRegion.xMin → ¬ x1 > ctx.clippingRegion.xMax →
      y1 > ctx.clippingRegion.yMax →
      clipMoved ctx (GLIB_getClipCode ctx x1 y1) x y x1 y1 x2 y2 =
        (clipMove x1 x1 x2 ctx.clippingRegion.yMax y1 y2).map
          fun v => (v, ctx.clippingRegion.yMax)) ∧
    (¬ x1 < ctx.clippingRegion.xMin → ¬ x1 > ctx.clippingRegion.xMax →
      ¬ y1 > ctx.clippingRegion.yMax → y1 < ctx.clippingRegion.yMin →
      clipMoved ctx (GLIB_getClipCode ctx x1 y1) x y x1 y1 x2 y2 =
        (clipMove x1 x1 x2 ctx.clippingRegion.yMin y1 y2).map
          fun v => (v, ctx.clippingRegion.yMin)) := by
  obtain ⟨hb1, hb2, hb4, hb8, -⟩ := GLIB_getClipCode_bits ctx x1 y1
  refine ⟨fun h => ?_, fun h1 h => ?_, fun h1 h2 h => ?_, fun h1 h2 h4 h => ?_⟩
  · rw [clipMoved, if_pos (hb1.mpr h)]
  · rw [clipMoved, if_neg (fun hc => h1 (hb1.mp hc)), if_pos (hb2.mpr h)]
  · rw [clipMoved, if_neg (fun hc => h1 (hb1.mp hc)), if_neg (fun hc => h2 (hb2.mp hc)),
      if_pos (hb4.mpr h)]
  · rw [clipMoved, if_neg (fun hc => h1 (hb1.mp hc)), if_neg (fun hc => h2 (hb2.mp hc)),
      if_neg (fun hc => h4 (hb4.mp hc)), if_pos (hb8.mpr h)]

/-- An endpoint outside the clip region has a non-zero outcode. -/
theorem GLIB_getClipCode_ne_zero (ctx : GLIB_Context) (x y : Nat)
    (h : x < ctx.clippingRegion.xMin ∨ x > ctx.clippingRegion.xMax ∨
      y > ctx.clippingRegion.yMax ∨ y < ctx.clippingRegion.yMin) :
    GLIB_getClipCode ctx x y ≠ 0 := by
  intro h0
  have hin := (GLIB_getClipCode_eq_zero ctx x y).mp h0
  have hin' : ctx.clippingRegion.xMin ≤ x ∧ x ≤ ctx.clippingRegion.xMax ∧
      ctx.clippingRegion.yMin ≤ y ∧ y ≤ ctx.clippingRegion.yMax := hin
  omega

/-- The first endpoint lies below the clip region, between its left and right
boundaries, the second not below it, and the segment passes the bottom row at
least one column left or right of the clip region: one move, then the
rejection. -/
theorem clipLine_rejects_below (ctx : GLIB_Context)
    (hy : ctx.clippingRegion.yMin ≤ ctx.clippingRegion.yMax)
    (x y x1 y1 x2 y2 : Nat) (b1 : x1 < 46341) (b2 : y1 < 46341) (b3 : x2 < 46341)
    (b4 : y2 < 46341)
    (h1a : ctx.clippingRegion.xMin ≤ x1) (h1b : x1 ≤ ctx.clippingRegion.xMax)
    (h1 : ctx.clippingRegion.yMax < y1) (h2 : y2 ≤ ctx.clippingRegion.yMax)
    (hcross : ((ctx.clippingRegion.xMin : Int) - 1 - x1) * ((y2 : Int) - y1) ≤
          ((x2 : Int) - x1) * ((ctx.clippingRegion.yMax : Int) - y1) ∨
        ((x2 : Int) - x1) * ((ctx.clippingRegion.yMax : Int) - y1) ≤
          ((ctx.clippingRegion.xMax : Int) + 1 - x1) * ((y2 : Int) - y1))
    (fuel : Nat) :
    ∃ r, GLIB_clipLine ctx (fuel + 2) x y x1 y1 x2 y2 = some (0, r) := by
  have hc1 := GLIB_getClipCode_ne_zero ctx x1 y1 (Or.inr (Or.inr (Or.inl h1)))
  have hsh : ¬ beyondSameEdge ctx x1 y1 x2 y2 := by
    unfold beyondSameEdge; omega
  obtain ⟨v, hv, hvI, -, -⟩ := clipMove_between x1 x2 ctx.clippingRegion.yMax y1 y2 b1 b3 b2 b4
    (Or.inr ⟨h2, le_of_lt h1, by omega⟩)
  have hm := (clipMoved_cases ctx x y x1 y1 x2 y2).2.2.1 (by omega) (by omega) h1
  rw [hv] at hm
  rw [GLIB_clipLine_move ctx (fuel + 1) x y x1 y1 x2 y2 _ _ hc1 hsh hm]
  have hb := tdiv_bounds (((x2 : Int) - x1) * ((ctx.clippingRegion.yMax : Int) - y1))
    ((y2 : Int) - y1)
  have hedge : beyondSameEdge ctx v ctx.clippingRegion.yMax x2 y2 := by
    rcases hcross with hl | hr
    · have hq := (hb ((ctx.clippingRegion.xMin : Int) - 1 - x1)).2.2.2 (by omega) hl
      have hfar := clear_far ((x1 : Int) - ctx.clippingRegion.xMin + 1) ((x1 : Int) - x2)
        ((y1 : Int) - ctx.clippingRegion.yMax) ((y1 : Int) - y2) (by omega) (by omega)
        (by omega) (by linarith)
      left
      omega
    · have hq := (hb ((ctx.clippingRegion.xMax : Int) + 1 - x1)).2.2.1 (by omega) hr
      have hfar := clear_far ((ctx.clippingRegion.xMax : Int) + 1 - x1) ((x2 : Int) - x1)
        ((y1 : Int) - ctx.clippingRegion.yMax) ((y1 : Int) - y2) (by omega) (by omega)
        (by omega) (by linarith)
      right; left
      omega
  exact ⟨_, GLIB_clipLine_reject ctx fuel _ _ _ _ _ _ hedge⟩

/-- The first endpoint lies above the clip region, between its left and right
boundaries, the second not above it, and the segment passes the top row at
least one column left or right of the clip region: one move, then the
rejection. -/
theorem clipLine_rejects_above (ctx : GLIB_Context)
    (hy : ctx.clippingRegion.yMin ≤ ctx.clippingRegion.yMax)
    (x y x1 y1 x2 y2 : Nat) (b1 : x1 < 46341) (b2 : y1 < 46341) (b3 : x2 < 46341)
    (b4 : y2 < 46341)
    (h1a : ctx.clippingRegion.xMin ≤ x1) (h1b : x1 ≤ ctx.clippingRegion.xMax)
    (h1 : y1 < ctx.clippingRegion.yMin) (h2 : ctx.clippingRegion.yMin ≤ y2)
    (hcross : ((x2 : Int) - x1) * ((ctx.clippingRegion.yMin : Int) - y1) ≤
          ((ctx.clippingRegion.xMin : Int) - 1 - x1) * ((y2 : Int) - y1) ∨
        ((ctx.clippingRegion.xMax : Int) + 1 - x1) * ((y2 : Int) - y1) ≤
          ((x2 : Int) - x1) * ((ctx.clippingRegion.yMin : Int) - y1))
    (fuel : Nat) :
    ∃ r, GLIB_clipLine ctx (fuel + 2) x y x1 y1 x2 y2 = some (0, r) := by
  have hc1 := GLIB_getClipCode_ne_zero ctx x1 y1 (Or.inr (Or.inr (Or.inr h1)))
  have hsh : ¬ beyondSameEdge ctx x1 y1 x2 y2 := by
    unfold beyondSameEdge; omega
  obtain ⟨v, hv, hvI, -, -⟩ := clipMove_between x1 x2 ctx.clippingRegion.yMin y1 y2 b1 b3 b2 b4
    (Or.inl ⟨le_of_lt h1, h2, by omega⟩)
  have hm := (clipMoved_cases ctx x y x1 y1 x2 y2).2.2.2 (by omega) (by omega) (by omega) h1
  rw [hv] at hm
  rw [GLIB_clipLine_move ctx (fuel + 1) x y x1 y1 x2 y2 _ _ hc1 hsh hm]
  have hb := tdiv_bounds (((x2 : Int) - x1) * ((ctx.clippingRegion.yMin : Int) - y1))
    ((y2 : Int) - y1)
  have hedge : beyondSameEdge ctx v ctx.clippingRegion.yMin x2 y2 := by
    rcases hcross with hl | hr
    · have hq := (hb ((ctx.clippingRegion.xMin : Int) - 1 - x1)).2.1 (by omega) hl
      have hfar := clear_far ((x1 : Int) - ctx.clippingRegion.xMin + 1) ((x1 : Int) - x2)
        ((ctx.clippingRegion.yMin : Int) - y1) ((y2 : Int) - y1) (by omega) (by omega)
        (by omega) (by linarith)
      left
      omega
    · have hq := (hb ((ctx.clippingRegion.xMax : Int) + 1 - x1)).1 (by omega) hr
      have hfar := clear_far ((ctx.clippingRegion.xMax : Int) + 1 - x1) ((x2 : Int) - x1)
        ((ctx.clippingRegion.yMin : Int) - y1) ((y2 : Int) - y1) (by omega) (by omega)
        (by omega) (by linarith)
      right; left
      omega
  exact ⟨_, GLIB_clipLine_reject ctx fuel _ _ _ _ _ _ hedge⟩

/-- A segment clear of the clip region whose first endpoint lies left of it
and whose second endpoint does not: the first endpoint is moved to the left
boundary, above or below the clip region, and the segment is rejected then or
after a second move. -/
theorem clipLine_rejects_left (ctx : GLIB_Context)
    (hx : ctx.clippingRegion.xMin ≤ ctx.clippingRegion.xMax)
    (hy : ctx.clippingRegion.yMin ≤ ctx.clippingRegion.yMax)
    (x y x1 y1 x2 y2 : Nat) (b1 : x1 < 46341) (b2 : y1 < 46341) (b3 : x2 < 46341)
    (b4 : y2 < 46341) (hclear : segmentClearOfClip ctx x1 y1 x2 y2)
    (h1 : x1 < ctx.clippingRegion.xMin) (h2 : ctx.clippingRegion.xMin ≤ x2)
    (hsh : ¬ beyondSameEdge ctx x1 y1 x2 y2) (fuel : Nat) :
    ∃ r, GLIB_clipLine ctx (fuel + 3) x y x1 y1 x2 y2 = some (0, r) := by
  have hc1 := GLIB_getClipCode_ne_zero ctx x1 y1 (Or.inl h1)
  obtain ⟨v, hv, hvI, hv1, hv2⟩ := clipMove_between y1 y2 ctx.clippingRegion.xMin x1 x2
    b2 b4 b1 b3 (Or.inl ⟨le_of_lt h1, h2, by omega⟩)
  have hm := (clipMoved_cases ctx x y x1 y1 x2 y2).1 h1
  rw [hv] at hm
  rw [GLIB_clipLine_move ctx (fuel + 2) x y x1 y1 x2 y2 _ _ hc1 hsh hm]
  have hvb : v < 46341 := by omega
  have hd0 : ((x2 : Int) - x1) ≠ 0 := by omega
  obtain ⟨r, hr, -, -, hrs1, hrs2⟩ :=
    tdiv_spec (((y2 : Int) - y1) * ((ctx.clippingRegion.xMin : Int) - x1)) ((x2 : Int) - x1) hd0
  have hb := tdiv_bounds (((y2 : Int) - y1) * ((ctx.clippingRegion.xMin : Int) - x1))
    ((x2 : Int) - x1)
  rcases (clear_at_column ctx x1 y1 x2 y2 hclear ctx.clippingRegion.xMin le_rfl hx).1
    (by omega) (le_of_lt h1) h2 with hcol | hcol
  · have hq := (hb ((ctx.clippingRegion.yMin : Int) - 1 - y1)).2.1 (by omega) hcol
    have hvc : v < ctx.clippingRegion.yMin := by omega
    by_cases h2y : y2 < ctx.clippingRegion.yMin
    · exact ⟨_, GLIB_clipLine_reject ctx (fuel + 1) _ _ _ _ _ _
        (Or.inr (Or.inr (Or.inr ⟨hvc, h2y⟩)))⟩
    · have hP := clear_side ((ctx.clippingRegion.xMin : Int) - x1) ((x2 : Int) - x1)
        ((ctx.clippingRegion.yMin : Int) - y1) ((y2 : Int) - y1) (by omega) (by omega)
        (by omega) (by linarith)
      have hrow := (clear_at_row ctx x1 y1 x2 y2 hclear ctx.clippingRegion.yMin le_rfl hy).1
        (by omega) (by omega) (by omega)
      have hrow' : ((ctx.clippingRegion.xMin : Int) - x1 +
            ((ctx.clippingRegion.xMax : Int) + 1 - ctx.clippingRegion.xMin)) *
          ((y2 : Int) - y1) ≤
          ((x2 : Int) - x1) * ((ctx.clippingRegion.yMin : Int) - y1) := by
        rcases hrow with hl | hr'
        · exfalso
          have e1 : (0 : Int) < (x2 : Int) - x1 := by omega
          have e2 : (0 : Int) < (y2 : Int) - y1 := by omega
          linarith
        · linarith
      have hfar := clear_far ((ctx.clippingRegion.xMin : Int) - x1 +
          ((ctx.clippingRegion.xMax : Int) + 1 - ctx.clippingRegion.xMin)) ((x2 : Int) - x1)
        ((ctx.clippingRegion.yMin : Int) - y1) ((y2 : Int) - y1) (by omega) (by omega)
        (by omega) hrow'
      have hr0 : 0 ≤ r := hrs1 (mul_nonneg (by omega) (by omega))
      have hnext := clear_next ((ctx.clippingRegion.xMin : Int) - x1) ((x2 : Int) - x1)
        ((ctx.clippingRegion.xMax : Int) + 1 - ctx.clippingRegion.xMin)
        ((ctx.clippingRegion.yMin : Int) - y1) ((y2 : Int) - y1)
        (-(Int.tdiv (((y2 : Int) - y1) * ((ctx.clippingRegion.xMin : Int) - x1))
          ((x2 : Int) - x1)))
        (by omega) (by omega) hfar (by linarith) hrow'
      exact clipLine_rejects_above ctx hy _ _ ctx.clippingRegion.xMin v x2 y2 (by omega) hvb
        b3 b4 le_rfl hx hvc (by omega) (Or.inr (by rw [hvI]; linarith)) fuel
  · have hq := (hb ((ctx.clippingRegion.yMax : Int) + 1 - y1)).1 (by omega) hcol
    have hvd : ctx.clippingRegion.yMax < v := by omega
    by_cases h2y : y2 > ctx.clippingRegion.yMax
    · exact ⟨_, GLIB_clipLine_reject ctx (fuel + 1) _ _ _ _ _ _
        (Or.inr (Or.inr (Or.inl ⟨hvd, h2y⟩)))⟩
    · have hP := clear_side ((ctx.clippingRegion.xMin : Int) - x1) ((x2 : Int) - x1)
        ((y1 : Int) - ctx.clippingRegion.yMax) ((y1 : Int) - y2) (by omega) (by omega)
        (by omega) (by linarith)
      have hrow := (clear_at_row ctx x1 y1 x2 y2 hclear ctx.clippingRegion.yMax hy le_rfl).2
        (by omega) (by omega) (by omega)
      have hrow' : ((ctx.clippingRegion.xMin : Int) - x1 +
            ((ctx.clippingRegion.xMax : Int) + 1 - ctx.clippingRegion.xMin)) *
          ((y1 : Int) - y2) ≤
          ((x2 : Int) - x1) * ((y1 : Int) - ctx.clippingRegion.yMax) := by
        rcases hrow with hl | hr'
        · exfalso
          have e1 : (0 : Int) < (x2 : Int) - x1 := by omega
          have e2 : (0 : Int) < (y1 : Int) - y2 := by omega
          linarith
        · linarith
      have hfar := clear_far ((ctx.clippingRegion.xMin : Int) - x1 +
          ((ctx.clippingRegion.xMax : Int) + 1 - ctx.clippingRegion.xMin)) ((x2 : Int) - x1)
        ((y1 : Int) - ctx.clippingRegion.yMax) ((y1 : Int) - y2) (by omega) (by omega)
        (by omega) hrow'
      have hr0 : r ≤ 0 := hrs2 (mul_nonpos_of_nonpos_of_nonneg (by omega) (by omega))
      have hnext := clear_next ((ctx.clippingRegion.xMin : Int) - x1) ((x2 : Int) - x1)
        ((ctx.clippingRegion.xMax : Int) + 1 - ctx.clippingRegion.xMin)
        ((y1 : Int) - ctx.clippingRegion.yMax) ((y1 : Int) - y2)
        (Int.tdiv (((y2 : Int) - y1) * ((ctx.clippingRegion.xMin : Int) - x1))
          ((x2 : Int) - x1))
        (by omega) (by omega) hfar (by linarith) hrow'
      exact clipLine_rejects_below ctx hy _ _ ctx.clippingRegion.xMin v x2 y2 (by omega) hvb
        b3 b4 le_rfl hx hvd (by omega) (Or.inr (by rw [hvI]; linarith)) fuel

/-- A segment clear of the clip region whose first endpoint lies right of it
and whose second endpoint does not: the first endpoint is moved to the right
boundary, above or below the clip region, and the segment is rejected then or
after a second move. -/
theorem clipLine_rejects_right (ctx : GLIB_Context)
    (hx : ctx.clippingRegion.xMin ≤ ctx.clippingRegion.xMax)
    (hy : ctx.clippingRegion.yMin ≤ ctx.clippingRegion.yMax)
    (x y x1 y1 x2 y2 : Nat) (b1 : x1 < 46341) (b2 : y1 < 46341) (b3 : x2 < 46341)
    (b4 : y2 < 46341) (hclear : segmentClearOfClip ctx x1 y1 x2 y2)
    (h1 : x1 > ctx.clippingRegion.xMax) (h2 : x2 ≤ ctx.clippingRegion.xMax)
    (hsh : ¬ beyondSameEdge ctx x1 y1 x2 y2) (fuel : Nat) :
    ∃ r, GLIB_clipLine ctx (fuel + 3) x y x1 y1 x2 y2 = some (0, r) := by
  have hc1 := GLIB_getClipCode_ne_zero ctx x1 y1 (Or.inr (Or.inl h1))
  obtain ⟨v, hv, hvI, hv1, hv2⟩ := clipMove_between y1 y2 ctx.clippingRegion.xMax x1 x2
    b2 b4 b1 b3 (Or.inr ⟨h2, le_of_lt h1, by omega⟩)
  have hm := (clipMoved_cases ctx x y x1 y1 x2 y2).2.1 (by omega) h1
  rw [hv] at hm
  rw [GLIB_clipLine_move ctx (fuel + 2) x y x1 y1 x2 y2 _ _ hc1 hsh hm]
  have hvb : v < 46341 := by omega
  have hd0 : ((x2 : Int) - x1) ≠ 0 := by omega
  obtain ⟨r, hr, -, -, hrs1, hrs2⟩ :=
    tdiv_spec (((y2 : Int) - y1) * ((ctx.clippingRegion.xMax : Int) - x1)) ((x2 : Int) - x1) hd0
  have hb := tdiv_bounds (((y2 : Int) - y1) * ((ctx.clippingRegion.xMax : Int) - x1))
    ((x2 : Int) - x1)
  rcases (clear_at_column ctx x1 y1 x2 y2 hclear ctx.clippingRegion.xMax hx le_rfl).2
    (by omega) h2 (le_of_lt h1) with hcol | hcol
  · have hq := (hb ((ctx.clippingRegion.yMin : Int) - 1 - y1)).2.2.2 (by omega) hcol
    have hvc : v < ctx.clippingRegion.yMin := by omega
    by_cases h2y : y2 < ctx.clippingRegion.yMin
    · exact ⟨_, GLIB_clipLine_reject ctx (fuel + 1) _ _ _ _ _ _
        (Or.inr (Or.inr (Or.inr ⟨hvc, h2y⟩)))⟩
    · have hP := clear_side ((x1 : Int) - ctx.clippingRegion.xMax) ((x1 : Int) - x2)
        ((ctx.clippingRegion.yMin : Int) - y1) ((y2 : Int) - y1) (by omega) (by omega)
        (by omega) (by linarith)
      have hrow := (clear_at_row ctx x1 y1 x2 y2 hclear ctx.clippingRegion.yMin le_rfl hy).1
        (by omega) (by omega) (by omega)
      have hrow' : ((x1 : Int) - ctx.clippingRegion.xMax +
            ((ctx.clippingRegion.xMax : Int) + 1 - ctx.clippingRegion.xMin)) *
          ((y2 : Int) - y1) ≤
          ((x1 : Int) - x2) * ((ctx.clippingRegion.yMin : Int) - y1) := by
        rcases hrow with hl | hr'
        · linarith
        · exfalso
          have e1 : (0 : Int) < (x1 : Int) - x2 := by omega
          have e2 : (0 : Int) < (y2 : Int) - y1 := by omega
          linarith
      have hfar := clear_far ((x1 : Int) - ctx.clippingRegion.xMax +
          ((ctx.clippingRegion.xMax : Int) + 1 - ctx.clippingRegion.xMin)) ((x1 : Int) - x2)
        ((ctx.clippingRegion.yMin : Int) - y1) ((y2 : Int) - y1) (by omega) (by omega)
        (by omega) hrow'
      have hr0 : r ≤ 0 := hrs2 (mul_nonpos_of_nonneg_of_nonpos (by omega) (by omega))
      have hnext := clear_next ((x1 : Int) - ctx.clippingRegion.xMax) ((x1 : Int) - x2)
        ((ctx.clippingRegion.xMax : Int) + 1 - ctx.clippingRegion.xMin)
        ((ctx.clippingRegion.yMin : Int) - y1) ((y2 : Int) - y1)
        (-(Int.tdiv (((y2 : Int) - y1) * ((ctx.clippingRegion.xMax : Int) - x1))
          ((x2 : Int) - x1)))
        (by omega) (by omega) hfar (by linarith) hrow'
      exact clipLine_rejects_above ctx hy _ _ ctx.clippingRegion.xMax v x2 y2 (by omega) hvb
        b3 b4 hx le_rfl hvc (by omega) (Or.inl (by rw [hvI]; linarith)) fuel
  · have hq := (hb ((ctx.clippingRegion.yMax : Int) + 1 - y1)).2.2.1 (by omega) hcol
    have hvd : ctx.clippingRegion.yMax < v := by omega
    by_cases h2y : y2 > ctx.clippingRegion.yMax
    · exact ⟨_, GLIB_clipLine_reject ctx (fuel + 1) _ _ _ _ _ _
        (Or.inr (Or.inr (Or.inl ⟨hvd, h2y⟩)))⟩
    · have hP := clear_side ((x1 : Int) - ctx.clippingRegion.xMax) ((x1 : Int) - x2)
        ((y1 : Int) - ctx.clippingRegion.yMax) ((y1 : Int) - y2) (by omega) (by omega)
        (by omega) (by linarith)
      have hrow := (clear_at_row ctx x1 y1 x2 y2 hclear ctx.clippingRegion.yMax hy le_rfl).2
        (by omega) (by omega) (by omega)
      have hrow' : ((x1 : Int) - ctx.clippingRegion.xMax +
            ((ctx.clippingRegion.xMax : Int) + 1 - ctx.clippingRegion.xMin)) *
          ((y1 : Int) - y2) ≤
          ((x1 : Int) - x2) * ((y1 : Int) - ctx.clippingRegion.yMax) := by
        rcases hrow with hl | hr'
        · linarith
        · exfalso
          have e1 : (0 : Int) < (x1 : Int) - x2 := by omega
          have e2 : (0 : Int) < (y1 : Int) - y2 := by omega
          linarith
      have hfar := clear_far ((x1 : Int) - ctx.clippingRegion.xMax +
          ((ctx.clippingRegion.xMax : Int) + 1 - ctx.clippingRegion.xMin)) ((x1 : Int) - x2)
        ((y1 : Int) - ctx.clippingRegion.yMax) ((y1 : Int) - y2) (by omega) (by omega)
        (by omega) hrow'
      have hr0 : 0 ≤ r := hrs1 (mul_nonneg_of_nonpos_of_nonpos (by omega) (by omega))
      have hnext := clear_next ((x1 : Int) - ctx.clippingRegion.xMax) ((x1 : Int) - x2)
        ((ctx.clippingRegion.xMax : Int) + 1 - ctx.clippingRegion.xMin)
        ((y1 : Int) - ctx.clippingRegion.yMax) ((y1 : Int) - y2)
        (Int.tdiv (((y2 : Int) - y1) * ((ctx.clippingRegion.xMax : Int) - x1))
          ((x2 : Int) - x1))
        (by omega) (by omega) hfar (by linarith) hrow'
      exact clipLine_rejects_below ctx hy _ _ ctx.clippingRegion.xMax v x2 y2 (by omega) hvb
        b3 b4 hx le_rfl hvd (by omega) (Or.inl (by rw [hvI]; linarith)) fuel

/-- A segment clear of the clip region whose endpoints do not lie beyond the
same edge is not axis-aligned. -/
theorem clear_not_aligned (ctx : GLIB_Context)
    (hx : ctx.clippingRegion.xMin ≤ ctx.clippingRegion.xMax)
    (hy : ctx.clippingRegion.yMin ≤ ctx.clippingRegion.yMax)
    (x1 y1 x2 y2 : Nat) (hclear : segmentClearOfClip ctx x1 y1 x2 y2)
    (hsh : ¬ beyondSameEdge ctx x1 y1 x2 y2) : x1 ≠ x2 ∧ y1 ≠ y2 := by
  obtain ⟨he1, he2⟩ := clear_endpoints ctx x1 y1 x2 y2 hclear
  unfold beyondSameEdge at hsh
  constructor
  · intro h
    subst h
    have hrow := clear_at_row ctx x1 y1 x1 y2 hclear ctx.clippingRegion.yMin le_rfl hy
    simp only [sub_self, zero_mul] at hrow
    rcases Nat.lt_or_ge y1 y2 with h12 | h12
    · have e1 : (0 : Int) < (y2 : Int) - y1 := by omega
      rcases hrow.1 h12 (by omega) (by omega) with h | h
      · have := mul_neg_of_neg_of_pos
          (show (ctx.clippingRegion.xMin : Int) - 1 - x1 < 0 by omega) e1
        omega
      · have := mul_pos (show (0 : Int) < (ctx.clippingRegion.xMax : Int) + 1 - x1 by omega) e1
        omega
    · have h21 : y2 < y1 := by omega
      have e1 : (y2 : Int) - y1 < 0 := by omega
      rcases hrow.2 h21 (by omega) (by omega) with h | h
      · have := mul_pos_of_neg_of_neg
          (show (ctx.clippingRegion.xMin : Int) - 1 - x1 < 0 by omega) e1
        omega
      · have := mul_neg_of_pos_of_neg
          (show (0 : Int) < (ctx.clippingRegion.xMax : Int) + 1 - x1 by omega) e1
        omega
  · intro h
    subst h
    have hcol := clear_at_column ctx x1 y1 x2 y1 hclear ctx.clippingRegion.xMin le_rfl hx
    simp only [sub_self, zero_mul] at hcol
    rcases Nat.lt_or_ge x1 x2 with h12 | h12
    · have e1 : (0 : Int) < (x2 : Int) - x1 := by omega
      rcases hcol.1 h12 (by omega) (by omega) with h | h
      · have := mul_neg_of_neg_of_pos
          (show (ctx.clippingRegion.yMin : Int) - 1 - y1 < 0 by omega) e1
        omega
      · have := mul_pos (show (0 : Int) < (ctx.clippingRegion.yMax : Int) + 1 - y1 by omega) e1
        omega
    · have h21 : x2 < x1 := by omega
      have e1 : (x2 : Int) - x1 < 0 := by omega
      rcases hcol.2 h21 (by omega) (by omega) with h | h
      · have := mul_pos_of_neg_of_neg
          (show (ctx.clippingRegion.yMin : Int) - 1 - y1 < 0 by omega) e1
        omega
      · have := mul_neg_of_pos_of_neg
          (show (0 : Int) < (ctx.clippingRegion.yMax : Int) + 1 - y1 by omega) e1
        omega

/-- A segment clear of an ordered clip region, with coordinates below 46341,
whose endpoints do not lie beyond the same edge: `GLIB_clipLine` rejects it
after one or two moves of the first endpoint. -/
theorem clipLine_rejects_clear (ctx : GLIB_Context)
    (hx : ctx.clippingRegion.xMin ≤ ctx.clippingRegion.xMax)
    (hy : ctx.clippingRegion.yMin ≤ ctx.clippingRegion.yMax)
    (x y x1 y1 x2 y2 : Nat) (b1 : x1 < 46341) (b2 : y1 < 46341) (b3 : x2 < 46341)
    (b4 : y2 < 46341) (hclear : segmentClearOfClip ctx x1 y1 x2 y2)
    (hsh : ¬ beyondSameEdge ctx x1 y1 x2 y2) (fuel : Nat) :
    ∃ r, GLIB_clipLine ctx (fuel + 3) x y x1 y1 x2 y2 = some (0, r) := by
  have hsh' := hsh
  unfold beyondSameEdge at hsh'
  by_cases hl : x1 < ctx.clippingRegion.xMin
  · exact clipLine_rejects_left ctx hx hy x y x1 y1 x2 y2 b1 b2 b3 b4 hclear hl (by omega)
      hsh fuel
  by_cases hr : x1 > ctx.clippingRegion.xMax
  · exact clipLine_rejects_right ctx hx hy x y x1 y1 x2 y2 b1 b2 b3 b4 hclear hr (by omega)
      hsh fuel
  by_cases hb : y1 > ctx.clippingRegion.yMax
  · exact clipLine_rejects_below ctx hy x y x1 y1 x2 y2 b1 b2 b3 b4 (by omega) (by omega) hb
      (by omega)
      ((clear_at_row ctx x1 y1 x2 y2 hclear ctx.clippingRegion.yMax hy le_rfl).2 (by omega)
        (by omega) (by omega)) (fuel + 1)
  by_cases ht : y1 < ctx.clippingRegion.yMin
  · exact clipLine_rejects_above ctx hy x y x1 y1 x2 y2 b1 b2 b3 b4 (by omega) (by omega) ht
      (by omega)
      ((clear_at_row ctx x1 y1 x2 y2 hclear ctx.clippingRegion.yMin le_rfl hy).1 (by omega)
        (by omega) (by omega)) (fuel + 1)
  exact absurd ⟨by omega, by omega, by omega, by omega⟩
    (clear_endpoints ctx x1 y1 x2 y2 hclear).1

/-- A segment that stays clear of the clip rectangle misses it. -/
theorem segmentMissesClip_of_clear (ctx : GLIB_Context) (x1 y1 x2 y2 : Nat)
    (h : segmentClearOfClip ctx x1 y1 x2 y2) : segmentMissesClip ctx x1 y1 x2 y2 := by
  intro t ht0 ht1 hin
  exact h t ht0 ht1 ⟨by linarith [hin.1], by linarith [hin.2.1], by linarith [hin.2.2.1],
    by linarith [hin.2.2.2]⟩

/-- C2 (counterexample): in `demoContext` (clip columns 10..200, rows 10..100)
no point of the segment (8,98)-(12,103) lies inside the clip rectangle (it
passes the corner at `(10, 100.5)`), yet `GLIB_drawLine` returns `GLIB_OK` and
writes the pixel (10,100): the truncating division moves the first endpoint
to (10,100).  The same pixel is written for the segment (0,100)-(51,105),
which keeps more than 7/8 of a pixel away from the clip rectangle (no point
of it has `x > 10 - 7/8` and `y < 100 + 7/8`).  With a driver whose first
call fails with status 9, the segment (0,0)-(5,7), left of the clip region,
is answered with status 9, not `GLIB_DID_NOT_DRAW`.  And in `farContext`,
whose clip region is `(10000,10000)-(10002,10002)`, the segment
(60000,60000)-(10000,0) stays thousands of pixels clear of the clip region,
yet `GLIB_drawLine` returns `GLIB_OK` and writes three pixels: the product
`(-60000) * (-50000)` of the first move does not fit a 32-bit `int`. -/
theorem C2_drawLine_outside_counterexample :
    clipWellFormed demoContext ∧
    segmentMissesClip demoContext 8 98 12 103 ∧
    (GLIB_drawLine 100 demoContext 8 98 12 103 freshSurface).map (fun r => (r.1, r.2.pixels)) =
      some (GLIB_OK, [fgPixel demoContext 10 100]) ∧
    (∀ t : ℚ, 0 ≤ t → t ≤ 1 →
      ¬((demoContext.clippingRegion.xMin : ℚ) - 7 / 8 < 0 + t * (51 - 0) ∧
        (100 : ℚ) + t * (105 - 100) < demoContext.clippingRegion.yMax + 7 / 8)) ∧
    (GLIB_drawLine 100 demoContext 0 100 51 105 freshSurface).map (fun r => (r.1, r.2.pixels)) =
      some (GLIB_OK, [fgPixel demoContext 10 100]) ∧
    beyondSameEdge demoContext 0 0 5 7 ∧
    (GLIB_drawLine 100 demoContext 0 0 5 7 (failingSurface 0 9)).map (fun r => r.1) =
      some 9 ∧
    clipWellFormed farContext ∧
    segmentClearOfClip farContext 60000 60000 10000 0 ∧
    GLIB_clipLine farContext 100 0 0 60000 60000 10000 0 =
      some (1, 10001, 10002, 10001, 10000) ∧
    (GLIB_drawLine 100 farContext 60000 60000 10000 0 freshSurface).map
        (fun r => (r.1, r.2.pixels)) =
      some (GLIB_OK, [fgPixel farContext 10001 10000, fgPixel farContext 10001 10001,
        fgPixel farContext 10001 10002]) := by
  refine ⟨by decide, ?_, by decide, ?_, by decide, by decide, by decide, by decide, ?_,
    by decide, by decide⟩
  · intro t _ _ h
    obtain ⟨h1, _, _, h4⟩ := h
    simp only [demoContext] at h1 h4
    norm_num at h1 h4
    linarith
  · intro t _ _ h
    obtain ⟨h1, h4⟩ := h
    simp only [demoContext] at h1 h4
    norm_num at h1 h4
    linarith
  · intro t _ _ h
    obtain ⟨_, h2, h3, _⟩ := h
    simp only [farContext] at h2 h3
    norm_num at h2 h3
    linarith

/-- C2 (amended): for every context whose clip region is ordered on both axes
and every segment with endpoint coordinates below 46341 no point of which
comes closer than one pixel to the clip rectangle (`segmentClearOfClip`; such
a segment has no point inside the clip rectangle), `GLIB_drawLine` returns
with three iterations of the clipping loop or more, writes no pixel, and its
status is `GLIB_DID_NOT_DRAW` whenever the next driver call (the reset of the
hardware clip window, which the horizontal and the general path issue before
they test the segment) does not fail. -/
theorem C2_drawLine_outside_amended (ctx : GLIB_Context) (x1 y1 x2 y2 : Nat)
    (hx : ctx.clippingRegion.xMin ≤ ctx.clippingRegion.xMax)
    (hy : ctx.clippingRegion.yMin ≤ ctx.clippingRegion.yMax)
    (b1 : x1 < 46341) (b2 : y1 < 46341) (b3 : x2 < 46341) (b4 : y2 < 46341)
    (hclear : segmentClearOfClip ctx x1 y1 x2 y2) (fuel : Nat) (hf : 3 ≤ fuel)
    (s : Surface) :
    segmentMissesClip ctx x1 y1 x2 y2 ∧
    ∃ r, GLIB_drawLine fuel ctx x1 y1 x2 y2 s = some r ∧ Writes s r.2 [] ∧
      (s.status s.calls.length = 0 → r.1 = GLIB_DID_NOT_DRAW) := by
  refine ⟨segmentMissesClip_of_clear ctx x1 y1 x2 y2 hclear, ?_⟩
  by_cases hse : beyondSameEdge ctx x1 y1 x2 y2
  · exact GLIB_drawLine_sameEdge ctx x1 y1 x2 y2 hse fuel (by omega) s
  obtain ⟨hxne, hyne⟩ := clear_not_aligned ctx hx hy x1 y1 x2 y2 hclear hse
  rw [GLIB_drawLine_general fuel ctx x1 y1 x2 y2 s hxne hyne]
  by_cases h0 : s.status s.calls.length ≠ 0
  · rw [if_pos h0]
    exact ⟨_, rfl, by simp [Writes, GLIB_resetDisplayClippingArea_eq], fun h => absurd h h0⟩
  · rw [if_neg h0]
    obtain ⟨f, rfl⟩ : ∃ f, fuel = f + 3 := ⟨fuel - 3, by omega⟩
    obtain ⟨r, hr⟩ := clipLine_rejects_clear ctx hx hy 0 0 x1 y1 x2 y2 b1 b2 b3 b4 hclear hse f
    rw [hr]
    exact ⟨_, rfl, by simp [Writes, GLIB_resetDisplayClippingArea_eq], fun _ => rfl⟩

/-- The segment (0,15)-(15,0) stays clear of the clip region of `demoContext`. -/
theorem clear_demo : segmentClearOfClip demoContext 0 15 15 0 := by
  intro t _ _ h
  obtain ⟨h1, _, h3, _⟩ := h
  simp only [demoContext] at h1 h3
  norm_num at h1 h3
  linarith

/-- C2 (amended), witness: in `demoContext` the segment (0,15)-(15,0) passes
the corner `(10,10)` of the clip region at a distance; its endpoints lie
beyond different edges, the clipping moves the first to (10,5) and rejects
the segment, and nothing is drawn. -/
theorem C2_drawLine_outside_amended_witness :
    segmentClearOfClip demoContext 0 15 15 0 ∧
    ¬ beyondSameEdge demoContext 0 15 15 0 ∧
    GLIB_clipLine demoContext 3 0 0 0 15 15 0 = some (0, 10, 5, 15, 0) ∧
    segmentMissesClip demoContext 0 15 15 0 ∧
    ∃ r, GLIB_drawLine 3 demoContext 0 15 15 0 freshSurface = some r ∧
      Writes freshSurface r.2 [] ∧ r.1 = GLIB_DID_NOT_DRAW :=
  ⟨clear_demo, by decide, by decide,
    (C2_drawLine_outside_amended demoContext 0 15 15 0 (by decide) (by decide) (by decide)
      (by decide) (by decide) (by decide) clear_demo 3 (by decide) freshSurface).1,
    (C2_drawLine_outside_amended demoContext 0 15 15 0 (by decide) (by decide) (by decide)
      (by decide) (by decide) (by decide) clear_demo 3 (by decide) freshSurface).2.elim
      fun r h => ⟨r, h.1, h.2.1, h.2.2 rfl⟩⟩

end GLIB
